import Mathlib

/-!
# SD-card block driver over SPI: shallow embedding and verification

The development embeds `sd_io.c` (command codec, CSD decoder, the Init, Read
and Write state machines) and `SD_Server.c` (the server task) as pure
functions over an explicit `World`: the C globals and function statics
become record fields, the SPI/timer port becomes a deterministic `Port`
carrying the card's reply stream, the timer and a trace of every port call.

Machine integers are natural numbers reduced explicitly: `BYTE` modulo 256,
`DWORD` modulo 2^32, `WORD` modulo `2 ^ WORD_BITS`.
-/

namespace SDCard

/-! ## Codes and constants -/

/-- Result codes, in the order of the `SD_Errors` table of `sd_io.c`. -/
inductive SDRESULTS
  | SD_OK | SD_NOINIT | SD_ERROR | SD_PARERR | SD_BUSY | SD_REJECT | SD_NORESPONSE
  deriving DecidableEq, Repr

/-- Status of a state machine record or of the transaction slot. -/
inductive FsmStatus
  | STAT_IDLE | STAT_BUSY
  deriving DecidableEq, Repr

/-- Build-time values that the sources take from headers that are not part of
the source tree: the retry budget, the programming timeout handed to the
timer, the width of `WORD` (integer.h) and the width of the debug counters. -/
structure Config where
  SD_INIT_TRYS : Nat
  SD_IO_WRITE_TIMEOUT_WAIT : Nat
  WORD_BITS : Nat
  DBG_BITS : Nat
  deriving DecidableEq, Repr

/-- Modelled from the spec: sd_io.h is absent; a command byte is `0x40 | index`
(spec 4.1), so CMD0 is 0x40. -/
abbrev CMD0 : Nat := 0x40
/-- Modelled from the spec: command byte of CMD1, `0x40 | 1`. -/
abbrev CMD1 : Nat := 0x41
/-- Modelled from the spec: command byte of CMD8, `0x40 | 8`. -/
abbrev CMD8 : Nat := 0x48
/-- Modelled from the spec: command byte of CMD9, `0x40 | 9`. -/
abbrev CMD9 : Nat := 0x49
/-- Modelled from the spec: command byte of CMD16, `0x40 | 16`. -/
abbrev CMD16 : Nat := 0x50
/-- Modelled from the spec: command byte of CMD17, `0x40 | 17`. -/
abbrev CMD17 : Nat := 0x51
/-- Modelled from the spec: command byte of CMD24, `0x40 | 24`. -/
abbrev CMD24 : Nat := 0x58
/-- Modelled from the spec: command byte of CMD55, `0x40 | 55`. -/
abbrev CMD55 : Nat := 0x77
/-- Modelled from the spec: command byte of CMD58, `0x40 | 58`. -/
abbrev CMD58 : Nat := 0x7A
/-- Modelled from the spec: command byte of CMD59, `0x40 | 59`. -/
abbrev CMD59 : Nat := 0x7B
/-- Modelled from the spec: an application command is encoded with the high
bit set (spec 4.1), so ACMD41 is `0x80 | 0x40 | 41`. -/
abbrev ACMD41 : Nat := 0xE9

/-- Modelled from the spec: sd_io.h is absent; the card type is a set of
bit flags (spec 3), one bit each. MMC version 3. -/
abbrev SDCT_MMC : Nat := 0x01
/-- Modelled from the spec: card-type flag of SD version 1. -/
abbrev SDCT_SD1 : Nat := 0x02
/-- Modelled from the spec: card-type flag of SD version 2. -/
abbrev SDCT_SD2 : Nat := 0x04
/-- Modelled from the spec: card-type flag of block addressing. -/
abbrev SDCT_BLOCK : Nat := 0x08

/-- Modelled from the spec: a sector is 512 bytes. -/
abbrev SD_BLK_SIZE : Nat := 512

/-! ## The SPI / timer port -/

/-- One call of the port interface, as recorded in the trace. -/
inductive Ev
  | spiInit | csLow | csHigh | freqLow | freqHigh | release
  | rw (mosi : Nat)
  | timerOn (ms : Nat) | timerStatus | timerOff
  deriving DecidableEq, Repr

/-- Modelled from the spec: spi_io.c is absent; the port is the interface of
spec 6. `miso` is the stream of bytes the card will present at successive
exchanges (an exhausted stream reads as the idle level 0xFF). The single
countdown timer is `timer`: `none` when disarmed, `some n` when armed with `n`
more status queries answered TRUE before it expires; `budgets` supplies that
number for each successive arming. `cs` is true while chip-select is asserted.
`log` is the trace of port calls, oldest first. -/
structure Port where
  miso : List Nat
  budgets : List Nat
  timer : Option Nat
  cs : Bool
  log : List Ev
  deriving DecidableEq, Repr

/-- Modelled from the spec: `spi_init()`. -/
def SPI_Init (p : Port) : Port := { p with log := p.log ++ [Ev.spiInit] }

/-- Modelled from the spec: `cs_low()` asserts chip-select. -/
def SPI_CS_Low (p : Port) : Port := { p with cs := true, log := p.log ++ [Ev.csLow] }

/-- Modelled from the spec: `cs_high()` deasserts chip-select. -/
def SPI_CS_High (p : Port) : Port := { p with cs := false, log := p.log ++ [Ev.csHigh] }

/-- Modelled from the spec: `clock_low()`. -/
def SPI_Freq_Low (p : Port) : Port := { p with log := p.log ++ [Ev.freqLow] }

/-- Modelled from the spec: `clock_high()`. -/
def SPI_Freq_High (p : Port) : Port := { p with log := p.log ++ [Ev.freqHigh] }

/-- Modelled from the spec: `release()` frees the bus (chip-select deasserted). -/
def SPI_Release (p : Port) : Port := { p with cs := false, log := p.log ++ [Ev.release] }

/-- Modelled from the spec: `spi_rw(byte) → byte`, one full-duplex exchange. -/
def SPI_RW (b : Nat) (p : Port) : Nat × Port :=
  (p.miso.head?.getD 0xFF % 256, { p with miso := p.miso.tail, log := p.log ++ [Ev.rw (b % 256)] })

/-- Modelled from the spec: `timer_on(ms)` arms the timer. -/
def SPI_Timer_On (ms : Nat) (p : Port) : Port :=
  { p with timer := some (p.budgets.head?.getD 0), budgets := p.budgets.tail,
           log := p.log ++ [Ev.timerOn ms] }

/-- Modelled from the spec: `timer_status()` is true while the timer is armed
and not yet expired. -/
def SPI_Timer_Status (p : Port) : Bool × Port :=
  match p.timer with
  | some (n + 1) => (true, { p with timer := some n, log := p.log ++ [Ev.timerStatus] })
  | _ => (false, { p with log := p.log ++ [Ev.timerStatus] })

/-- Modelled from the spec: `timer_off()` disarms the timer. -/
def SPI_Timer_Off (p : Port) : Port := { p with timer := none, log := p.log ++ [Ev.timerOff] }

/-- The bytes put on MOSI by a trace, oldest first. -/
def mosiOf : List Ev → List Nat
  | [] => []
  | Ev.rw b :: es => b :: mosiOf es
  | _ :: es => mosiOf es

/-! ## Command codec (`__SD_Send_Cmd`) -/

/-- `__SD_Power_Of_Two`: the loop body applied `k` times to the DWORD `part`. -/
def SD_Power_Of_Two_loop : Nat → Nat → Nat
  | 0, part => part
  | k + 1, part => SD_Power_Of_Two_loop k (part * 2 % 2 ^ 32)

/-- `__SD_Power_Of_Two(BYTE e)`. -/
def SD_Power_Of_Two (e : Nat) : Nat := SD_Power_Of_Two_loop (e % 256) 1

/-- The response wait of `__SD_Send_Cmd`:
`do res = SPI_RW(0xFF); while ((res & 0x80) && SPI_Timer_Status()==TRUE)`.
`fuel` bounds the iterations; `SD_Send_Frame` passes one more than the number
of TRUE answers the armed timer can still give, which is never exhausted. -/
def SD_Send_Cmd_wait : Nat → Port → Nat × Port
  | 0, p => (0xFF, p)
  | fuel + 1, p =>
    let r := SPI_RW 0xFF p
    if r.1 &&& 0x80 ≠ 0 then
      let t := SPI_Timer_Status r.2
      if t.1 = true then SD_Send_Cmd_wait fuel t.2 else (r.1, t.2)
    else (r.1, r.2)

/-- The CRC byte chosen by `__SD_Send_Cmd`. -/
def SD_Send_Cmd_crc (cmd : Nat) : Nat :=
  let crc := 0x01
  let crc := if cmd = CMD0 then 0x95 else crc
  let crc := if cmd = CMD8 then 0x87 else crc
  crc

/-- `__SD_Send_Cmd` from "Select the card" on: the part executed for a command
byte whose high bit is clear. -/
def SD_Send_Frame (cmd arg : Nat) (p : Port) : Nat × Port :=
  let p := SPI_CS_High p
  let p := (SPI_RW 0xFF p).2
  let p := SPI_CS_Low p
  let p := (SPI_RW 0xFF p).2
  let p := (SPI_RW cmd p).2
  let p := (SPI_RW ((arg >>> 24) % 256) p).2
  let p := (SPI_RW ((arg >>> 16) % 256) p).2
  let p := (SPI_RW ((arg >>> 8) % 256) p).2
  let p := (SPI_RW (arg % 256) p).2
  let p := (SPI_RW (SD_Send_Cmd_crc cmd) p).2
  let p := SPI_Timer_On 5 p
  let r := SD_Send_Cmd_wait (p.timer.getD 0 + 1) p
  (r.1, SPI_Timer_Off r.2)

/-- `__SD_Send_Cmd(BYTE cmd, DWORD arg)`. The recursive call for an
application command is `__SD_Send_Cmd(CMD55, 0)`, whose command byte has the
high bit clear, so it is the frame itself. -/
def SD_Send_Cmd (cmd arg : Nat) (p : Port) : Nat × Port :=
  if cmd &&& 0x80 ≠ 0 then
    let r := SD_Send_Frame CMD55 0 p
    if r.1 > 1 then (r.1, r.2) else SD_Send_Frame (cmd &&& 0x7F) arg r.2
  else SD_Send_Frame cmd arg p

/-! ## CSD decoder (`__SD_Sectors`) -/

/-- Device descriptor `SD_DEV`. -/
structure SD_DEV where
  mount : Bool
  cardtype : Nat
  last_sector : Nat
  debug_read : Nat
  debug_write : Nat
  deriving DecidableEq, Repr

/-- `while (SPI_RW(0xFF) == 0xFF);` of `__SD_Sectors`. `none` is a loop that
never ends; `SD_Sectors` passes one more than the length of the reply stream
as `fuel`, and a stream read to its end stays at 0xFF for ever. -/
def SD_Sectors_wait : Nat → Port → Option Port
  | 0, _ => none
  | fuel + 1, p =>
    let r := SPI_RW 0xFF p
    if r.1 = 0xFF then SD_Sectors_wait fuel r.2 else some r.2

/-- Reads `n` bytes, sending 0xFF for each: `for (...) x[idx] = SPI_RW(0xFF)`. -/
def SPI_Read_Bytes : Nat → Port → List Nat × Port
  | 0, p => ([], p)
  | n + 1, p =>
    let r := SPI_RW 0xFF p
    let rest := SPI_Read_Bytes n r.2
    (r.1 :: rest.1, rest.2)

/-- The arithmetic of `__SD_Sectors` on the 16 CSD bytes: `C_SIZE` is a WORD of
`wbits` bits, `C_SIZE_MULT` and `READ_BL_LEN` are BYTEs, `ss` is a DWORD. -/
def SD_Sectors_decode (wbits cardtype : Nat) (csd : List Nat) : Nat :=
  let c := fun i => csd.getD i 0
  let v : Nat × Nat × Nat :=
    if cardtype &&& SDCT_SD1 ≠ 0 then
      let READ_BL_LEN := c 5 &&& 0x0F
      let C_SIZE := (c 6 &&& 0x03) % 2 ^ wbits
      let C_SIZE := (C_SIZE <<< 8) % 2 ^ wbits
      let C_SIZE := (C_SIZE ||| c 7) % 2 ^ wbits
      let C_SIZE := (C_SIZE <<< 2) % 2 ^ wbits
      let C_SIZE := (C_SIZE ||| ((c 8 >>> 6) &&& 0x03)) % 2 ^ wbits
      let C_SIZE_MULT := c 9 &&& 0x03
      let C_SIZE_MULT := (C_SIZE_MULT <<< 1) % 256
      let C_SIZE_MULT := (C_SIZE_MULT ||| ((c 10 >>> 7) &&& 0x01)) % 256
      (C_SIZE, C_SIZE_MULT, READ_BL_LEN)
    else if cardtype &&& SDCT_SD2 ≠ 0 then
      let C_SIZE := (c 7 &&& 0x3F) % 2 ^ wbits
      let C_SIZE := (C_SIZE <<< 8) % 2 ^ wbits
      let C_SIZE := (C_SIZE ||| (c 8 &&& 0xFF)) % 2 ^ wbits
      let C_SIZE := (C_SIZE <<< 8) % 2 ^ wbits
      let C_SIZE := (C_SIZE ||| (c 9 &&& 0xFF)) % 2 ^ wbits
      (C_SIZE, 8, 0)
    else (0, 0, 0)
  let ss := (v.1 + 1) % 2 ^ 32
  let ss := ss * SD_Power_Of_Two (v.2.1 + 2) % 2 ^ 32
  let ss := ss * SD_Power_Of_Two v.2.2 % 2 ^ 32
  ss

/-- `__SD_Sectors(dev)`: the sector count and the port afterwards; `none` when
the wait for the CSD data token never ends. -/
def SD_Sectors (cfg : Config) (dev : SD_DEV) (p : Port) : Option (Nat × Port) :=
  let r := SD_Send_Cmd CMD9 0 p
  if r.1 = 0 then
    match SD_Sectors_wait (r.2.miso.length + 1) r.2 with
    | none => none
    | some p1 =>
      let csd := SPI_Read_Bytes 16 p1
      let p2 := (SPI_RW 0xFF csd.2).2
      let p3 := (SPI_RW 0xFF p2).2
      let p4 := SPI_Release p3
      some (SD_Sectors_decode cfg.WORD_BITS dev.cardtype csd.1, p4)
  else some (0, r.2)

/-! ## Globals and function statics -/

/-- One state machine record (`FSM Read; FSM Write; FSM Init;`). -/
structure FSM where
  Status_fsm : FsmStatus
  Start_fsm : Nat
  ErrorCode_fsm : SDRESULTS
  set_fsm : Nat
  deriving DecidableEq, Repr

/-- States of `SD_Init`. -/
inductive InitState
  | S1 | S2 | S3 | S4 | S5 | S6 | S7 | S8 | S9 | S10 | S11 | S12 | S13
  deriving DecidableEq, Repr

/-- States of `SD_Read_FSM` and of `SD_Write_FSM`. -/
inductive IoState
  | S1 | S2 | S3 | S4 | S5
  deriving DecidableEq, Repr

/-- States of `Task_SD_Server`. -/
inductive SDS_STATE_T
  | S_IDLE | S_INIT | S_READ | S_WRITE | S_ERROR
  deriving DecidableEq, Repr

/-- The statics of `SD_Init`. -/
structure InitVars where
  n : Nat
  cmd : Nat
  ct : Nat
  ocr : List Nat
  idx : Nat
  init_trys : Nat
  next_state : InitState
  deriving DecidableEq, Repr

/-- The statics of `SD_Read_FSM`; `temp` is the offset of the write pointer
from the start of the caller's buffer. -/
structure ReadVars where
  res : SDRESULTS
  tkn : Nat
  data : Nat
  byte_num : Nat
  temp : Nat
  next_state : IoState
  deriving DecidableEq, Repr

/-- The statics of `SD_Write_FSM`. -/
structure WriteVars where
  idx : Nat
  line : Nat
  next_state : IoState
  deriving DecidableEq, Repr

/-- The transaction slot `SDS_TD_T`; `Request` is the request code
(`REQ_NONE` = 0, `REQ_INIT`, `REQ_READ`, `REQ_WRITE` = 3), `Data` and `Device`
are the two pointers, kept as opaque handles. -/
structure SDS_TD_T where
  Request : Nat
  Sector : Nat
  Data : Nat
  Device : Nat
  Status : FsmStatus
  ErrorCode : SDRESULTS
  deriving DecidableEq, Repr

abbrev REQ_NONE : Nat := 0
abbrev REQ_INIT : Nat := 1
abbrev REQ_READ : Nat := 2
abbrev REQ_WRITE : Nat := 3

/-- The whole program state: the port, the one device descriptor and the one
data buffer that the pointers of the transaction refer to, the three state
machine records, the statics of the three state machines and of the server,
and the transaction slot `g_trans`. -/
structure World where
  port : Port
  dev : SD_DEV
  buffer : List Nat
  Read : FSM
  Write : FSM
  Init : FSM
  iv : InitVars
  rv : ReadVars
  wv : WriteVars
  g_trans : SDS_TD_T
  cur_trans : SDS_TD_T
  srv_state : SDS_STATE_T
  srv_res : SDRESULTS
  deriving DecidableEq, Repr

/-! ## Read state machine (`SD_Read_FSM`) -/

/-- Case `S2` of `SD_Read_FSM`: token wait, one exchange. -/
def SD_Read_FSM_S2 (w : World) : World :=
  let r := SPI_RW 0xFF w.port
  let t := SPI_Timer_Status r.2
  if r.1 = 0xFF then
    if t.1 = true then
      { w with port := t.2, rv := { w.rv with tkn := r.1, next_state := IoState.S2 } }
    else
      { w with port := t.2, rv := { w.rv with tkn := r.1, next_state := IoState.S3 } }
  else
    { w with port := r.2, rv := { w.rv with tkn := r.1, next_state := IoState.S3 } }

/-- Case `S3` of `SD_Read_FSM`: token validation. -/
def SD_Read_FSM_S3 (w : World) : World :=
  let p := SPI_Timer_Off w.port
  if w.rv.tkn = 0xFE then
    { w with port := p, rv := { w.rv with byte_num := 0, next_state := IoState.S4 } }
  else
    { w with port := p, rv := { w.rv with next_state := IoState.S5 } }

/-- Case `S4` of `SD_Read_FSM`: one byte of the block or of its CRC. -/
def SD_Read_FSM_S4 (cfg : Config) (ofs cnt : Nat) (w : World) : World :=
  let r := SPI_RW 0xFF w.port
  let copy := decide (w.rv.byte_num ≥ ofs ∧ w.rv.byte_num < ofs + cnt)
  let buffer := if copy then w.buffer.set w.rv.temp r.1 else w.buffer
  let temp := if copy then w.rv.temp + 1 else w.rv.temp
  let byte_num := (w.rv.byte_num + 1) % 2 ^ cfg.WORD_BITS
  if byte_num < SD_BLK_SIZE + 2 then
    { w with port := r.2, buffer := buffer,
             rv := { w.rv with data := r.1, temp := temp, byte_num := byte_num,
                               next_state := IoState.S4 } }
  else
    { w with port := r.2, buffer := buffer,
             rv := { w.rv with data := r.1, temp := temp, byte_num := byte_num,
                               res := SDRESULTS.SD_OK, next_state := IoState.S5 } }

/-- Case `S5` of `SD_Read_FSM`: release and publish. -/
def SD_Read_FSM_S5 (cfg : Config) (w : World) : World :=
  { w with port := SPI_Release w.port,
           dev := { w.dev with debug_read := (w.dev.debug_read + 1) % 2 ^ cfg.DBG_BITS },
           rv := { w.rv with next_state := IoState.S1 },
           Read := { w.Read with Status_fsm := FsmStatus.STAT_IDLE,
                                 ErrorCode_fsm := w.rv.res, Start_fsm := 1 } }

/-- Case `S1` of `SD_Read_FSM` when `Read.Status_fsm == STAT_IDLE`. -/
def SD_Read_FSM_S1 (sector cnt : Nat) (w : World) : World :=
  let w := { w with rv := { w.rv with res := SDRESULTS.SD_ERROR, temp := 0 } }
  if sector > w.dev.last_sector ∨ cnt = 0 then
    { w with rv := { w.rv with next_state := IoState.S1 },
             Read := { w.Read with Start_fsm := 1, ErrorCode_fsm := SDRESULTS.SD_PARERR } }
  else
    let r := SD_Send_Cmd CMD17 sector w.port
    if r.1 = 0 then
      { w with port := SPI_Timer_On 100 r.2,
               Read := { w.Read with Status_fsm := FsmStatus.STAT_BUSY, Start_fsm := 0 },
               rv := { w.rv with next_state := IoState.S2 } }
    else
      { w with port := r.2,
               Read := { w.Read with Start_fsm := 0, Status_fsm := FsmStatus.STAT_BUSY },
               rv := { w.rv with next_state := IoState.S5 } }

/-- `SD_Read_FSM(dev, dat, sector, ofs, cnt)`, one call. `dev` and `dat` are
the device and the buffer of the world. Case `S1` with a record that is not
idle has no `break` and falls through to case `S2`. -/
def SD_Read_FSM (cfg : Config) (sector ofs cnt : Nat) (w : World) : World :=
  match w.rv.next_state with
  | IoState.S1 =>
    if w.Read.Status_fsm = FsmStatus.STAT_IDLE then SD_Read_FSM_S1 sector cnt w
    else SD_Read_FSM_S2 w
  | IoState.S2 => SD_Read_FSM_S2 w
  | IoState.S3 => SD_Read_FSM_S3 w
  | IoState.S4 => SD_Read_FSM_S4 cfg ofs cnt w
  | IoState.S5 => SD_Read_FSM_S5 cfg w

/-! ## Write state machine (`SD_Write_FSM`) -/

/-- Case `S2` of `SD_Write_FSM`: one byte of the block. -/
def SD_Write_FSM_S2 (cfg : Config) (w : World) : World :=
  let p := (SPI_RW (w.buffer.getD w.wv.idx 0) w.port).2
  let idx := (w.wv.idx + 1) % 2 ^ cfg.WORD_BITS
  if idx ≠ SD_BLK_SIZE then
    { w with port := p, wv := { w.wv with idx := idx, next_state := IoState.S2 } }
  else
    { w with port := p, wv := { w.wv with idx := idx, next_state := IoState.S3 } }

/-- Case `S3` of `SD_Write_FSM`: dummy CRC and data response. -/
def SD_Write_FSM_S3 (cfg : Config) (w : World) : World :=
  let p := (SPI_RW 0xFF w.port).2
  let p := (SPI_RW 0xFF p).2
  let r := SPI_RW 0xFF p
  if r.1 &&& 0x1F ≠ 0x05 then
    { w with port := r.2, wv := { w.wv with next_state := IoState.S1 },
             Write := { w.Write with Start_fsm := 1, ErrorCode_fsm := SDRESULTS.SD_REJECT,
                                     Status_fsm := FsmStatus.STAT_IDLE } }
  else
    { w with port := SPI_Timer_On cfg.SD_IO_WRITE_TIMEOUT_WAIT r.2,
             wv := { w.wv with next_state := IoState.S4 } }

/-- Case `S4` of `SD_Write_FSM`: one busy poll. -/
def SD_Write_FSM_S4 (w : World) : World :=
  let r := SPI_RW 0xFF w.port
  let t := SPI_Timer_Status r.2
  if r.1 = 0 then
    if t.1 = true then
      { w with port := t.2, wv := { w.wv with line := r.1, next_state := IoState.S4 } }
    else
      { w with port := t.2, wv := { w.wv with line := r.1, next_state := IoState.S5 } }
  else
    { w with port := r.2, wv := { w.wv with line := r.1, next_state := IoState.S5 } }

/-- Case `S5` of `SD_Write_FSM`: publish. -/
def SD_Write_FSM_S5 (cfg : Config) (w : World) : World :=
  let w := { w with port := SPI_Timer_Off w.port,
                    dev := { w.dev with debug_write := (w.dev.debug_write + 1) % 2 ^ cfg.DBG_BITS },
                    wv := { w.wv with next_state := IoState.S1 } }
  if w.wv.line = 0 then
    { w with Write := { w.Write with Status_fsm := FsmStatus.STAT_IDLE,
                                     ErrorCode_fsm := SDRESULTS.SD_BUSY, Start_fsm := 1 } }
  else
    { w with Write := { w.Write with Status_fsm := FsmStatus.STAT_IDLE,
                                     ErrorCode_fsm := SDRESULTS.SD_OK, Start_fsm := 1 } }

/-- Case `S1` of `SD_Write_FSM` when `Write.Status_fsm == STAT_IDLE`. -/
def SD_Write_FSM_S1 (sector : Nat) (w : World) : World :=
  if sector > w.dev.last_sector then
    { w with wv := { w.wv with next_state := IoState.S1 },
             Write := { w.Write with Status_fsm := FsmStatus.STAT_IDLE, Start_fsm := 1,
                                     ErrorCode_fsm := SDRESULTS.SD_PARERR } }
  else
    let r := SD_Send_Cmd CMD24 sector w.port
    if r.1 = 0 then
      { w with port := (SPI_RW 0xFE r.2).2,
               wv := { w.wv with next_state := IoState.S2, idx := 0 },
               Write := { w.Write with Status_fsm := FsmStatus.STAT_BUSY } }
    else
      { w with port := r.2,
               wv := { w.wv with next_state := IoState.S1 },
               Write := { w.Write with Start_fsm := 1, Status_fsm := FsmStatus.STAT_IDLE,
                                       ErrorCode_fsm := SDRESULTS.SD_ERROR } }

/-- `SD_Write_FSM(dev, dat, sector)`, one call. Case `S1` with a record that is
not idle falls through to case `S2`. -/
def SD_Write_FSM (cfg : Config) (sector : Nat) (w : World) : World :=
  match w.wv.next_state with
  | IoState.S1 =>
    if w.Write.Status_fsm = FsmStatus.STAT_IDLE then SD_Write_FSM_S1 sector w
    else SD_Write_FSM_S2 cfg w
  | IoState.S2 => SD_Write_FSM_S2 cfg w
  | IoState.S3 => SD_Write_FSM_S3 cfg w
  | IoState.S4 => SD_Write_FSM_S4 w
  | IoState.S5 => SD_Write_FSM_S5 cfg w

/-! ## Init state machine (`SD_Init`) -/

/-- The leave-idle wait of case `S6`:
`while ((SPI_Timer_Status()==TRUE) && (__SD_Send_Cmd(cmd, 0)));`.
`fuel` bounds the iterations; `SD_Init_S6` passes one more than the number of
TRUE answers the armed timer can still give. -/
def SD_Init_S6_wait : Nat → Nat → Port → Port
  | 0, _, p => p
  | fuel + 1, cmd, p =>
    let t := SPI_Timer_Status p
    if t.1 = true then
      let r := SD_Send_Cmd cmd 0 t.2
      if r.1 ≠ 0 then SD_Init_S6_wait fuel cmd r.2 else r.2
    else t.2

/-- Case `S1` of `SD_Init`. -/
def SD_Init_S1 (cfg : Config) (w : World) : World :=
  if w.iv.init_trys ≠ cfg.SD_INIT_TRYS ∧ w.iv.ct = 0 then
    let p := SPI_Init w.port
    let p := SPI_CS_High p
    let p := SPI_Freq_Low p
    let p := (SPI_Read_Bytes 10 p).2
    let p := SPI_Timer_On 500 p
    { w with port := p,
             iv := { w.iv with next_state := InitState.S2,
                               init_trys := (w.iv.init_trys + 1) % 256, idx := 10 },
             Init := { w.Init with Status_fsm := FsmStatus.STAT_BUSY, Start_fsm := 0 } }
  else
    { w with Init := { w.Init with Status_fsm := FsmStatus.STAT_BUSY, Start_fsm := 0 },
             iv := { w.iv with next_state := InitState.S11 } }

/-- Case `S2` of `SD_Init`. -/
def SD_Init_S2 (w : World) : World :=
  let t := SPI_Timer_Status w.port
  if t.1 = true then
    { w with port := t.2, iv := { w.iv with next_state := InitState.S2 } }
  else
    let p := SPI_Timer_Off t.2
    let p := SPI_Timer_On 500 p
    { w with port := p, dev := { w.dev with mount := false },
             iv := { w.iv with next_state := InitState.S3 } }

/-- Case `S3` of `SD_Init`. -/
def SD_Init_S3 (w : World) : World :=
  let r := SD_Send_Cmd CMD0 0 w.port
  let t := SPI_Timer_Status r.2
  if r.1 ≠ 1 then
    if t.1 = true then
      { w with port := t.2, iv := { w.iv with next_state := InitState.S3 } }
    else
      { w with port := SPI_Timer_Off t.2, iv := { w.iv with next_state := InitState.S4 } }
  else
    { w with port := SPI_Timer_Off r.2, iv := { w.iv with next_state := InitState.S4 } }

/-- Case `S4` of `SD_Init`. -/
def SD_Init_S4 (w : World) : World :=
  let r := SD_Send_Cmd CMD0 0 w.port
  if r.1 = 1 then
    { w with port := r.2, iv := { w.iv with next_state := InitState.S5 } }
  else
    { w with port := r.2, iv := { w.iv with next_state := InitState.S1 } }

/-- Case `S5` of `SD_Init`. -/
def SD_Init_S5 (w : World) : World :=
  let r := SD_Send_Cmd CMD8 0x1AA w.port
  if r.1 = 1 then
    { w with port := r.2, iv := { w.iv with next_state := InitState.S7 } }
  else
    { w with port := r.2, iv := { w.iv with next_state := InitState.S6 } }

/-- Case `S6` of `SD_Init`. -/
def SD_Init_S6 (w : World) : World :=
  let r := SD_Send_Cmd ACMD41 0 w.port
  let ct := if r.1 ≤ 1 then SDCT_SD1 else SDCT_MMC
  let cmd := if r.1 ≤ 1 then ACMD41 else CMD1
  let p := SPI_Timer_On 250 r.2
  let p := SD_Init_S6_wait (p.timer.getD 0 + 1) cmd p
  let p := SPI_Timer_Off p
  let t := SPI_Timer_Status p
  let ct := if t.1 = false then 0 else ct
  let r59 := SD_Send_Cmd CMD59 0 t.2
  let ct := if r59.1 ≠ 0 then 0 else ct
  let r16 := SD_Send_Cmd CMD16 512 r59.2
  let ct := if r16.1 ≠ 0 then 0 else ct
  { w with port := r16.2, iv := { w.iv with ct := ct, cmd := cmd, next_state := InitState.S1 } }

/-- Case `S7` of `SD_Init`. -/
def SD_Init_S7 (w : World) : World :=
  let o := SPI_Read_Bytes 4 w.port
  if o.1.getD 2 0 = 0x01 ∧ o.1.getD 3 0 = 0xAA then
    { w with port := SPI_Timer_On 1000 o.2,
             iv := { w.iv with ocr := o.1, n := 4, next_state := InitState.S8 } }
  else
    { w with port := o.2, iv := { w.iv with ocr := o.1, n := 4, next_state := InitState.S1 } }

/-- Case `S8` of `SD_Init`. -/
def SD_Init_S8 (w : World) : World :=
  let p := SPI_Freq_High w.port
  let t := SPI_Timer_Status p
  if t.1 = true then
    let r := SD_Send_Cmd ACMD41 (2 ^ 30) t.2
    if r.1 ≠ 0 then
      { w with port := r.2, iv := { w.iv with next_state := InitState.S8 } }
    else
      { w with port := r.2, iv := { w.iv with next_state := InitState.S9 } }
  else
    { w with port := t.2, iv := { w.iv with next_state := InitState.S9 } }

/-- Case `S9` of `SD_Init`: the timer is disarmed, then queried. -/
def SD_Init_S9 (w : World) : World :=
  let p := SPI_Timer_Off w.port
  let t := SPI_Timer_Status p
  if t.1 = true then
    let r := SD_Send_Cmd CMD58 0 t.2
    if r.1 = 0 then
      { w with port := r.2, iv := { w.iv with next_state := InitState.S10 } }
    else
      { w with port := r.2, iv := { w.iv with next_state := InitState.S1 } }
  else
    { w with port := t.2, iv := { w.iv with next_state := InitState.S1 } }

/-- Case `S10` of `SD_Init`. -/
def SD_Init_S10 (w : World) : World :=
  let o := SPI_Read_Bytes 4 w.port
  let ct := if o.1.getD 0 0 &&& 0x40 ≠ 0 then SDCT_SD2 ||| SDCT_BLOCK else SDCT_SD2
  { w with port := o.2, iv := { w.iv with ocr := o.1, n := 4, ct := ct, next_state := InitState.S1 } }

/-- Case `S11` of `SD_Init`; `none` when `__SD_Sectors` never returns. -/
def SD_Init_S11 (cfg : Config) (w : World) : Option World :=
  if w.iv.ct ≠ 0 then
    let dev := { w.dev with cardtype := w.iv.ct, mount := true }
    match SD_Sectors cfg dev w.port with
    | none => none
    | some r =>
      some { w with port := r.2,
                    dev := { dev with last_sector := (r.1 + (2 ^ 32 - 1)) % 2 ^ 32,
                                      debug_read := 0, debug_write := 0 },
                    iv := { w.iv with next_state := InitState.S12 } }
  else
    some { w with iv := { w.iv with next_state := InitState.S12 } }

/-- Case `S12` of `SD_Init`: publish. -/
def SD_Init_S12 (w : World) : World :=
  { w with port := SPI_Release w.port,
           Init := { w.Init with Status_fsm := FsmStatus.STAT_IDLE,
                                 ErrorCode_fsm := if w.iv.ct ≠ 0 then SDRESULTS.SD_OK
                                                  else SDRESULTS.SD_NOINIT,
                                 Start_fsm := 1, set_fsm := 0 },
           iv := { w.iv with next_state := InitState.S1 } }

/-- The arming block at the head of `SD_Init`. -/
def SD_Init_arm (w : World) : World :=
  if w.Init.set_fsm = 1 then
    { w with iv := { w.iv with ct := 0, init_trys := 0 },
             Init := { w.Init with set_fsm := w.Init.set_fsm + 1 } }
  else w

/-- `SD_Init(dev)`, one call; `none` when the call never returns. -/
def SD_Init (cfg : Config) (w0 : World) : Option World :=
  let w := SD_Init_arm w0
  match w.iv.next_state with
  | InitState.S1 => some (SD_Init_S1 cfg w)
  | InitState.S2 => some (SD_Init_S2 w)
  | InitState.S3 => some (SD_Init_S3 w)
  | InitState.S4 => some (SD_Init_S4 w)
  | InitState.S5 => some (SD_Init_S5 w)
  | InitState.S6 => some (SD_Init_S6 w)
  | InitState.S7 => some (SD_Init_S7 w)
  | InitState.S8 => some (SD_Init_S8 w)
  | InitState.S9 => some (SD_Init_S9 w)
  | InitState.S10 => some (SD_Init_S10 w)
  | InitState.S11 => SD_Init_S11 cfg w
  | InitState.S12 => some (SD_Init_S12 w)
  | InitState.S13 =>
    some { w with Init := { w.Init with Status_fsm := FsmStatus.STAT_IDLE },
                  iv := { w.iv with next_state := InitState.S1 } }

/-- `SD_Status(dev)`. -/
def SD_Status (p : Port) : SDRESULTS × Port :=
  let r := SD_Send_Cmd CMD0 0 p
  (if r.1 ≠ 0 then SDRESULTS.SD_OK else SDRESULTS.SD_NORESPONSE, r.2)

/-! ## Server task (`SD_Server.c`) -/

/-- `Update_Trans(t, res)`. -/
def Update_Trans (t : SDS_TD_T) (res : SDRESULTS) : SDS_TD_T :=
  { t with ErrorCode := res, Status := FsmStatus.STAT_IDLE, Request := REQ_NONE }

/-- The table `Req_to_State`. -/
def Req_to_State (r : Nat) : SDS_STATE_T :=
  [SDS_STATE_T.S_IDLE, SDS_STATE_T.S_INIT, SDS_STATE_T.S_READ, SDS_STATE_T.S_WRITE].getD r
    SDS_STATE_T.S_IDLE

/-- The completion test and publication shared by the three server states. -/
def Server_publish (w : World) (f : FSM) : World :=
  if f.Status_fsm = FsmStatus.STAT_IDLE ∧ f.Start_fsm = 1 then
    { w with srv_res := f.ErrorCode_fsm, g_trans := Update_Trans w.g_trans f.ErrorCode_fsm,
             srv_state := SDS_STATE_T.S_IDLE }
  else w

/-- `Task_SD_Server()`, one call; `none` when the call never returns. -/
def Task_SD_Server (cfg : Config) (w : World) : Option World :=
  match w.srv_state with
  | SDS_STATE_T.S_IDLE =>
    if w.g_trans.Request ≠ REQ_NONE then
      let w := { w with cur_trans := w.g_trans }
      if w.cur_trans.Request ≤ REQ_WRITE then
        some { w with srv_state := Req_to_State w.cur_trans.Request,
                      g_trans := { w.g_trans with Status := FsmStatus.STAT_BUSY } }
      else
        some { w with g_trans := { w.g_trans with Status := FsmStatus.STAT_IDLE,
                                                  Request := REQ_NONE,
                                                  ErrorCode := SDRESULTS.SD_PARERR },
                      srv_state := SDS_STATE_T.S_IDLE }
    else some w
  | SDS_STATE_T.S_INIT =>
    let w := if w.Init.set_fsm = 0 then { w with Init := { w.Init with set_fsm := 1 } } else w
    match SD_Init cfg w with
    | none => none
    | some w1 => some (Server_publish w1 w1.Init)
  | SDS_STATE_T.S_READ =>
    let w1 := SD_Read_FSM cfg w.cur_trans.Sector 0 512 w
    some (Server_publish w1 w1.Read)
  | SDS_STATE_T.S_WRITE =>
    let w1 := SD_Write_FSM cfg w.cur_trans.Sector w
    some (Server_publish w1 w1.Write)
  | SDS_STATE_T.S_ERROR => none

/-! ## Running a state machine to publication -/

/-- Calls `SD_Read_FSM` until the record shows a result
(`Status_fsm == STAT_IDLE && Start_fsm == 1`, the test of the server), at most
`fuel` times; `none` when no result appeared. -/
def runRead (cfg : Config) (sector ofs cnt : Nat) : Nat → World → Option World
  | 0, _ => none
  | fuel + 1, w =>
    let w1 := SD_Read_FSM cfg sector ofs cnt w
    if w1.Read.Status_fsm = FsmStatus.STAT_IDLE ∧ w1.Read.Start_fsm = 1 then some w1
    else runRead cfg sector ofs cnt fuel w1

/-- Calls `SD_Write_FSM` until the record shows a result, at most `fuel` times. -/
def runWrite (cfg : Config) (sector : Nat) : Nat → World → Option World
  | 0, _ => none
  | fuel + 1, w =>
    let w1 := SD_Write_FSM cfg sector w
    if w1.Write.Status_fsm = FsmStatus.STAT_IDLE ∧ w1.Write.Start_fsm = 1 then some w1
    else runWrite cfg sector fuel w1

/-- Calls `SD_Init` until the record shows a result, at most `fuel` times;
`none` also when a call never returns. -/
def runInit (cfg : Config) : Nat → World → Option World
  | 0, _ => none
  | fuel + 1, w =>
    match SD_Init cfg w with
    | none => none
    | some w1 =>
      if w1.Init.Status_fsm = FsmStatus.STAT_IDLE ∧ w1.Init.Start_fsm = 1 then some w1
      else runInit cfg fuel w1

/-! ## Vocabulary of the statements -/

/-- The token wait of the Read machine seen from the card's side: with `b` TRUE
answers left on the timer and the reply stream `l`, the byte that ends the
wait and the number of bytes exchanged. -/
def tokenWait : Nat → List Nat → Nat × Nat
  | 0, l => (l.head?.getD 0xFF % 256, 1)
  | b + 1, l =>
    if l.head?.getD 0xFF % 256 = 0xFF then ((tokenWait b l.tail).1, (tokenWait b l.tail).2 + 1)
    else (l.head?.getD 0xFF % 256, 1)

/-- The state of the world while the Read machine streams a block in `S4`,
`j` exchanges after it entered `S4` in the world `w0`. -/
def ReadS4Inv (ofs cnt : Nat) (w0 w : World) (j : Nat) : Prop :=
  w.rv.byte_num = j ∧ w.rv.temp = min (j - ofs) cnt ∧
  w.port.miso = w0.port.miso.drop j ∧
  w.buffer.length = w0.buffer.length ∧
  (∀ i, w.buffer[i]? =
    if i < min (j - ofs) cnt ∧ i < w0.buffer.length
    then some (w0.port.miso[ofs + i]?.getD 0xFF % 256) else w0.buffer[i]?) ∧
  w.Read = w0.Read ∧ w.dev = w0.dev ∧
  mosiOf w.port.log = mosiOf w0.port.log ++ List.replicate j 0xFF ∧
  w.rv.next_state = (if j < 514 then IoState.S4 else IoState.S5) ∧
  w.rv.res = (if j < 514 then w0.rv.res else SDRESULTS.SD_OK)

/-! ## Concrete inputs -/

/-- The program state at start-up: statics zeroed, `g_trans` as initialised in
`SD_Server.c`, over a given port, device descriptor and buffer. -/
def bootWorld (p : Port) (dev : SD_DEV) (buf : List Nat) : World :=
  { port := p, dev := dev, buffer := buf,
    Read := ⟨FsmStatus.STAT_IDLE, 0, SDRESULTS.SD_OK, 0⟩,
    Write := ⟨FsmStatus.STAT_IDLE, 0, SDRESULTS.SD_OK, 0⟩,
    Init := ⟨FsmStatus.STAT_IDLE, 0, SDRESULTS.SD_OK, 0⟩,
    iv := ⟨0, 0, 0, [0, 0, 0, 0], 0, 0, InitState.S1⟩,
    rv := ⟨SDRESULTS.SD_OK, 0, 0, 0, 0, IoState.S1⟩,
    wv := ⟨0, 0, IoState.S1⟩,
    g_trans := ⟨REQ_NONE, 0, 0, 0, FsmStatus.STAT_IDLE, SDRESULTS.SD_OK⟩,
    cur_trans := ⟨REQ_NONE, 0, 0, 0, FsmStatus.STAT_IDLE, SDRESULTS.SD_OK⟩,
    srv_state := SDS_STATE_T.S_IDLE, srv_res := SDRESULTS.SD_OK }

/-- A build with three init attempts, a 250 ms programming timeout and 16-bit
`WORD` and debug counters. -/
def demoCfg : Config :=
  { SD_INIT_TRYS := 3, SD_IO_WRITE_TIMEOUT_WAIT := 250, WORD_BITS := 16, DBG_BITS := 16 }

/-- A mounted block-addressed SDv2 card of 1000 sectors. -/
def demoDev : SD_DEV :=
  { mount := true, cardtype := SDCT_SD2 ||| SDCT_BLOCK, last_sector := 999,
    debug_read := 0, debug_write := 0 }

/-- The incrementing pattern `i mod 256` over one sector. -/
def payloadPattern : List Nat := (List.range 512).map (fun i => i % 256)

/-- The card of the read scenario: silent during the command frame, R1 = 0 at
the first poll, three bytes 0xFF, the token, the pattern, two CRC bytes. -/
def readDemoPort : Port :=
  { miso := List.replicate 8 0xFF ++ 0x00 ::
      (List.replicate 3 0xFF ++ 0xFE :: (payloadPattern ++ [0x12, 0x34])),
    budgets := [1, 8], timer := none, cs := false, log := [] }

/-- The read scenario: idle driver, zeroed buffer. -/
def readDemoWorld : World := bootWorld readDemoPort demoDev (List.replicate 512 0)

/-- The busy poll of the Write machine seen from the card's side: with `b` TRUE
answers left on the timer and the reply stream `l`, the byte that ends the
poll and the number of bytes exchanged. -/
def busyWait : Nat → List Nat → Nat × Nat
  | 0, l => (l.head?.getD 0xFF % 256, 1)
  | b + 1, l =>
    if l.head?.getD 0xFF % 256 = 0 then ((busyWait b l.tail).1, (busyWait b l.tail).2 + 1)
    else (l.head?.getD 0xFF % 256, 1)

/-- The data-response byte of a write, read off the port `p1` left by CMD24:
the card's byte at the 516th exchange after the command (one exchange for the
token, 512 for the data, two for the CRC come before it). -/
def writeResponse (p1 : Port) : Nat := p1.miso[515]?.getD 0xFF % 256

/-- The busy poll of a write, read off the port `p1` left by CMD24: the byte
that ends the poll and the number of polls, under the budget that the
programming timer will get. -/
def writeBusy (p1 : Port) : Nat × Nat :=
  busyWait (p1.budgets.head?.getD 0) (p1.miso.drop 516)

/-- The buffer of the demo test of `main.c`: zero except for the two 64-bit
little-endian stores `0xFEEDDC0D` at 0 and `0xACE0FC0D` at 508 (of the second,
the four bytes that fall inside the buffer). -/
def demoBuffer : List Nat :=
  [0x0D, 0xDC, 0xED, 0xFE] ++ List.replicate 504 0 ++ [0x0D, 0xFC, 0xE0, 0xAC]

/-- The card of the write-then-read scenario: silent during the CMD24 frame,
R1 = 0 at the first poll, idle during token, data and CRC, data response 0xE5
("accepted"), two busy bytes and a non-zero byte; then, for CMD17, silent
during the frame, R1 = 0, one byte 0xFF, the token, the block that was written
and two CRC bytes. -/
def writeDemoPort : Port :=
  { miso := List.replicate 8 0xFF ++ 0x00 :: (List.replicate 515 0xFF ++ [0xE5, 0x00, 0x00, 0xFF])
      ++ (List.replicate 8 0xFF ++ 0x00 :: 0xFF :: 0xFE :: (demoBuffer ++ [0xAA, 0xBB])),
    budgets := [1, 50, 1, 8], timer := none, cs := false, log := [] }

/-- The write scenario: idle driver, the demo buffer. -/
def writeDemoWorld : World := bootWorld writeDemoPort demoDev demoBuffer

/-- What an ideal card stores on a single-block write, as a function of the
bytes `sent` to it after it answered CMD24: it waits for the start token 0xFE
and keeps the 512 bytes that follow. -/
def idealStore (sent : List Nat) : List Nat :=
  ((sent.dropWhile (fun b => b != 0xFE)).drop 1).take 512

/-- The world in which the write scenario ends. -/
def writeDemoDone : World := (runWrite demoCfg 7 600 writeDemoWorld).getD writeDemoWorld

/-- A world whose server is about to drive the Read machine for sector 1000 of
the 1000-sector demo card (the last sector is 999). -/
def rangeDemoWorld : World :=
  { bootWorld writeDemoPort demoDev demoBuffer with
      srv_state := SDS_STATE_T.S_READ,
      cur_trans := ⟨REQ_READ, 1000, 0, 0, FsmStatus.STAT_IDLE, SDRESULTS.SD_OK⟩,
      g_trans := ⟨REQ_READ, 1000, 0, 0, FsmStatus.STAT_BUSY, SDRESULTS.SD_OK⟩ }

/-- A card that accepts the data and then holds the line low: as
`writeDemoPort` up to the data response, then 60 bytes 0x00, more than the
50 TRUE answers of the programming timer. -/
def busyDemoPort : Port :=
  { miso := List.replicate 8 0xFF ++ 0x00 :: (List.replicate 515 0xFF ++ 0xE5 :: List.replicate 60 0),
    budgets := [1, 50], timer := none, cs := false, log := [] }

/-- The write scenario against the card that stays busy. -/
def busyDemoWorld : World := bootWorld busyDemoPort demoDev demoBuffer

/-- The states the Read machine goes through: the value of `next_state` after
each call of `SD_Read_FSM`, up to the call that publishes (at most `fuel`
calls). -/
def readStates (cfg : Config) (sector ofs cnt : Nat) : Nat → World → List IoState
  | 0, _ => []
  | fuel + 1, w =>
    let w1 := SD_Read_FSM cfg sector ofs cnt w
    w1.rv.next_state ::
      (if w1.Read.Status_fsm = FsmStatus.STAT_IDLE ∧ w1.Read.Start_fsm = 1 then []
       else readStates cfg sector ofs cnt fuel w1)

/-- The state of a read that will not see a valid token: waiting for a token
that will not be 0xFE, validating a byte that is not 0xFE, or finalising. -/
def ReadFailing (w : World) : Prop :=
  w.Read.Status_fsm = FsmStatus.STAT_BUSY ∧ w.rv.res = SDRESULTS.SD_ERROR ∧
  ((w.rv.next_state = IoState.S2 ∧
      ∃ b, w.port.timer = some b ∧ (tokenWait b w.port.miso).1 ≠ 0xFE) ∨
   (w.rv.next_state = IoState.S3 ∧ w.rv.tkn ≠ 0xFE) ∨
   w.rv.next_state = IoState.S5)

/-- A bound on the calls a failing read still needs before it publishes. -/
def readFailFuel (w : World) : Nat :=
  match w.rv.next_state with
  | IoState.S2 => w.port.timer.getD 0 + 3
  | IoState.S3 => 2
  | _ => 1

/-- A card that accepts CMD17 and then stays silent: the token wait of the
read times out (the timer gives 8 TRUE answers). -/
def silentDemoPort : Port :=
  { miso := List.replicate 8 0xFF ++ [0x00],
    budgets := [1, 8], timer := none, cs := false, log := [] }

/-- The read scenario against the silent card, over the demo buffer. -/
def silentDemoWorld : World := bootWorld silentDemoPort demoDev demoBuffer

/-- A CSD version 2 register of a 64 GB card: `C_SIZE = 0x01FFFF`, so bits
above the sixteenth are set (`csd[7] = 0x01`, `csd[8] = csd[9] = 0xFF`). -/
def sdxcCsd : List Nat :=
  [0x40, 0x0E, 0x00, 0x32, 0x5B, 0x59, 0x00, 0x01, 0xFF, 0xFF, 0x7F, 0x80, 0x0A, 0x40, 0x00, 0x01]

/-- A CSD version 1 register: `READ_BL_LEN = 9`, `C_SIZE = 3874`,
`C_SIZE_MULT = 7`. -/
def v1Csd : List Nat :=
  [0x00, 0x26, 0x00, 0x32, 0x5F, 0x59, 0x83, 0xC8, 0xAD, 0xDB, 0xCF, 0xFF, 0xD2, 0x40, 0x40, 0xA5]

/-- A card that answers CMD9 with R1 = 0, one byte 0xFF, the data token, the
16 bytes of `csd` and two CRC bytes. -/
def csdPort (csd : List Nat) : Port :=
  { miso := List.replicate 8 0xFF ++ 0x00 :: 0xFF :: 0xFE :: (csd ++ [0xAA, 0xBB]),
    budgets := [1], timer := none, cs := false, log := [] }

/-- A descriptor with the given card type. -/
def devOfType (ct : Nat) : SD_DEV :=
  { mount := true, cardtype := ct, last_sector := 0, debug_read := 0, debug_write := 0 }

/-- The states the Init machine goes through: the value of `next_state` after
each call of `SD_Init`, up to the call that publishes (at most `fuel` calls). -/
def initStates (cfg : Config) : Nat → World → List InitState
  | 0, _ => []
  | fuel + 1, w =>
    match SD_Init cfg w with
    | none => []
    | some w1 =>
      w1.iv.next_state ::
        (if w1.Init.Status_fsm = FsmStatus.STAT_IDLE ∧ w1.Init.Start_fsm = 1 then []
         else initStates cfg fuel w1)

/-- The card's bytes during one command: idle while the frame is sent, then
the R1 byte `r1` at the first poll. -/
def cardAnswer (r1 : Nat) : List Nat := List.replicate 8 0xFF ++ [r1]

/-- The card's bytes during one command that it does not answer, with a
command timer good for one TRUE answer: idle during the frame and two polls. -/
def cardSilent : List Nat := List.replicate 10 0xFF

/-- One bring-up attempt of the SDHC card of the cold-init scenario, laid out
along the commands the driver sends: ten dummy bytes, CMD0 → 0x01 (state S3),
CMD0 → 0x01 (S4), CMD8 → 0x01 and the trailer 00 00 01 AA (S5, S7),
CMD55 → 0x01 and ACMD41 with HCS → 0x00 (S8). -/
def sdhcAttempt : List Nat :=
  List.replicate 10 0xFF ++ cardAnswer 0x01 ++ cardAnswer 0x01 ++ cardAnswer 0x01 ++
    [0x00, 0x00, 0x01, 0xAA] ++ cardAnswer 0x01 ++ cardAnswer 0x00

/-- The timer budgets of one such attempt: two TRUE answers for the dummy-clock
wait, five for the 500 ms ready wait, one for each of the three 5 ms command
timers up to CMD8, five for the 1000 ms wait, one each for CMD55 and ACMD41. -/
def sdhcAttemptBudgets : List Nat := [2, 5, 1, 1, 1, 5, 1, 1]

/-- The cold-init scenario: the card leaves the first two CMD0 unanswered (the
first attempt), answers from the third CMD0 on; what it would answer to CMD58
(R1 = 0, OCR C0 FF 80 00) and to CMD9 follows at the end of the stream. -/
def coldInitPort : Port :=
  { miso := List.replicate 10 0xFF ++ cardSilent ++ cardSilent ++ sdhcAttempt ++ sdhcAttempt ++
      cardAnswer 0x00 ++ [0xC0, 0xFF, 0x80, 0x00] ++ cardAnswer 0x00 ++ 0xFE :: sdxcCsd ++ [0xAA, 0xBB],
    budgets := [2, 5, 1, 1] ++ sdhcAttemptBudgets ++ sdhcAttemptBudgets ++ [1, 1],
    timer := none, cs := false, log := [] }

/-- The cold-init scenario: the world at start-up with an unmounted, zeroed
descriptor, the Init machine armed by the server (`set_fsm = 1`). -/
def coldInitWorld : World :=
  { bootWorld coldInitPort ⟨false, 0, 0, 0, 0⟩ (List.replicate 512 0) with
      Init := ⟨FsmStatus.STAT_IDLE, 0, SDRESULTS.SD_OK, 1⟩ }

/-- The bytes that a CMD0 frame and its surroundings put on the bus: idle
0xFF, the command byte 0x40, the zero argument bytes and the CRC 0x95. -/
def cmd0Byte (b : Nat) : Prop := b = 0xFF ∨ b = 0x40 ∨ b = 0x00 ∨ b = 0x95

/-- What the timer can still answer TRUE, now and after future armings. -/
def timerPotential (p : Port) : Nat := p.timer.getD 0 + p.budgets.sum

/-- The port `q` is a later state of the port `p` in which only CMD0 traffic
was added: the reply stream and the budgets of `q` are what is left of those
of `p`, the trace of `q` extends that of `p` by events whose bytes are
`cmd0Byte`, and the timer potential has not grown. -/
def PortLe (p q : Port) : Prop :=
  q.miso <:+ p.miso ∧ q.budgets <:+ p.budgets ∧
  (∃ ext, q.log = p.log ++ ext ∧ ∀ b, Ev.rw b ∈ ext → cmd0Byte b) ∧
  timerPotential q ≤ timerPotential p

/-- No CMD0 ever returns R1 = 1: whatever is left of the reply stream and of
the budgets of `p` when a CMD0 is sent, its R1 is not 1. -/
def NoIdle (p : Port) : Prop :=
  ∀ q : Port, q.miso <:+ p.miso → q.budgets <:+ p.budgets → (SD_Send_Cmd CMD0 0 q).1 ≠ 1

/-- How many more calls a state of the Init machine needs, at most, within one
attempt without a card (the timer waits not counted). -/
def initPhase : InitState → Nat
  | InitState.S1 => 3
  | InitState.S2 => 7
  | InitState.S3 => 6
  | InitState.S4 => 5
  | InitState.S11 => 2
  | InitState.S12 => 1
  | _ => 0

/-- A bound on the calls the Init machine still needs without a card, for a
retry budget `N`. -/
def initMeasure (N : Nat) (w : World) : Nat :=
  timerPotential w.port + 5 * (N - w.iv.init_trys) + initPhase w.iv.next_state

/-- The state of an Init run that has found no card since it started on the
port `p0`, for a retry budget `N`: only CMD0 traffic so far, no card type,
the record busy, and the machine in `S1`..`S4` or finalising after `N`
attempts; the device is unmounted once an attempt has passed `S2`. -/
def NoCard (N : Nat) (p0 : Port) (w : World) : Prop :=
  PortLe p0 w.port ∧ w.iv.ct = 0 ∧ w.Init.set_fsm ≠ 1 ∧
  w.Init.Status_fsm = FsmStatus.STAT_BUSY ∧ w.iv.init_trys < 256 ∧
  (w.iv.next_state = InitState.S1 ∨ w.iv.next_state = InitState.S2 ∨
   w.iv.next_state = InitState.S3 ∨ w.iv.next_state = InitState.S4 ∨
   (w.iv.next_state = InitState.S11 ∧ w.iv.init_trys = N) ∨
   (w.iv.next_state = InitState.S12 ∧ w.iv.init_trys = N)) ∧
  (w.iv.init_trys = 0 ∨ w.iv.next_state = InitState.S2 ∨ w.dev.mount = false)

/-- No card: the line stays at its idle level and every timer expires at once. -/
def noCardPort : Port := { miso := [], budgets := [], timer := none, cs := false, log := [] }

/-- The world at start-up without a card, the Init machine armed by the server. -/
def noCardWorld : World :=
  { bootWorld noCardPort ⟨false, 0, 0, 0, 0⟩ (List.replicate 512 0) with
      Init := ⟨FsmStatus.STAT_IDLE, 0, SDRESULTS.SD_OK, 1⟩ }

/-- A build whose retry budget does not fit the 8-bit attempt counter. -/
def wideTrysCfg : Config :=
  { SD_INIT_TRYS := 256, SD_IO_WRITE_TIMEOUT_WAIT := 250, WORD_BITS := 16, DBG_BITS := 16 }

/-- The state of an Init run that has no card type and cannot get one: the
record is busy, the card type is 0 and the machine is not in `S10`. -/
def InitNoType (w : World) : Prop :=
  w.iv.ct = 0 ∧ w.Init.set_fsm ≠ 1 ∧ w.Init.Status_fsm = FsmStatus.STAT_BUSY ∧
  w.iv.next_state ≠ InitState.S10 ∧ w.iv.next_state ≠ InitState.S13

/-! ## The server and its client -/

/-- Calls `Task_SD_Server` until the server is back in `S_IDLE` (a dispatched
request has been published, or nothing was dispatched), at most `fuel` times;
`none` when that did not happen or when a call never returns. -/
def runServer (cfg : Config) : Nat → World → Option World
  | 0, _ => none
  | fuel + 1, w =>
    match Task_SD_Server cfg w with
    | none => none
    | some w1 =>
      if w1.srv_state = SDS_STATE_T.S_IDLE then some w1 else runServer cfg fuel w1

/-- Modelled from the spec: the client task is not among the sources. A client
prepares the data buffer, which it owns while the slot is idle, and submits by
writing the request, the sector and the two pointers into the transaction slot
(spec 2 and 3); status and error are the server's to write. -/
def submit (req sector data device : Nat) (buf : List Nat) (w : World) : World :=
  { w with buffer := buf,
           g_trans := { w.g_trans with Request := req, Sector := sector, Data := data,
                                       Device := device } }

/-- The states the program reaches from `w0` by server ticks that return,
interleaved with client submissions (of any request code, sector and buffer
content) made while the slot's status is idle. -/
inductive Reachable (cfg : Config) (w0 : World) : World → Prop
  | start : Reachable cfg w0 w0
  | tick {w w1 : World} : Reachable cfg w0 w → Task_SD_Server cfg w = some w1 →
      Reachable cfg w0 w1
  | client {w : World} (req sector data device : Nat) (buf : List Nat) : Reachable cfg w0 w →
      w.g_trans.Status = FsmStatus.STAT_IDLE →
      Reachable cfg w0 (submit req sector data device buf w)

/-- The initial state of the program: the server in `S_IDLE`, the three
records idle, the three machines at `S1`. -/
def Started (w : World) : Prop :=
  w.srv_state = SDS_STATE_T.S_IDLE ∧
  w.Init.Status_fsm = FsmStatus.STAT_IDLE ∧ w.Read.Status_fsm = FsmStatus.STAT_IDLE ∧
  w.Write.Status_fsm = FsmStatus.STAT_IDLE ∧
  w.iv.next_state = InitState.S1 ∧ w.rv.next_state = IoState.S1 ∧ w.wv.next_state = IoState.S1

/-- The write scenario submitted to the server: a WRITE of sector 7 in the
transaction slot of the world at start-up. -/
def writeSubmitted : World := submit REQ_WRITE 7 0 0 demoBuffer writeDemoWorld

/-- The write scenario one tick later: the server has dispatched the request. -/
def writeDispatched : World :=
  { writeSubmitted with
      cur_trans := writeSubmitted.g_trans,
      srv_state := SDS_STATE_T.S_WRITE,
      g_trans := { writeSubmitted.g_trans with Status := FsmStatus.STAT_BUSY } }

/-- The server in its trap state `S_ERROR`, everything else as at start-up. -/
def trapWorld : World :=
  { bootWorld noCardPort ⟨false, 0, 0, 0, 0⟩ (List.replicate 512 0) with
      srv_state := SDS_STATE_T.S_ERROR }

/-- An INIT request in flight with the card type SDv2 | block-addressed, the
Init machine about to finalise in `S11`, over the port `p`. -/
def finalisingWorld (p : Port) : World :=
  { bootWorld p ⟨false, 0, 0, 0, 0⟩ (List.replicate 512 0) with
      Init := ⟨FsmStatus.STAT_BUSY, 0, SDRESULTS.SD_OK, 2⟩,
      iv := ⟨4, 0, SDCT_SD2 ||| SDCT_BLOCK, [0xC0, 0xFF, 0x80, 0x00], 10, 1, InitState.S11⟩,
      srv_state := SDS_STATE_T.S_INIT,
      g_trans := ⟨REQ_INIT, 0, 0, 0, FsmStatus.STAT_BUSY, SDRESULTS.SD_OK⟩,
      cur_trans := ⟨REQ_INIT, 0, 0, 0, FsmStatus.STAT_IDLE, SDRESULTS.SD_OK⟩ }

/-- A card that answers CMD9 with R1 = 0 and then sends nothing: the line
stays at 0xFF. The command timer gives one TRUE answer and expires. -/
def csdSilentPort : Port :=
  { miso := cardAnswer 0x00, budgets := [1], timer := none, cs := true, log := [] }

/-- The record of the machine that the server drives in the state `s`. -/
def drivenFSM (s : SDS_STATE_T) (w : World) : FSM :=
  match s with
  | SDS_STATE_T.S_INIT => w.Init
  | SDS_STATE_T.S_READ => w.Read
  | _ => w.Write

/-- The shape of the three machines at a tick boundary: the server is never in
`S_ERROR`; a machine that the server does not drive is idle and at `S1`; the
machine that it drives is busy, or idle at `S1` (it has not been called since
the dispatch). -/
def MachinesInv (w : World) : Prop :=
  w.srv_state ≠ SDS_STATE_T.S_ERROR ∧
  (w.srv_state ≠ SDS_STATE_T.S_INIT →
    w.Init.Status_fsm = FsmStatus.STAT_IDLE ∧ w.iv.next_state = InitState.S1) ∧
  (w.srv_state ≠ SDS_STATE_T.S_READ →
    w.Read.Status_fsm = FsmStatus.STAT_IDLE ∧ w.rv.next_state = IoState.S1) ∧
  (w.srv_state ≠ SDS_STATE_T.S_WRITE →
    w.Write.Status_fsm = FsmStatus.STAT_IDLE ∧ w.wv.next_state = IoState.S1) ∧
  (w.iv.next_state ≠ InitState.S13 ∧
    (w.Init.Status_fsm = FsmStatus.STAT_BUSY ∨ w.iv.next_state = InitState.S1)) ∧
  (w.Read.Status_fsm = FsmStatus.STAT_BUSY ∨ w.rv.next_state = IoState.S1) ∧
  (w.Write.Status_fsm = FsmStatus.STAT_BUSY ∨ w.wv.next_state = IoState.S1)

/-- The status of the transaction slot follows the server: BUSY exactly while
the server is not in `S_IDLE`. -/
def SlotInv (w : World) : Prop :=
  w.g_trans.Status = FsmStatus.STAT_BUSY ↔ w.srv_state ≠ SDS_STATE_T.S_IDLE

/-- A record shows a result: the completion test of the server. -/
def Published (f : FSM) : Prop := f.Status_fsm = FsmStatus.STAT_IDLE ∧ f.Start_fsm = 1

/-- The write against the card that stays busy, submitted to the server. -/
def busySubmitted : World := submit REQ_WRITE 7 0 0 demoBuffer busyDemoWorld

/-- The write against the card that stays busy, dispatched by the server. -/
def busyDispatched : World :=
  { busySubmitted with
      cur_trans := busySubmitted.g_trans,
      srv_state := SDS_STATE_T.S_WRITE,
      g_trans := { busySubmitted.g_trans with Status := FsmStatus.STAT_BUSY } }

/-- The write scenario two ticks after the submission: the Write machine has
sent CMD24 and the start token, its record is busy. -/
def writeStarted : World := (Task_SD_Server demoCfg writeDispatched).getD writeDispatched

/-- A card that refuses the command it is sent: R1 = 0x04 (illegal command)
at the first poll. -/
def refusingPort : Port :=
  { miso := cardAnswer 0x04, budgets := [1], timer := none, cs := false, log := [] }

/-- A READ of sector 1000 submitted at start-up to the 1000-sector demo card
(the last sector is 999). -/
def rangeSubmitted : World :=
  submit REQ_READ 1000 0 0 demoBuffer (bootWorld writeDemoPort demoDev demoBuffer)

/-- A READ of sector 7 submitted to the refusing card after 65535 completed
reads: the 16-bit read counter is at its maximum. -/
def wrapSubmitted : World :=
  submit REQ_READ 7 0 0 demoBuffer
    (bootWorld refusingPort { demoDev with debug_read := 65535, debug_write := 3 } demoBuffer)

/-- A READ of sector 7 submitted at start-up to the refusing card. -/
def refusedSubmitted : World :=
  submit REQ_READ 7 0 0 demoBuffer (bootWorld refusingPort demoDev demoBuffer)

/-- No card at all: nothing but 0xFF on the line; each timer gives three
TRUE answers before it expires. -/
def absentCardPort : Port :=
  { miso := [], budgets := [3, 3], timer := none, cs := false, log := [] }

/-- A card that answers the command with R1 = 0x00 at the first poll. -/
def readyCardPort : Port :=
  { miso := cardAnswer 0x00, budgets := [3], timer := none, cs := false, log := [] }

/-- A card in idle state: it answers the command with R1 = 0x01. -/
def idleCardPort : Port :=
  { miso := cardAnswer 0x01, budgets := [3], timer := none, cs := false, log := [] }

/-- The CRC byte of a command as the specification tabulates it: 0x95 for
CMD0(0), 0x87 for CMD8(0x1AA), 0x01 for every other command. -/
def specCrc (cmd arg : Nat) : Nat :=
  if cmd = CMD0 ∧ arg = 0 then 0x95 else if cmd = CMD8 ∧ arg = 0x1AA then 0x87 else 0x01

/-- The six bytes of a command frame: the command byte, the argument most
significant byte first, and the CRC byte chosen by the command byte alone. -/
def frameOf (cmd arg : Nat) : List Nat :=
  [cmd, (arg >>> 24) &&& 0xFF, (arg >>> 16) &&& 0xFF, (arg >>> 8) &&& 0xFF, arg &&& 0xFF,
   if cmd = CMD0 then 0x95 else if cmd = CMD8 then 0x87 else 0x01]

/-- The port calls of the response wait: exchanges of 0xFF and timer queries,
with at least one exchange. -/
def Polls (polls : List Ev) : Prop :=
  (∀ e ∈ polls, e = Ev.rw 0xFF ∨ e = Ev.timerStatus) ∧ Ev.rw 0xFF ∈ polls

/-- The port calls of one command: deselect, a spacer byte, select, a spacer
byte, the six bytes of the frame, the 5 ms timer, the response wait, the timer
disarmed. -/
def sentFrame (cmd arg : Nat) (polls : List Ev) : List Ev :=
  [Ev.csHigh, Ev.rw 0xFF, Ev.csLow, Ev.rw 0xFF] ++ (frameOf cmd arg).map Ev.rw ++
    [Ev.timerOn 5] ++ polls ++ [Ev.timerOff]

/-! ## Bring-up of a version 1 card and of an MMC -/

/-- An INIT request in flight, first attempt, the Init machine in the state
`st` over the port `p`: both CMD0 have been answered with R1 = 1. -/
def attemptWorld (st : InitState) (p : Port) : World :=
  { bootWorld p ⟨false, 0, 0, 0, 0⟩ (List.replicate 512 0) with
      Init := ⟨FsmStatus.STAT_BUSY, 0, SDRESULTS.SD_OK, 2⟩,
      iv := ⟨0, 0, 0, [0, 0, 0, 0], 10, 1, st⟩,
      srv_state := SDS_STATE_T.S_INIT,
      g_trans := ⟨REQ_INIT, 0, 0, 0, FsmStatus.STAT_BUSY, SDRESULTS.SD_OK⟩,
      cur_trans := ⟨REQ_INIT, 0, 0, 0, FsmStatus.STAT_IDLE, SDRESULTS.SD_OK⟩ }

/-- A version 1 SD card seen from `S6`: CMD55 → 0x01 and ACMD41 → 0x01 (still
idle), at the first poll CMD55 → 0x01 and ACMD41 → 0x00 (ready), CMD59 → 0x00,
CMD16 → 0x00. The 250 ms timer gives five TRUE answers, every command timer
one. -/
def v1S6Port : Port :=
  { miso := cardAnswer 0x01 ++ cardAnswer 0x01 ++ cardAnswer 0x01 ++ cardAnswer 0x00 ++
      cardAnswer 0x00 ++ cardAnswer 0x00,
    budgets := [1, 1, 5, 1, 1, 1, 1], timer := none, cs := true, log := [] }

/-- An MMC seen from `S6`: CMD55 → 0x05 (illegal command, so ACMD41 returns
0x05), at the first poll CMD1 → 0x00 (ready), CMD59 → 0x00, CMD16 → 0x00. -/
def mmcS6Port : Port :=
  { miso := cardAnswer 0x05 ++ cardAnswer 0x00 ++ cardAnswer 0x00 ++ cardAnswer 0x00,
    budgets := [1, 5, 1, 1, 1], timer := none, cs := true, log := [] }

/-- The first poll of the leave-idle command `cmd` in `S6` on the port `p`: the
answer of the 250 ms timer queried before the poll, the R1 of the poll and the
port afterwards. -/
def s6Poll (cmd : Nat) (p : Port) : Bool × Nat × Port :=
  let t := SPI_Timer_Status (SPI_Timer_On 250 (SD_Send_Cmd ACMD41 0 p).2)
  let r := SD_Send_Cmd cmd 0 t.2
  (t.1, r.1, r.2)

/-- What follows in `S6` when that poll returned R1 = 0: the answer of the
timer queried after `SPI_Timer_Off`, the R1 of CMD59, the R1 of CMD16(512) and
the port afterwards. -/
def s6Tail (cmd : Nat) (p : Port) : Bool × Nat × Nat × Port :=
  let t := SPI_Timer_Status (SPI_Timer_Off (s6Poll cmd p).2.2)
  let r59 := SD_Send_Cmd CMD59 0 t.2
  let r16 := SD_Send_Cmd CMD16 512 r59.2
  (t.1, r59.1, r16.1, r16.2)

/-- One bring-up attempt of the version 1 card, laid out along the commands the
driver sends: ten dummy bytes, CMD0 → 0x01 (state S3), CMD0 → 0x01 (S4),
CMD8 → 0x05 (illegal command, S5), then the answers of `v1S6Port` (S6). -/
def v1Attempt : List Nat :=
  List.replicate 10 0xFF ++ cardAnswer 0x01 ++ cardAnswer 0x01 ++ cardAnswer 0x05 ++ v1S6Port.miso

/-- The timer budgets of one such attempt: two TRUE answers for the dummy-clock
wait, five for the 500 ms ready wait, one for each command timer up to CMD8,
then the budgets of `v1S6Port`. -/
def v1AttemptBudgets : List Nat := [2, 5, 1, 1, 1] ++ v1S6Port.budgets

/-- A version 1 card that answers every command of three bring-up attempts. -/
def v1InitPort : Port :=
  { miso := v1Attempt ++ v1Attempt ++ v1Attempt,
    budgets := v1AttemptBudgets ++ v1AttemptBudgets ++ v1AttemptBudgets,
    timer := none, cs := false, log := [] }

/-- The world at start-up with the version 1 card, the Init machine armed by
the server. -/
def v1InitWorld : World :=
  { bootWorld v1InitPort ⟨false, 0, 0, 0, 0⟩ (List.replicate 512 0) with
      Init := ⟨FsmStatus.STAT_IDLE, 0, SDRESULTS.SD_OK, 1⟩ }

/-! ## The phase timers of Init -/

/-- The port on entry to `S3`: the 500 ms ready-wait timer armed on leaving
`S2` has five TRUE answers left; the card leaves the first CMD0 unanswered and
would answer the next one with R1 = 0x01. Every command timer gives one TRUE
answer. -/
def readyWaitPort : Port :=
  { miso := cardSilent ++ cardAnswer 0x01, budgets := [1, 1], timer := some 5,
    cs := false, log := [] }

/-- The port on entry to `S8`: the 1000 ms timer armed in `S7` has five TRUE
answers left; the card answers CMD55 → 0x01, ACMD41 with HCS → 0x01 (still
idle) and would answer the next pair with 0x01 and 0x00 (ready). -/
def hcsPollPort : Port :=
  { miso := cardAnswer 0x01 ++ cardAnswer 0x01 ++ cardAnswer 0x01 ++ cardAnswer 0x00,
    budgets := [1, 1, 1, 1], timer := some 5, cs := true, log := [] }

/-! ## The retry budget of Init -/

/-- The number of `spi_init()` calls in a trace: the arm branch of `S1` is the
only place that calls it. -/
def armCount (l : List Ev) : Nat := l.count Ev.spiInit

/-- The Init machine as the server arms it: `set_fsm` is 1 and the machine is
at `S1`; the next call resets the attempt counter and the card type. -/
def Armed (w : World) : Prop := w.Init.set_fsm = 1 ∧ w.iv.next_state = InitState.S1

/-- The states of an Init run that starts in `w0`: the state after the first
call, and the state after every further call made while the record shows no
result. -/
inductive InitRun (cfg : Config) (w0 : World) : World → Prop
  | first {w : World} : SD_Init cfg w0 = some w → InitRun cfg w0 w
  | next {w w1 : World} : InitRun cfg w0 w → ¬ Published w.Init → SD_Init cfg w = some w1 →
      InitRun cfg w0 w1

/-- The port `q` is a later state of the port `p`: the timer cannot answer TRUE
more often than it could, and `spi_init()` was not called in between. -/
def PortAfter (p q : Port) : Prop :=
  timerPotential q ≤ timerPotential p ∧ armCount q.log = armCount p.log

/-- The place of a state in one attempt, counted from its end. -/
def initRank : InitState → Nat
  | InitState.S12 => 1
  | InitState.S11 => 2
  | InitState.S1 => 3
  | InitState.S6 => 4
  | InitState.S10 => 4
  | InitState.S9 => 5
  | InitState.S8 => 6
  | InitState.S7 => 7
  | InitState.S5 => 8
  | InitState.S4 => 9
  | InitState.S3 => 10
  | InitState.S2 => 11
  | InitState.S13 => 0

/-- A bound on the calls an Init run still needs for a retry budget `N`: what
the timers can still answer TRUE, twelve calls for each attempt not yet begun,
and the rest of the current attempt. -/
def initBound (N : Nat) (w : World) : Nat :=
  timerPotential w.port + 12 * (N - w.iv.init_trys) + initRank w.iv.next_state

theorem mosiOf_append (a b : List Ev) : mosiOf (a ++ b) = mosiOf a ++ mosiOf b := by
  induction a with
  | nil => rfl
  | cons e es ih => cases e <;> simp [mosiOf, ih]

theorem mosiOf_map_rw (f : Nat → Nat) (l : List Nat) :
    mosiOf (l.map (fun i => Ev.rw (f i))) = l.map f := by
  induction l with
  | nil => rfl
  | cons a l ih => simp [mosiOf, ih]

@[simp] theorem SPI_RW_fst (b : Nat) (p : Port) : (SPI_RW b p).1 = p.miso.head?.getD 0xFF % 256 := rfl
@[simp] theorem SPI_RW_miso (b : Nat) (p : Port) : (SPI_RW b p).2.miso = p.miso.tail := rfl
@[simp] theorem SPI_RW_budgets (b : Nat) (p : Port) : (SPI_RW b p).2.budgets = p.budgets := rfl
@[simp] theorem SPI_RW_timer (b : Nat) (p : Port) : (SPI_RW b p).2.timer = p.timer := rfl
@[simp] theorem SPI_RW_cs (b : Nat) (p : Port) : (SPI_RW b p).2.cs = p.cs := rfl
@[simp] theorem SPI_RW_log (b : Nat) (p : Port) :
    (SPI_RW b p).2.log = p.log ++ [Ev.rw (b % 256)] := rfl

theorem SPI_Timer_Status_succ (p : Port) (n : Nat) (h : p.timer = some (n + 1)) :
    SPI_Timer_Status p = (true, { p with timer := some n, log := p.log ++ [Ev.timerStatus] }) := by
  simp [SPI_Timer_Status, h]

theorem SPI_Timer_Status_zero (p : Port) (h : p.timer = some 0) :
    SPI_Timer_Status p = (false, { p with log := p.log ++ [Ev.timerStatus] }) := by
  simp [SPI_Timer_Status, h]

theorem SPI_Timer_Status_none (p : Port) (h : p.timer = none) :
    SPI_Timer_Status p = (false, { p with log := p.log ++ [Ev.timerStatus] }) := by
  simp [SPI_Timer_Status, h]

/-! ## The Read machine, phase by phase -/

theorem runRead_step (cfg : Config) (sector ofs cnt fuel : Nat) (w : World)
    (h : (SD_Read_FSM cfg sector ofs cnt w).Read.Status_fsm = FsmStatus.STAT_BUSY) :
    runRead cfg sector ofs cnt (fuel + 1) w
      = runRead cfg sector ofs cnt fuel (SD_Read_FSM cfg sector ofs cnt w) := by
  simp [runRead, h]

theorem read_S2_more (cfg : Config) (sector ofs cnt b : Nat) (w : World)
    (hs : w.rv.next_state = IoState.S2) (ht : w.port.timer = some (b + 1))
    (hx : w.port.miso.head?.getD 0xFF % 256 = 0xFF) :
    SD_Read_FSM cfg sector ofs cnt w
      = { w with port := { (SPI_RW 0xFF w.port).2 with
                             timer := some b,
                             log := (SPI_RW 0xFF w.port).2.log ++ [Ev.timerStatus] },
                 rv := { w.rv with tkn := 0xFF, next_state := IoState.S2 } } := by
  simp only [SD_Read_FSM, hs, SD_Read_FSM_S2]
  rw [SPI_Timer_Status_succ _ b (by simpa using ht)]
  simp [hx]

theorem read_S2_expired (cfg : Config) (sector ofs cnt : Nat) (w : World)
    (hs : w.rv.next_state = IoState.S2) (ht : w.port.timer = some 0)
    (hx : w.port.miso.head?.getD 0xFF % 256 = 0xFF) :
    SD_Read_FSM cfg sector ofs cnt w
      = { w with port := { (SPI_RW 0xFF w.port).2 with
                             log := (SPI_RW 0xFF w.port).2.log ++ [Ev.timerStatus] },
                 rv := { w.rv with tkn := 0xFF, next_state := IoState.S3 } } := by
  simp only [SD_Read_FSM, hs, SD_Read_FSM_S2]
  rw [SPI_Timer_Status_zero _ (by simpa using ht)]
  simp [hx]

theorem read_S2_token (cfg : Config) (sector ofs cnt : Nat) (w : World)
    (hs : w.rv.next_state = IoState.S2)
    (hx : w.port.miso.head?.getD 0xFF % 256 ≠ 0xFF) :
    SD_Read_FSM cfg sector ofs cnt w
      = { w with port := (SPI_RW 0xFF w.port).2,
                 rv := { w.rv with tkn := w.port.miso.head?.getD 0xFF % 256,
                                   next_state := IoState.S3 } } := by
  simp only [SD_Read_FSM, hs, SD_Read_FSM_S2]
  simp [hx]

theorem runRead_S2 (cfg : Config) (sector ofs cnt : Nat) (b : Nat) :
    ∀ (w : World), w.rv.next_state = IoState.S2 →
      w.Read.Status_fsm = FsmStatus.STAT_BUSY → w.port.timer = some b →
      ∃ w1 : World,
        (∀ fuel, runRead cfg sector ofs cnt (fuel + (tokenWait b w.port.miso).2) w
          = runRead cfg sector ofs cnt fuel w1) ∧
        w1.rv = { w.rv with tkn := (tokenWait b w.port.miso).1, next_state := IoState.S3 } ∧
        w1.Read = w.Read ∧ w1.buffer = w.buffer ∧ w1.dev = w.dev ∧
        w1.port.miso = w.port.miso.drop (tokenWait b w.port.miso).2 ∧
        mosiOf w1.port.log
          = mosiOf w.port.log ++ List.replicate (tokenWait b w.port.miso).2 0xFF := by
  induction b with
  | zero =>
    intro w hs hb ht
    refine ⟨SD_Read_FSM cfg sector ofs cnt w, ?_, ?_⟩
    · intro fuel
      simp only [tokenWait]
      apply runRead_step
      by_cases hx : w.port.miso.head?.getD 0xFF % 256 = 0xFF
      · rw [read_S2_expired _ _ _ _ _ hs ht hx]; exact hb
      · rw [read_S2_token _ _ _ _ _ hs hx]; exact hb
    · by_cases hx : w.port.miso.head?.getD 0xFF % 256 = 0xFF
      · rw [read_S2_expired _ _ _ _ _ hs ht hx]
        simp [tokenWait, hx, mosiOf_append, mosiOf]
      · rw [read_S2_token _ _ _ _ _ hs hx]
        simp [tokenWait, hx, mosiOf_append, mosiOf]
  | succ b ih =>
    intro w hs hb ht
    by_cases hx : w.port.miso.head?.getD 0xFF % 256 = 0xFF
    · have hstep := read_S2_more cfg sector ofs cnt b w hs ht hx
      obtain ⟨w1, h1, h2, h3, h4, h5, h6, h7⟩ :=
        ih (SD_Read_FSM cfg sector ofs cnt w) (by rw [hstep]) (by rw [hstep]; exact hb)
          (by rw [hstep])
      refine ⟨w1, ?_, ?_, ?_, ?_, ?_, ?_, ?_⟩
      · intro fuel
        simp only [tokenWait, hx, if_true]
        rw [← Nat.add_assoc, runRead_step _ _ _ _ _ _ (by rw [hstep]; exact hb)]
        have := h1 fuel
        rw [hstep] at this ⊢
        exact this
      · rw [h2, hstep]; simp [tokenWait, hx]
      · rw [h3, hstep]
      · rw [h4, hstep]
      · rw [h5, hstep]
      · rw [h6, hstep]; simp [tokenWait, hx]
      · rw [h7, hstep]
        simp [tokenWait, hx, mosiOf_append, mosiOf, List.replicate_succ]
    · refine ⟨SD_Read_FSM cfg sector ofs cnt w, ?_, ?_⟩
      · intro fuel
        simp only [tokenWait, hx, if_false]
        apply runRead_step
        rw [read_S2_token _ _ _ _ _ hs hx]; exact hb
      · rw [read_S2_token _ _ _ _ _ hs hx]
        simp [tokenWait, hx, mosiOf_append, mosiOf]

theorem SD_Read_FSM_S4_eq (cfg : Config) (ofs cnt : Nat) (w : World) :
    SD_Read_FSM_S4 cfg ofs cnt w =
      { w with
          port := (SPI_RW 0xFF w.port).2,
          buffer := if w.rv.byte_num ≥ ofs ∧ w.rv.byte_num < ofs + cnt
                    then w.buffer.set w.rv.temp (w.port.miso.head?.getD 0xFF % 256) else w.buffer,
          rv := { w.rv with
                    data := w.port.miso.head?.getD 0xFF % 256,
                    temp := if w.rv.byte_num ≥ ofs ∧ w.rv.byte_num < ofs + cnt
                            then w.rv.temp + 1 else w.rv.temp,
                    byte_num := (w.rv.byte_num + 1) % 2 ^ cfg.WORD_BITS,
                    res := if (w.rv.byte_num + 1) % 2 ^ cfg.WORD_BITS < 514 then w.rv.res
                           else SDRESULTS.SD_OK,
                    next_state := if (w.rv.byte_num + 1) % 2 ^ cfg.WORD_BITS < 514
                                  then IoState.S4 else IoState.S5 } } := by
  unfold SD_Read_FSM_S4
  by_cases h1 : (w.rv.byte_num + 1) % 2 ^ cfg.WORD_BITS < 514 <;>
    by_cases h2 : w.rv.byte_num ≥ ofs ∧ w.rv.byte_num < ofs + cnt <;>
    simp [h1, h2, SD_BLK_SIZE]

theorem read_S4_step (cfg : Config) (sector ofs cnt : Nat) (hW : 514 < 2 ^ cfg.WORD_BITS)
    (w0 w : World) (j : Nat) (hj : j < 514) (h : ReadS4Inv ofs cnt w0 w j) :
    ReadS4Inv ofs cnt w0 (SD_Read_FSM cfg sector ofs cnt w) (j + 1) := by
  obtain ⟨h1, h2, h3, h4, h5, h6, h7, h8, h9, h10⟩ := h
  have hs : w.rv.next_state = IoState.S4 := by rw [h9, if_pos hj]
  have hmod : (j + 1) % 2 ^ cfg.WORD_BITS = j + 1 := Nat.mod_eq_of_lt (by omega)
  have hbyte : w.port.miso.head?.getD 0xFF = w0.port.miso[j]?.getD 0xFF := by
    rw [h3, List.head?_drop]
  have hstep : SD_Read_FSM cfg sector ofs cnt w = SD_Read_FSM_S4 cfg ofs cnt w := by
    simp only [SD_Read_FSM, hs]
  rw [hstep, SD_Read_FSM_S4_eq, h1, hmod]
  by_cases hc : j ≥ ofs ∧ j < ofs + cnt
  · have hm : min (j - ofs) cnt = j - ofs := by omega
    have hm1 : min (j + 1 - ofs) cnt = j - ofs + 1 := by omega
    have hoj : ofs + (j - ofs) = j := by omega
    simp only [if_pos hc]
    refine ⟨rfl, ?_, ?_, ?_, ?_, h6, h7, ?_, rfl, ?_⟩
    · show w.rv.temp + 1 = _
      rw [h2, hm, hm1]
    · show (SPI_RW 0xFF w.port).2.miso = _
      simp [h3, List.tail_drop]
    · show (w.buffer.set _ _).length = _
      simp [h4]
    · intro i
      show (w.buffer.set w.rv.temp (w.port.miso.head?.getD 0xFF % 256))[i]? = _
      rw [List.getElem?_set, h2, hm, hm1, h5 i, hm, hbyte, h4]
      by_cases e : j - ofs = i
      · subst e
        simp only [if_true, hoj]
        by_cases hl : j - ofs < w0.buffer.length
        · simp [hl]
        · simp [hl]
          omega
      · simp only [e, if_false]
        by_cases hi : i < j - ofs
        · have : i < j - ofs + 1 := by omega
          simp [hi, this]
        · have : ¬ i < j - ofs + 1 := by omega
          simp [hi, this]
    · show mosiOf (SPI_RW 0xFF w.port).2.log = _
      simp [mosiOf_append, mosiOf, h8, List.replicate_succ']
    · show (if j + 1 < 514 then w.rv.res else SDRESULTS.SD_OK) = _
      rw [h10, if_pos hj]
  · have hm1 : min (j + 1 - ofs) cnt = min (j - ofs) cnt := by omega
    simp only [if_neg hc]
    refine ⟨rfl, ?_, ?_, h4, ?_, h6, h7, ?_, rfl, ?_⟩
    · show w.rv.temp = _
      rw [h2, hm1]
    · show (SPI_RW 0xFF w.port).2.miso = _
      simp [h3, List.tail_drop]
    · intro i
      rw [hm1]
      exact h5 i
    · show mosiOf (SPI_RW 0xFF w.port).2.log = _
      simp [mosiOf_append, mosiOf, h8, List.replicate_succ']
    · show (if j + 1 < 514 then w.rv.res else SDRESULTS.SD_OK) = _
      rw [h10, if_pos hj]

theorem runRead_S4 (cfg : Config) (sector ofs cnt : Nat) (hW : 514 < 2 ^ cfg.WORD_BITS)
    (w0 : World) (hb : w0.Read.Status_fsm = FsmStatus.STAT_BUSY) :
    ∀ (m : Nat) (w : World), m ≤ 514 → ReadS4Inv ofs cnt w0 w (514 - m) →
      ∃ w1 : World,
        (∀ fuel, runRead cfg sector ofs cnt (fuel + m) w = runRead cfg sector ofs cnt fuel w1) ∧
        ReadS4Inv ofs cnt w0 w1 514 := by
  intro m
  induction m with
  | zero => intro w _ h; exact ⟨w, fun _ => rfl, h⟩
  | succ m ih =>
    intro w hm h
    have hstep := read_S4_step cfg sector ofs cnt hW w0 w (514 - (m + 1)) (by omega) h
    have e : 514 - (m + 1) + 1 = 514 - m := by omega
    rw [e] at hstep
    obtain ⟨w1, h1, h2⟩ := ih (SD_Read_FSM cfg sector ofs cnt w) (by omega) hstep
    refine ⟨w1, fun fuel => ?_, h2⟩
    rw [← Nat.add_assoc, runRead_step _ _ _ _ _ _ (by rw [hstep.2.2.2.2.2.1]; exact hb)]
    exact h1 fuel

theorem read_S1_sent (cfg : Config) (sector ofs cnt : Nat) (w : World)
    (hs : w.rv.next_state = IoState.S1) (hi : w.Read.Status_fsm = FsmStatus.STAT_IDLE)
    (hsec : sector ≤ w.dev.last_sector) (hcnt : cnt ≠ 0) :
    SD_Read_FSM cfg sector ofs cnt w =
      { w with
          port := if (SD_Send_Cmd CMD17 sector w.port).1 = 0
                  then SPI_Timer_On 100 (SD_Send_Cmd CMD17 sector w.port).2
                  else (SD_Send_Cmd CMD17 sector w.port).2,
          Read := { w.Read with Status_fsm := FsmStatus.STAT_BUSY, Start_fsm := 0 },
          rv := { w.rv with res := SDRESULTS.SD_ERROR, temp := 0,
                            next_state := if (SD_Send_Cmd CMD17 sector w.port).1 = 0
                                          then IoState.S2 else IoState.S5 } } := by
  have h1 : ¬ (sector > w.dev.last_sector ∨ cnt = 0) := by omega
  simp only [SD_Read_FSM, hs, hi, if_true, SD_Read_FSM_S1, h1, if_false]
  by_cases h : (SD_Send_Cmd CMD17 sector w.port).1 = 0 <;> simp [h]

theorem read_S3_eq (cfg : Config) (sector ofs cnt : Nat) (w : World)
    (hs : w.rv.next_state = IoState.S3) :
    SD_Read_FSM cfg sector ofs cnt w =
      { w with
          port := SPI_Timer_Off w.port,
          rv := { w.rv with byte_num := if w.rv.tkn = 0xFE then 0 else w.rv.byte_num,
                            next_state := if w.rv.tkn = 0xFE then IoState.S4 else IoState.S5 } } := by
  simp only [SD_Read_FSM, hs, SD_Read_FSM_S3]
  by_cases h : w.rv.tkn = 0xFE <;> simp [h]

theorem runRead_S5 (cfg : Config) (sector ofs cnt fuel : Nat) (w : World)
    (hs : w.rv.next_state = IoState.S5) :
    runRead cfg sector ofs cnt (fuel + 1) w = some (SD_Read_FSM_S5 cfg w) := by
  simp [runRead, SD_Read_FSM, hs, SD_Read_FSM_S5]

/-- A read whose command is accepted and whose token wait ends on 0xFE: the
run publishes OK after `n + 517` calls, `n` being the length of the token wait,
and the buffer holds the selected bytes of the 514 that follow the token. -/
theorem runRead_token (cfg : Config) (sector ofs cnt : Nat) (w : World)
    (hW : 514 < 2 ^ cfg.WORD_BITS)
    (hs : w.rv.next_state = IoState.S1) (hi : w.Read.Status_fsm = FsmStatus.STAT_IDLE)
    (hsec : sector ≤ w.dev.last_sector) (hcnt : cnt ≠ 0)
    (hr1 : (SD_Send_Cmd CMD17 sector w.port).1 = 0)
    (htok : (tokenWait ((SD_Send_Cmd CMD17 sector w.port).2.budgets.head?.getD 0)
              (SD_Send_Cmd CMD17 sector w.port).2.miso).1 = 0xFE) :
    ∃ w1 : World,
      (∀ fuel, runRead cfg sector ofs cnt
          (fuel + ((tokenWait ((SD_Send_Cmd CMD17 sector w.port).2.budgets.head?.getD 0)
              (SD_Send_Cmd CMD17 sector w.port).2.miso).2 + 517)) w = some w1) ∧
      w1.Read.Status_fsm = FsmStatus.STAT_IDLE ∧ w1.Read.Start_fsm = 1 ∧
      w1.Read.ErrorCode_fsm = SDRESULTS.SD_OK ∧
      w1.buffer.length = w.buffer.length ∧
      (∀ i, w1.buffer[i]? =
        if i < min (514 - ofs) cnt ∧ i < w.buffer.length
        then some (((SD_Send_Cmd CMD17 sector w.port).2.miso.drop
          (tokenWait ((SD_Send_Cmd CMD17 sector w.port).2.budgets.head?.getD 0)
              (SD_Send_Cmd CMD17 sector w.port).2.miso).2)[ofs + i]?.getD 0xFF % 256)
        else w.buffer[i]?) ∧
      mosiOf w1.port.log = mosiOf (SD_Send_Cmd CMD17 sector w.port).2.log ++
        List.replicate ((tokenWait ((SD_Send_Cmd CMD17 sector w.port).2.budgets.head?.getD 0)
              (SD_Send_Cmd CMD17 sector w.port).2.miso).2 + 514) 0xFF := by
  have hstep1 := read_S1_sent cfg sector ofs cnt w hs hi hsec hcnt
  simp only [hr1, if_true] at hstep1
  generalize hp : SD_Send_Cmd CMD17 sector w.port = r at *
  set b := r.2.budgets.head?.getD 0 with hb
  set wA := SD_Read_FSM cfg sector ofs cnt w with hwA
  obtain ⟨wB, eB, rvB, rdB, bufB, devB, misoB, logB⟩ :=
    runRead_S2 cfg sector ofs cnt b wA (by rw [hstep1]) (by rw [hstep1])
      (by rw [hstep1]; simp [SPI_Timer_On, hb])
  have hmi : wA.port.miso = r.2.miso := by rw [hstep1]; rfl
  have hlg : mosiOf wA.port.log = mosiOf r.2.log := by
    rw [hstep1]; simp [SPI_Timer_On, mosiOf_append, mosiOf]
  rw [hmi] at eB rvB misoB logB
  rw [hlg] at logB
  set n := (tokenWait b r.2.miso).2 with hn
  have hBs : wB.rv.next_state = IoState.S3 := by rw [rvB]
  have hBt : wB.rv.tkn = 0xFE := by rw [rvB]; exact htok
  have hstep3 := read_S3_eq cfg sector ofs cnt wB hBs
  simp only [hBt, if_true] at hstep3
  set wC := SD_Read_FSM cfg sector ofs cnt wB with hwC
  have hCb : wC.Read.Status_fsm = FsmStatus.STAT_BUSY := by rw [hstep3, rdB, hstep1]
  have hinv : ReadS4Inv ofs cnt wC wC (514 - 514) := by
    refine ⟨by rw [hstep3], ?_, by simp, rfl, ?_, rfl, rfl, by simp, by rw [hstep3]; rfl, by simp⟩
    · rw [hstep3]; simp [rvB, hstep1]
    · intro i; simp
  obtain ⟨wD, eD, hD⟩ := runRead_S4 cfg sector ofs cnt hW wC hCb 514 wC (le_refl _) hinv
  obtain ⟨d1, d2, d3, d4, d5, d6, d7, d8, d9, d10⟩ := hD
  have hDs : wD.rv.next_state = IoState.S5 := by rw [d9]; simp
  have hbufC : wC.buffer = w.buffer := by rw [hstep3]; simp [bufB, hstep1]
  have hmisoC : wC.port.miso = r.2.miso.drop n := by rw [hstep3]; simp [SPI_Timer_Off, misoB]
  have hlogC : mosiOf wC.port.log = mosiOf r.2.log ++ List.replicate n 0xFF := by
    rw [hstep3]; simp [SPI_Timer_Off, mosiOf_append, mosiOf, logB]
  refine ⟨SD_Read_FSM_S5 cfg wD, ?_, rfl, rfl, ?_, ?_, ?_, ?_⟩
  · intro fuel
    have e1 : fuel + (n + 517) = (fuel + 516 + n) + 1 := by omega
    rw [e1, runRead_step _ _ _ _ _ _ (by rw [← hwA, hstep1])]
    have e2 : fuel + 516 + n = (fuel + 516) + n := rfl
    rw [e2, eB (fuel + 516)]
    have e3 : fuel + 516 = (fuel + 515) + 1 := by omega
    rw [e3, runRead_step _ _ _ _ _ _ (by rw [← hwC]; exact hCb)]
    have e4 : fuel + 515 = (fuel + 1) + 514 := by omega
    rw [e4, ← hwC, eD (fuel + 1)]
    exact runRead_S5 cfg sector ofs cnt fuel wD hDs
  · show wD.rv.res = _
    rw [d10]; simp
  · show wD.buffer.length = _
    rw [d4, hbufC]
  · intro i
    show wD.buffer[i]? = _
    rw [d5 i, hbufC, hmisoC]
  · show mosiOf (SPI_Release wD.port).log = _
    simp only [SPI_Release, mosiOf_append, mosiOf, d8, hlogC, List.append_nil,
      List.append_assoc, ← List.replicate_add]

theorem tokenWait_replicate (t : Nat) (ht : t % 256 ≠ 0xFF) (rest : List Nat) :
    ∀ (k b : Nat), k ≤ b →
      tokenWait b (List.replicate k 0xFF ++ t :: rest) = (t % 256, k + 1) := by
  intro k
  induction k with
  | zero =>
    intro b _
    cases b <;> simp [tokenWait, ht]
  | succ k ih =>
    intro b hb
    obtain ⟨b, rfl⟩ : ∃ c, b = c + 1 := ⟨b - 1, by omega⟩
    simp [tokenWait, List.replicate_succ, ih b (by omega)]

/-- The payload of a read that sees `k` bytes 0xFF, the token, 512 data bytes
and two CRC bytes after an accepted CMD17. -/
theorem runRead_payload (cfg : Config) (w : World) (sector ofs cnt k c1 c2 : Nat)
    (d rest : List Nat)
    (hW : 10 ≤ cfg.WORD_BITS)
    (hs : w.rv.next_state = IoState.S1) (hi : w.Read.Status_fsm = FsmStatus.STAT_IDLE)
    (hsec : sector ≤ w.dev.last_sector) (hcnt : 0 < cnt) (hrange : ofs + cnt ≤ 512)
    (hbuf : cnt ≤ w.buffer.length)
    (hr1 : (SD_Send_Cmd CMD17 sector w.port).1 = 0)
    (hstream : (SD_Send_Cmd CMD17 sector w.port).2.miso
      = List.replicate k 0xFF ++ 0xFE :: (d ++ c1 :: c2 :: rest))
    (htimer : k ≤ (SD_Send_Cmd CMD17 sector w.port).2.budgets.head?.getD 0)
    (hd : d.length = 512) (hbytes : ∀ x ∈ d, x < 256) :
    ∃ w1 : World,
      (∀ fuel, k + 518 ≤ fuel → runRead cfg sector ofs cnt fuel w = some w1) ∧
      w1.Read.Status_fsm = FsmStatus.STAT_IDLE ∧ w1.Read.Start_fsm = 1 ∧
      w1.Read.ErrorCode_fsm = SDRESULTS.SD_OK ∧
      w1.buffer.length = w.buffer.length ∧
      (∀ j, j < cnt → w1.buffer[j]? = d[ofs + j]?) ∧
      (∀ j, cnt ≤ j → w1.buffer[j]? = w.buffer[j]?) ∧
      (ofs = 0 → cnt = 512 → w.buffer.length = 512 → w1.buffer = d) := by
  have hW2 : 514 < 2 ^ cfg.WORD_BITS :=
    lt_of_lt_of_le (by norm_num) (Nat.pow_le_pow_right (by norm_num) hW)
  have htw := tokenWait_replicate 0xFE (by norm_num) (d ++ c1 :: c2 :: rest) k _ htimer
  rw [← hstream] at htw
  obtain ⟨w1, hrun, h1, h2, h3, h4, h5, _⟩ :=
    runRead_token cfg sector ofs cnt w hW2 hs hi hsec (by omega) hr1 (by rw [htw])
  rw [htw] at hrun h5
  simp only [hstream, List.drop_left' (List.length_replicate k 0xFF) ] at h5
  have hlow : ∀ j, j < cnt → w1.buffer[j]? = d[ofs + j]? := by
    intro j hj
    have hjd : ofs + j < d.length := by omega
    rw [h5 j, if_pos ⟨by omega, by omega⟩]
    have e : (List.replicate k 0xFF ++ 0xFE :: (d ++ c1 :: c2 :: rest)).drop (k + 1)
        = d ++ c1 :: c2 :: rest := by
      rw [← List.drop_drop]
      simp
    rw [e, List.getElem?_append_left hjd, List.getElem?_eq_getElem hjd]
    simp only [Option.getD_some]
    rw [Nat.mod_eq_of_lt (hbytes _ (List.getElem_mem _))]
  refine ⟨w1, ?_, h1, h2, h3, h4, hlow, ?_, ?_⟩
  · intro fuel hf
    have := hrun (fuel - (k + 518))
    rwa [show fuel - (k + 518) + (k + 1 + 517) = fuel by omega] at this
  · intro j hj
    rw [h5 j, if_neg (by omega)]
  · intro ho hc hl
    apply List.ext_getElem?
    intro j
    by_cases hj : j < cnt
    · rw [hlow j hj, ho, Nat.zero_add]
    · rw [h5 j, if_neg (by omega)]
      rw [List.getElem?_eq_none (by omega), List.getElem?_eq_none (by omega)]

/-- C1. Read delivers the sector payload: from the idle state `S1`, for a sector
in range, `cnt > 0` and `ofs + cnt ≤ 512`, when CMD17 returns R1 = 0 and the
card then sends `k` bytes 0xFF within the timer's budget, the token 0xFE, the
512 data bytes `d` and two CRC bytes, the run of `SD_Read_FSM` publishes OK
(after `k + 518` calls), `buf[j] = d[ofs + j]` for `j < cnt`, and no byte of
the buffer at an index `≥ cnt` is written; with `ofs = 0`, `cnt = 512` and a
512-byte buffer the buffer is `d`. -/
theorem read_delivers_payload (cfg : Config) (w : World) (sector ofs cnt k c1 c2 : Nat)
    (d rest : List Nat)
    (hW : 10 ≤ cfg.WORD_BITS)
    (hs : w.rv.next_state = IoState.S1) (hi : w.Read.Status_fsm = FsmStatus.STAT_IDLE)
    (hsec : sector ≤ w.dev.last_sector) (hcnt : 0 < cnt) (hrange : ofs + cnt ≤ 512)
    (hbuf : cnt ≤ w.buffer.length)
    (hr1 : (SD_Send_Cmd CMD17 sector w.port).1 = 0)
    (hstream : (SD_Send_Cmd CMD17 sector w.port).2.miso
      = List.replicate k 0xFF ++ 0xFE :: (d ++ c1 :: c2 :: rest))
    (htimer : k ≤ (SD_Send_Cmd CMD17 sector w.port).2.budgets.head?.getD 0)
    (hd : d.length = 512) (hbytes : ∀ x ∈ d, x < 256) :
    ∃ w1 : World,
      (∀ fuel, k + 518 ≤ fuel → runRead cfg sector ofs cnt fuel w = some w1) ∧
      w1.Read.Status_fsm = FsmStatus.STAT_IDLE ∧ w1.Read.Start_fsm = 1 ∧
      w1.Read.ErrorCode_fsm = SDRESULTS.SD_OK ∧
      w1.buffer.length = w.buffer.length ∧
      (∀ j, j < cnt → w1.buffer[j]? = d[ofs + j]?) ∧
      (∀ j, cnt ≤ j → w1.buffer[j]? = w.buffer[j]?) ∧
      (ofs = 0 → cnt = 512 → w.buffer.length = 512 → w1.buffer = d) :=
  runRead_payload cfg w sector ofs cnt k c1 c2 d rest hW hs hi hsec hcnt hrange hbuf hr1 hstream
    htimer hd hbytes

theorem read_delivers_payload_witness :
    ∃ w1 : World,
      (∀ fuel, 3 + 518 ≤ fuel → runRead demoCfg 0 0 512 fuel readDemoWorld = some w1) ∧
      w1.Read.Status_fsm = FsmStatus.STAT_IDLE ∧ w1.Read.Start_fsm = 1 ∧
      w1.Read.ErrorCode_fsm = SDRESULTS.SD_OK ∧
      w1.buffer.length = readDemoWorld.buffer.length ∧
      (∀ j, j < 512 → w1.buffer[j]? = payloadPattern[0 + j]?) ∧
      (∀ j, 512 ≤ j → w1.buffer[j]? = readDemoWorld.buffer[j]?) ∧
      (0 = 0 → 512 = 512 → readDemoWorld.buffer.length = 512 → w1.buffer = payloadPattern) :=
  read_delivers_payload demoCfg readDemoWorld 0 0 512 3 0x12 0x34 payloadPattern []
    (by decide) rfl rfl (by decide) (by decide) (by decide) (le_of_eq (List.length_replicate 512 0).symm)
    rfl rfl (by decide) (by simp [payloadPattern])
    (by intro x hx
        simp only [payloadPattern, List.mem_map] at hx
        obtain ⟨i, _, rfl⟩ := hx
        exact Nat.mod_lt _ (by norm_num))

/-! ## The Write machine, phase by phase -/

theorem runWrite_step (cfg : Config) (sector fuel : Nat) (w : World)
    (h : (SD_Write_FSM cfg sector w).Write.Status_fsm = FsmStatus.STAT_BUSY) :
    runWrite cfg sector (fuel + 1) w = runWrite cfg sector fuel (SD_Write_FSM cfg sector w) := by
  simp [runWrite, h]

theorem write_S2_eq (cfg : Config) (sector : Nat) (w : World)
    (hs : w.wv.next_state = IoState.S2) :
    SD_Write_FSM cfg sector w =
      { w with
          port := (SPI_RW (w.buffer.getD w.wv.idx 0) w.port).2,
          wv := { w.wv with idx := (w.wv.idx + 1) % 2 ^ cfg.WORD_BITS,
                            next_state := if (w.wv.idx + 1) % 2 ^ cfg.WORD_BITS ≠ 512
                                          then IoState.S2 else IoState.S3 } } := by
  simp only [SD_Write_FSM, hs, SD_Write_FSM_S2, SD_BLK_SIZE]
  by_cases h : (w.wv.idx + 1) % 2 ^ cfg.WORD_BITS = 512 <;> simp [h]

theorem runWrite_S2 (cfg : Config) (sector : Nat) (hW : 512 < 2 ^ cfg.WORD_BITS) :
    ∀ (m : Nat) (w : World), w.wv.next_state = IoState.S2 →
      w.Write.Status_fsm = FsmStatus.STAT_BUSY → w.wv.idx + (m + 1) = 512 →
      ∀ fuel, runWrite cfg sector (fuel + (m + 1)) w = runWrite cfg sector fuel
        { w with
            port := { w.port with
                        miso := w.port.miso.drop (m + 1),
                        log := w.port.log ++
                          (List.range' w.wv.idx (m + 1)).map
                            (fun i => Ev.rw (w.buffer.getD i 0 % 256)) },
            wv := { w.wv with idx := 512, next_state := IoState.S3 } } := by
  intro m
  induction m with
  | zero =>
    intro w hs hb hidx fuel
    have hmod : (w.wv.idx + 1) % 2 ^ cfg.WORD_BITS = 512 := by
      rw [Nat.mod_eq_of_lt (by omega)]; omega
    have hstep := write_S2_eq cfg sector w hs
    rw [hmod] at hstep
    rw [runWrite_step _ _ _ _ (by rw [hstep]; exact hb), hstep]
    congr 1
    simp [SPI_RW]
  | succ m ih =>
    intro w hs hb hidx fuel
    have hmod : (w.wv.idx + 1) % 2 ^ cfg.WORD_BITS = w.wv.idx + 1 := Nat.mod_eq_of_lt (by omega)
    have hstep := write_S2_eq cfg sector w hs
    rw [hmod, if_pos (by omega)] at hstep
    rw [← Nat.add_assoc, runWrite_step _ _ _ _ (by rw [hstep]; exact hb)]
    rw [ih (SD_Write_FSM cfg sector w) (by rw [hstep]) (by rw [hstep]; exact hb)
      (by rw [hstep]; show w.wv.idx + 1 + (m + 1) = 512; omega) fuel, hstep]
    congr 1
    simp [SPI_RW, List.range'_succ w.wv.idx (m + 1)]

theorem write_S4_more (cfg : Config) (sector b : Nat) (w : World)
    (hs : w.wv.next_state = IoState.S4) (ht : w.port.timer = some (b + 1))
    (hx : w.port.miso.head?.getD 0xFF % 256 = 0) :
    SD_Write_FSM cfg sector w
      = { w with port := { (SPI_RW 0xFF w.port).2 with
                             timer := some b,
                             log := (SPI_RW 0xFF w.port).2.log ++ [Ev.timerStatus] },
                 wv := { w.wv with line := 0, next_state := IoState.S4 } } := by
  simp only [SD_Write_FSM, hs, SD_Write_FSM_S4]
  rw [SPI_Timer_Status_succ _ b (by simpa using ht)]
  simp [hx]

theorem write_S4_expired (cfg : Config) (sector : Nat) (w : World)
    (hs : w.wv.next_state = IoState.S4) (ht : w.port.timer = some 0)
    (hx : w.port.miso.head?.getD 0xFF % 256 = 0) :
    SD_Write_FSM cfg sector w
      = { w with port := { (SPI_RW 0xFF w.port).2 with
                             log := (SPI_RW 0xFF w.port).2.log ++ [Ev.timerStatus] },
                 wv := { w.wv with line := 0, next_state := IoState.S5 } } := by
  simp only [SD_Write_FSM, hs, SD_Write_FSM_S4]
  rw [SPI_Timer_Status_zero _ (by simpa using ht)]
  simp [hx]

theorem write_S4_done (cfg : Config) (sector : Nat) (w : World)
    (hs : w.wv.next_state = IoState.S4)
    (hx : w.port.miso.head?.getD 0xFF % 256 ≠ 0) :
    SD_Write_FSM cfg sector w
      = { w with port := (SPI_RW 0xFF w.port).2,
                 wv := { w.wv with line := w.port.miso.head?.getD 0xFF % 256,
                                   next_state := IoState.S5 } } := by
  simp only [SD_Write_FSM, hs, SD_Write_FSM_S4]
  simp [hx]

theorem runWrite_S4 (cfg : Config) (sector : Nat) (b : Nat) :
    ∀ (w : World), w.wv.next_state = IoState.S4 →
      w.Write.Status_fsm = FsmStatus.STAT_BUSY → w.port.timer = some b →
      ∃ w1 : World,
        (∀ fuel, runWrite cfg sector (fuel + (busyWait b w.port.miso).2) w
          = runWrite cfg sector fuel w1) ∧
        w1.wv = { w.wv with line := (busyWait b w.port.miso).1, next_state := IoState.S5 } ∧
        w1.Write = w.Write ∧ w1.buffer = w.buffer ∧ w1.dev = w.dev ∧
        w1.port.miso = w.port.miso.drop (busyWait b w.port.miso).2 ∧
        mosiOf w1.port.log
          = mosiOf w.port.log ++ List.replicate (busyWait b w.port.miso).2 0xFF := by
  induction b with
  | zero =>
    intro w hs hb ht
    refine ⟨SD_Write_FSM cfg sector w, ?_, ?_⟩
    · intro fuel
      simp only [busyWait]
      apply runWrite_step
      by_cases hx : w.port.miso.head?.getD 0xFF % 256 = 0
      · rw [write_S4_expired _ _ _ hs ht hx]; exact hb
      · rw [write_S4_done _ _ _ hs hx]; exact hb
    · by_cases hx : w.port.miso.head?.getD 0xFF % 256 = 0
      · rw [write_S4_expired _ _ _ hs ht hx]
        simp [busyWait, hx, mosiOf_append, mosiOf]
      · rw [write_S4_done _ _ _ hs hx]
        simp [busyWait, hx, mosiOf_append, mosiOf]
  | succ b ih =>
    intro w hs hb ht
    by_cases hx : w.port.miso.head?.getD 0xFF % 256 = 0
    · have hstep := write_S4_more cfg sector b w hs ht hx
      obtain ⟨w1, h1, h2, h3, h4, h5, h6, h7⟩ :=
        ih (SD_Write_FSM cfg sector w) (by rw [hstep]) (by rw [hstep]; exact hb)
          (by rw [hstep])
      refine ⟨w1, ?_, ?_, ?_, ?_, ?_, ?_, ?_⟩
      · intro fuel
        simp only [busyWait, hx, if_true]
        rw [← Nat.add_assoc, runWrite_step _ _ _ _ (by rw [hstep]; exact hb)]
        have := h1 fuel
        rw [hstep] at this ⊢
        exact this
      · rw [h2, hstep]; simp [busyWait, hx]
      · rw [h3, hstep]
      · rw [h4, hstep]
      · rw [h5, hstep]
      · rw [h6, hstep]; simp [busyWait, hx]
      · rw [h7, hstep]
        simp [busyWait, hx, mosiOf_append, mosiOf, List.replicate_succ]
    · refine ⟨SD_Write_FSM cfg sector w, ?_, ?_⟩
      · intro fuel
        simp only [busyWait, hx, if_false]
        apply runWrite_step
        rw [write_S4_done _ _ _ hs hx]; exact hb
      · rw [write_S4_done _ _ _ hs hx]
        simp [busyWait, hx, mosiOf_append, mosiOf]

theorem write_S1_sent (cfg : Config) (sector : Nat) (w : World)
    (hs : w.wv.next_state = IoState.S1) (hi : w.Write.Status_fsm = FsmStatus.STAT_IDLE)
    (hsec : sector ≤ w.dev.last_sector) (hr1 : (SD_Send_Cmd CMD24 sector w.port).1 = 0) :
    SD_Write_FSM cfg sector w =
      { w with
          port := (SPI_RW 0xFE (SD_Send_Cmd CMD24 sector w.port).2).2,
          wv := { w.wv with next_state := IoState.S2, idx := 0 },
          Write := { w.Write with Status_fsm := FsmStatus.STAT_BUSY } } := by
  have h1 : ¬ (sector > w.dev.last_sector) := by omega
  simp only [SD_Write_FSM, hs, hi, if_true, SD_Write_FSM_S1, h1, if_false, hr1]

theorem write_S1_failed (cfg : Config) (sector : Nat) (w : World)
    (hs : w.wv.next_state = IoState.S1) (hi : w.Write.Status_fsm = FsmStatus.STAT_IDLE)
    (hsec : sector ≤ w.dev.last_sector) (hr1 : (SD_Send_Cmd CMD24 sector w.port).1 ≠ 0) :
    SD_Write_FSM cfg sector w =
      { w with
          port := (SD_Send_Cmd CMD24 sector w.port).2,
          wv := { w.wv with next_state := IoState.S1 },
          Write := { w.Write with Start_fsm := 1, Status_fsm := FsmStatus.STAT_IDLE,
                                  ErrorCode_fsm := SDRESULTS.SD_ERROR } } := by
  have h1 : ¬ (sector > w.dev.last_sector) := by omega
  simp only [SD_Write_FSM, hs, hi, if_true, SD_Write_FSM_S1, h1, if_false, hr1]

theorem write_S3_reject (cfg : Config) (sector : Nat) (w : World)
    (hs : w.wv.next_state = IoState.S3)
    (hr : w.port.miso[2]?.getD 0xFF % 256 &&& 0x1F ≠ 0x05) :
    SD_Write_FSM cfg sector w =
      { w with
          port := { w.port with miso := w.port.miso.drop 3,
                                log := w.port.log ++ [Ev.rw 0xFF, Ev.rw 0xFF, Ev.rw 0xFF] },
          wv := { w.wv with next_state := IoState.S1 },
          Write := { w.Write with Start_fsm := 1, ErrorCode_fsm := SDRESULTS.SD_REJECT,
                                  Status_fsm := FsmStatus.STAT_IDLE } } := by
  simp only [SD_Write_FSM, hs, SD_Write_FSM_S3]
  simp [SPI_RW, hr, ← List.tail_drop]

theorem write_S3_accept (cfg : Config) (sector : Nat) (w : World)
    (hs : w.wv.next_state = IoState.S3)
    (hr : w.port.miso[2]?.getD 0xFF % 256 &&& 0x1F = 0x05) :
    SD_Write_FSM cfg sector w =
      { w with
          port := { w.port with miso := w.port.miso.drop 3,
                                timer := some (w.port.budgets.head?.getD 0),
                                budgets := w.port.budgets.tail,
                                log := w.port.log ++ [Ev.rw 0xFF, Ev.rw 0xFF, Ev.rw 0xFF,
                                  Ev.timerOn cfg.SD_IO_WRITE_TIMEOUT_WAIT] },
          wv := { w.wv with next_state := IoState.S4 } } := by
  simp only [SD_Write_FSM, hs, SD_Write_FSM_S3]
  simp [SPI_RW, SPI_Timer_On, hr, ← List.tail_drop]

theorem SD_Write_FSM_S5_eq (cfg : Config) (w : World) :
    SD_Write_FSM_S5 cfg w =
      { w with
          port := SPI_Timer_Off w.port,
          dev := { w.dev with debug_write := (w.dev.debug_write + 1) % 2 ^ cfg.DBG_BITS },
          wv := { w.wv with next_state := IoState.S1 },
          Write := { w.Write with Status_fsm := FsmStatus.STAT_IDLE,
                                  ErrorCode_fsm := if w.wv.line = 0 then SDRESULTS.SD_BUSY
                                                   else SDRESULTS.SD_OK,
                                  Start_fsm := 1 } } := by
  unfold SD_Write_FSM_S5
  by_cases h : w.wv.line = 0 <;> simp [h]

theorem runWrite_S5 (cfg : Config) (sector fuel : Nat) (w : World)
    (hs : w.wv.next_state = IoState.S5) :
    runWrite cfg sector (fuel + 1) w = some (SD_Write_FSM_S5 cfg w) := by
  have h : SD_Write_FSM cfg sector w = SD_Write_FSM_S5 cfg w := by
    simp only [SD_Write_FSM, hs]
  simp only [runWrite, h]
  rw [SD_Write_FSM_S5_eq]
  simp

/-- A write whose command is accepted: the run publishes after 514 calls with
REJECT when the data response is not "accepted", and otherwise after the busy
poll with BUSY or OK according to the byte that ended the poll; the bytes sent
are the token, the buffer, and then only 0xFF. -/
theorem runWrite_sent (cfg : Config) (sector : Nat) (w : World)
    (hW : 512 < 2 ^ cfg.WORD_BITS)
    (hs : w.wv.next_state = IoState.S1) (hi : w.Write.Status_fsm = FsmStatus.STAT_IDLE)
    (hsec : sector ≤ w.dev.last_sector) (hr1 : (SD_Send_Cmd CMD24 sector w.port).1 = 0) :
    ∃ w1 : World,
      (∀ fuel, runWrite cfg sector
          (fuel + (if writeResponse (SD_Send_Cmd CMD24 sector w.port).2 &&& 0x1F ≠ 0x05 then 514
                   else 515 + (writeBusy (SD_Send_Cmd CMD24 sector w.port).2).2)) w = some w1) ∧
      w1.Write.Status_fsm = FsmStatus.STAT_IDLE ∧ w1.Write.Start_fsm = 1 ∧
      w1.Write.ErrorCode_fsm =
        (if writeResponse (SD_Send_Cmd CMD24 sector w.port).2 &&& 0x1F ≠ 0x05
         then SDRESULTS.SD_REJECT
         else if (writeBusy (SD_Send_Cmd CMD24 sector w.port).2).1 = 0 then SDRESULTS.SD_BUSY
         else SDRESULTS.SD_OK) ∧
      w1.buffer = w.buffer ∧
      mosiOf w1.port.log = mosiOf (SD_Send_Cmd CMD24 sector w.port).2.log ++
        0xFE :: ((List.range' 0 512).map (fun i => w.buffer.getD i 0 % 256) ++
          List.replicate
            (if writeResponse (SD_Send_Cmd CMD24 sector w.port).2 &&& 0x1F ≠ 0x05 then 3
             else 3 + (writeBusy (SD_Send_Cmd CMD24 sector w.port).2).2) 0xFF) ∧
      runWrite cfg sector
          (if writeResponse (SD_Send_Cmd CMD24 sector w.port).2 &&& 0x1F ≠ 0x05 then 513
           else 514 + (writeBusy (SD_Send_Cmd CMD24 sector w.port).2).2) w = none := by
  have hstep1 := write_S1_sent cfg sector w hs hi hsec hr1
  generalize hp : SD_Send_Cmd CMD24 sector w.port = r at *
  set wA := SD_Write_FSM cfg sector w with hwA
  have hAb : wA.Write.Status_fsm = FsmStatus.STAT_BUSY := by rw [hstep1]
  have hA2 := runWrite_S2 cfg sector hW 511 wA (by rw [hstep1]) hAb (by rw [hstep1])
  set wB : World := { wA with
      port := { wA.port with
                  miso := wA.port.miso.drop (511 + 1),
                  log := wA.port.log ++
                    (List.range' wA.wv.idx (511 + 1)).map
                      (fun i => Ev.rw (wA.buffer.getD i 0 % 256)) },
      wv := { wA.wv with idx := 512, next_state := IoState.S3 } } with hwB
  have hBs : wB.wv.next_state = IoState.S3 := rfl
  have hBmiso : wB.port.miso = r.2.miso.drop 513 := by
    show wA.port.miso.drop (511 + 1) = _
    rw [hstep1]
    show List.drop 512 r.2.miso.tail = List.drop 513 r.2.miso
    cases r.2.miso with
    | nil => rfl
    | cons a l => rfl
  have hAlog : wA.port.log = r.2.log ++ [Ev.rw 0xFE] := by rw [hstep1]; rfl
  have hAidx : wA.wv.idx = 0 := by rw [hstep1]
  have hAbuf : wA.buffer = w.buffer := by rw [hstep1]
  have hBlog : mosiOf wB.port.log = mosiOf r.2.log ++
      0xFE :: (List.range' 0 512).map (fun i => w.buffer.getD i 0 % 256) := by
    show mosiOf (wA.port.log ++ (List.range' wA.wv.idx (511 + 1)).map
      (fun i => Ev.rw (wA.buffer.getD i 0 % 256))) = _
    rw [hAlog, hAidx, hAbuf, mosiOf_append, mosiOf_append, mosiOf_map_rw, List.append_assoc]
    rfl
  have hBresp : wB.port.miso[2]?.getD 0xFF % 256 = writeResponse r.2 := by
    rw [hBmiso, List.getElem?_drop]
    rfl
  have hBbuf : wB.buffer = w.buffer := by
    show wA.buffer = _
    rw [hstep1]
  have hBb : wB.Write.Status_fsm = FsmStatus.STAT_BUSY := hAb
  by_cases hrej : writeResponse r.2 &&& 0x1F ≠ 0x05
  · have hstep3 := write_S3_reject cfg sector wB hBs (by rw [hBresp]; exact hrej)
    refine ⟨SD_Write_FSM cfg sector wB, ?_, by rw [hstep3], by rw [hstep3], ?_, ?_, ?_, ?_⟩
    · intro fuel
      simp only [if_pos hrej]
      rw [show fuel + 514 = (fuel + 513) + 1 by omega, runWrite_step _ _ _ _ hAb]
      rw [show fuel + 513 = (fuel + 1) + (511 + 1) by omega, hA2 (fuel + 1)]
      simp only [runWrite]
      rw [if_pos (by rw [hstep3]; exact ⟨rfl, rfl⟩)]
    · rw [hstep3, if_pos hrej]
    · rw [hstep3]; exact hBbuf
    · rw [hstep3, if_pos hrej]
      show mosiOf (wB.port.log ++ _) = _
      rw [mosiOf_append, hBlog]
      simp [mosiOf]
    · simp only [if_pos hrej]
      rw [show 513 = 512 + 1 from rfl, runWrite_step _ _ _ _ hAb]
      rw [show 512 = 0 + (511 + 1) from rfl, hA2 0]
      rfl
  · have hacc : writeResponse r.2 &&& 0x1F = 0x05 := not_not.mp hrej
    have hstep3 := write_S3_accept cfg sector wB hBs (by rw [hBresp]; exact hacc)
    set wC := SD_Write_FSM cfg sector wB with hwC
    have hCb : wC.Write.Status_fsm = FsmStatus.STAT_BUSY := by rw [hstep3]; exact hBb
    have hbud : wB.port.budgets = r.2.budgets := by
      show wA.port.budgets = _
      rw [hstep1]; rfl
    have hCmiso : wC.port.miso = r.2.miso.drop 516 := by
      rw [hstep3]
      show wB.port.miso.drop 3 = _
      rw [hBmiso, List.drop_drop]
    obtain ⟨wD, eD, wvD, wrD, bufD, _, _, logD⟩ :=
      runWrite_S4 cfg sector (r.2.budgets.head?.getD 0) wC (by rw [hstep3]) hCb
        (by rw [hstep3]; show some _ = some _; rw [hbud])
    rw [hCmiso] at eD wvD logD
    have hbw : busyWait (r.2.budgets.head?.getD 0) (r.2.miso.drop 516) = writeBusy r.2 := rfl
    rw [hbw] at eD wvD logD
    have hDs : wD.wv.next_state = IoState.S5 := by rw [wvD]
    refine ⟨SD_Write_FSM_S5 cfg wD, ?_, ?_, ?_, ?_, ?_, ?_, ?_⟩
    · intro fuel
      simp only [if_neg hrej]
      rw [show fuel + (515 + (writeBusy r.2).2) = (fuel + (writeBusy r.2).2 + 514) + 1 by omega,
        runWrite_step _ _ _ _ hAb]
      rw [show fuel + (writeBusy r.2).2 + 514 = (fuel + (writeBusy r.2).2 + 2) + (511 + 1) by omega,
        hA2 (fuel + (writeBusy r.2).2 + 2)]
      rw [show fuel + (writeBusy r.2).2 + 2 = (fuel + 1 + (writeBusy r.2).2) + 1 by omega,
        runWrite_step _ _ _ _ hCb, eD (fuel + 1)]
      exact runWrite_S5 cfg sector fuel wD hDs
    · rw [SD_Write_FSM_S5_eq]
    · rw [SD_Write_FSM_S5_eq]
    · rw [SD_Write_FSM_S5_eq, if_neg hrej]
      show (if wD.wv.line = 0 then _ else _) = _
      rw [wvD]
    · rw [SD_Write_FSM_S5_eq]
      show wD.buffer = _
      rw [bufD, hstep3]
      exact hBbuf
    · rw [SD_Write_FSM_S5_eq, if_neg hrej]
      show mosiOf (SPI_Timer_Off wD.port).log = _
      simp only [SPI_Timer_Off, mosiOf_append, mosiOf, List.append_nil, logD]
      rw [hstep3]
      show mosiOf (wB.port.log ++ _) ++ _ = _
      rw [mosiOf_append, hBlog]
      simp [mosiOf, List.replicate_add]
    · simp only [if_neg hrej]
      rw [show 514 + (writeBusy r.2).2 = ((writeBusy r.2).2 + 513) + 1 by omega,
        runWrite_step _ _ _ _ hAb]
      rw [show (writeBusy r.2).2 + 513 = ((writeBusy r.2).2 + 1) + (511 + 1) by omega,
        hA2 ((writeBusy r.2).2 + 1)]
      rw [runWrite_step _ _ _ _ hCb]
      have := eD 0
      rw [Nat.zero_add] at this
      rw [this]
      rfl

theorem map_getD_range (l : List Nat) (hb : ∀ x ∈ l, x < 256) :
    (List.range' 0 l.length).map (fun i => l.getD i 0 % 256) = l := by
  apply List.ext_getElem
  · simp
  · intro i h1 h2
    simp only [List.getElem_map, List.getElem_range', Nat.zero_add, Nat.one_mul]
    rw [List.getD_eq_getElem _ _ h2]
    exact Nat.mod_eq_of_lt (hb _ (List.getElem_mem _))

/-- C2. Write puts the block on the wire in single-block framing: from the
idle state `S1`, for a sector in range and a 512-byte buffer, when CMD24
returns R1 = 0 the run of `SD_Write_FSM` publishes, and the bytes sent after
the command are the token 0xFE, the buffer in index order, two CRC bytes 0xFF,
and then `m ≥ 1` bytes 0xFF (one for the data response, the rest busy polls);
the buffer is unchanged. -/
theorem write_wire_framing (cfg : Config) (w : World) (sector : Nat)
    (hW : 10 ≤ cfg.WORD_BITS)
    (hs : w.wv.next_state = IoState.S1) (hi : w.Write.Status_fsm = FsmStatus.STAT_IDLE)
    (hsec : sector ≤ w.dev.last_sector)
    (hlen : w.buffer.length = 512) (hbytes : ∀ x ∈ w.buffer, x < 256)
    (hr1 : (SD_Send_Cmd CMD24 sector w.port).1 = 0) :
    ∃ (w1 : World) (n m : Nat),
      (∀ fuel, n ≤ fuel → runWrite cfg sector fuel w = some w1) ∧
      w1.Write.Status_fsm = FsmStatus.STAT_IDLE ∧ w1.Write.Start_fsm = 1 ∧
      m = (if writeResponse (SD_Send_Cmd CMD24 sector w.port).2 &&& 0x1F ≠ 0x05 then 1
           else 1 + (writeBusy (SD_Send_Cmd CMD24 sector w.port).2).2) ∧
      1 ≤ m ∧
      mosiOf w1.port.log = mosiOf (SD_Send_Cmd CMD24 sector w.port).2.log ++
        0xFE :: (w.buffer ++ 0xFF :: 0xFF :: List.replicate m 0xFF) ∧
      w1.buffer = w.buffer := by
  have hW2 : 512 < 2 ^ cfg.WORD_BITS :=
    lt_of_lt_of_le (by norm_num) (Nat.pow_le_pow_right (by norm_num) hW)
  obtain ⟨w1, hrun, h1, h2, _, h4, h5, _⟩ := runWrite_sent cfg sector w hW2 hs hi hsec hr1
  have hmap := map_getD_range w.buffer hbytes
  rw [hlen] at hmap
  rw [hmap] at h5
  refine ⟨w1, (if writeResponse (SD_Send_Cmd CMD24 sector w.port).2 &&& 0x1F ≠ 0x05 then 514
      else 515 + (writeBusy (SD_Send_Cmd CMD24 sector w.port).2).2), _, ?_, h1, h2, rfl, ?_, ?_, h4⟩
  · intro fuel hf
    have := hrun (fuel - (if writeResponse (SD_Send_Cmd CMD24 sector w.port).2 &&& 0x1F ≠ 0x05
      then 514 else 515 + (writeBusy (SD_Send_Cmd CMD24 sector w.port).2).2))
    rwa [Nat.sub_add_cancel hf] at this
  · split_ifs <;> omega
  · rw [h5]
    by_cases hrej : writeResponse (SD_Send_Cmd CMD24 sector w.port).2 &&& 0x1F ≠ 0x05
    · simp only [if_pos hrej]
      rfl
    · simp only [if_neg hrej]
      rw [Nat.add_comm 3, Nat.add_comm 1]
      rfl

theorem write_wire_framing_witness :
    ∃ (w1 : World) (n m : Nat),
      (∀ fuel, n ≤ fuel → runWrite demoCfg 7 fuel writeDemoWorld = some w1) ∧
      w1.Write.Status_fsm = FsmStatus.STAT_IDLE ∧ w1.Write.Start_fsm = 1 ∧
      m = (if writeResponse (SD_Send_Cmd CMD24 7 writeDemoWorld.port).2 &&& 0x1F ≠ 0x05 then 1
           else 1 + (writeBusy (SD_Send_Cmd CMD24 7 writeDemoWorld.port).2).2) ∧
      1 ≤ m ∧
      mosiOf w1.port.log = mosiOf (SD_Send_Cmd CMD24 7 writeDemoWorld.port).2.log ++
        0xFE :: (writeDemoWorld.buffer ++ 0xFF :: 0xFF :: List.replicate m 0xFF) ∧
      w1.buffer = writeDemoWorld.buffer :=
  write_wire_framing demoCfg writeDemoWorld 7 (by decide) rfl rfl (by decide)
    (by simp only [writeDemoWorld, bootWorld, demoBuffer, List.length_append,
          List.length_replicate, List.length_cons, List.length_nil])
    (by intro x hx
        simp only [writeDemoWorld, bootWorld, demoBuffer, List.mem_append, List.mem_cons,
          List.mem_replicate, List.mem_singleton, List.not_mem_nil, or_false] at hx
        omega)
    rfl

/-! ## Frame and determinism facts for the Write machine -/

theorem SD_Write_FSM_frame (cfg : Config) (sector : Nat) (w : World) :
    (SD_Write_FSM cfg sector w).rv = w.rv ∧ (SD_Write_FSM cfg sector w).Read = w.Read ∧
    (SD_Write_FSM cfg sector w).buffer = w.buffer ∧
    (SD_Write_FSM cfg sector w).dev.last_sector = w.dev.last_sector := by
  unfold SD_Write_FSM
  split
  · split
    · unfold SD_Write_FSM_S1
      dsimp only
      split_ifs <;> exact ⟨rfl, rfl, rfl, rfl⟩
    · unfold SD_Write_FSM_S2
      dsimp only
      split_ifs <;> exact ⟨rfl, rfl, rfl, rfl⟩
  · unfold SD_Write_FSM_S2
    dsimp only
    split_ifs <;> exact ⟨rfl, rfl, rfl, rfl⟩
  · unfold SD_Write_FSM_S3
    dsimp only
    split_ifs <;> exact ⟨rfl, rfl, rfl, rfl⟩
  · unfold SD_Write_FSM_S4
    dsimp only
    split_ifs <;> exact ⟨rfl, rfl, rfl, rfl⟩
  · rw [SD_Write_FSM_S5_eq]
    exact ⟨rfl, rfl, rfl, rfl⟩

theorem runWrite_frame (cfg : Config) (sector : Nat) :
    ∀ (n : Nat) (w w1 : World), runWrite cfg sector n w = some w1 →
      w1.rv = w.rv ∧ w1.Read = w.Read ∧ w1.buffer = w.buffer ∧
      w1.dev.last_sector = w.dev.last_sector := by
  intro n
  induction n with
  | zero => intro w w1 h; simp [runWrite] at h
  | succ n ih =>
    intro w w1 h
    obtain ⟨f1, f2, f3, f4⟩ := SD_Write_FSM_frame cfg sector w
    simp only [runWrite] at h
    split_ifs at h
    · cases h
      exact ⟨f1, f2, f3, f4⟩
    · obtain ⟨g1, g2, g3, g4⟩ := ih _ _ h
      exact ⟨g1.trans f1, g2.trans f2, g3.trans f3, g4.trans f4⟩

theorem runWrite_mono (cfg : Config) (sector : Nat) :
    ∀ (n : Nat) (w a : World), runWrite cfg sector n w = some a →
      ∀ m, n ≤ m → runWrite cfg sector m w = some a := by
  intro n
  induction n with
  | zero => intro w a h; simp [runWrite] at h
  | succ n ih =>
    intro w a h m hm
    obtain ⟨m, rfl⟩ : ∃ c, m = c + 1 := ⟨m - 1, by omega⟩
    simp only [runWrite] at h ⊢
    split_ifs at h ⊢ with hp
    · exact h
    · exact ih _ _ h m (by omega)

theorem runWrite_det (cfg : Config) (sector n m : Nat) (w a b : World)
    (ha : runWrite cfg sector n w = some a) (hb : runWrite cfg sector m w = some b) : a = b := by
  have h1 := runWrite_mono cfg sector n w a ha (max n m) (le_max_left _ _)
  have h2 := runWrite_mono cfg sector m w b hb (max n m) (le_max_right _ _)
  rw [h1] at h2
  exact Option.some.inj h2

theorem idealStore_framed (pre buf tail : List Nat) (hlen : buf.length = 512) :
    idealStore ((pre ++ 0xFE :: (buf ++ tail)).drop pre.length) = buf := by
  rw [List.drop_left]
  unfold idealStore
  simp only [List.dropWhile_cons, bne_self_eq_false, Bool.false_eq_true, if_false,
    List.drop_succ_cons, List.drop_zero]
  rw [← hlen, List.take_left]

/-- What the ideal card has stored when a write run has ended: the buffer. -/
theorem runWrite_stored (cfg : Config) (sector : Nat) (w : World)
    (hW : 512 < 2 ^ cfg.WORD_BITS)
    (hs : w.wv.next_state = IoState.S1) (hi : w.Write.Status_fsm = FsmStatus.STAT_IDLE)
    (hsec : sector ≤ w.dev.last_sector)
    (hlen : w.buffer.length = 512) (hbytes : ∀ x ∈ w.buffer, x < 256)
    (hr1 : (SD_Send_Cmd CMD24 sector w.port).1 = 0)
    (n : Nat) (w2 : World) (hrun : runWrite cfg sector n w = some w2) :
    idealStore ((mosiOf w2.port.log).drop
      (mosiOf (SD_Send_Cmd CMD24 sector w.port).2.log).length) = w.buffer := by
  obtain ⟨w1, hrun1, _, _, _, _, p5, _⟩ := runWrite_sent cfg sector w hW hs hi hsec hr1
  have e := runWrite_det cfg sector _ _ w _ _ (hrun1 0) hrun
  subst e
  have hmap := map_getD_range w.buffer hbytes
  rw [hlen] at hmap
  rw [hmap] at p5
  rw [p5, idealStore_framed _ _ _ hlen]

/-- C3. Write followed by read of the same sector is a round trip. The card is
ideal: it accepts CMD24 (R1 = 0), answers the data with "accepted" and ends the
busy poll with a non-zero byte, and, once the write has completed, answers
CMD17 with R1 = 0, `k` bytes 0xFF within the timer's budget, the token, the
512 bytes it stored (`idealStore` of what it was sent after CMD24) and two CRC
bytes. Then for a sector in range and a 512-byte buffer, the Write run
publishes OK, the Read run (`ofs = 0`, `cnt = 512`, into a buffer that the
client may have overwritten with any `out0`) publishes OK, and the buffer read
back equals the buffer written. -/
theorem write_read_round_trip (cfg : Config) (w : World) (sector k c1 c2 : Nat)
    (out0 rest : List Nat)
    (hW : 10 ≤ cfg.WORD_BITS)
    (hsW : w.wv.next_state = IoState.S1) (hiW : w.Write.Status_fsm = FsmStatus.STAT_IDLE)
    (hsR : w.rv.next_state = IoState.S1) (hiR : w.Read.Status_fsm = FsmStatus.STAT_IDLE)
    (hsec : sector ≤ w.dev.last_sector)
    (hlen : w.buffer.length = 512) (hbytes : ∀ x ∈ w.buffer, x < 256)
    (hout : out0.length = 512)
    (hw1 : (SD_Send_Cmd CMD24 sector w.port).1 = 0)
    (hw2 : writeResponse (SD_Send_Cmd CMD24 sector w.port).2 &&& 0x1F = 0x05)
    (hw3 : (writeBusy (SD_Send_Cmd CMD24 sector w.port).2).1 ≠ 0)
    (hcard : ∀ n w2, runWrite cfg sector n w = some w2 →
      (SD_Send_Cmd CMD17 sector w2.port).1 = 0 ∧
      (SD_Send_Cmd CMD17 sector w2.port).2.miso =
        List.replicate k 0xFF ++ 0xFE ::
          (idealStore ((mosiOf w2.port.log).drop
              (mosiOf (SD_Send_Cmd CMD24 sector w.port).2.log).length) ++ c1 :: c2 :: rest) ∧
      k ≤ (SD_Send_Cmd CMD17 sector w2.port).2.budgets.head?.getD 0) :
    ∃ (w2 w3 : World),
      (∀ fuel, 515 + (writeBusy (SD_Send_Cmd CMD24 sector w.port).2).2 ≤ fuel →
        runWrite cfg sector fuel w = some w2) ∧
      w2.Write.Status_fsm = FsmStatus.STAT_IDLE ∧ w2.Write.Start_fsm = 1 ∧
      w2.Write.ErrorCode_fsm = SDRESULTS.SD_OK ∧
      (∀ fuel, k + 518 ≤ fuel →
        runRead cfg sector 0 512 fuel { w2 with buffer := out0 } = some w3) ∧
      w3.Read.Status_fsm = FsmStatus.STAT_IDLE ∧ w3.Read.Start_fsm = 1 ∧
      w3.Read.ErrorCode_fsm = SDRESULTS.SD_OK ∧
      w3.buffer = w.buffer := by
  have hW2 : 512 < 2 ^ cfg.WORD_BITS :=
    lt_of_lt_of_le (by norm_num) (Nat.pow_le_pow_right (by norm_num) hW)
  obtain ⟨w2, hrun, p1, p2, p3, p4, p5, _⟩ := runWrite_sent cfg sector w hW2 hsW hiW hsec hw1
  have hnr : ¬ (writeResponse (SD_Send_Cmd CMD24 sector w.port).2 &&& 0x1F ≠ 0x05) :=
    not_not.mpr hw2
  simp only [if_neg hnr, if_neg hw3] at hrun p3 p5
  have hmap := map_getD_range w.buffer hbytes
  rw [hlen] at hmap
  rw [hmap] at p5
  have hrun0 := hrun 0
  rw [Nat.zero_add] at hrun0
  obtain ⟨f1, f2, _, f4⟩ := runWrite_frame cfg sector _ w w2 hrun0
  obtain ⟨c1r, c2r, c3r⟩ := hcard _ w2 hrun0
  rw [p5, idealStore_framed _ _ _ hlen] at c2r
  obtain ⟨w3, r1, r2, r3, r4, _, _, _, r8⟩ :=
    runRead_payload cfg { w2 with buffer := out0 } sector 0 512 k c1 c2 w.buffer rest hW
      (by show w2.rv.next_state = _; rw [f1]; exact hsR)
      (by show w2.Read.Status_fsm = _; rw [f2]; exact hiR)
      (by show sector ≤ w2.dev.last_sector; rw [f4]; exact hsec)
      (by norm_num) (by norm_num) (by show 512 ≤ out0.length; omega) c1r c2r c3r hlen hbytes
  refine ⟨w2, w3, ?_, p1, p2, p3, r1, r2, r3, r4, r8 rfl rfl hout⟩
  intro fuel hf
  have := hrun (fuel - (515 + (writeBusy (SD_Send_Cmd CMD24 sector w.port).2).2))
  rwa [Nat.sub_add_cancel hf] at this

set_option maxRecDepth 100000 in
set_option maxHeartbeats 4000000 in
theorem write_read_round_trip_witness :
    ∃ (w2 w3 : World),
      (∀ fuel, 518 ≤ fuel → runWrite demoCfg 7 fuel writeDemoWorld = some w2) ∧
      w2.Write.ErrorCode_fsm = SDRESULTS.SD_OK ∧
      (∀ fuel, 1 + 518 ≤ fuel →
        runRead demoCfg 7 0 512 fuel { w2 with buffer := List.replicate 512 0 } = some w3) ∧
      w3.Read.ErrorCode_fsm = SDRESULTS.SD_OK ∧
      w3.buffer = demoBuffer ∧ w3.buffer.sum = 0x0569 := by
  have h600 : runWrite demoCfg 7 600 writeDemoWorld = some writeDemoDone := rfl
  have hlen : writeDemoWorld.buffer.length = 512 := by
    simp only [writeDemoWorld, bootWorld, demoBuffer, List.length_append,
      List.length_replicate, List.length_cons, List.length_nil]
  have hbytes : ∀ x ∈ writeDemoWorld.buffer, x < 256 := by
    intro x hx
    simp only [writeDemoWorld, bootWorld, demoBuffer, List.mem_append, List.mem_cons,
      List.mem_replicate, List.mem_singleton, List.not_mem_nil, or_false] at hx
    omega
  obtain ⟨w2, w3, a1, _, _, a4, a5, _, _, a8, a9⟩ :=
    write_read_round_trip demoCfg writeDemoWorld 7 1 0xAA 0xBB (List.replicate 512 0) []
      (by decide) rfl rfl rfl rfl (by decide) hlen hbytes
      (List.length_replicate 512 0) rfl rfl (ne_of_beq_false rfl)
      (fun n v h => by
        have hst := runWrite_stored demoCfg 7 writeDemoWorld (by decide) rfl rfl (by decide)
          hlen hbytes rfl n v h
        have e := runWrite_det demoCfg 7 n 600 writeDemoWorld v writeDemoDone h h600
        rw [hst]
        subst e
        exact ⟨rfl, rfl, Nat.le_of_ble_eq_true rfl⟩)
  refine ⟨w2, w3, a1, a4, a5, a8, a9, ?_⟩
  rw [a9]
  rfl

/-! ## Requests out of range -/

@[simp] theorem SPI_Timer_Status_log (p : Port) :
    (SPI_Timer_Status p).2.log = p.log ++ [Ev.timerStatus] := by
  unfold SPI_Timer_Status
  split <;> rfl

theorem SD_Read_FSM_no_select (cfg : Config) (sector ofs cnt : Nat) (w : World)
    (h : sector > w.dev.last_sector) :
    ∃ ext, (SD_Read_FSM cfg sector ofs cnt w).port.log = w.port.log ++ ext ∧ Ev.csLow ∉ ext := by
  have hS2 : ∃ ext, (SD_Read_FSM_S2 w).port.log = w.port.log ++ ext ∧ Ev.csLow ∉ ext := by
    unfold SD_Read_FSM_S2
    dsimp only
    split_ifs
    · exact ⟨[Ev.rw 0xFF, Ev.timerStatus], by simp, by simp⟩
    · exact ⟨[Ev.rw 0xFF, Ev.timerStatus], by simp, by simp⟩
    · exact ⟨[Ev.rw 0xFF], by simp, by simp⟩
  unfold SD_Read_FSM
  split
  · split
    · refine ⟨[], ?_, by simp⟩
      simp [SD_Read_FSM_S1, h]
    · exact hS2
  · exact hS2
  · unfold SD_Read_FSM_S3
    dsimp only
    split_ifs <;> exact ⟨[Ev.timerOff], by simp [SPI_Timer_Off], by simp⟩
  · rw [SD_Read_FSM_S4_eq]
    exact ⟨[Ev.rw 0xFF], by simp, by simp⟩
  · exact ⟨[Ev.release], by simp [SD_Read_FSM_S5, SPI_Release], by simp⟩

theorem SD_Write_FSM_no_select (cfg : Config) (sector : Nat) (w : World)
    (h : sector > w.dev.last_sector) :
    ∃ ext, (SD_Write_FSM cfg sector w).port.log = w.port.log ++ ext ∧ Ev.csLow ∉ ext := by
  have hS2 : ∃ ext, (SD_Write_FSM_S2 cfg w).port.log = w.port.log ++ ext ∧ Ev.csLow ∉ ext := by
    unfold SD_Write_FSM_S2
    dsimp only
    split_ifs <;> exact ⟨[Ev.rw (w.buffer.getD w.wv.idx 0 % 256)], by simp, by simp⟩
  unfold SD_Write_FSM
  split
  · split
    · refine ⟨[], ?_, by simp⟩
      simp [SD_Write_FSM_S1, h]
    · exact hS2
  · exact hS2
  · unfold SD_Write_FSM_S3
    dsimp only
    split_ifs
    · exact ⟨[Ev.rw 0xFF, Ev.rw 0xFF, Ev.rw 0xFF], by simp, by simp⟩
    · exact ⟨[Ev.rw 0xFF, Ev.rw 0xFF, Ev.rw 0xFF, Ev.timerOn cfg.SD_IO_WRITE_TIMEOUT_WAIT],
        by simp [SPI_Timer_On], by simp⟩
  · unfold SD_Write_FSM_S4
    dsimp only
    split_ifs
    · exact ⟨[Ev.rw 0xFF, Ev.timerStatus], by simp, by simp⟩
    · exact ⟨[Ev.rw 0xFF, Ev.timerStatus], by simp, by simp⟩
    · exact ⟨[Ev.rw 0xFF], by simp, by simp⟩
  · rw [SD_Write_FSM_S5_eq]
    exact ⟨[Ev.timerOff], by simp [SPI_Timer_Off], by simp⟩

/-- C4. Out-of-range requests are rejected before any bus traffic. One call of
`SD_Read_FSM` (sector above `last_sector`, or `cnt = 0`) or of `SD_Write_FSM`
(sector above `last_sector`) from the idle state `S1` publishes PARERR
(`Start_fsm = 1`, status idle, next state `S1`) and leaves the port (hence the
trace: no port call), the buffer and the device descriptor as they were; the
server tick that makes this call publishes PARERR into the transaction slot and
returns to `S_IDLE`; and from any state whatever, a call with a sector above
`last_sector` adds no chip-select event to the trace, so no command frame. -/
theorem out_of_range_rejected (cfg : Config) (w : World) (sector ofs cnt : Nat) :
    (w.rv.next_state = IoState.S1 → w.Read.Status_fsm = FsmStatus.STAT_IDLE →
      (sector > w.dev.last_sector ∨ cnt = 0) →
      (SD_Read_FSM cfg sector ofs cnt w).Read.ErrorCode_fsm = SDRESULTS.SD_PARERR ∧
      (SD_Read_FSM cfg sector ofs cnt w).Read.Start_fsm = 1 ∧
      (SD_Read_FSM cfg sector ofs cnt w).Read.Status_fsm = FsmStatus.STAT_IDLE ∧
      (SD_Read_FSM cfg sector ofs cnt w).rv.next_state = IoState.S1 ∧
      (SD_Read_FSM cfg sector ofs cnt w).port = w.port ∧
      (SD_Read_FSM cfg sector ofs cnt w).buffer = w.buffer ∧
      (SD_Read_FSM cfg sector ofs cnt w).dev = w.dev) ∧
    (w.wv.next_state = IoState.S1 → w.Write.Status_fsm = FsmStatus.STAT_IDLE →
      sector > w.dev.last_sector →
      (SD_Write_FSM cfg sector w).Write.ErrorCode_fsm = SDRESULTS.SD_PARERR ∧
      (SD_Write_FSM cfg sector w).Write.Start_fsm = 1 ∧
      (SD_Write_FSM cfg sector w).Write.Status_fsm = FsmStatus.STAT_IDLE ∧
      (SD_Write_FSM cfg sector w).wv.next_state = IoState.S1 ∧
      (SD_Write_FSM cfg sector w).port = w.port ∧
      (SD_Write_FSM cfg sector w).buffer = w.buffer ∧
      (SD_Write_FSM cfg sector w).dev = w.dev) ∧
    (w.srv_state = SDS_STATE_T.S_READ → w.rv.next_state = IoState.S1 →
      w.Read.Status_fsm = FsmStatus.STAT_IDLE → w.cur_trans.Sector > w.dev.last_sector →
      ∃ w1, Task_SD_Server cfg w = some w1 ∧
        w1.g_trans = Update_Trans w.g_trans SDRESULTS.SD_PARERR ∧
        w1.srv_state = SDS_STATE_T.S_IDLE ∧
        w1.port = w.port ∧ w1.buffer = w.buffer ∧ w1.dev = w.dev) ∧
    (w.srv_state = SDS_STATE_T.S_WRITE → w.wv.next_state = IoState.S1 →
      w.Write.Status_fsm = FsmStatus.STAT_IDLE → w.cur_trans.Sector > w.dev.last_sector →
      ∃ w1, Task_SD_Server cfg w = some w1 ∧
        w1.g_trans = Update_Trans w.g_trans SDRESULTS.SD_PARERR ∧
        w1.srv_state = SDS_STATE_T.S_IDLE ∧
        w1.port = w.port ∧ w1.buffer = w.buffer ∧ w1.dev = w.dev) ∧
    (sector > w.dev.last_sector →
      (∃ ext, (SD_Read_FSM cfg sector ofs cnt w).port.log = w.port.log ++ ext ∧
        Ev.csLow ∉ ext) ∧
      (∃ ext, (SD_Write_FSM cfg sector w).port.log = w.port.log ++ ext ∧ Ev.csLow ∉ ext)) := by
  have hread : w.rv.next_state = IoState.S1 → w.Read.Status_fsm = FsmStatus.STAT_IDLE →
      ∀ s o c, (s > w.dev.last_sector ∨ c = 0) →
      SD_Read_FSM cfg s o c w =
        { w with rv := { w.rv with res := SDRESULTS.SD_ERROR, temp := 0,
                                   next_state := IoState.S1 },
                 Read := { w.Read with Start_fsm := 1,
                                       ErrorCode_fsm := SDRESULTS.SD_PARERR } } := by
    intro hs hi s o c hbad
    simp only [SD_Read_FSM, hs, hi, if_true, SD_Read_FSM_S1, hbad]
  have hwrite : w.wv.next_state = IoState.S1 → w.Write.Status_fsm = FsmStatus.STAT_IDLE →
      ∀ s, s > w.dev.last_sector →
      SD_Write_FSM cfg s w =
        { w with wv := { w.wv with next_state := IoState.S1 },
                 Write := { w.Write with Status_fsm := FsmStatus.STAT_IDLE, Start_fsm := 1,
                                         ErrorCode_fsm := SDRESULTS.SD_PARERR } } := by
    intro hs hi s hbad
    simp only [SD_Write_FSM, hs, hi, if_true, SD_Write_FSM_S1, hbad]
  refine ⟨?_, ?_, ?_, ?_, ?_⟩
  · intro hs hi hbad
    rw [hread hs hi sector ofs cnt hbad]
    exact ⟨rfl, rfl, hi, rfl, rfl, rfl, rfl⟩
  · intro hs hi hbad
    rw [hwrite hs hi sector hbad]
    exact ⟨rfl, rfl, rfl, rfl, rfl, rfl, rfl⟩
  · intro hsrv hs hi hbad
    have e : Task_SD_Server cfg w = some (Server_publish
        (SD_Read_FSM cfg w.cur_trans.Sector 0 512 w)
        (SD_Read_FSM cfg w.cur_trans.Sector 0 512 w).Read) := by
      simp only [Task_SD_Server, hsrv]
    refine ⟨_, e, ?_⟩
    rw [hread hs hi _ 0 512 (Or.inl hbad)]
    simp [Server_publish, hi]
  · intro hsrv hs hi hbad
    have e : Task_SD_Server cfg w = some (Server_publish
        (SD_Write_FSM cfg w.cur_trans.Sector w)
        (SD_Write_FSM cfg w.cur_trans.Sector w).Write) := by
      simp only [Task_SD_Server, hsrv]
    refine ⟨_, e, ?_⟩
    rw [hwrite hs hi _ hbad]
    simp [Server_publish]
  · intro hbad
    exact ⟨SD_Read_FSM_no_select cfg sector ofs cnt w hbad,
      SD_Write_FSM_no_select cfg sector w hbad⟩

theorem out_of_range_rejected_witness :
    (SD_Read_FSM demoCfg 1000 0 512 rangeDemoWorld).Read.ErrorCode_fsm = SDRESULTS.SD_PARERR ∧
    (SD_Read_FSM demoCfg 1000 0 512 rangeDemoWorld).port = rangeDemoWorld.port ∧
    (∃ w1, Task_SD_Server demoCfg rangeDemoWorld = some w1 ∧
      w1.g_trans = Update_Trans rangeDemoWorld.g_trans SDRESULTS.SD_PARERR ∧
      w1.srv_state = SDS_STATE_T.S_IDLE ∧ w1.port = rangeDemoWorld.port ∧
      w1.buffer = rangeDemoWorld.buffer ∧ w1.dev = rangeDemoWorld.dev) :=
  have h := out_of_range_rejected demoCfg rangeDemoWorld 1000 0 512
  have hr := h.1 rfl rfl (Or.inl (by decide))
  ⟨hr.1, hr.2.2.2.2.1, h.2.2.1 rfl rfl rfl (by decide)⟩

/-! ## The result of a write -/

theorem runWrite_none_below (cfg : Config) (sector m : Nat) (w : World)
    (h : runWrite cfg sector m w = none) (k : Nat) (hk : k ≤ m) :
    runWrite cfg sector k w = none := by
  cases hr : runWrite cfg sector k w with
  | none => rfl
  | some a =>
    rw [runWrite_mono cfg sector k w a hr m hk] at h
    cases h

theorem busyWait_zero_iff : ∀ (b : Nat) (l : List Nat),
    (busyWait b l).1 = 0 ↔ ∀ i, i ≤ b → l[i]?.getD 0xFF % 256 = 0 := by
  intro b
  induction b with
  | zero =>
    intro l
    simp only [busyWait, Nat.le_zero, List.head?_eq_getElem?]
    constructor
    · intro h i hi
      subst hi
      exact h
    · intro h
      exact h 0 rfl
  | succ b ih =>
    intro l
    by_cases hx : l.head?.getD 0xFF % 256 = 0
    · simp only [busyWait, hx, if_true]
      rw [ih l.tail]
      rw [List.head?_eq_getElem?] at hx
      constructor
      · intro h i hi
        cases i with
        | zero => exact hx
        | succ i =>
          have := h i (by omega)
          rwa [List.getElem?_tail] at this
      · intro h i hi
        have := h (i + 1) (by omega)
        rwa [List.getElem?_tail]
    · simp only [busyWait, hx, if_false]
      rw [List.head?_eq_getElem?] at hx
      constructor
      · intro h; exact h.elim
      · intro h
        exact absurd (h 0 (by omega)) hx

/-- C5. The result of a write is decided by the card's replies alone. From the
idle state `S1` and for a sector in range the Write run publishes (first and
only at call `n`) a result that is ERROR iff CMD24 returned R1 ≠ 0, REJECT iff
R1 = 0 and the data response `r` has `(r & 0x1F) ≠ 0x05`, BUSY iff the data was
accepted and the byte that ended the busy poll is 0, OK iff it was accepted and
that byte is not 0; and the poll ends on 0 exactly when the card held the line
at 0 for every poll until the timer had expired. -/
theorem write_result_by_replies (cfg : Config) (w : World) (sector : Nat)
    (hW : 10 ≤ cfg.WORD_BITS)
    (hs : w.wv.next_state = IoState.S1) (hi : w.Write.Status_fsm = FsmStatus.STAT_IDLE)
    (hsec : sector ≤ w.dev.last_sector) :
    ∃ (w1 : World) (n : Nat),
      (∀ fuel, n ≤ fuel → runWrite cfg sector fuel w = some w1) ∧
      (∀ fuel, fuel < n → runWrite cfg sector fuel w = none) ∧
      w1.Write.Status_fsm = FsmStatus.STAT_IDLE ∧ w1.Write.Start_fsm = 1 ∧
      (w1.Write.ErrorCode_fsm = SDRESULTS.SD_ERROR ↔
        (SD_Send_Cmd CMD24 sector w.port).1 ≠ 0) ∧
      (w1.Write.ErrorCode_fsm = SDRESULTS.SD_REJECT ↔
        (SD_Send_Cmd CMD24 sector w.port).1 = 0 ∧
        writeResponse (SD_Send_Cmd CMD24 sector w.port).2 &&& 0x1F ≠ 0x05) ∧
      (w1.Write.ErrorCode_fsm = SDRESULTS.SD_BUSY ↔
        (SD_Send_Cmd CMD24 sector w.port).1 = 0 ∧
        writeResponse (SD_Send_Cmd CMD24 sector w.port).2 &&& 0x1F = 0x05 ∧
        (writeBusy (SD_Send_Cmd CMD24 sector w.port).2).1 = 0) ∧
      (w1.Write.ErrorCode_fsm = SDRESULTS.SD_OK ↔
        (SD_Send_Cmd CMD24 sector w.port).1 = 0 ∧
        writeResponse (SD_Send_Cmd CMD24 sector w.port).2 &&& 0x1F = 0x05 ∧
        (writeBusy (SD_Send_Cmd CMD24 sector w.port).2).1 ≠ 0) ∧
      ((writeBusy (SD_Send_Cmd CMD24 sector w.port).2).1 = 0 ↔
        ∀ i, i ≤ (SD_Send_Cmd CMD24 sector w.port).2.budgets.head?.getD 0 →
          ((SD_Send_Cmd CMD24 sector w.port).2.miso.drop 516)[i]?.getD 0xFF % 256 = 0) := by
  have hW2 : 512 < 2 ^ cfg.WORD_BITS :=
    lt_of_lt_of_le (by norm_num) (Nat.pow_le_pow_right (by norm_num) hW)
  have hlast := busyWait_zero_iff ((SD_Send_Cmd CMD24 sector w.port).2.budgets.head?.getD 0)
    ((SD_Send_Cmd CMD24 sector w.port).2.miso.drop 516)
  by_cases hr1 : (SD_Send_Cmd CMD24 sector w.port).1 = 0
  · obtain ⟨w1, hrun, h1, h2, h3, _, _, hnone⟩ := runWrite_sent cfg sector w hW2 hs hi hsec hr1
    by_cases hrej : writeResponse (SD_Send_Cmd CMD24 sector w.port).2 &&& 0x1F ≠ 0x05
    · simp only [if_pos hrej] at hrun h3 hnone
      refine ⟨w1, 514, ?_, ?_, h1, h2, ?_, ?_, ?_, ?_, hlast⟩
      · intro fuel hf
        have := hrun (fuel - 514)
        rwa [Nat.sub_add_cancel hf] at this
      · intro fuel hf
        exact runWrite_none_below cfg sector 513 w hnone fuel (by omega)
      · rw [h3]; simp [hr1]
      · rw [h3]; simp [hr1, hrej]
      · rw [h3]; simp [hrej]
      · rw [h3]; simp [hrej]
    · have hacc : writeResponse (SD_Send_Cmd CMD24 sector w.port).2 &&& 0x1F = 0x05 :=
        not_not.mp hrej
      simp only [if_neg hrej] at hrun h3 hnone
      refine ⟨w1, 515 + (writeBusy (SD_Send_Cmd CMD24 sector w.port).2).2, ?_, ?_, h1, h2,
        ?_, ?_, ?_, ?_, hlast⟩
      · intro fuel hf
        have := hrun (fuel - (515 + (writeBusy (SD_Send_Cmd CMD24 sector w.port).2).2))
        rwa [Nat.sub_add_cancel hf] at this
      · intro fuel hf
        exact runWrite_none_below cfg sector _ w hnone fuel (by omega)
      · rw [h3]; split_ifs <;> simp [hr1]
      · rw [h3]; split_ifs <;> simp [hacc]
      · rw [h3]; split_ifs with hz <;> simp [hr1, hacc, hz]
      · rw [h3]; split_ifs with hz <;> simp [hr1, hacc, hz]
  · have hstep := write_S1_failed cfg sector w hs hi hsec hr1
    refine ⟨SD_Write_FSM cfg sector w, 1, ?_, ?_, by rw [hstep], by rw [hstep],
      ?_, ?_, ?_, ?_, hlast⟩
    · intro fuel hf
      obtain ⟨f, rfl⟩ : ∃ c, fuel = c + 1 := ⟨fuel - 1, by omega⟩
      simp only [runWrite]
      rw [if_pos (by rw [hstep]; exact ⟨rfl, rfl⟩)]
    · intro fuel hf
      obtain rfl : fuel = 0 := by omega
      rfl
    · rw [hstep]; simp [hr1]
    · rw [hstep]; simp [hr1]
    · rw [hstep]; simp [hr1]
    · rw [hstep]; simp [hr1]

set_option maxRecDepth 100000 in
theorem write_result_by_replies_witness :
    ∃ (w1 : World) (n : Nat),
      (∀ fuel, n ≤ fuel → runWrite demoCfg 7 fuel busyDemoWorld = some w1) ∧
      w1.Write.ErrorCode_fsm = SDRESULTS.SD_BUSY := by
  obtain ⟨w1, n, h1, _, _, _, _, _, h7, _, h9⟩ :=
    write_result_by_replies demoCfg busyDemoWorld 7 (by decide) rfl rfl (by decide)
  refine ⟨w1, n, h1, h7.mpr ⟨rfl, rfl, h9.mpr ?_⟩⟩
  intro i hi
  have hb : (SD_Send_Cmd CMD24 7 busyDemoWorld.port).2.budgets.head?.getD 0 = 50 := rfl
  have hm : (SD_Send_Cmd CMD24 7 busyDemoWorld.port).2.miso.drop 516 = List.replicate 60 0 := rfl
  rw [hb] at hi
  rw [hm, List.getElem?_replicate_of_lt (by omega)]
  rfl

/-! ## Reads that fail -/

theorem runRead_mono (cfg : Config) (sector ofs cnt : Nat) :
    ∀ (n : Nat) (w a : World), runRead cfg sector ofs cnt n w = some a →
      ∀ m, n ≤ m → runRead cfg sector ofs cnt m w = some a := by
  intro n
  induction n with
  | zero => intro w a h; simp [runRead] at h
  | succ n ih =>
    intro w a h m hm
    obtain ⟨m, rfl⟩ : ∃ c, m = c + 1 := ⟨m - 1, by omega⟩
    simp only [runRead] at h ⊢
    split_ifs at h ⊢ with hp
    · exact h
    · exact ih _ _ h m (by omega)

theorem runRead_det (cfg : Config) (sector ofs cnt n m : Nat) (w a b : World)
    (ha : runRead cfg sector ofs cnt n w = some a)
    (hb : runRead cfg sector ofs cnt m w = some b) : a = b := by
  have h1 := runRead_mono cfg sector ofs cnt n w a ha (max n m) (le_max_left _ _)
  have h2 := runRead_mono cfg sector ofs cnt m w b hb (max n m) (le_max_right _ _)
  rw [h1] at h2
  exact Option.some.inj h2

theorem ReadFailing_step (cfg : Config) (sector ofs cnt : Nat) (w : World)
    (h : ReadFailing w) :
    (SD_Read_FSM cfg sector ofs cnt w).rv.next_state ≠ IoState.S4 ∧
    (SD_Read_FSM cfg sector ofs cnt w).buffer = w.buffer ∧
    (((SD_Read_FSM cfg sector ofs cnt w).Read.Status_fsm = FsmStatus.STAT_IDLE ∧
      (SD_Read_FSM cfg sector ofs cnt w).Read.Start_fsm = 1 ∧
      (SD_Read_FSM cfg sector ofs cnt w).Read.ErrorCode_fsm = SDRESULTS.SD_ERROR) ∨
     (ReadFailing (SD_Read_FSM cfg sector ofs cnt w) ∧
      readFailFuel (SD_Read_FSM cfg sector ofs cnt w) < readFailFuel w)) := by
  obtain ⟨hb, hres, hcase⟩ := h
  rcases hcase with ⟨hs, b, ht, htok⟩ | ⟨hs, htk⟩ | hs
  · by_cases hx : w.port.miso.head?.getD 0xFF % 256 = 0xFF
    · cases b with
      | zero =>
        rw [read_S2_expired _ _ _ _ _ hs ht hx]
        refine ⟨by simp, rfl, Or.inr ⟨⟨hb, hres, Or.inr (Or.inl ?_)⟩, ?_⟩⟩
        · simp
        · simp [readFailFuel, hs]
      | succ b =>
        rw [read_S2_more _ _ _ _ _ _ hs ht hx]
        refine ⟨by simp, rfl, Or.inr ⟨⟨hb, hres, Or.inl ⟨rfl, b, rfl, ?_⟩⟩, ?_⟩⟩
        · simpa [tokenWait, hx] using htok
        · simp [readFailFuel, hs, ht]
    · rw [read_S2_token _ _ _ _ _ hs hx]
      refine ⟨by simp, rfl, Or.inr ⟨⟨hb, hres, Or.inr (Or.inl ⟨rfl, ?_⟩)⟩, ?_⟩⟩
      · cases b <;> simpa [tokenWait, hx] using htok
      · simp [readFailFuel, hs]
  · have e := read_S3_eq cfg sector ofs cnt w hs
    rw [if_neg htk, if_neg htk] at e
    rw [e]
    refine ⟨by simp, rfl, Or.inr ⟨⟨hb, hres, Or.inr (Or.inr rfl)⟩, ?_⟩⟩
    simp [readFailFuel, hs]
  · have e : SD_Read_FSM cfg sector ofs cnt w = SD_Read_FSM_S5 cfg w := by
      simp only [SD_Read_FSM, hs]
    rw [e]
    exact ⟨by simp [SD_Read_FSM_S5], rfl, Or.inl ⟨rfl, rfl, hres⟩⟩

theorem ReadFailing_states (cfg : Config) (sector ofs cnt : Nat) :
    ∀ (fuel : Nat) (w : World), ReadFailing w →
      IoState.S4 ∉ readStates cfg sector ofs cnt fuel w := by
  intro fuel
  induction fuel with
  | zero => intro w _; simp [readStates]
  | succ fuel ih =>
    intro w h
    obtain ⟨h1, _, h3⟩ := ReadFailing_step cfg sector ofs cnt w h
    simp only [readStates, List.mem_cons, not_or]
    refine ⟨fun e => h1 e.symm, ?_⟩
    rcases h3 with ⟨p1, p2, _⟩ | ⟨hf, _⟩
    · rw [if_pos ⟨p1, p2⟩]; simp
    · have hbusy : ¬ ((SD_Read_FSM cfg sector ofs cnt w).Read.Status_fsm = FsmStatus.STAT_IDLE ∧
          (SD_Read_FSM cfg sector ofs cnt w).Read.Start_fsm = 1) := by
        rw [hf.1]; simp
      rw [if_neg hbusy]
      exact ih _ hf

/-- A run from a failing state publishes ERROR with the buffer untouched, within
`readFailFuel` calls. -/
theorem ReadFailing_run (cfg : Config) (sector ofs cnt : Nat) :
    ∀ (n : Nat) (w : World), ReadFailing w → readFailFuel w ≤ n →
      ∃ w1, runRead cfg sector ofs cnt n w = some w1 ∧
        w1.Read.Status_fsm = FsmStatus.STAT_IDLE ∧ w1.Read.Start_fsm = 1 ∧
        w1.Read.ErrorCode_fsm = SDRESULTS.SD_ERROR ∧ w1.buffer = w.buffer := by
  intro n
  induction n with
  | zero =>
    intro w h hn
    exfalso
    unfold readFailFuel at hn
    split at hn <;> omega
  | succ n ih =>
    intro w h hn
    obtain ⟨_, hbuf, h3⟩ := ReadFailing_step cfg sector ofs cnt w h
    simp only [runRead]
    rcases h3 with ⟨p1, p2, p3⟩ | ⟨hf, hlt⟩
    · rw [if_pos ⟨p1, p2⟩]
      exact ⟨_, rfl, p1, p2, p3, hbuf⟩
    · have hbusy : ¬ ((SD_Read_FSM cfg sector ofs cnt w).Read.Status_fsm = FsmStatus.STAT_IDLE ∧
          (SD_Read_FSM cfg sector ofs cnt w).Read.Start_fsm = 1) := by
        rw [hf.1]; simp
      rw [if_neg hbusy]
      obtain ⟨w1, r1, r2, r3, r4, r5⟩ := ih _ hf (by omega)
      exact ⟨w1, r1, r2, r3, r4, r5.trans hbuf⟩

theorem tokenWait_idle : ∀ (b : Nat) (l : List Nat),
    (∀ i, i ≤ b → l[i]?.getD 0xFF % 256 = 0xFF) → (tokenWait b l).1 = 0xFF := by
  intro b
  induction b with
  | zero =>
    intro l h
    simp only [tokenWait, List.head?_eq_getElem?]
    exact h 0 le_rfl
  | succ b ih =>
    intro l h
    have h0 := h 0 (by omega)
    rw [← List.head?_eq_getElem?] at h0
    simp only [tokenWait, h0, if_true]
    apply ih
    intro i hi
    rw [List.getElem?_tail]
    exact h (i + 1) (by omega)

/-- C6. A read that does not see a valid data packet reports ERROR and copies
nothing. From the idle state `S1`, for a sector in range and `cnt > 0`: if
CMD17 returns R1 ≠ 0, or the byte that ends the token wait is not 0xFE, the run
publishes ERROR, the machine never has `S4` as its state, and the buffer is
unchanged; a run that publishes OK had R1 = 0 and the token 0xFE and exchanged
exactly 514 bytes after the token wait; and a card that sends only 0xFF until
the timer has expired ends the token wait on 0xFF. -/
theorem read_failure_reports_error (cfg : Config) (w : World) (sector ofs cnt : Nat)
    (hW : 10 ≤ cfg.WORD_BITS)
    (hs : w.rv.next_state = IoState.S1) (hi : w.Read.Status_fsm = FsmStatus.STAT_IDLE)
    (hsec : sector ≤ w.dev.last_sector) (hcnt : 0 < cnt) :
    (((SD_Send_Cmd CMD17 sector w.port).1 ≠ 0 ∨
      (tokenWait ((SD_Send_Cmd CMD17 sector w.port).2.budgets.head?.getD 0)
        (SD_Send_Cmd CMD17 sector w.port).2.miso).1 ≠ 0xFE) →
      ∃ w1 : World,
        (∀ fuel, (SD_Send_Cmd CMD17 sector w.port).2.budgets.head?.getD 0 + 4 ≤ fuel →
          runRead cfg sector ofs cnt fuel w = some w1) ∧
        w1.Read.Status_fsm = FsmStatus.STAT_IDLE ∧ w1.Read.Start_fsm = 1 ∧
        w1.Read.ErrorCode_fsm = SDRESULTS.SD_ERROR ∧
        w1.buffer = w.buffer ∧
        ∀ fuel, IoState.S4 ∉ readStates cfg sector ofs cnt fuel w) ∧
    (∀ fuel w1, runRead cfg sector ofs cnt fuel w = some w1 →
      w1.Read.ErrorCode_fsm = SDRESULTS.SD_OK →
      (SD_Send_Cmd CMD17 sector w.port).1 = 0 ∧
      (tokenWait ((SD_Send_Cmd CMD17 sector w.port).2.budgets.head?.getD 0)
        (SD_Send_Cmd CMD17 sector w.port).2.miso).1 = 0xFE ∧
      mosiOf w1.port.log = mosiOf (SD_Send_Cmd CMD17 sector w.port).2.log ++
        List.replicate
          ((tokenWait ((SD_Send_Cmd CMD17 sector w.port).2.budgets.head?.getD 0)
            (SD_Send_Cmd CMD17 sector w.port).2.miso).2 + 514) 0xFF) ∧
    ((∀ i, i ≤ (SD_Send_Cmd CMD17 sector w.port).2.budgets.head?.getD 0 →
        (SD_Send_Cmd CMD17 sector w.port).2.miso[i]?.getD 0xFF % 256 = 0xFF) →
      (tokenWait ((SD_Send_Cmd CMD17 sector w.port).2.budgets.head?.getD 0)
        (SD_Send_Cmd CMD17 sector w.port).2.miso).1 = 0xFF) := by
  have hW2 : 514 < 2 ^ cfg.WORD_BITS :=
    lt_of_lt_of_le (by norm_num) (Nat.pow_le_pow_right (by norm_num) hW)
  have hstep := read_S1_sent cfg sector ofs cnt w hs hi hsec (by omega)
  have herr : ((SD_Send_Cmd CMD17 sector w.port).1 ≠ 0 ∨
      (tokenWait ((SD_Send_Cmd CMD17 sector w.port).2.budgets.head?.getD 0)
        (SD_Send_Cmd CMD17 sector w.port).2.miso).1 ≠ 0xFE) →
      ∃ w1 : World,
        (∀ fuel, (SD_Send_Cmd CMD17 sector w.port).2.budgets.head?.getD 0 + 4 ≤ fuel →
          runRead cfg sector ofs cnt fuel w = some w1) ∧
        w1.Read.Status_fsm = FsmStatus.STAT_IDLE ∧ w1.Read.Start_fsm = 1 ∧
        w1.Read.ErrorCode_fsm = SDRESULTS.SD_ERROR ∧
        w1.buffer = w.buffer ∧
        ∀ fuel, IoState.S4 ∉ readStates cfg sector ofs cnt fuel w := by
    intro hbad
    have hbusy : (SD_Read_FSM cfg sector ofs cnt w).Read.Status_fsm = FsmStatus.STAT_BUSY := by
      rw [hstep]
    have hbuf1 : (SD_Read_FSM cfg sector ofs cnt w).buffer = w.buffer := by rw [hstep]
    have hfail : ReadFailing (SD_Read_FSM cfg sector ofs cnt w) ∧
        readFailFuel (SD_Read_FSM cfg sector ofs cnt w)
          ≤ (SD_Send_Cmd CMD17 sector w.port).2.budgets.head?.getD 0 + 3 ∧
        (SD_Read_FSM cfg sector ofs cnt w).rv.next_state ≠ IoState.S4 := by
      rw [hstep]
      by_cases hr1 : (SD_Send_Cmd CMD17 sector w.port).1 = 0
      · have htok := hbad.resolve_left (not_not.mpr hr1)
        simp only [hr1, if_true]
        refine ⟨⟨rfl, rfl, Or.inl ⟨rfl, _, rfl, htok⟩⟩, ?_, by simp⟩
        simp [readFailFuel, SPI_Timer_On]
      · simp only [hr1, if_false]
        refine ⟨⟨rfl, rfl, Or.inr (Or.inr rfl)⟩, ?_, by simp⟩
        simp [readFailFuel]
    obtain ⟨hF, hfuel, hns⟩ := hfail
    obtain ⟨w1, r1, r2, r3, r4, r5⟩ :=
      ReadFailing_run cfg sector ofs cnt _ _ hF hfuel
    refine ⟨w1, ?_, r2, r3, r4, r5.trans hbuf1, ?_⟩
    · intro fuel hf
      obtain ⟨f, rfl⟩ : ∃ c, fuel = c + 1 := ⟨fuel - 1, by omega⟩
      rw [runRead_step _ _ _ _ _ _ hbusy]
      exact runRead_mono cfg sector ofs cnt _ _ _ r1 f (by omega)
    · intro fuel
      cases fuel with
      | zero => simp [readStates]
      | succ f =>
        have hnp : ¬ ((SD_Read_FSM cfg sector ofs cnt w).Read.Status_fsm = FsmStatus.STAT_IDLE ∧
            (SD_Read_FSM cfg sector ofs cnt w).Read.Start_fsm = 1) := by
          rw [hbusy]; simp
        simp only [readStates, if_neg hnp, List.mem_cons, not_or]
        exact ⟨fun e => hns e.symm, ReadFailing_states cfg sector ofs cnt f _ hF⟩
  refine ⟨herr, ?_, tokenWait_idle _ _⟩
  intro fuel w1 hrun hok
  by_cases hbad : (SD_Send_Cmd CMD17 sector w.port).1 ≠ 0 ∨
      (tokenWait ((SD_Send_Cmd CMD17 sector w.port).2.budgets.head?.getD 0)
        (SD_Send_Cmd CMD17 sector w.port).2.miso).1 ≠ 0xFE
  · exfalso
    obtain ⟨w2, r1, _, _, r4, _⟩ := herr hbad
    have e := runRead_det cfg sector ofs cnt _ _ w _ _ (r1 _ le_rfl) hrun
    subst e
    rw [r4] at hok
    cases hok
  · have hr1 : (SD_Send_Cmd CMD17 sector w.port).1 = 0 := by
      by_contra h; exact hbad (Or.inl h)
    have htok : (tokenWait ((SD_Send_Cmd CMD17 sector w.port).2.budgets.head?.getD 0)
        (SD_Send_Cmd CMD17 sector w.port).2.miso).1 = 0xFE := by
      by_contra h; exact hbad (Or.inr h)
    obtain ⟨w2, r1, _, _, _, _, _, r7⟩ :=
      runRead_token cfg sector ofs cnt w hW2 hs hi hsec (by omega) hr1 htok
    have e := runRead_det cfg sector ofs cnt _ _ w _ _ (r1 0) hrun
    subst e
    exact ⟨hr1, htok, r7⟩

theorem read_failure_reports_error_witness :
    ∃ w1 : World,
      (∀ fuel, 12 ≤ fuel → runRead demoCfg 7 0 512 fuel silentDemoWorld = some w1) ∧
      w1.Read.ErrorCode_fsm = SDRESULTS.SD_ERROR ∧
      w1.buffer = demoBuffer ∧
      ∀ fuel, IoState.S4 ∉ readStates demoCfg 7 0 512 fuel silentDemoWorld := by
  obtain ⟨w1, h1, _, _, h4, h5, h6⟩ :=
    (read_failure_reports_error demoCfg silentDemoWorld 7 0 512 (by decide) rfl rfl
      (by decide) (by decide)).1 (Or.inr (by decide))
  exact ⟨w1, h1, h4, h5, h6⟩

/-! ## The CSD decoder -/

theorem or_eq_add (a b n : Nat) (hb : b < 2 ^ n) : a * 2 ^ n ||| b = a * 2 ^ n + b := by
  rw [Nat.mul_comm, ← Nat.mul_add_lt_is_or hb]

theorem or_256 (a b : Nat) (hb : b < 256) : a * 256 ||| b = a * 256 + b :=
  or_eq_add a b 8 hb

theorem shl_8 (a : Nat) : a <<< 8 = a * 256 := Nat.shiftLeft_eq a 8

theorem and_255 (b : Nat) (hb : b < 256) : b &&& 0xFF = b := by
  rw [show (0xFF : Nat) = 2 ^ 8 - 1 from rfl, Nat.and_pow_two_sub_one_eq_mod]
  exact Nat.mod_eq_of_lt hb

theorem getD_lt_of_bytes (l : List Nat) (hb : ∀ x ∈ l, x < 256) (i : Nat) : l.getD i 0 < 256 := by
  rw [List.getD_eq_getElem?_getD]
  cases h : l[i]? with
  | none => simp
  | some x =>
    obtain ⟨hi, rfl⟩ := List.getElem?_eq_some.mp h
    exact hb _ (List.getElem_mem _)

theorem SD_Power_Of_Two_10 : SD_Power_Of_Two (8 + 2) = 1024 := by decide

theorem SD_Power_Of_Two_0 : SD_Power_Of_Two 0 = 1 := by decide

/-- With a `WORD` of at least 22 bits the decoder computes, for an SDv2 card,
`(C_SIZE + 1) * 1024` modulo 2^32 over the full field `CSD[69:48]`. -/
theorem SD_Sectors_decode_v2_wide (wbits ct : Nat) (csd : List Nat) (hW : 22 ≤ wbits)
    (hct : ct = SDCT_SD2 ∨ ct = SDCT_SD2 ||| SDCT_BLOCK) (hb : ∀ x ∈ csd, x < 256) :
    SD_Sectors_decode wbits ct csd =
      ((((csd.getD 7 0 &&& 0x3F) <<< 16) ||| (csd.getD 8 0 <<< 8) ||| csd.getD 9 0) + 1)
        * 1024 % 2 ^ 32 := by
  have h7 := getD_lt_of_bytes csd hb 7
  have h8 := getD_lt_of_bytes csd hb 8
  have h9 := getD_lt_of_bytes csd hb 9
  have hbr1 : ¬ (ct &&& SDCT_SD1 ≠ 0) := by rcases hct with rfl | rfl <;> decide
  have hbr2 : ct &&& SDCT_SD2 ≠ 0 := by rcases hct with rfl | rfl <;> decide
  unfold SD_Sectors_decode
  simp only [if_neg hbr1, if_pos hbr2]
  generalize csd.getD 7 0 = c7 at *
  generalize csd.getD 8 0 = c8 at *
  generalize csd.getD 9 0 = c9 at *
  have hp : 2 ^ 22 ≤ 2 ^ wbits := Nat.pow_le_pow_right (by norm_num) hW
  have m6 : c7 &&& 0x3F = c7 % 64 := Nat.and_pow_two_sub_one_eq_mod c7 6
  have s0 : (c7 % 64) % 2 ^ wbits = c7 % 64 := Nat.mod_eq_of_lt (by omega)
  have s1 : (c7 % 64 * 256) % 2 ^ wbits = c7 % 64 * 256 := Nat.mod_eq_of_lt (by omega)
  have s2 : (c7 % 64 * 256 + c8) % 2 ^ wbits = c7 % 64 * 256 + c8 :=
    Nat.mod_eq_of_lt (by omega)
  have s3 : ((c7 % 64 * 256 + c8) * 256) % 2 ^ wbits = (c7 % 64 * 256 + c8) * 256 :=
    Nat.mod_eq_of_lt (by omega)
  have s4 : ((c7 % 64 * 256 + c8) * 256 + c9) % 2 ^ wbits = (c7 % 64 * 256 + c8) * 256 + c9 :=
    Nat.mod_eq_of_lt (by omega)
  have r1 : (c7 % 64) <<< 16 ||| c8 * 256 = (c7 % 64 * 256 + c8) * 256 := by
    rw [Nat.shiftLeft_eq, or_eq_add _ _ 16 (by omega)]
    omega
  simp only [m6, and_255 c8 h8, and_255 c9 h9, shl_8, s0, s1, or_256 _ _ h8, s2, s3,
    or_256 _ _ h9, s4, r1, SD_Power_Of_Two_10, SD_Power_Of_Two_0]
  omega

theorem SD_Power_Of_Two_loop_eq : ∀ (k part : Nat),
    SD_Power_Of_Two_loop k part = part * 2 ^ k % 2 ^ 32 ∨ k = 0 := by
  intro k
  induction k with
  | zero => intro _; exact Or.inr rfl
  | succ k ih =>
    intro part
    left
    rcases ih (part * 2 % 2 ^ 32) with h | h
    · rw [SD_Power_Of_Two_loop, h, Nat.mod_mul_mod, Nat.pow_succ]
      congr 1
      ring
    · subst h
      simp [SD_Power_Of_Two_loop]

theorem SD_Power_Of_Two_eq (e : Nat) (he : e < 256) : SD_Power_Of_Two e = 2 ^ e % 2 ^ 32 := by
  unfold SD_Power_Of_Two
  rw [Nat.mod_eq_of_lt he]
  rcases SD_Power_Of_Two_loop_eq e 1 with h | h
  · rw [h, Nat.one_mul]
  · subst h; rfl

/-- With a `WORD` of at least 12 bits the decoder computes, for a card whose
type has the SDv1 flag, `(C_SIZE + 1) * 2^(C_SIZE_MULT + 2) * 2^READ_BL_LEN`
modulo 2^32 over the CSD version 1 fields. -/
theorem SD_Sectors_decode_v1 (wbits ct : Nat) (csd : List Nat) (hW : 12 ≤ wbits)
    (hct : ct &&& SDCT_SD1 ≠ 0) (hb : ∀ x ∈ csd, x < 256) :
    SD_Sectors_decode wbits ct csd =
      ((((csd.getD 6 0 &&& 0x03) <<< 10) ||| (csd.getD 7 0 <<< 2) ||| (csd.getD 8 0 >>> 6)) + 1)
        * 2 ^ ((((csd.getD 9 0 &&& 0x03) <<< 1) ||| (csd.getD 10 0 >>> 7)) + 2)
        * 2 ^ (csd.getD 5 0 &&& 0x0F) % 2 ^ 32 := by
  have h7 := getD_lt_of_bytes csd hb 7
  have h8 := getD_lt_of_bytes csd hb 8
  have h10 := getD_lt_of_bytes csd hb 10
  unfold SD_Sectors_decode
  simp only [if_pos hct]
  generalize csd.getD 5 0 = c5 at *
  generalize csd.getD 6 0 = c6 at *
  generalize csd.getD 7 0 = c7 at *
  generalize csd.getD 8 0 = c8 at *
  generalize csd.getD 9 0 = c9 at *
  generalize csd.getD 10 0 = c10 at *
  have hp : 2 ^ 12 ≤ 2 ^ wbits := Nat.pow_le_pow_right (by norm_num) hW
  have m5 : c5 &&& 0x0F = c5 % 16 := Nat.and_pow_two_sub_one_eq_mod c5 4
  have m6 : c6 &&& 0x03 = c6 % 4 := Nat.and_pow_two_sub_one_eq_mod c6 2
  have m9 : c9 &&& 0x03 = c9 % 4 := Nat.and_pow_two_sub_one_eq_mod c9 2
  have d8 : c8 >>> 6 = c8 / 64 := Nat.shiftRight_eq_div_pow c8 6
  have d10 : c10 >>> 7 = c10 / 128 := Nat.shiftRight_eq_div_pow c10 7
  have m8 : c8 / 64 &&& 0x03 = c8 / 64 := by
    rw [show (0x03 : Nat) = 2 ^ 2 - 1 from rfl, Nat.and_pow_two_sub_one_eq_mod]
    exact Nat.mod_eq_of_lt (by omega)
  have m10 : c10 / 128 &&& 0x01 = c10 / 128 := by
    rw [show (0x01 : Nat) = 2 ^ 1 - 1 from rfl, Nat.and_pow_two_sub_one_eq_mod]
    exact Nat.mod_eq_of_lt (by omega)
  have s0 : (c6 % 4) % 2 ^ wbits = c6 % 4 := Nat.mod_eq_of_lt (by omega)
  have s1 : (c6 % 4 * 256) % 2 ^ wbits = c6 % 4 * 256 := Nat.mod_eq_of_lt (by omega)
  have s2 : (c6 % 4 * 256 + c7) % 2 ^ wbits = c6 % 4 * 256 + c7 := Nat.mod_eq_of_lt (by omega)
  have t3 : (c6 % 4 * 256 + c7) <<< 2 = (c6 % 4 * 256 + c7) * 4 := Nat.shiftLeft_eq _ 2
  have s3 : ((c6 % 4 * 256 + c7) * 4) % 2 ^ wbits = (c6 % 4 * 256 + c7) * 4 :=
    Nat.mod_eq_of_lt (by omega)
  have o4 : (c6 % 4 * 256 + c7) * 4 ||| c8 / 64 = (c6 % 4 * 256 + c7) * 4 + c8 / 64 :=
    or_eq_add _ _ 2 (by omega)
  have s4 : ((c6 % 4 * 256 + c7) * 4 + c8 / 64) % 2 ^ wbits
      = (c6 % 4 * 256 + c7) * 4 + c8 / 64 := Nat.mod_eq_of_lt (by omega)
  have t5 : (c9 % 4) <<< 1 = c9 % 4 * 2 := Nat.shiftLeft_eq _ 1
  have s5 : (c9 % 4 * 2) % 256 = c9 % 4 * 2 := Nat.mod_eq_of_lt (by omega)
  have o6 : c9 % 4 * 2 ||| c10 / 128 = c9 % 4 * 2 + c10 / 128 := or_eq_add _ _ 1 (by omega)
  have s6 : (c9 % 4 * 2 + c10 / 128) % 256 = c9 % 4 * 2 + c10 / 128 :=
    Nat.mod_eq_of_lt (by omega)
  have r1 : (c6 % 4) <<< 10 ||| c7 <<< 2 = (c6 % 4 * 256 + c7) * 4 := by
    rw [Nat.shiftLeft_eq, Nat.shiftLeft_eq, or_eq_add _ _ 10 (by omega)]
    omega
  have p1 : SD_Power_Of_Two (c9 % 4 * 2 + c10 / 128 + 2)
      = 2 ^ (c9 % 4 * 2 + c10 / 128 + 2) % 2 ^ 32 := SD_Power_Of_Two_eq _ (by omega)
  have p2 : SD_Power_Of_Two (c5 % 16) = 2 ^ (c5 % 16) % 2 ^ 32 :=
    SD_Power_Of_Two_eq _ (by omega)
  simp only [m5, m6, m9, d8, d10, m8, m10, shl_8, s0, s1, or_256 _ _ h7, s2, t3, s3, o4, s4,
    t5, s5, o6, s6, r1, p1, p2]
  simp [Nat.mul_mod, Nat.mod_mod]

theorem SD_Sectors_wait_found (t : Nat) (ht : t % 256 ≠ 0xFF) (rest : List Nat) :
    ∀ (k fuel : Nat) (p : Port), p.miso = List.replicate k 0xFF ++ t :: rest → k < fuel →
      ∃ p1, SD_Sectors_wait fuel p = some p1 ∧ p1.miso = rest := by
  intro k
  induction k with
  | zero =>
    intro fuel p hm hf
    obtain ⟨f, rfl⟩ : ∃ c, fuel = c + 1 := ⟨fuel - 1, by omega⟩
    refine ⟨(SPI_RW 0xFF p).2, ?_, by simp [hm]⟩
    simp [SD_Sectors_wait, hm, ht]
  | succ k ih =>
    intro fuel p hm hf
    obtain ⟨f, rfl⟩ : ∃ c, fuel = c + 1 := ⟨fuel - 1, by omega⟩
    obtain ⟨p1, h1, h2⟩ := ih f (SPI_RW 0xFF p).2 (by simp [hm, List.replicate_succ]) (by omega)
    refine ⟨p1, ?_, h2⟩
    simp [SD_Sectors_wait, hm, List.replicate_succ, h1]

theorem SPI_Read_Bytes_eq : ∀ (l rest : List Nat) (p : Port), p.miso = l ++ rest →
    (∀ x ∈ l, x < 256) →
    (SPI_Read_Bytes l.length p).1 = l ∧ (SPI_Read_Bytes l.length p).2.miso = rest := by
  intro l
  induction l with
  | nil => intro rest p hm _; exact ⟨rfl, by simpa using hm⟩
  | cons a l ih =>
    intro rest p hm hb
    obtain ⟨h1, h2⟩ := ih rest (SPI_RW 0xFF p).2 (by simp [hm])
      (fun x hx => hb x (List.mem_cons_of_mem _ hx))
    refine ⟨?_, ?_⟩
    · simp only [List.length_cons, SPI_Read_Bytes, h1]
      simp [hm, Nat.mod_eq_of_lt (hb a (List.mem_cons_self _ _))]
    · simp only [List.length_cons, SPI_Read_Bytes, h2]

/-- `__SD_Sectors` after an accepted CMD9: when the card sends `k` bytes 0xFF,
a byte that is not 0xFF, the 16 CSD bytes and two CRC bytes, the decoder
returns the value decoded from those 16 bytes and releases the bus. -/
theorem SD_Sectors_read (cfg : Config) (dev : SD_DEV) (p : Port) (k t c1 c2 : Nat)
    (csd rest : List Nat)
    (hr1 : (SD_Send_Cmd CMD9 0 p).1 = 0)
    (hm : (SD_Send_Cmd CMD9 0 p).2.miso = List.replicate k 0xFF ++ t :: (csd ++ c1 :: c2 :: rest))
    (ht : t % 256 ≠ 0xFF) (hlen : csd.length = 16) (hb : ∀ x ∈ csd, x < 256) :
    ∃ p1, SD_Sectors cfg dev p = some (SD_Sectors_decode cfg.WORD_BITS dev.cardtype csd, p1) ∧
      p1.cs = false ∧ p1.miso = rest := by
  obtain ⟨pw, hw1, hw2⟩ := SD_Sectors_wait_found t ht (csd ++ c1 :: c2 :: rest) k
    ((SD_Send_Cmd CMD9 0 p).2.miso.length + 1) (SD_Send_Cmd CMD9 0 p).2 hm
    (by rw [hm]; simp; omega)
  obtain ⟨hc1, hc2⟩ := SPI_Read_Bytes_eq csd (c1 :: c2 :: rest) pw hw2 hb
  rw [hlen] at hc1 hc2
  refine ⟨SPI_Release (SPI_RW 0xFF (SPI_RW 0xFF (SPI_Read_Bytes 16 pw).2).2).2, ?_, rfl, ?_⟩
  · simp only [SD_Sectors, hr1, if_true, hw1, hc1]
  · simp [SPI_Release, hc2]

/-- C9 (defect). With the 16-bit `WORD` of the demo build, the SDv2 branch of
`__SD_Sectors` drops the bits of `C_SIZE` above the sixteenth: for the CSD
`sdxcCsd` (`C_SIZE = 0x01FFFF`) the decoder returns `(0xFFFF + 1) * 1024`
= 67108864, whereas `(C_SIZE + 1) * 1024` over the full 22-bit field is
134217728. -/
theorem csd_v2_truncated_to_word :
    (SD_Sectors demoCfg (devOfType (SDCT_SD2 ||| SDCT_BLOCK)) (csdPort sdxcCsd)).map Prod.fst
      = some 67108864 ∧
    ((((sdxcCsd.getD 7 0 &&& 0x3F) <<< 16) ||| (sdxcCsd.getD 8 0 <<< 8) ||| sdxcCsd.getD 9 0) + 1)
      * 1024 % 2 ^ 32 = 134217728 := by
  decide

/-- C10 (defect). For a card of type MMCv3 neither branch of `__SD_Sectors` is
taken, so the CSD is not decoded: for the CSD `v1Csd` (`C_SIZE = 3874`,
`C_SIZE_MULT = 7`, `READ_BL_LEN = 9`) the decoder returns 4, whereas
`(C_SIZE + 1) * 2^(C_SIZE_MULT + 2) * 2^READ_BL_LEN` is 1015808000; for the
same CSD and type SDv1 it returns that value. -/
theorem csd_v1_not_decoded_for_mmc :
    (SD_Sectors demoCfg (devOfType SDCT_MMC) (csdPort v1Csd)).map Prod.fst = some 4 ∧
    ((((v1Csd.getD 6 0 &&& 0x03) <<< 10) ||| (v1Csd.getD 7 0 <<< 2) ||| (v1Csd.getD 8 0 >>> 6)) + 1)
      * 2 ^ ((((v1Csd.getD 9 0 &&& 0x03) <<< 1) ||| (v1Csd.getD 10 0 >>> 7)) + 2)
      * 2 ^ (v1Csd.getD 5 0 &&& 0x0F) % 2 ^ 32 = 1015808000 ∧
    (SD_Sectors demoCfg (devOfType SDCT_SD1) (csdPort v1Csd)).map Prod.fst
      = some 1015808000 := by
  decide

/-! ## The Init machine -/

set_option maxRecDepth 100000 in
/-- C7 (defect). Cold init of the SDHC card of the scenario, with three
attempts allowed: the first attempt gets no answer to CMD0; in the second and
in the third the card answers CMD0, CMD8 (with the trailer 00 00 01 AA) and
ACMD41 with HCS, the machine reaches `S9`, disarms the timer, queries it, and
goes back to `S1` without sending CMD58; after the third attempt it publishes
NOINIT with the card type 0 and the device not mounted. -/
theorem cold_init_sdhc_publishes_noinit :
    (runInit demoCfg 29 coldInitWorld).map
        (fun w => (w.Init.ErrorCode_fsm, w.Init.Status_fsm, w.Init.Start_fsm,
                   w.dev.mount, w.dev.cardtype, w.iv.ct))
      = some (SDRESULTS.SD_NOINIT, FsmStatus.STAT_IDLE, 1, false, 0, 0) ∧
    initStates demoCfg 29 coldInitWorld =
      [InitState.S2, InitState.S2, InitState.S2, InitState.S3, InitState.S4, InitState.S1,
       InitState.S2, InitState.S2, InitState.S2, InitState.S3, InitState.S4, InitState.S5,
       InitState.S7, InitState.S8, InitState.S9, InitState.S1,
       InitState.S2, InitState.S2, InitState.S2, InitState.S3, InitState.S4, InitState.S5,
       InitState.S7, InitState.S8, InitState.S9, InitState.S1,
       InitState.S11, InitState.S12, InitState.S1] ∧
    (runInit demoCfg 29 coldInitWorld).map (fun w => decide (Ev.rw CMD58 ∈ w.port.log))
      = some false := by
  decide

theorem PortLe.refl (p : Port) : PortLe p p :=
  ⟨List.suffix_refl _, List.suffix_refl _, ⟨[], by simp, by simp⟩, le_refl _⟩

theorem PortLe.trans {p q r : Port} (h1 : PortLe p q) (h2 : PortLe q r) : PortLe p r := by
  obtain ⟨a1, a2, ⟨e1, a3, a4⟩, a5⟩ := h1
  obtain ⟨b1, b2, ⟨e2, b3, b4⟩, b5⟩ := h2
  refine ⟨b1.trans a1, b2.trans a2, ⟨e1 ++ e2, by rw [b3, a3, List.append_assoc], ?_⟩,
    b5.trans a5⟩
  intro b hb
  rcases List.mem_append.mp hb with h | h
  · exact a4 b h
  · exact b4 b h

theorem PortLe_log_only (p : Port) (es : List Ev) (h : ∀ b, Ev.rw b ∈ es → cmd0Byte b) :
    PortLe p { p with log := p.log ++ es } :=
  ⟨List.suffix_refl _, List.suffix_refl _, ⟨es, rfl, h⟩, le_refl _⟩

theorem PortLe_RW (b : Nat) (p : Port) (hb : cmd0Byte (b % 256)) : PortLe p (SPI_RW b p).2 := by
  refine ⟨List.tail_suffix _, List.suffix_refl _, ⟨[Ev.rw (b % 256)], rfl, ?_⟩, le_refl _⟩
  intro c hc
  simp only [List.mem_singleton, Ev.rw.injEq] at hc
  exact hc ▸ hb

theorem PortLe_Timer_On (ms : Nat) (p : Port) : PortLe p (SPI_Timer_On ms p) := by
  refine ⟨List.suffix_refl _, List.tail_suffix _, ⟨[Ev.timerOn ms], rfl, by simp⟩, ?_⟩
  simp only [timerPotential, SPI_Timer_On, Option.getD_some]
  cases p.budgets with
  | nil => simp
  | cons a l => simp

theorem PortLe_Timer_Off (p : Port) : PortLe p (SPI_Timer_Off p) := by
  refine ⟨List.suffix_refl _, List.suffix_refl _, ⟨[Ev.timerOff], rfl, by simp⟩, ?_⟩
  simp [timerPotential, SPI_Timer_Off]

theorem PortLe_Timer_Status (p : Port) : PortLe p (SPI_Timer_Status p).2 := by
  unfold SPI_Timer_Status
  split
  · rename_i n h
    refine ⟨List.suffix_refl _, List.suffix_refl _, ⟨[Ev.timerStatus], rfl, by simp⟩, ?_⟩
    simp [timerPotential, h]
  · exact PortLe_log_only p [Ev.timerStatus] (by simp)

theorem timerPotential_Status_true (p : Port) (h : (SPI_Timer_Status p).1 = true) :
    timerPotential (SPI_Timer_Status p).2 < timerPotential p := by
  unfold SPI_Timer_Status at h ⊢
  split at h
  · rename_i n hn
    simp [timerPotential, hn]
  · simp at h

theorem PortLe_wait : ∀ (fuel : Nat) (p : Port), PortLe p (SD_Send_Cmd_wait fuel p).2 := by
  intro fuel
  induction fuel with
  | zero => intro p; exact PortLe.refl p
  | succ fuel ih =>
    intro p
    have h1 : PortLe p (SPI_RW 0xFF p).2 := PortLe_RW 0xFF p (Or.inl rfl)
    have h2 : PortLe p (SPI_Timer_Status (SPI_RW 0xFF p).2).2 :=
      h1.trans (PortLe_Timer_Status _)
    simp only [SD_Send_Cmd_wait]
    split_ifs
    · exact h2.trans (ih _)
    · exact h2
    · exact h1

theorem SD_Send_Cmd_plain (cmd arg : Nat) (p : Port) (h : cmd &&& 0x80 = 0) :
    SD_Send_Cmd cmd arg p = SD_Send_Frame cmd arg p := by
  simp [SD_Send_Cmd, h]

theorem PortLe_CS_High (p : Port) : PortLe p (SPI_CS_High p) :=
  ⟨List.suffix_refl _, List.suffix_refl _, ⟨[Ev.csHigh], rfl, by simp⟩, le_refl _⟩

theorem PortLe_CS_Low (p : Port) : PortLe p (SPI_CS_Low p) :=
  ⟨List.suffix_refl _, List.suffix_refl _, ⟨[Ev.csLow], rfl, by simp⟩, le_refl _⟩

theorem PortLe_CMD0 (p : Port) : PortLe p (SD_Send_Cmd CMD0 0 p).2 := by
  rw [SD_Send_Cmd_plain CMD0 0 p (by decide)]
  have h := (PortLe_CS_High p).trans (PortLe_RW 0xFF _ (Or.inl rfl))
  have h := h.trans (PortLe_CS_Low _)
  have h := h.trans (PortLe_RW 0xFF _ (Or.inl rfl))
  have h := h.trans (PortLe_RW CMD0 _ (Or.inr (Or.inl rfl)))
  have h := h.trans (PortLe_RW ((0 >>> 24) % 256) _ (Or.inr (Or.inr (Or.inl rfl))))
  have h := h.trans (PortLe_RW ((0 >>> 16) % 256) _ (Or.inr (Or.inr (Or.inl rfl))))
  have h := h.trans (PortLe_RW ((0 >>> 8) % 256) _ (Or.inr (Or.inr (Or.inl rfl))))
  have h := h.trans (PortLe_RW (0 % 256) _ (Or.inr (Or.inr (Or.inl rfl))))
  have h := h.trans (PortLe_RW (SD_Send_Cmd_crc CMD0) _ (Or.inr (Or.inr (Or.inr rfl))))
  have h := h.trans (PortLe_Timer_On 5 _)
  unfold SD_Send_Frame
  exact h.trans ((PortLe_wait _ _).trans (PortLe_Timer_Off _))

theorem PortLe_Read_Bytes : ∀ (n : Nat) (p : Port), PortLe p (SPI_Read_Bytes n p).2 := by
  intro n
  induction n with
  | zero => intro p; exact PortLe.refl p
  | succ n ih =>
    intro p
    simp only [SPI_Read_Bytes]
    exact (PortLe_RW 0xFF p (Or.inl rfl)).trans (ih _)

theorem SD_Send_Cmd_timer (cmd arg : Nat) (p : Port) : (SD_Send_Cmd cmd arg p).2.timer = none := by
  unfold SD_Send_Cmd
  dsimp only
  split_ifs <;> rfl

theorem SD_Init_arm_id (w : World) (h : w.Init.set_fsm ≠ 1) : SD_Init_arm w = w := by
  simp [SD_Init_arm, h]

theorem PortLe_S1_arm (p : Port) :
    PortLe p (SPI_Timer_On 500 (SPI_Read_Bytes 10 (SPI_Freq_Low (SPI_CS_High (SPI_Init p)))).2) := by
  have h : PortLe p (SPI_Init p) := PortLe_log_only p [Ev.spiInit] (by simp)
  have h := h.trans (PortLe_CS_High _)
  have h := h.trans (PortLe_log_only _ [Ev.freqLow] (by simp) : PortLe _ (SPI_Freq_Low _))
  have h := h.trans (PortLe_Read_Bytes 10 _)
  exact h.trans (PortLe_Timer_On 500 _)

theorem NoCard_step (cfg : Config) (p0 : Port) (w : World) (hN : 1 ≤ cfg.SD_INIT_TRYS)
    (hno : NoIdle p0) (h : NoCard cfg.SD_INIT_TRYS p0 w) :
    ∃ w1, SD_Init cfg w = some w1 ∧
      ((w.iv.next_state = InitState.S12 ∧
        w1.Init.Status_fsm = FsmStatus.STAT_IDLE ∧ w1.Init.Start_fsm = 1 ∧
        w1.Init.ErrorCode_fsm = SDRESULTS.SD_NOINIT ∧ w1.dev.mount = false ∧
        PortLe p0 w1.port) ∨
       (w.iv.next_state ≠ InitState.S12 ∧ NoCard cfg.SD_INIT_TRYS p0 w1 ∧
        (cfg.SD_INIT_TRYS ≤ 255 → w.iv.init_trys ≤ cfg.SD_INIT_TRYS →
          w1.iv.init_trys ≤ cfg.SD_INIT_TRYS ∧
          initMeasure cfg.SD_INIT_TRYS w1 < initMeasure cfg.SD_INIT_TRYS w))) := by
  obtain ⟨hp, hct, hset, hbusy, ht, hst, hm⟩ := h
  have harm := SD_Init_arm_id w hset
  rcases hst with hs | hs | hs | hs | ⟨hs, htN⟩ | ⟨hs, htN⟩
  · -- S1
    by_cases hnt : w.iv.init_trys ≠ cfg.SD_INIT_TRYS
    · have hcond : w.iv.init_trys ≠ cfg.SD_INIT_TRYS ∧ w.iv.ct = 0 := ⟨hnt, hct⟩
      have e : SD_Init_S1 cfg w = { w with
          port := SPI_Timer_On 500 (SPI_Read_Bytes 10 (SPI_Freq_Low (SPI_CS_High (SPI_Init w.port)))).2,
          iv := { w.iv with next_state := InitState.S2,
                            init_trys := (w.iv.init_trys + 1) % 256, idx := 10 },
          Init := { w.Init with Status_fsm := FsmStatus.STAT_BUSY, Start_fsm := 0 } } := by
        unfold SD_Init_S1
        rw [if_pos hcond]
      refine ⟨SD_Init_S1 cfg w, by simp only [SD_Init, harm, hs], Or.inr ⟨by simp [hs], ?_, ?_⟩⟩
      · rw [e]
        exact ⟨hp.trans (PortLe_S1_arm _), hct, hset, rfl, Nat.mod_lt _ (by norm_num),
          Or.inr (Or.inl rfl), Or.inr (Or.inl rfl)⟩
      · intro hN2 hle
        rw [e]
        simp only [initMeasure, hs, initPhase]
        have hpot := (PortLe_S1_arm w.port).2.2.2
        rw [Nat.mod_eq_of_lt (by omega)]
        refine ⟨by omega, ?_⟩
        omega
    · have htN : w.iv.init_trys = cfg.SD_INIT_TRYS := not_not.mp hnt
      have hcond : ¬ (w.iv.init_trys ≠ cfg.SD_INIT_TRYS ∧ w.iv.ct = 0) := fun c => c.1 htN
      have e : SD_Init_S1 cfg w = { w with
          Init := { w.Init with Status_fsm := FsmStatus.STAT_BUSY, Start_fsm := 0 },
          iv := { w.iv with next_state := InitState.S11 } } := by
        unfold SD_Init_S1
        rw [if_neg hcond]
      refine ⟨SD_Init_S1 cfg w, by simp only [SD_Init, harm, hs], Or.inr ⟨by simp [hs], ?_, ?_⟩⟩
      · rw [e]
        refine ⟨hp, hct, hset, rfl, ht, Or.inr (Or.inr (Or.inr (Or.inr (Or.inl ⟨rfl, htN⟩)))), ?_⟩
        rcases hm with h0 | h0 | h0
        · exact Or.inl h0
        · rw [hs] at h0; cases h0
        · exact Or.inr (Or.inr h0)
      · intro _ hle
        rw [e]
        simp only [initMeasure, hs, initPhase]
        exact ⟨hle, by omega⟩
  · -- S2
    by_cases hts : (SPI_Timer_Status w.port).1 = true
    · have e : SD_Init_S2 w = { w with
          port := (SPI_Timer_Status w.port).2,
          iv := { w.iv with next_state := InitState.S2 } } := by
        unfold SD_Init_S2
        dsimp only
        rw [if_pos hts]
      refine ⟨SD_Init_S2 w, by simp only [SD_Init, harm, hs], Or.inr ⟨by simp [hs], ?_, ?_⟩⟩
      · rw [e]
        exact ⟨hp.trans (PortLe_Timer_Status _), hct, hset, hbusy, ht, Or.inr (Or.inl rfl),
          Or.inr (Or.inl rfl)⟩
      · intro _ hle
        rw [e]
        simp only [initMeasure, hs, initPhase]
        have := timerPotential_Status_true w.port hts
        exact ⟨hle, by omega⟩
    · have hpl : PortLe w.port (SPI_Timer_On 500 (SPI_Timer_Off (SPI_Timer_Status w.port).2)) :=
        ((PortLe_Timer_Status _).trans (PortLe_Timer_Off _)).trans (PortLe_Timer_On 500 _)
      have e : SD_Init_S2 w = { w with
          port := SPI_Timer_On 500 (SPI_Timer_Off (SPI_Timer_Status w.port).2),
          dev := { w.dev with mount := false },
          iv := { w.iv with next_state := InitState.S3 } } := by
        unfold SD_Init_S2
        dsimp only
        rw [if_neg hts]
      refine ⟨SD_Init_S2 w, by simp only [SD_Init, harm, hs], Or.inr ⟨by simp [hs], ?_, ?_⟩⟩
      · rw [e]
        exact ⟨hp.trans hpl, hct, hset, hbusy, ht, Or.inr (Or.inr (Or.inl rfl)),
          Or.inr (Or.inr rfl)⟩
      · intro _ hle
        rw [e]
        simp only [initMeasure, hs, initPhase]
        have := hpl.2.2.2
        exact ⟨hle, by omega⟩
  · -- S3
    have hr : (SD_Send_Cmd CMD0 0 w.port).1 ≠ 1 := hno w.port hp.1 hp.2.1
    have hst : SPI_Timer_Status (SD_Send_Cmd CMD0 0 w.port).2
        = (false, { (SD_Send_Cmd CMD0 0 w.port).2 with
                      log := (SD_Send_Cmd CMD0 0 w.port).2.log ++ [Ev.timerStatus] }) :=
      SPI_Timer_Status_none _ (SD_Send_Cmd_timer _ _ _)
    have hpl : PortLe w.port (SPI_Timer_Off (SPI_Timer_Status (SD_Send_Cmd CMD0 0 w.port).2).2) :=
      ((PortLe_CMD0 _).trans (PortLe_Timer_Status _)).trans (PortLe_Timer_Off _)
    have e : SD_Init_S3 w = { w with
        port := SPI_Timer_Off (SPI_Timer_Status (SD_Send_Cmd CMD0 0 w.port).2).2,
        iv := { w.iv with next_state := InitState.S4 } } := by
      simp only [SD_Init_S3, hr, ne_eq, not_false_eq_true, if_true, hst]
      simp
    refine ⟨SD_Init_S3 w, by simp only [SD_Init, harm, hs], Or.inr ⟨by simp [hs], ?_, ?_⟩⟩
    · rw [e]
      refine ⟨hp.trans hpl, hct, hset, hbusy, ht, Or.inr (Or.inr (Or.inr (Or.inl rfl))), ?_⟩
      rcases hm with h0 | h0 | h0
      · exact Or.inl h0
      · rw [hs] at h0; cases h0
      · exact Or.inr (Or.inr h0)
    · intro _ hle
      rw [e]
      simp only [initMeasure, hs, initPhase]
      have := hpl.2.2.2
      exact ⟨hle, by omega⟩
  · -- S4
    have hr : (SD_Send_Cmd CMD0 0 w.port).1 ≠ 1 := hno w.port hp.1 hp.2.1
    have e : SD_Init_S4 w = { w with
        port := (SD_Send_Cmd CMD0 0 w.port).2,
        iv := { w.iv with next_state := InitState.S1 } } := by
      simp only [SD_Init_S4, hr, if_false]
    refine ⟨SD_Init_S4 w, by simp only [SD_Init, harm, hs], Or.inr ⟨by simp [hs], ?_, ?_⟩⟩
    · rw [e]
      refine ⟨hp.trans (PortLe_CMD0 _), hct, hset, hbusy, ht, Or.inl rfl, ?_⟩
      rcases hm with h0 | h0 | h0
      · exact Or.inl h0
      · rw [hs] at h0; cases h0
      · exact Or.inr (Or.inr h0)
    · intro _ hle
      rw [e]
      simp only [initMeasure, hs, initPhase]
      have := (PortLe_CMD0 w.port).2.2.2
      exact ⟨hle, by omega⟩
  · -- S11
    have e : SD_Init_S11 cfg w = some { w with iv := { w.iv with next_state := InitState.S12 } } := by
      simp only [SD_Init_S11, hct, ne_eq, not_true_eq_false, if_false]
    refine ⟨_, by simp only [SD_Init, harm, hs]; exact e, Or.inr ⟨by simp [hs], ?_, ?_⟩⟩
    · refine ⟨hp, hct, hset, hbusy, ht,
        Or.inr (Or.inr (Or.inr (Or.inr (Or.inr ⟨rfl, htN⟩)))), ?_⟩
      rcases hm with h0 | h0 | h0
      · exact Or.inl h0
      · rw [hs] at h0; cases h0
      · exact Or.inr (Or.inr h0)
    · intro _ hle
      simp only [initMeasure, hs, initPhase]
      exact ⟨hle, by omega⟩
  · -- S12
    refine ⟨SD_Init_S12 w, by simp only [SD_Init, harm, hs], Or.inl ⟨hs, rfl, rfl, ?_, ?_, ?_⟩⟩
    · simp [SD_Init_S12, hct]
    · show w.dev.mount = false
      rcases hm with h0 | h0 | h0
      · omega
      · rw [hs] at h0; cases h0
      · exact h0
    · exact hp.trans (PortLe_log_only _ [Ev.release] (by simp) : PortLe _ (SPI_Release _))

theorem SD_Send_Cmd_wait_mem : ∀ (fuel : Nat) (p : Port),
    (SD_Send_Cmd_wait fuel p).1 = 0xFF ∨ ∃ x ∈ p.miso, (SD_Send_Cmd_wait fuel p).1 = x % 256 := by
  intro fuel
  induction fuel with
  | zero => intro p; exact Or.inl rfl
  | succ fuel ih =>
    intro p
    have hhead : (p.miso.head?.getD 0xFF % 256 = 0xFF) ∨
        ∃ x ∈ p.miso, p.miso.head?.getD 0xFF % 256 = x % 256 := by
      cases hm : p.miso with
      | nil => exact Or.inl rfl
      | cons a l => exact Or.inr ⟨a, List.mem_cons_self _ _, rfl⟩
    simp only [SD_Send_Cmd_wait, SPI_RW_fst]
    split_ifs
    · rcases ih (SPI_Timer_Status (SPI_RW 0xFF p).2).2 with h | ⟨x, hx, h⟩
      · exact Or.inl h
      · refine Or.inr ⟨x, ?_, h⟩
        have hsuf := (PortLe_Timer_Status (SPI_RW 0xFF p).2).1
        exact (List.tail_suffix p.miso).subset (hsuf.subset hx)
    · exact hhead
    · exact hhead

theorem NoIdle_of_no_one (p : Port) (h : ∀ b ∈ p.miso, b % 256 ≠ 1) : NoIdle p := by
  intro q hq _
  rw [SD_Send_Cmd_plain CMD0 0 q (by decide)]
  unfold SD_Send_Frame
  dsimp only
  generalize hq8 : SPI_Timer_On 5 (SPI_RW (SD_Send_Cmd_crc CMD0) (SPI_RW (0 % 256)
    (SPI_RW (0 >>> 8 % 256) (SPI_RW (0 >>> 16 % 256) (SPI_RW (0 >>> 24 % 256)
    (SPI_RW CMD0 (SPI_RW 255 (SPI_CS_Low (SPI_RW 255 (SPI_CS_High q)).2)).2).2).2).2).2).2).2 = q8
  have hsuf : q8.miso <:+ q.miso := by
    rw [← hq8]
    simp only [SPI_Timer_On, SPI_RW_miso, SPI_CS_Low, SPI_CS_High]
    exact (List.tail_suffix _).trans ((List.tail_suffix _).trans ((List.tail_suffix _).trans
      ((List.tail_suffix _).trans ((List.tail_suffix _).trans ((List.tail_suffix _).trans
      ((List.tail_suffix _).trans (List.tail_suffix _)))))))
  rcases SD_Send_Cmd_wait_mem (q8.timer.getD 0 + 1) q8 with h1 | ⟨x, hx, h1⟩
  · rw [h1]; norm_num
  · rw [h1]
    exact h x (hq.subset (hsuf.subset hx))

theorem runInit_mono (cfg : Config) :
    ∀ (n : Nat) (w a : World), runInit cfg n w = some a →
      ∀ m, n ≤ m → runInit cfg m w = some a := by
  intro n
  induction n with
  | zero => intro w a h; simp [runInit] at h
  | succ n ih =>
    intro w a h m hm
    obtain ⟨m, rfl⟩ : ∃ c, m = c + 1 := ⟨m - 1, by omega⟩
    simp only [runInit] at h ⊢
    cases hstep : SD_Init cfg w with
    | none => rw [hstep] at h; cases h
    | some w1 =>
      rw [hstep] at h
      dsimp only at h ⊢
      split_ifs at h ⊢ with hp
      · exact h
      · exact ih _ _ h m (by omega)

theorem NoCard_run (cfg : Config) (p0 : Port) (hN : 1 ≤ cfg.SD_INIT_TRYS)
    (hN2 : cfg.SD_INIT_TRYS ≤ 255) (hno : NoIdle p0) :
    ∀ (n : Nat) (w : World), NoCard cfg.SD_INIT_TRYS p0 w →
      w.iv.init_trys ≤ cfg.SD_INIT_TRYS → initMeasure cfg.SD_INIT_TRYS w ≤ n →
      ∃ w1, runInit cfg n w = some w1 ∧
        w1.Init.Status_fsm = FsmStatus.STAT_IDLE ∧ w1.Init.Start_fsm = 1 ∧
        w1.Init.ErrorCode_fsm = SDRESULTS.SD_NOINIT ∧ w1.dev.mount = false ∧
        PortLe p0 w1.port := by
  intro n
  induction n with
  | zero =>
    intro w h _ hn
    exfalso
    obtain ⟨_, _, _, _, _, hst, _⟩ := h
    unfold initMeasure initPhase at hn
    rcases hst with hs | hs | hs | hs | ⟨hs, _⟩ | ⟨hs, _⟩ <;> rw [hs] at hn <;> simp at hn
  | succ n ih =>
    intro w h hle hn
    obtain ⟨w1, hstep, hres⟩ := NoCard_step cfg p0 w hN hno h
    simp only [runInit, hstep]
    rcases hres with ⟨_, p1, p2, p3, p4, p5⟩ | ⟨_, hnc, hdec⟩
    · rw [if_pos ⟨p1, p2⟩]
      exact ⟨w1, rfl, p1, p2, p3, p4, p5⟩
    · obtain ⟨hle1, hlt⟩ := hdec hN2 hle
      have hbusy : ¬ (w1.Init.Status_fsm = FsmStatus.STAT_IDLE ∧ w1.Init.Start_fsm = 1) := by
        rw [hnc.2.2.2.1]; simp
      rw [if_neg hbusy]
      exact ih w1 hnc hle1 (by omega)

theorem NoCard_first (cfg : Config) (w : World) (hN : 1 ≤ cfg.SD_INIT_TRYS)
    (hs : w.iv.next_state = InitState.S1) (harm : w.Init.set_fsm = 1) :
    ∃ w1, SD_Init cfg w = some w1 ∧ NoCard cfg.SD_INIT_TRYS w.port w1 ∧
      w1.iv.init_trys = 1 := by
  have ha : SD_Init_arm w =
      { w with iv := { w.iv with ct := 0, init_trys := 0 },
               Init := { w.Init with set_fsm := w.Init.set_fsm + 1 } } := by
    simp [SD_Init_arm, harm]
  have hcond : (SD_Init_arm w).iv.init_trys ≠ cfg.SD_INIT_TRYS ∧ (SD_Init_arm w).iv.ct = 0 := by
    rw [ha]
    exact ⟨by show 0 ≠ cfg.SD_INIT_TRYS; omega, rfl⟩
  refine ⟨SD_Init_S1 cfg (SD_Init_arm w), ?_, ?_, ?_⟩
  · have : (SD_Init_arm w).iv.next_state = InitState.S1 := by rw [ha]; exact hs
    simp only [SD_Init, this]
  · unfold SD_Init_S1
    rw [if_pos hcond, ha]
    refine ⟨PortLe_S1_arm _, rfl, ?_, rfl, ?_, Or.inr (Or.inl rfl), Or.inr (Or.inl rfl)⟩
    · show w.Init.set_fsm + 1 ≠ 1
      omega
    · show (0 + 1) % 256 < 256
      norm_num
  · unfold SD_Init_S1
    rw [if_pos hcond, ha]
    rfl

/-- C8 (as amended). With no card, init fails cleanly: for a retry budget
`1 ≤ SD_INIT_TRYS ≤ 255`, from the armed state `S1` and on a port on which no
CMD0 ever returns R1 = 1 (every timer expiring after finitely many queries),
the Init run publishes after finitely many calls, the result is NOINIT, the
device is left unmounted, and the bytes put on the bus are those of CMD0 frames
only (0xFF, 0x40, 0x00, 0x95): no other command is issued. -/
theorem init_no_card_noinit (cfg : Config) (w : World)
    (hN : 1 ≤ cfg.SD_INIT_TRYS) (hN2 : cfg.SD_INIT_TRYS ≤ 255)
    (hs : w.iv.next_state = InitState.S1) (harm : w.Init.set_fsm = 1)
    (hno : NoIdle w.port) :
    ∃ (w1 : World) (n : Nat),
      (∀ fuel, n ≤ fuel → runInit cfg fuel w = some w1) ∧
      w1.Init.Status_fsm = FsmStatus.STAT_IDLE ∧ w1.Init.Start_fsm = 1 ∧
      w1.Init.ErrorCode_fsm = SDRESULTS.SD_NOINIT ∧ w1.dev.mount = false ∧
      ∃ ext, w1.port.log = w.port.log ++ ext ∧ ∀ b, Ev.rw b ∈ ext → cmd0Byte b := by
  obtain ⟨wa, hstep, hnc, ht⟩ := NoCard_first cfg w hN hs harm
  obtain ⟨w1, hrun, p1, p2, p3, p4, p5⟩ :=
    NoCard_run cfg w.port hN hN2 hno (initMeasure cfg.SD_INIT_TRYS wa) wa hnc
      (by rw [ht]; exact hN) (le_refl _)
  have hbusy : ¬ (wa.Init.Status_fsm = FsmStatus.STAT_IDLE ∧ wa.Init.Start_fsm = 1) := by
    rw [hnc.2.2.2.1]; simp
  have hfirst : ∀ f, runInit cfg (f + 1) w = runInit cfg f wa := by
    intro f
    simp only [runInit, hstep, if_neg hbusy]
  refine ⟨w1, initMeasure cfg.SD_INIT_TRYS wa + 1, ?_, p1, p2, p3, p4, p5.2.2.1⟩
  intro fuel hf
  obtain ⟨f, rfl⟩ : ∃ c, fuel = c + 1 := ⟨fuel - 1, by omega⟩
  rw [hfirst]
  exact runInit_mono cfg _ _ _ hrun f (by omega)

theorem init_no_card_noinit_witness :
    ∃ (w1 : World) (n : Nat),
      (∀ fuel, n ≤ fuel → runInit demoCfg fuel noCardWorld = some w1) ∧
      w1.Init.Status_fsm = FsmStatus.STAT_IDLE ∧ w1.Init.Start_fsm = 1 ∧
      w1.Init.ErrorCode_fsm = SDRESULTS.SD_NOINIT ∧ w1.dev.mount = false ∧
      ∃ ext, w1.port.log = noCardWorld.port.log ++ ext ∧ ∀ b, Ev.rw b ∈ ext → cmd0Byte b :=
  init_no_card_noinit demoCfg noCardWorld (by decide) (by decide) rfl rfl
    (NoIdle_of_no_one _ (fun b hb => absurd hb (List.not_mem_nil b)))

/-- With a retry budget that the 8-bit attempt counter cannot reach, an Init
run that finds no card never publishes. -/
theorem NoCard_diverges (cfg : Config) (p0 : Port) (hN : 256 ≤ cfg.SD_INIT_TRYS)
    (hno : NoIdle p0) :
    ∀ (n : Nat) (w : World), NoCard cfg.SD_INIT_TRYS p0 w → runInit cfg n w = none := by
  intro n
  induction n with
  | zero => intro w _; rfl
  | succ n ih =>
    intro w h
    obtain ⟨w1, hstep, hres⟩ := NoCard_step cfg p0 w (by omega) hno h
    simp only [runInit, hstep]
    rcases hres with ⟨hs12, _⟩ | ⟨_, hnc, _⟩
    · exfalso
      obtain ⟨_, _, _, _, ht, hst, _⟩ := h
      rcases hst with hs | hs | hs | hs | ⟨hs, htN⟩ | ⟨_, htN⟩
      · rw [hs] at hs12; cases hs12
      · rw [hs] at hs12; cases hs12
      · rw [hs] at hs12; cases hs12
      · rw [hs] at hs12; cases hs12
      · rw [hs] at hs12; cases hs12
      · omega
    · have hbusy : ¬ (w1.Init.Status_fsm = FsmStatus.STAT_IDLE ∧ w1.Init.Start_fsm = 1) := by
        rw [hnc.2.2.2.1]; simp
      rw [if_neg hbusy]
      exact ih w1 hnc

/-- C8 (counterexample). With `SD_INIT_TRYS = 256` and no card the Init run
never reaches publication: the attempt counter is a BYTE and never equals the
budget. -/
theorem init_no_card_wide_budget_never_publishes :
    ¬ ∃ (fuel : Nat) (w1 : World), runInit wideTrysCfg fuel noCardWorld = some w1 := by
  rintro ⟨fuel, w1, h⟩
  have hno : NoIdle noCardWorld.port :=
    NoIdle_of_no_one _ (fun b hb => absurd hb (List.not_mem_nil b))
  obtain ⟨wa, hstep, hnc, _⟩ := NoCard_first wideTrysCfg noCardWorld (by decide) rfl rfl
  cases fuel with
  | zero => simp [runInit] at h
  | succ f =>
    have hbusy : ¬ (wa.Init.Status_fsm = FsmStatus.STAT_IDLE ∧ wa.Init.Start_fsm = 1) := by
      rw [hnc.2.2.2.1]; simp
    simp only [runInit, hstep, if_neg hbusy] at h
    rw [NoCard_diverges wideTrysCfg noCardWorld.port (by decide) hno f wa hnc] at h
    cases h

theorem SPI_Timer_Status_after_Off (p : Port) :
    (SPI_Timer_Status (SPI_Timer_Off p)).1 = false := by
  rw [SPI_Timer_Status_none _ rfl]

/-- One call of `SD_Init` from a state without a card type: either it is the
publication of NOINIT from `S12`, or the state is again without a card type.
The card type is only ever set in `S6`, where the timer is queried right after
it was disarmed and the type is cleared again, and in `S10`, which is entered
only from `S9` when the timer, just disarmed, answers TRUE. -/
theorem InitNoType_step (cfg : Config) (w : World) (h : InitNoType w) :
    ∃ w1, SD_Init cfg w = some w1 ∧ w1.dev.cardtype = w.dev.cardtype ∧
      ((w1.Init.Status_fsm = FsmStatus.STAT_IDLE ∧ w1.Init.Start_fsm = 1 ∧
        w1.Init.ErrorCode_fsm = SDRESULTS.SD_NOINIT) ∨ InitNoType w1) := by
  obtain ⟨hct, hset, hbusy, h10, h13⟩ := h
  have harm := SD_Init_arm_id w hset
  cases hs : w.iv.next_state with
  | S1 =>
    refine ⟨SD_Init_S1 cfg w, by simp only [SD_Init, harm, hs], ?_⟩
    unfold SD_Init_S1
    split_ifs
    · exact ⟨rfl, Or.inr ⟨hct, hset, rfl, by simp, by simp⟩⟩
    · exact ⟨rfl, Or.inr ⟨hct, hset, rfl, by simp, by simp⟩⟩
  | S2 =>
    refine ⟨SD_Init_S2 w, by simp only [SD_Init, harm, hs], ?_⟩
    unfold SD_Init_S2
    dsimp only
    split_ifs
    · exact ⟨rfl, Or.inr ⟨hct, hset, hbusy, by simp, by simp⟩⟩
    · exact ⟨rfl, Or.inr ⟨hct, hset, hbusy, by simp, by simp⟩⟩
  | S3 =>
    refine ⟨SD_Init_S3 w, by simp only [SD_Init, harm, hs], ?_⟩
    unfold SD_Init_S3
    dsimp only
    split_ifs
    · exact ⟨rfl, Or.inr ⟨hct, hset, hbusy, by simp, by simp⟩⟩
    · exact ⟨rfl, Or.inr ⟨hct, hset, hbusy, by simp, by simp⟩⟩
    · exact ⟨rfl, Or.inr ⟨hct, hset, hbusy, by simp, by simp⟩⟩
  | S4 =>
    refine ⟨SD_Init_S4 w, by simp only [SD_Init, harm, hs], ?_⟩
    unfold SD_Init_S4
    dsimp only
    split_ifs
    · exact ⟨rfl, Or.inr ⟨hct, hset, hbusy, by simp, by simp⟩⟩
    · exact ⟨rfl, Or.inr ⟨hct, hset, hbusy, by simp, by simp⟩⟩
  | S5 =>
    refine ⟨SD_Init_S5 w, by simp only [SD_Init, harm, hs], ?_⟩
    unfold SD_Init_S5
    dsimp only
    split_ifs
    · exact ⟨rfl, Or.inr ⟨hct, hset, hbusy, by simp, by simp⟩⟩
    · exact ⟨rfl, Or.inr ⟨hct, hset, hbusy, by simp, by simp⟩⟩
  | S6 =>
    refine ⟨SD_Init_S6 w, by simp only [SD_Init, harm, hs], rfl, Or.inr ⟨?_, hset, hbusy, by
      simp [SD_Init_S6], by simp [SD_Init_S6]⟩⟩
    unfold SD_Init_S6
    dsimp only
    rw [SPI_Timer_Status_after_Off]
    simp
  | S7 =>
    refine ⟨SD_Init_S7 w, by simp only [SD_Init, harm, hs], ?_⟩
    unfold SD_Init_S7
    dsimp only
    split_ifs
    · exact ⟨rfl, Or.inr ⟨hct, hset, hbusy, by simp, by simp⟩⟩
    · exact ⟨rfl, Or.inr ⟨hct, hset, hbusy, by simp, by simp⟩⟩
  | S8 =>
    refine ⟨SD_Init_S8 w, by simp only [SD_Init, harm, hs], ?_⟩
    unfold SD_Init_S8
    dsimp only
    split_ifs
    · exact ⟨rfl, Or.inr ⟨hct, hset, hbusy, by simp, by simp⟩⟩
    · exact ⟨rfl, Or.inr ⟨hct, hset, hbusy, by simp, by simp⟩⟩
    · exact ⟨rfl, Or.inr ⟨hct, hset, hbusy, by simp, by simp⟩⟩
  | S9 =>
    refine ⟨SD_Init_S9 w, by simp only [SD_Init, harm, hs], ?_⟩
    unfold SD_Init_S9
    dsimp only
    rw [SPI_Timer_Status_after_Off]
    exact ⟨rfl, Or.inr ⟨hct, hset, hbusy, by simp, by simp⟩⟩
  | S10 => exact absurd hs h10
  | S11 =>
    have e : SD_Init_S11 cfg w = some { w with iv := { w.iv with next_state := InitState.S12 } } := by
      simp only [SD_Init_S11, hct, ne_eq, not_true_eq_false, if_false]
    refine ⟨{ w with iv := { w.iv with next_state := InitState.S12 } },
      by simp only [SD_Init, harm, hs]; exact e, rfl, Or.inr ⟨hct, hset, hbusy, by
      simp, by simp⟩⟩
  | S12 =>
    refine ⟨SD_Init_S12 w, by simp only [SD_Init, harm, hs], rfl, Or.inl ⟨rfl, rfl, ?_⟩⟩
    simp [SD_Init_S12, hct]
  | S13 => exact absurd hs h13

/-- Under the timer contract of the port no Init run publishes OK: from the
armed state `S1`, whatever the card sends, whatever the timers do and whatever
`SD_INIT_TRYS` is, a run that publishes publishes NOINIT and leaves the card
type of the device as it was. -/
theorem SD_Init_never_ok (cfg : Config) :
    ∀ (n : Nat) (w w1 : World),
      (InitNoType w ∨ (w.iv.next_state = InitState.S1 ∧ w.Init.set_fsm = 1)) →
      runInit cfg n w = some w1 →
      w1.Init.ErrorCode_fsm = SDRESULTS.SD_NOINIT ∧ w1.dev.cardtype = w.dev.cardtype := by
  intro n
  induction n with
  | zero => intro w w1 _ h; simp [runInit] at h
  | succ n ih =>
    intro w w1 h hrun
    have hstep : ∃ w2, SD_Init cfg w = some w2 ∧ w2.dev.cardtype = w.dev.cardtype ∧
        ((w2.Init.Status_fsm = FsmStatus.STAT_IDLE ∧ w2.Init.Start_fsm = 1 ∧
          w2.Init.ErrorCode_fsm = SDRESULTS.SD_NOINIT) ∨ InitNoType w2) := by
      rcases h with h | ⟨hs, harm⟩
      · exact InitNoType_step cfg w h
      · have ha : SD_Init_arm w =
            { w with iv := { w.iv with ct := 0, init_trys := 0 },
                     Init := { w.Init with set_fsm := w.Init.set_fsm + 1 } } := by
          simp [SD_Init_arm, harm]
        have hs' : (SD_Init_arm w).iv.next_state = InitState.S1 := by rw [ha]; exact hs
        refine ⟨SD_Init_S1 cfg (SD_Init_arm w), by simp only [SD_Init, hs'], ?_⟩
        unfold SD_Init_S1
        rw [ha]
        have hne : w.Init.set_fsm + 1 ≠ 1 := by omega
        split_ifs
        · exact ⟨rfl, Or.inr ⟨rfl, hne, rfl, by simp, by simp⟩⟩
        · exact ⟨rfl, Or.inr ⟨rfl, hne, rfl, by simp, by simp⟩⟩
    obtain ⟨w2, e, hc, hres⟩ := hstep
    simp only [runInit, e] at hrun
    rcases hres with ⟨p1, p2, p3⟩ | hk
    · rw [if_pos ⟨p1, p2⟩] at hrun
      cases hrun
      exact ⟨p3, hc⟩
    · have hbusy : ¬ (w2.Init.Status_fsm = FsmStatus.STAT_IDLE ∧ w2.Init.Start_fsm = 1) := by
        rw [hk.2.2.1]; simp
      rw [if_neg hbusy] at hrun
      obtain ⟨r1, r2⟩ := ih w2 w1 (Or.inl hk) hrun
      exact ⟨r1, r2.trans hc⟩

/-! ## The fuel of the bounded loops is never the limit -/

/-- The response wait of `__SD_Send_Cmd` ends by itself within the fuel that
`SD_Send_Frame` gives it: more fuel does not change its result. -/
theorem SD_Send_Cmd_wait_fuel : ∀ (fuel : Nat) (p : Port), p.timer.getD 0 < fuel →
    ∀ extra, SD_Send_Cmd_wait (fuel + extra) p = SD_Send_Cmd_wait fuel p := by
  intro fuel
  induction fuel with
  | zero => intro p h; omega
  | succ fuel ih =>
    intro p h extra
    rw [show fuel + 1 + extra = (fuel + extra) + 1 by omega]
    simp only [SD_Send_Cmd_wait]
    split_ifs with h1 h2
    · apply ih
      have hs : (SPI_Timer_Status (SPI_RW 0xFF p).2).1 = true := h2
      have := timerPotential_Status_true (SPI_RW 0xFF p).2 hs
      have hb : (SPI_Timer_Status (SPI_RW 0xFF p).2).2.budgets = p.budgets := by
        unfold SPI_Timer_Status
        split <;> rfl
      simp only [timerPotential, hb, SPI_RW_budgets, SPI_RW_timer] at this
      omega
    · rfl
    · rfl

/-- The leave-idle wait of `S6` ends by itself within the fuel that `SD_Init_S6`
gives it: more fuel does not change its result. -/
theorem SD_Init_S6_wait_fuel (cmd : Nat) : ∀ (fuel : Nat) (p : Port), p.timer.getD 0 < fuel →
    ∀ extra, SD_Init_S6_wait (fuel + extra) cmd p = SD_Init_S6_wait fuel cmd p := by
  intro fuel
  induction fuel with
  | zero => intro p h; omega
  | succ fuel ih =>
    intro p h extra
    rw [show fuel + 1 + extra = (fuel + extra) + 1 by omega]
    simp only [SD_Init_S6_wait]
    split_ifs with h1 h2
    · apply ih
      rw [SD_Send_Cmd_timer]
      show 0 < fuel
      cases fuel with
      | zero =>
        exfalso
        unfold SPI_Timer_Status at h1
        split at h1
        · rename_i n hn
          rw [hn] at h
          simp at h
        · simp at h1
      | succ f => omega
    · rfl
    · rfl

/-- When the wait for the CSD token of `__SD_Sectors` does not end within one
more exchange than the reply stream has bytes, it never ends. -/
theorem SD_Sectors_wait_none : ∀ (fuel : Nat) (p : Port), p.miso.length < fuel →
    SD_Sectors_wait fuel p = none → ∀ more, SD_Sectors_wait more p = none := by
  intro fuel
  induction fuel with
  | zero => intro p h; omega
  | succ fuel ih =>
    intro p hlen h more
    cases more with
    | zero => rfl
    | succ m =>
      simp only [SD_Sectors_wait] at h ⊢
      split_ifs at h ⊢ with hx
      cases hm : p.miso with
      | nil =>
        have hstable : ∀ k (q : Port), q.miso = [] → SD_Sectors_wait k q = none := by
          intro k
          induction k with
          | zero => intro q _; rfl
          | succ k ihk =>
            intro q hq
            simp only [SD_Sectors_wait, SPI_RW_fst, hq]
            simp only [List.head?_nil, Option.getD_none]
            rw [if_pos (by norm_num)]
            exact ihk _ (by simp [hq])
        exact hstable m _ (by simp [hm])
      | cons a l =>
        exact ih (SPI_RW 0xFF p).2 (by simp [hm] at hlen ⊢; omega) h m

/-! ## A card whose CSD cannot be read -/

/-- Case `S11` taken by itself, entered with a card type and a CMD9 that is not
answered with R1 = 0: the value returned by the decoder is not tested, the
descriptor is mounted and `last_sector` is `0 - 1` as a DWORD; case `S12` then
publishes OK. Under the timer contract of the port no run from arming enters
`S11` with a card type. -/
theorem SD_Init_S11_csd_refused (cfg : Config) (w : World) (hct : w.iv.ct ≠ 0)
    (hr1 : (SD_Send_Cmd CMD9 0 w.port).1 ≠ 0) :
    ∃ w1, SD_Init_S11 cfg w = some w1 ∧ w1.dev.mount = true ∧ w1.dev.cardtype = w.iv.ct ∧
      w1.dev.last_sector = 2 ^ 32 - 1 ∧ w1.iv.ct = w.iv.ct ∧
      w1.iv.next_state = InitState.S12 ∧
      (SD_Init_S12 w1).Init.ErrorCode_fsm = SDRESULTS.SD_OK ∧
      (SD_Init_S12 w1).dev = w1.dev := by
  unfold SD_Init_S11
  rw [if_pos hct]
  unfold SD_Sectors
  dsimp only
  rw [if_neg hr1]
  refine ⟨_, rfl, rfl, rfl, ?_, rfl, rfl, ?_, rfl⟩
  · norm_num
  · unfold SD_Init_S12
    dsimp only
    rw [if_pos hct]

/-! ## What a machine leaves alone -/

/-- `SD_Write_FSM` touches neither the other two machines nor the server. -/
theorem SD_Write_FSM_outside (cfg : Config) (sector : Nat) (w : World) :
    (SD_Write_FSM cfg sector w).Init = w.Init ∧ (SD_Write_FSM cfg sector w).iv = w.iv ∧
    (SD_Write_FSM cfg sector w).g_trans = w.g_trans ∧
    (SD_Write_FSM cfg sector w).cur_trans = w.cur_trans ∧
    (SD_Write_FSM cfg sector w).srv_state = w.srv_state := by
  unfold SD_Write_FSM
  split
  · split
    · unfold SD_Write_FSM_S1
      dsimp only
      split_ifs <;> exact ⟨rfl, rfl, rfl, rfl, rfl⟩
    · unfold SD_Write_FSM_S2
      dsimp only
      split_ifs <;> exact ⟨rfl, rfl, rfl, rfl, rfl⟩
  · unfold SD_Write_FSM_S2
    dsimp only
    split_ifs <;> exact ⟨rfl, rfl, rfl, rfl, rfl⟩
  · unfold SD_Write_FSM_S3
    dsimp only
    split_ifs <;> exact ⟨rfl, rfl, rfl, rfl, rfl⟩
  · unfold SD_Write_FSM_S4
    dsimp only
    split_ifs <;> exact ⟨rfl, rfl, rfl, rfl, rfl⟩
  · rw [SD_Write_FSM_S5_eq]
    exact ⟨rfl, rfl, rfl, rfl, rfl⟩

/-- `SD_Read_FSM` touches neither the other two machines nor the server. -/
theorem SD_Read_FSM_outside (cfg : Config) (sector ofs cnt : Nat) (w : World) :
    (SD_Read_FSM cfg sector ofs cnt w).Init = w.Init ∧
    (SD_Read_FSM cfg sector ofs cnt w).Write = w.Write ∧
    (SD_Read_FSM cfg sector ofs cnt w).iv = w.iv ∧
    (SD_Read_FSM cfg sector ofs cnt w).wv = w.wv ∧
    (SD_Read_FSM cfg sector ofs cnt w).g_trans = w.g_trans ∧
    (SD_Read_FSM cfg sector ofs cnt w).cur_trans = w.cur_trans ∧
    (SD_Read_FSM cfg sector ofs cnt w).srv_state = w.srv_state := by
  have hS2 : (SD_Read_FSM_S2 w).Init = w.Init ∧ (SD_Read_FSM_S2 w).Write = w.Write ∧
      (SD_Read_FSM_S2 w).iv = w.iv ∧ (SD_Read_FSM_S2 w).wv = w.wv ∧
      (SD_Read_FSM_S2 w).g_trans = w.g_trans ∧ (SD_Read_FSM_S2 w).cur_trans = w.cur_trans ∧
      (SD_Read_FSM_S2 w).srv_state = w.srv_state := by
    unfold SD_Read_FSM_S2
    dsimp only
    split_ifs <;> exact ⟨rfl, rfl, rfl, rfl, rfl, rfl, rfl⟩
  unfold SD_Read_FSM
  split
  · split
    · unfold SD_Read_FSM_S1
      dsimp only
      split_ifs <;> exact ⟨rfl, rfl, rfl, rfl, rfl, rfl, rfl⟩
    · exact hS2
  · exact hS2
  · unfold SD_Read_FSM_S3
    dsimp only
    split_ifs <;> exact ⟨rfl, rfl, rfl, rfl, rfl, rfl, rfl⟩
  · rw [SD_Read_FSM_S4_eq]
    exact ⟨rfl, rfl, rfl, rfl, rfl, rfl, rfl⟩
  · exact ⟨rfl, rfl, rfl, rfl, rfl, rfl, rfl⟩

/-- `SD_Init` touches neither the other two machines nor the server nor the
buffer. -/
theorem SD_Init_outside (cfg : Config) (w w1 : World) (h : SD_Init cfg w = some w1) :
    w1.Read = w.Read ∧ w1.Write = w.Write ∧ w1.rv = w.rv ∧ w1.wv = w.wv ∧
    w1.g_trans = w.g_trans ∧ w1.cur_trans = w.cur_trans ∧ w1.srv_state = w.srv_state ∧
    w1.buffer = w.buffer := by
  have harm : (SD_Init_arm w).Read = w.Read ∧ (SD_Init_arm w).Write = w.Write ∧
      (SD_Init_arm w).rv = w.rv ∧ (SD_Init_arm w).wv = w.wv ∧
      (SD_Init_arm w).g_trans = w.g_trans ∧ (SD_Init_arm w).cur_trans = w.cur_trans ∧
      (SD_Init_arm w).srv_state = w.srv_state ∧ (SD_Init_arm w).buffer = w.buffer := by
    unfold SD_Init_arm
    split_ifs <;> exact ⟨rfl, rfl, rfl, rfl, rfl, rfl, rfl, rfl⟩
  suffices hs : w1.Read = (SD_Init_arm w).Read ∧ w1.Write = (SD_Init_arm w).Write ∧
      w1.rv = (SD_Init_arm w).rv ∧ w1.wv = (SD_Init_arm w).wv ∧
      w1.g_trans = (SD_Init_arm w).g_trans ∧ w1.cur_trans = (SD_Init_arm w).cur_trans ∧
      w1.srv_state = (SD_Init_arm w).srv_state ∧ w1.buffer = (SD_Init_arm w).buffer by
    obtain ⟨a1, a2, a3, a4, a5, a6, a7, a8⟩ := harm
    obtain ⟨b1, b2, b3, b4, b5, b6, b7, b8⟩ := hs
    exact ⟨b1.trans a1, b2.trans a2, b3.trans a3, b4.trans a4, b5.trans a5, b6.trans a6,
      b7.trans a7, b8.trans a8⟩
  unfold SD_Init at h
  dsimp only at h
  generalize SD_Init_arm w = v at h ⊢
  split at h
  · cases h
    unfold SD_Init_S1
    split_ifs <;> exact ⟨rfl, rfl, rfl, rfl, rfl, rfl, rfl, rfl⟩
  · cases h
    unfold SD_Init_S2
    dsimp only
    split_ifs <;> exact ⟨rfl, rfl, rfl, rfl, rfl, rfl, rfl, rfl⟩
  · cases h
    unfold SD_Init_S3
    dsimp only
    split_ifs <;> exact ⟨rfl, rfl, rfl, rfl, rfl, rfl, rfl, rfl⟩
  · cases h
    unfold SD_Init_S4
    dsimp only
    split_ifs <;> exact ⟨rfl, rfl, rfl, rfl, rfl, rfl, rfl, rfl⟩
  · cases h
    unfold SD_Init_S5
    dsimp only
    split_ifs <;> exact ⟨rfl, rfl, rfl, rfl, rfl, rfl, rfl, rfl⟩
  · cases h
    exact ⟨rfl, rfl, rfl, rfl, rfl, rfl, rfl, rfl⟩
  · cases h
    unfold SD_Init_S7
    dsimp only
    split_ifs <;> exact ⟨rfl, rfl, rfl, rfl, rfl, rfl, rfl, rfl⟩
  · cases h
    unfold SD_Init_S8
    dsimp only
    split_ifs <;> exact ⟨rfl, rfl, rfl, rfl, rfl, rfl, rfl, rfl⟩
  · cases h
    unfold SD_Init_S9
    dsimp only
    split_ifs <;> exact ⟨rfl, rfl, rfl, rfl, rfl, rfl, rfl, rfl⟩
  · cases h
    exact ⟨rfl, rfl, rfl, rfl, rfl, rfl, rfl, rfl⟩
  · unfold SD_Init_S11 at h
    split_ifs at h
    · dsimp only at h
      split at h
      · cases h
      · cases h
        exact ⟨rfl, rfl, rfl, rfl, rfl, rfl, rfl, rfl⟩
    · cases h
      exact ⟨rfl, rfl, rfl, rfl, rfl, rfl, rfl, rfl⟩
  · cases h
    exact ⟨rfl, rfl, rfl, rfl, rfl, rfl, rfl, rfl⟩
  · cases h
    exact ⟨rfl, rfl, rfl, rfl, rfl, rfl, rfl, rfl⟩

/-! ## The server tick, state by state -/

/-- The tick of the server in `S_IDLE`. -/
theorem Task_S_IDLE (cfg : Config) (w : World) (hs : w.srv_state = SDS_STATE_T.S_IDLE) :
    Task_SD_Server cfg w =
      some (if w.g_trans.Request = REQ_NONE then w
            else if w.g_trans.Request ≤ REQ_WRITE then
              { w with cur_trans := w.g_trans, srv_state := Req_to_State w.g_trans.Request,
                       g_trans := { w.g_trans with Status := FsmStatus.STAT_BUSY } }
            else
              { w with cur_trans := w.g_trans, srv_state := SDS_STATE_T.S_IDLE,
                       g_trans := { w.g_trans with Status := FsmStatus.STAT_IDLE,
                                                   Request := REQ_NONE,
                                                   ErrorCode := SDRESULTS.SD_PARERR } }) := by
  unfold Task_SD_Server
  split
  case h_1 =>
    dsimp only
    split_ifs <;> first | rfl | contradiction
  all_goals (rename_i hx; rw [hs] at hx; cases hx)

theorem Task_S_READ (cfg : Config) (w : World) (h : w.srv_state = SDS_STATE_T.S_READ) :
    Task_SD_Server cfg w =
      some (Server_publish (SD_Read_FSM cfg w.cur_trans.Sector 0 512 w)
        (SD_Read_FSM cfg w.cur_trans.Sector 0 512 w).Read) := by
  unfold Task_SD_Server
  rw [h]

theorem Task_S_WRITE (cfg : Config) (w : World) (h : w.srv_state = SDS_STATE_T.S_WRITE) :
    Task_SD_Server cfg w =
      some (Server_publish (SD_Write_FSM cfg w.cur_trans.Sector w)
        (SD_Write_FSM cfg w.cur_trans.Sector w).Write) := by
  unfold Task_SD_Server
  rw [h]

/-- The world in which the server calls `SD_Init`: the record armed when its
`set_fsm` was 0. -/
theorem Task_S_INIT (cfg : Config) (w : World) (h : w.srv_state = SDS_STATE_T.S_INIT) :
    Task_SD_Server cfg w =
      (SD_Init cfg (if w.Init.set_fsm = 0 then { w with Init := { w.Init with set_fsm := 1 } }
                    else w)).map (fun w1 => Server_publish w1 w1.Init) := by
  unfold Task_SD_Server
  split
  case h_2 =>
    dsimp only
    generalize SD_Init cfg _ = o
    cases o <;> rfl
  all_goals (rename_i hx; rw [h] at hx; cases hx)

theorem Task_S_ERROR (cfg : Config) (w : World) (h : w.srv_state = SDS_STATE_T.S_ERROR) :
    Task_SD_Server cfg w = none := by
  unfold Task_SD_Server
  rw [h]

/-- What publication does to the server and to the slot. -/
theorem Server_publish_eq (w : World) (f : FSM) :
    (f.Status_fsm = FsmStatus.STAT_IDLE ∧ f.Start_fsm = 1 →
      Server_publish w f =
        { w with srv_res := f.ErrorCode_fsm, g_trans := Update_Trans w.g_trans f.ErrorCode_fsm,
                 srv_state := SDS_STATE_T.S_IDLE }) ∧
    (¬ (f.Status_fsm = FsmStatus.STAT_IDLE ∧ f.Start_fsm = 1) → Server_publish w f = w) := by
  unfold Server_publish
  constructor
  · intro h
    rw [if_pos h]
  · intro h
    rw [if_neg h]

/-! ## Chip-select across a write -/

@[simp] theorem SPI_Timer_Status_cs (p : Port) : (SPI_Timer_Status p).2.cs = p.cs := by
  unfold SPI_Timer_Status
  split <;> rfl

theorem SD_Send_Cmd_wait_cs : ∀ (fuel : Nat) (p : Port), (SD_Send_Cmd_wait fuel p).2.cs = p.cs := by
  intro fuel
  induction fuel with
  | zero => intro p; rfl
  | succ fuel ih =>
    intro p
    simp only [SD_Send_Cmd_wait]
    split_ifs
    · rw [ih]
      simp
    · simp
    · simp

/-- A command frame asserts chip-select and leaves it asserted. -/
theorem SD_Send_Frame_cs (cmd arg : Nat) (p : Port) : (SD_Send_Frame cmd arg p).2.cs = true := by
  unfold SD_Send_Frame
  dsimp only
  show (SD_Send_Cmd_wait _ _).2.cs = true
  rw [SD_Send_Cmd_wait_cs]
  rfl

/-- `__SD_Send_Cmd` returns with chip-select asserted. -/
theorem SD_Send_Cmd_cs (cmd arg : Nat) (p : Port) : (SD_Send_Cmd cmd arg p).2.cs = true := by
  unfold SD_Send_Cmd
  dsimp only
  split_ifs <;> exact SD_Send_Frame_cs _ _ _

/-- No state of `SD_Write_FSM` deasserts chip-select. -/
theorem SD_Write_FSM_cs_keep (cfg : Config) (sector : Nat) (w : World) (h : w.port.cs = true) :
    (SD_Write_FSM cfg sector w).port.cs = true := by
  have hS2 : (SD_Write_FSM_S2 cfg w).port.cs = true := by
    unfold SD_Write_FSM_S2
    dsimp only
    split_ifs <;> simpa using h
  unfold SD_Write_FSM
  split
  · split
    · unfold SD_Write_FSM_S1
      dsimp only
      split_ifs
      · exact h
      · simpa using SD_Send_Cmd_cs CMD24 sector w.port
      · exact SD_Send_Cmd_cs CMD24 sector w.port
    · exact hS2
  · exact hS2
  · unfold SD_Write_FSM_S3
    dsimp only
    split_ifs
    · simpa using h
    · simpa [SPI_Timer_On] using h
  · unfold SD_Write_FSM_S4
    dsimp only
    split_ifs <;> simpa using h
  · rw [SD_Write_FSM_S5_eq]
    simpa [SPI_Timer_Off] using h

/-- The first call of a write in range sends CMD24, which asserts chip-select. -/
theorem SD_Write_FSM_cs_sent (cfg : Config) (sector : Nat) (w : World)
    (hs : w.wv.next_state = IoState.S1) (hi : w.Write.Status_fsm = FsmStatus.STAT_IDLE)
    (hsec : sector ≤ w.dev.last_sector) : (SD_Write_FSM cfg sector w).port.cs = true := by
  unfold SD_Write_FSM
  rw [hs]
  dsimp only
  rw [if_pos hi]
  unfold SD_Write_FSM_S1
  dsimp only
  rw [if_neg (by omega)]
  split_ifs
  · simpa using SD_Send_Cmd_cs CMD24 sector w.port
  · exact SD_Send_Cmd_cs CMD24 sector w.port

theorem runWrite_cs_keep (cfg : Config) (sector : Nat) :
    ∀ (n : Nat) (w w1 : World), w.port.cs = true → runWrite cfg sector n w = some w1 →
      w1.port.cs = true := by
  intro n
  induction n with
  | zero => intro w w1 _ h; simp [runWrite] at h
  | succ n ih =>
    intro w w1 hc h
    have h1 := SD_Write_FSM_cs_keep cfg sector w hc
    simp only [runWrite] at h
    split_ifs at h
    · cases h
      exact h1
    · exact ih _ _ h1 h

/-- Every write in range, whatever it publishes (ERROR, REJECT, BUSY or OK),
ends with chip-select asserted. -/
theorem runWrite_cs (cfg : Config) (sector : Nat) (n : Nat) (w w1 : World)
    (hs : w.wv.next_state = IoState.S1) (hi : w.Write.Status_fsm = FsmStatus.STAT_IDLE)
    (hsec : sector ≤ w.dev.last_sector) (h : runWrite cfg sector n w = some w1) :
    w1.port.cs = true := by
  cases n with
  | zero => simp [runWrite] at h
  | succ n =>
    have h1 := SD_Write_FSM_cs_sent cfg sector w hs hi hsec
    simp only [runWrite] at h
    split_ifs at h
    · cases h
      exact h1
    · exact runWrite_cs_keep cfg sector n _ _ h1 h

/-- The server in `S_WRITE` runs the Write machine: when the machine publishes
after `n` calls, the server is back in `S_IDLE` after `n` ticks, in the world
of the machine with the result copied into the slot. -/
theorem runServer_write (cfg : Config) :
    ∀ (n : Nat) (w w1 : World), w.srv_state = SDS_STATE_T.S_WRITE →
      runWrite cfg w.cur_trans.Sector n w = some w1 →
      runServer cfg n w =
        some { w1 with srv_res := w1.Write.ErrorCode_fsm,
                       g_trans := Update_Trans w.g_trans w1.Write.ErrorCode_fsm,
                       srv_state := SDS_STATE_T.S_IDLE } := by
  intro n
  induction n with
  | zero => intro w w1 _ h; simp [runWrite] at h
  | succ n ih =>
    intro w w1 hs h
    obtain ⟨_, _, f3, f4, f5⟩ := SD_Write_FSM_outside cfg w.cur_trans.Sector w
    simp only [runWrite] at h
    simp only [runServer, Task_S_WRITE cfg w hs]
    split_ifs at h with hp
    · cases h
      rw [(Server_publish_eq _ _).1 hp, if_pos rfl, f3]
    · rw [(Server_publish_eq _ _).2 hp, if_neg (by rw [f5, hs]; decide)]
      have := ih _ w1 (f5.trans hs) (by rw [f4]; exact h)
      rw [this, f3]

theorem runServer_step (cfg : Config) (n : Nat) (w w1 : World)
    (h : Task_SD_Server cfg w = some w1) (hs : w1.srv_state ≠ SDS_STATE_T.S_IDLE) :
    runServer cfg (n + 1) w = runServer cfg n w1 := by
  simp only [runServer, h, if_neg hs]

theorem runServer_done (cfg : Config) (n : Nat) (w w1 : World)
    (h : Task_SD_Server cfg w = some w1) (hs : w1.srv_state = SDS_STATE_T.S_IDLE) :
    runServer cfg (n + 1) w = some w1 := by
  simp only [runServer, h, if_pos hs]

theorem runWrite_outside (cfg : Config) (sector : Nat) :
    ∀ (n : Nat) (w w1 : World), runWrite cfg sector n w = some w1 →
      w1.Init = w.Init ∧ w1.iv = w.iv ∧ w1.g_trans = w.g_trans ∧
      w1.cur_trans = w.cur_trans ∧ w1.srv_state = w.srv_state := by
  intro n
  induction n with
  | zero => intro w w1 h; simp [runWrite] at h
  | succ n ih =>
    intro w w1 h
    obtain ⟨f1, f2, f3, f4, f5⟩ := SD_Write_FSM_outside cfg sector w
    simp only [runWrite] at h
    split_ifs at h
    · cases h
      exact ⟨f1, f2, f3, f4, f5⟩
    · obtain ⟨g1, g2, g3, g4, g5⟩ := ih _ _ h
      exact ⟨g1.trans f1, g2.trans f2, g3.trans f3, g4.trans f4, g5.trans f5⟩

/-- A WRITE in flight at the server ends with chip-select asserted when it is
asserted already or when the Write machine is about to send CMD24. -/
theorem runServer_write_cs (cfg : Config) :
    ∀ (n : Nat) (v w1 : World), v.srv_state = SDS_STATE_T.S_WRITE →
      (v.port.cs = true ∨
        (v.wv.next_state = IoState.S1 ∧ v.Write.Status_fsm = FsmStatus.STAT_IDLE ∧
          v.cur_trans.Sector ≤ v.dev.last_sector)) →
      runServer cfg n v = some w1 → w1.port.cs = true := by
  intro n
  induction n with
  | zero => intro v w1 _ _ h; simp [runServer] at h
  | succ n ih =>
    intro v w1 hs hv h
    have ht := Task_S_WRITE cfg v hs
    obtain ⟨_, _, _, _, a7⟩ := SD_Write_FSM_outside cfg v.cur_trans.Sector v
    have hc : (SD_Write_FSM cfg v.cur_trans.Sector v).port.cs = true := by
      rcases hv with hv | ⟨h1, h2, h3⟩
      · exact SD_Write_FSM_cs_keep cfg _ v hv
      · exact SD_Write_FSM_cs_sent cfg _ v h1 h2 h3
    generalize SD_Write_FSM cfg v.cur_trans.Sector v = u at ht a7 hc
    by_cases hp : u.Write.Status_fsm = FsmStatus.STAT_IDLE ∧ u.Write.Start_fsm = 1
    · rw [(Server_publish_eq u _).1 hp] at ht
      rw [runServer_done cfg n v _ ht rfl] at h
      cases h
      exact hc
    · rw [(Server_publish_eq u _).2 hp] at ht
      rw [runServer_step cfg n v u ht (by rw [a7, hs]; decide)] at h
      exact ih u w1 (a7.trans hs) (Or.inl hc) h

/-- Every WRITE of a sector in range that the server takes from the slot and
drives to its publication ends with chip-select asserted, whatever is
published. -/
theorem write_request_ends_selected (cfg : Config) (w w1 : World) (n : Nat)
    (hs : w.srv_state = SDS_STATE_T.S_IDLE) (hq : w.g_trans.Request = REQ_WRITE)
    (h1 : w.wv.next_state = IoState.S1) (hi : w.Write.Status_fsm = FsmStatus.STAT_IDLE)
    (hsec : w.g_trans.Sector ≤ w.dev.last_sector) (h : runServer cfg n w = some w1) :
    w1.port.cs = true := by
  cases n with
  | zero => simp [runServer] at h
  | succ n =>
    have ht := Task_S_IDLE cfg w hs
    rw [if_neg (by rw [hq]; decide), if_pos (le_of_eq hq)] at ht
    rw [runServer_step cfg n w _ ht (by simp [hq, Req_to_State])] at h
    have key := fun a b => runServer_write_cs cfg n _ w1 a b h
    exact key (by simp [hq, Req_to_State]) (Or.inr ⟨h1, hi, hsec⟩)

set_option maxRecDepth 100000 in
/-- C12. A write leaves the bus selected. From the world at start-up
(chip-select deasserted) a WRITE of sector 7 is submitted to a card that
accepts the command and the data and ends the busy poll: 519 server ticks later
the server is back in `S_IDLE`, OK is published in the transaction slot, the
three records are idle, and chip-select is still asserted, because no state of
`SD_Write_FSM` calls `SPI_Release` (case `S5` of `SD_Read_FSM` and case `S12` of
`SD_Init` do). The same with a card that holds the line low until the
programming timer expires: after 567 ticks BUSY is published with chip-select
asserted. -/
theorem write_publication_leaves_bus_selected :
    writeSubmitted.port.cs = false ∧
    (runServer demoCfg 519 writeSubmitted).map
        (fun w => (w.g_trans.ErrorCode, w.g_trans.Status, w.srv_state, w.Init.Status_fsm,
                   w.Read.Status_fsm, w.Write.Status_fsm, w.port.cs)) =
      some (SDRESULTS.SD_OK, FsmStatus.STAT_IDLE, SDS_STATE_T.S_IDLE, FsmStatus.STAT_IDLE,
            FsmStatus.STAT_IDLE, FsmStatus.STAT_IDLE, true) ∧
    busySubmitted.port.cs = false ∧
    (runServer demoCfg 567 busySubmitted).map
        (fun w => (w.g_trans.ErrorCode, w.g_trans.Status, w.srv_state, w.Init.Status_fsm,
                   w.Read.Status_fsm, w.Write.Status_fsm, w.port.cs)) =
      some (SDRESULTS.SD_BUSY, FsmStatus.STAT_IDLE, SDS_STATE_T.S_IDLE, FsmStatus.STAT_IDLE,
            FsmStatus.STAT_IDLE, FsmStatus.STAT_IDLE, true) := by
  refine ⟨rfl, ?_, rfl, ?_⟩
  · have hd : Task_SD_Server demoCfg writeSubmitted = some writeDispatched := rfl
    obtain ⟨w1, hrun, h1, _, h3, _⟩ :=
      runWrite_sent demoCfg 7 writeDispatched (by decide) rfl rfl (by decide) rfl
    have hrun0 : runWrite demoCfg 7 518 writeDispatched = some w1 := hrun 0
    have h3 : w1.Write.ErrorCode_fsm = SDRESULTS.SD_OK := h3
    have hcs := runWrite_cs demoCfg 7 518 writeDispatched w1 rfl rfl (by decide) hrun0
    obtain ⟨_, f2, _, _⟩ := runWrite_frame demoCfg 7 518 writeDispatched w1 hrun0
    obtain ⟨g1, _⟩ := runWrite_outside demoCfg 7 518 writeDispatched w1 hrun0
    have hsrv := runServer_write demoCfg 518 writeDispatched w1 rfl hrun0
    rw [show (519 : Nat) = 518 + 1 from rfl, runServer_step demoCfg 518 _ _ hd (by decide), hsrv]
    simp only [Option.map_some', h3, h1, hcs, f2, g1, Update_Trans]
    rfl
  · have hd : Task_SD_Server demoCfg busySubmitted = some busyDispatched := rfl
    obtain ⟨w1, hrun, h1, _, h3, _⟩ :=
      runWrite_sent demoCfg 7 busyDispatched (by decide) rfl rfl (by decide) rfl
    have hrun0 : runWrite demoCfg 7 566 busyDispatched = some w1 := hrun 0
    have h3 : w1.Write.ErrorCode_fsm = SDRESULTS.SD_BUSY := h3
    have hcs := runWrite_cs demoCfg 7 566 busyDispatched w1 rfl rfl (by decide) hrun0
    obtain ⟨_, f2, _, _⟩ := runWrite_frame demoCfg 7 566 busyDispatched w1 hrun0
    obtain ⟨g1, _⟩ := runWrite_outside demoCfg 7 566 busyDispatched w1 hrun0
    have hsrv := runServer_write demoCfg 566 busyDispatched w1 rfl hrun0
    rw [show (567 : Nat) = 566 + 1 from rfl, runServer_step demoCfg 566 _ _ hd (by decide), hsrv]
    simp only [Option.map_some', h3, h1, hcs, f2, g1, Update_Trans]
    rfl

/-! ## When a server tick returns -/

/-- The wait for the CSD token ends when the card sends a byte other than 0xFF. -/
theorem SD_Sectors_wait_some : ∀ (fuel : Nat) (p : Port), p.miso.length < fuel →
    (∃ b ∈ p.miso, b % 256 ≠ 0xFF) → ∃ q, SD_Sectors_wait fuel p = some q := by
  intro fuel
  induction fuel with
  | zero => intro p h; omega
  | succ fuel ih =>
    intro p hlen hb
    simp only [SD_Sectors_wait]
    split_ifs with hx
    · cases hm : p.miso with
      | nil =>
        obtain ⟨b, hb1, _⟩ := hb
        rw [hm] at hb1
        cases hb1
      | cons a l =>
        apply ih
        · simp only [SPI_RW_miso, hm, List.tail_cons]
          rw [hm] at hlen
          simp only [List.length_cons] at hlen
          omega
        · obtain ⟨b, hb1, hb2⟩ := hb
          rw [hm] at hb1
          simp only [SPI_RW_fst, hm, List.head?_cons, Option.getD_some] at hx
          rcases List.mem_cons.mp hb1 with e | hl
          · subst e
            exact absurd hx hb2
          · exact ⟨b, by simpa [hm] using hl, hb2⟩
    · exact ⟨_, rfl⟩

/-- `__SD_Sectors` returns when CMD9 is refused, and when the card that
accepted it sends a byte other than 0xFF. -/
theorem SD_Sectors_returns (cfg : Config) (dev : SD_DEV) (p : Port)
    (h : (SD_Send_Cmd CMD9 0 p).1 = 0 → ∃ b ∈ (SD_Send_Cmd CMD9 0 p).2.miso, b % 256 ≠ 0xFF) :
    ∃ r, SD_Sectors cfg dev p = some r := by
  unfold SD_Sectors
  dsimp only
  split_ifs with hr
  · obtain ⟨q, hq⟩ := SD_Sectors_wait_some _ _ (Nat.lt_succ_self _) (h hr)
    rw [hq]
    exact ⟨_, rfl⟩
  · exact ⟨_, rfl⟩

/-- `SD_Init` returns from every state; from `S11` with a card type it returns
when `__SD_Sectors` does. -/
theorem SD_Init_returns (cfg : Config) (w : World)
    (h : w.iv.next_state = InitState.S11 → (SD_Init_arm w).iv.ct ≠ 0 →
      (SD_Send_Cmd CMD9 0 w.port).1 = 0 →
      ∃ b ∈ (SD_Send_Cmd CMD9 0 w.port).2.miso, b % 256 ≠ 0xFF) :
    ∃ w1, SD_Init cfg w = some w1 := by
  have hst : (SD_Init_arm w).iv.next_state = w.iv.next_state := by
    unfold SD_Init_arm
    split_ifs <;> rfl
  have hport : (SD_Init_arm w).port = w.port := by
    unfold SD_Init_arm
    split_ifs <;> rfl
  unfold SD_Init
  dsimp only
  split
  case h_11 hx =>
    unfold SD_Init_S11
    split_ifs with hct
    · dsimp only
      obtain ⟨r, hr⟩ := SD_Sectors_returns cfg
        { (SD_Init_arm w).dev with cardtype := (SD_Init_arm w).iv.ct, mount := true }
        (SD_Init_arm w).port (by rw [hport]; exact h (hst ▸ hx) hct)
      rw [hr]
      exact ⟨_, rfl⟩
    · exact ⟨_, rfl⟩
  all_goals exact ⟨_, rfl⟩

/-- The counterexample of C13. A server tick can block: in the trap state
`S_ERROR` (`while (1);`), and in `S_INIT` when the Init machine finalises a
detected card in `S11` whose CMD9 is answered with R1 = 0 and followed by 0xFF
for ever: the wait `while (SPI_RW(0xFF) == 0xFF);` of `__SD_Sectors` is not
bounded by a timer and does not end for any number of iterations. In both
worlds the timer is finite. -/
theorem server_tick_can_block :
    Task_SD_Server demoCfg trapWorld = none ∧
    Task_SD_Server demoCfg (finalisingWorld csdSilentPort) = none ∧
    (SD_Send_Cmd CMD9 0 csdSilentPort).1 = 0 ∧
    (∀ fuel, SD_Sectors_wait fuel (SD_Send_Cmd CMD9 0 csdSilentPort).2 = none) := by
  refine ⟨by decide, by decide, by decide, ?_⟩
  exact SD_Sectors_wait_none 1 _ (by decide) (by decide)

/-- C13, amended. A server tick returns in every server state other than the
trap `S_ERROR`, for every state of the three machines, every content of the
transaction slot and every port, provided that in `S11` of Init with a card
type (an INIT in flight, `set_fsm` at 2 or more) a card that answers CMD9
with R1 = 0 goes on to send a byte other than 0xFF. The two loops that poll
under a timer (the response wait of `__SD_Send_Cmd`, the leave-idle wait of
`S6`) end by their own condition: iterations beyond one more than the TRUE
answers left on the timer do not change their result. -/
theorem server_tick_returns (cfg : Config) (w : World)
    (hs : w.srv_state ≠ SDS_STATE_T.S_ERROR)
    (hcsd : w.srv_state = SDS_STATE_T.S_INIT → w.iv.next_state = InitState.S11 →
      w.iv.ct ≠ 0 → 2 ≤ w.Init.set_fsm → (SD_Send_Cmd CMD9 0 w.port).1 = 0 →
      ∃ b ∈ (SD_Send_Cmd CMD9 0 w.port).2.miso, b % 256 ≠ 0xFF) :
    (∃ w1, Task_SD_Server cfg w = some w1) ∧
    (∀ (fuel : Nat) (p : Port), p.timer.getD 0 < fuel →
      ∀ extra, SD_Send_Cmd_wait (fuel + extra) p = SD_Send_Cmd_wait fuel p) ∧
    (∀ (cmd fuel : Nat) (p : Port), p.timer.getD 0 < fuel →
      ∀ extra, SD_Init_S6_wait (fuel + extra) cmd p = SD_Init_S6_wait fuel cmd p) := by
  refine ⟨?_, SD_Send_Cmd_wait_fuel, SD_Init_S6_wait_fuel⟩
  cases hst : w.srv_state with
  | S_IDLE =>
    unfold Task_SD_Server
    rw [hst]
    dsimp only
    split_ifs <;> exact ⟨_, rfl⟩
  | S_INIT =>
    rw [Task_S_INIT cfg w hst]
    by_cases h0 : w.Init.set_fsm = 0
    · rw [if_pos h0]
      obtain ⟨w1, h1⟩ := SD_Init_returns cfg { w with Init := { w.Init with set_fsm := 1 } }
        (fun _ hct => absurd (by simp [SD_Init_arm]) hct)
      rw [h1]
      exact ⟨_, rfl⟩
    · rw [if_neg h0]
      obtain ⟨w1, h1⟩ := SD_Init_returns cfg w (fun hx hct hr => by
        by_cases h1 : w.Init.set_fsm = 1
        · exact absurd (by simp [SD_Init_arm, h1]) hct
        · rw [SD_Init_arm_id w h1] at hct
          exact hcsd hst hx hct (by omega) hr)
      rw [h1]
      exact ⟨_, rfl⟩
  | S_READ => exact ⟨_, Task_S_READ cfg w hst⟩
  | S_WRITE => exact ⟨_, Task_S_WRITE cfg w hst⟩
  | S_ERROR => exact absurd hst hs

theorem server_tick_returns_witness :
    (finalisingWorld (csdPort sdxcCsd)).srv_state = SDS_STATE_T.S_INIT ∧
    (finalisingWorld (csdPort sdxcCsd)).iv.next_state = InitState.S11 ∧
    (SD_Send_Cmd CMD9 0 (csdPort sdxcCsd)).1 = 0 ∧
    ∃ w1, Task_SD_Server demoCfg (finalisingWorld (csdPort sdxcCsd)) = some w1 :=
  ⟨rfl, rfl, by decide,
    (server_tick_returns demoCfg (finalisingWorld (csdPort sdxcCsd)) (by decide)
      (fun _ _ _ _ _ => by decide)).1⟩

/-! ## Dispatch and publication -/

/-- A tick in `S_INIT`, `S_READ` or `S_WRITE` is one call of the machine
followed by the completion test on its record: the world `v` after the call
differs from the world before only inside the machine, and the tick ends in
`Server_publish v` of the driven record. -/
theorem Task_drive (cfg : Config) (w w1 : World) (h : Task_SD_Server cfg w = some w1)
    (hs : w.srv_state = SDS_STATE_T.S_INIT ∨ w.srv_state = SDS_STATE_T.S_READ ∨
      w.srv_state = SDS_STATE_T.S_WRITE) :
    ∃ v, w1 = Server_publish v (drivenFSM w.srv_state v) ∧ v.g_trans = w.g_trans ∧
      v.srv_state = w.srv_state ∧ v.cur_trans = w.cur_trans ∧
      (w.srv_state ≠ SDS_STATE_T.S_INIT → v.Init = w.Init ∧ v.iv = w.iv) ∧
      (w.srv_state ≠ SDS_STATE_T.S_READ → v.Read = w.Read ∧ v.rv = w.rv) ∧
      (w.srv_state ≠ SDS_STATE_T.S_WRITE → v.Write = w.Write ∧ v.wv = w.wv) := by
  rcases hs with hs | hs | hs
  · rw [Task_S_INIT cfg w hs] at h
    cases hv : SD_Init cfg (if w.Init.set_fsm = 0 then
        { w with Init := { w.Init with set_fsm := 1 } } else w) with
    | none => rw [hv] at h; cases h
    | some v =>
      rw [hv] at h
      obtain ⟨a1, a2, a3, a4, a5, a6, a7, _⟩ := SD_Init_outside cfg _ v hv
      refine ⟨v, ?_, ?_, ?_, ?_, fun hn => absurd hs hn, fun _ => ⟨?_, ?_⟩, fun _ => ⟨?_, ?_⟩⟩
      · rw [hs]
        exact (Option.some.inj h).symm
      · rw [a5]; split_ifs <;> rfl
      · rw [a7]; split_ifs <;> rfl
      · rw [a6]; split_ifs <;> rfl
      · rw [a1]; split_ifs <;> rfl
      · rw [a3]; split_ifs <;> rfl
      · rw [a2]; split_ifs <;> rfl
      · rw [a4]; split_ifs <;> rfl
  · rw [Task_S_READ cfg w hs] at h
    obtain ⟨a1, a2, a3, a4, a5, a6, a7⟩ := SD_Read_FSM_outside cfg w.cur_trans.Sector 0 512 w
    refine ⟨_, ?_, a5, a7, a6, fun _ => ⟨a1, a3⟩, fun hn => absurd hs hn, fun _ => ⟨a2, a4⟩⟩
    rw [hs]
    exact (Option.some.inj h).symm
  · rw [Task_S_WRITE cfg w hs] at h
    obtain ⟨a1, a2, a3, a4, a5⟩ := SD_Write_FSM_outside cfg w.cur_trans.Sector w
    obtain ⟨b1, b2, _, _⟩ := SD_Write_FSM_frame cfg w.cur_trans.Sector w
    refine ⟨_, ?_, a3, a5, a4, fun _ => ⟨a1, a2⟩, fun _ => ⟨b2, b1⟩, fun hn => absurd hs hn⟩
    rw [hs]
    exact (Option.some.inj h).symm

/-- No tick takes the server into `S_ERROR`. -/
theorem Task_not_trap (cfg : Config) (w w1 : World) (h : Task_SD_Server cfg w = some w1) :
    w1.srv_state ≠ SDS_STATE_T.S_ERROR := by
  cases hs : w.srv_state with
  | S_IDLE =>
    rw [Task_S_IDLE cfg w hs] at h
    cases h
    split_ifs with h1 h2
    · rw [hs]; decide
    · have : w.g_trans.Request = 1 ∨ w.g_trans.Request = 2 ∨ w.g_trans.Request = 3 := by
        have : w.g_trans.Request ≠ 0 := h1
        have : w.g_trans.Request ≤ 3 := h2
        omega
      rcases this with e | e | e <;> simp [e, Req_to_State]
    · show SDS_STATE_T.S_IDLE ≠ SDS_STATE_T.S_ERROR
      decide
  | S_ERROR => rw [Task_S_ERROR cfg w hs] at h; cases h
  | S_INIT =>
    obtain ⟨v, e, _, hv, _⟩ := Task_drive cfg w w1 h (Or.inl hs)
    rw [e]
    unfold Server_publish
    split_ifs
    · show SDS_STATE_T.S_IDLE ≠ SDS_STATE_T.S_ERROR
      decide
    · rw [hv, hs]; decide
  | S_READ =>
    obtain ⟨v, e, _, hv, _⟩ := Task_drive cfg w w1 h (Or.inr (Or.inl hs))
    rw [e]
    unfold Server_publish
    split_ifs
    · show SDS_STATE_T.S_IDLE ≠ SDS_STATE_T.S_ERROR
      decide
    · rw [hv, hs]; decide
  | S_WRITE =>
    obtain ⟨v, e, _, hv, _⟩ := Task_drive cfg w w1 h (Or.inr (Or.inr hs))
    rw [e]
    unfold Server_publish
    split_ifs
    · show SDS_STATE_T.S_IDLE ≠ SDS_STATE_T.S_ERROR
      decide
    · rw [hv, hs]; decide

/-- C14. Request dispatch. In `S_IDLE`: with no request the tick changes
nothing; with INIT, READ or WRITE the server goes to `S_INIT`, `S_READ` or
`S_WRITE`, only the status of the transaction slot changes (to BUSY; request,
sector, data, device and error stay), the request is copied into `cur_trans`,
and the port with its trace, the device, the buffer and the three machines
are untouched; with a request code above WRITE the server stays in `S_IDLE`
and the slot gets error PARERR, status IDLE, request NONE, the rest as it was.
No tick from any state ends in `S_ERROR`, and from a start outside `S_ERROR`
no reachable state is in `S_ERROR`. -/
theorem request_dispatch (cfg : Config) (w : World) :
    (w.srv_state = SDS_STATE_T.S_IDLE → w.g_trans.Request = REQ_NONE →
      Task_SD_Server cfg w = some w) ∧
    (w.srv_state = SDS_STATE_T.S_IDLE →
      (w.g_trans.Request = REQ_INIT ∨ w.g_trans.Request = REQ_READ ∨
        w.g_trans.Request = REQ_WRITE) →
      ∃ w1, Task_SD_Server cfg w = some w1 ∧
        w1.srv_state = (if w.g_trans.Request = REQ_INIT then SDS_STATE_T.S_INIT
                        else if w.g_trans.Request = REQ_READ then SDS_STATE_T.S_READ
                        else SDS_STATE_T.S_WRITE) ∧
        w1.g_trans = { w.g_trans with Status := FsmStatus.STAT_BUSY } ∧
        w1.cur_trans = w.g_trans ∧
        w1.port = w.port ∧ w1.dev = w.dev ∧ w1.buffer = w.buffer ∧
        w1.Init = w.Init ∧ w1.Read = w.Read ∧ w1.Write = w.Write ∧
        w1.iv = w.iv ∧ w1.rv = w.rv ∧ w1.wv = w.wv) ∧
    (w.srv_state = SDS_STATE_T.S_IDLE → REQ_WRITE < w.g_trans.Request →
      ∃ w1, Task_SD_Server cfg w = some w1 ∧ w1.srv_state = SDS_STATE_T.S_IDLE ∧
        w1.g_trans = { w.g_trans with ErrorCode := SDRESULTS.SD_PARERR,
                                      Status := FsmStatus.STAT_IDLE, Request := REQ_NONE } ∧
        w1.port = w.port ∧ w1.dev = w.dev ∧ w1.buffer = w.buffer ∧
        w1.Init = w.Init ∧ w1.Read = w.Read ∧ w1.Write = w.Write ∧
        w1.iv = w.iv ∧ w1.rv = w.rv ∧ w1.wv = w.wv) ∧
    (∀ w1, Task_SD_Server cfg w = some w1 → w1.srv_state ≠ SDS_STATE_T.S_ERROR) ∧
    (w.srv_state ≠ SDS_STATE_T.S_ERROR →
      ∀ w1, Reachable cfg w w1 → w1.srv_state ≠ SDS_STATE_T.S_ERROR) := by
  refine ⟨?_, ?_, ?_, Task_not_trap cfg w, ?_⟩
  · intro hs hr
    rw [Task_S_IDLE cfg w hs, if_pos hr]
  · intro hs hr
    rw [Task_S_IDLE cfg w hs]
    rcases hr with e | e | e
    · rw [if_neg (by rw [e]; decide), if_pos (by rw [e]; decide)]
      exact ⟨_, rfl, by simp [e, Req_to_State], rfl, rfl, rfl, rfl, rfl, rfl, rfl, rfl, rfl, rfl,
        rfl⟩
    · rw [if_neg (by rw [e]; decide), if_pos (by rw [e]; decide)]
      exact ⟨_, rfl, by simp [e, Req_to_State], rfl, rfl, rfl, rfl, rfl, rfl, rfl, rfl, rfl, rfl,
        rfl⟩
    · rw [if_neg (by rw [e]; decide), if_pos (le_of_eq e)]
      exact ⟨_, rfl, by simp [e, Req_to_State], rfl, rfl, rfl, rfl, rfl, rfl, rfl, rfl, rfl, rfl,
        rfl⟩
  · intro hs hr
    rw [Task_S_IDLE cfg w hs]
    have h0 : w.g_trans.Request ≠ REQ_NONE := by
      intro e
      rw [e] at hr
      exact absurd hr (by decide)
    rw [if_neg h0, if_neg (not_le.mpr hr)]
    exact ⟨_, rfl, rfl, rfl, rfl, rfl, rfl, rfl, rfl, rfl, rfl, rfl, rfl⟩
  · intro hs w1 hr
    induction hr with
    | start => exact hs
    | tick _ ht _ => exact Task_not_trap cfg _ _ ht
    | client req sector data device buf _ _ ih => exact ih

theorem request_dispatch_witness :
    writeSubmitted.srv_state = SDS_STATE_T.S_IDLE ∧ writeSubmitted.g_trans.Request = REQ_WRITE ∧
    ∃ w1, Task_SD_Server demoCfg writeSubmitted = some w1 ∧
      w1.srv_state = SDS_STATE_T.S_WRITE ∧ w1.g_trans.Status = FsmStatus.STAT_BUSY ∧
      w1.port = writeSubmitted.port := by
  obtain ⟨w1, h1, h2, h3, _, h5, _⟩ :=
    (request_dispatch demoCfg writeSubmitted).2.1 rfl (Or.inr (Or.inr rfl))
  refine ⟨rfl, rfl, w1, h1, ?_, ?_, h5⟩
  · rw [h2]
    rfl
  · rw [h3]

/-- C15. Completion is published verbatim and touches only three fields of
the slot. In a tick in `S_INIT`, `S_READ` or `S_WRITE`, with `f` the record of
the driven machine after its call: when `f` is idle with `Start_fsm = 1` the
slot becomes error = `f`'s error code, status = IDLE, request = NONE, with
sector, data and device as they were, and the server returns to `S_IDLE`;
otherwise the slot and the server state are unchanged. The records of the
two machines that are not driven are untouched in both cases. -/
theorem completion_published (cfg : Config) (w w1 : World)
    (hs : w.srv_state = SDS_STATE_T.S_INIT ∨ w.srv_state = SDS_STATE_T.S_READ ∨
      w.srv_state = SDS_STATE_T.S_WRITE)
    (h : Task_SD_Server cfg w = some w1) :
    ((drivenFSM w.srv_state w1).Status_fsm = FsmStatus.STAT_IDLE ∧
        (drivenFSM w.srv_state w1).Start_fsm = 1 →
      w1.g_trans = { w.g_trans with ErrorCode := (drivenFSM w.srv_state w1).ErrorCode_fsm,
                                    Status := FsmStatus.STAT_IDLE, Request := REQ_NONE } ∧
      w1.srv_state = SDS_STATE_T.S_IDLE) ∧
    (¬ ((drivenFSM w.srv_state w1).Status_fsm = FsmStatus.STAT_IDLE ∧
        (drivenFSM w.srv_state w1).Start_fsm = 1) →
      w1.g_trans = w.g_trans ∧ w1.srv_state = w.srv_state) ∧
    (w.srv_state ≠ SDS_STATE_T.S_INIT → w1.Init = w.Init) ∧
    (w.srv_state ≠ SDS_STATE_T.S_READ → w1.Read = w.Read) ∧
    (w.srv_state ≠ SDS_STATE_T.S_WRITE → w1.Write = w.Write) := by
  obtain ⟨v, e, hg, hv, _, fi, fr, fw⟩ := Task_drive cfg w w1 h hs
  have hrec : drivenFSM w.srv_state w1 = drivenFSM w.srv_state v := by
    rw [e]
    unfold Server_publish
    split_ifs <;> rfl
  have hI : w1.Init = v.Init := by rw [e]; unfold Server_publish; split_ifs <;> rfl
  have hR : w1.Read = v.Read := by rw [e]; unfold Server_publish; split_ifs <;> rfl
  have hW : w1.Write = v.Write := by rw [e]; unfold Server_publish; split_ifs <;> rfl
  rw [hrec]
  refine ⟨?_, ?_, fun hn => hI.trans (fi hn).1, fun hn => hR.trans (fr hn).1,
    fun hn => hW.trans (fw hn).1⟩
  · intro hp
    rw [e, (Server_publish_eq v _).1 hp]
    exact ⟨by simp only [Update_Trans, hg], rfl⟩
  · intro hp
    rw [e, (Server_publish_eq v _).2 hp]
    exact ⟨hg, hv⟩

theorem completion_published_witness :
    rangeDemoWorld.srv_state = SDS_STATE_T.S_READ ∧
    ∃ w1, Task_SD_Server demoCfg rangeDemoWorld = some w1 ∧
      (drivenFSM rangeDemoWorld.srv_state w1).ErrorCode_fsm = SDRESULTS.SD_PARERR ∧
      w1.g_trans = { rangeDemoWorld.g_trans with ErrorCode := SDRESULTS.SD_PARERR,
                                                 Status := FsmStatus.STAT_IDLE,
                                                 Request := REQ_NONE } ∧
      w1.srv_state = SDS_STATE_T.S_IDLE := by
  have ht : Task_SD_Server demoCfg rangeDemoWorld =
      some ((Task_SD_Server demoCfg rangeDemoWorld).getD rangeDemoWorld) := rfl
  have he : (drivenFSM rangeDemoWorld.srv_state
      ((Task_SD_Server demoCfg rangeDemoWorld).getD rangeDemoWorld)).ErrorCode_fsm =
      SDRESULTS.SD_PARERR := rfl
  obtain ⟨h1, h2⟩ := (completion_published demoCfg rangeDemoWorld _ (Or.inr (Or.inl rfl)) ht).1
    ⟨rfl, rfl⟩
  refine ⟨rfl, _, ht, he, ?_, h2⟩
  rw [h1, he]

/-! ## The machines at tick boundaries -/

theorem FsmStatus_busy_or_idle (s : FsmStatus) (h : s ≠ FsmStatus.STAT_IDLE) :
    s = FsmStatus.STAT_BUSY := by
  cases s
  · exact absurd rfl h
  · rfl

/-- One call of `SD_Read_FSM` on a record that is busy, or idle at `S1`:
afterwards the record shows a result with the machine back at `S1`, or it is
busy. -/
theorem SD_Read_FSM_progress (cfg : Config) (sector ofs cnt : Nat) (w : World)
    (h : w.Read.Status_fsm = FsmStatus.STAT_BUSY ∨ w.rv.next_state = IoState.S1) :
    (Published (SD_Read_FSM cfg sector ofs cnt w).Read ∧
      (SD_Read_FSM cfg sector ofs cnt w).rv.next_state = IoState.S1) ∨
    (SD_Read_FSM cfg sector ofs cnt w).Read.Status_fsm = FsmStatus.STAT_BUSY := by
  have hS2 : w.Read.Status_fsm = FsmStatus.STAT_BUSY →
      (SD_Read_FSM_S2 w).Read.Status_fsm = FsmStatus.STAT_BUSY := by
    intro hb
    unfold SD_Read_FSM_S2
    dsimp only
    split_ifs <;> exact hb
  unfold SD_Read_FSM
  split
  · split_ifs with hi
    · unfold SD_Read_FSM_S1
      dsimp only
      split_ifs
      · exact Or.inl ⟨⟨hi, rfl⟩, rfl⟩
      · exact Or.inr rfl
      · exact Or.inr rfl
    · exact Or.inr (hS2 (FsmStatus_busy_or_idle _ hi))
  · rename_i hx
    exact Or.inr (hS2 (h.resolve_right (by rw [hx]; decide)))
  · rename_i hx
    right
    unfold SD_Read_FSM_S3
    dsimp only
    split_ifs <;> exact h.resolve_right (by rw [hx]; decide)
  · rename_i hx
    right
    rw [SD_Read_FSM_S4_eq]
    exact h.resolve_right (by rw [hx]; decide)
  · exact Or.inl ⟨⟨rfl, rfl⟩, rfl⟩

/-- One call of `SD_Write_FSM` on a record that is busy, or idle at `S1`. -/
theorem SD_Write_FSM_progress (cfg : Config) (sector : Nat) (w : World)
    (h : w.Write.Status_fsm = FsmStatus.STAT_BUSY ∨ w.wv.next_state = IoState.S1) :
    (Published (SD_Write_FSM cfg sector w).Write ∧
      (SD_Write_FSM cfg sector w).wv.next_state = IoState.S1) ∨
    (SD_Write_FSM cfg sector w).Write.Status_fsm = FsmStatus.STAT_BUSY := by
  have hS2 : w.Write.Status_fsm = FsmStatus.STAT_BUSY →
      (SD_Write_FSM_S2 cfg w).Write.Status_fsm = FsmStatus.STAT_BUSY := by
    intro hb
    unfold SD_Write_FSM_S2
    dsimp only
    split_ifs <;> exact hb
  unfold SD_Write_FSM
  split
  · split_ifs with hi
    · unfold SD_Write_FSM_S1
      dsimp only
      split_ifs
      · exact Or.inl ⟨⟨rfl, rfl⟩, rfl⟩
      · exact Or.inr rfl
      · exact Or.inl ⟨⟨rfl, rfl⟩, rfl⟩
    · exact Or.inr (hS2 (FsmStatus_busy_or_idle _ hi))
  · rename_i hx
    exact Or.inr (hS2 (h.resolve_right (by rw [hx]; decide)))
  · rename_i hx
    unfold SD_Write_FSM_S3
    dsimp only
    split_ifs
    · exact Or.inl ⟨⟨rfl, rfl⟩, rfl⟩
    · exact Or.inr (h.resolve_right (by rw [hx]; decide))
  · rename_i hx
    right
    unfold SD_Write_FSM_S4
    dsimp only
    split_ifs <;> exact h.resolve_right (by rw [hx]; decide)
  · rw [SD_Write_FSM_S5_eq]
    dsimp only
    split_ifs <;> exact Or.inl ⟨⟨rfl, rfl⟩, rfl⟩

/-- One call of `SD_Init` on a record that is busy, or idle at `S1`, outside
the unused state `S13`: afterwards the record shows a result with the machine
back at `S1`, or it is busy; `S13` is not entered. -/
theorem SD_Init_progress (cfg : Config) (w w1 : World) (h : SD_Init cfg w = some w1)
    (h13 : w.iv.next_state ≠ InitState.S13)
    (hb : w.Init.Status_fsm = FsmStatus.STAT_BUSY ∨ w.iv.next_state = InitState.S1) :
    w1.iv.next_state ≠ InitState.S13 ∧
    ((Published w1.Init ∧ w1.iv.next_state = InitState.S1) ∨
      w1.Init.Status_fsm = FsmStatus.STAT_BUSY) := by
  have hst : (SD_Init_arm w).iv.next_state = w.iv.next_state := by
    unfold SD_Init_arm
    split_ifs <;> rfl
  have hsta : (SD_Init_arm w).Init.Status_fsm = w.Init.Status_fsm := by
    unfold SD_Init_arm
    split_ifs <;> rfl
  rw [← hst] at h13 hb
  rw [← hsta] at hb
  unfold SD_Init at h
  dsimp only at h
  generalize SD_Init_arm w = v at h h13 hb
  split at h
  · cases h
    unfold SD_Init_S1
    split_ifs
    · exact ⟨by simp, Or.inr rfl⟩
    · exact ⟨by simp, Or.inr rfl⟩
  · rename_i hx
    cases h
    have hbusy := hb.resolve_right (by rw [hx]; decide)
    unfold SD_Init_S2
    dsimp only
    split_ifs
    · exact ⟨by simp, Or.inr hbusy⟩
    · exact ⟨by simp, Or.inr hbusy⟩
  · rename_i hx
    cases h
    have hbusy := hb.resolve_right (by rw [hx]; decide)
    unfold SD_Init_S3
    dsimp only
    split_ifs
    · exact ⟨by simp, Or.inr hbusy⟩
    · exact ⟨by simp, Or.inr hbusy⟩
    · exact ⟨by simp, Or.inr hbusy⟩
  · rename_i hx
    cases h
    have hbusy := hb.resolve_right (by rw [hx]; decide)
    unfold SD_Init_S4
    dsimp only
    split_ifs
    · exact ⟨by simp, Or.inr hbusy⟩
    · exact ⟨by simp, Or.inr hbusy⟩
  · rename_i hx
    cases h
    have hbusy := hb.resolve_right (by rw [hx]; decide)
    unfold SD_Init_S5
    dsimp only
    split_ifs
    · exact ⟨by simp, Or.inr hbusy⟩
    · exact ⟨by simp, Or.inr hbusy⟩
  · rename_i hx
    cases h
    have hbusy := hb.resolve_right (by rw [hx]; decide)
    exact ⟨by simp [SD_Init_S6], Or.inr hbusy⟩
  · rename_i hx
    cases h
    have hbusy := hb.resolve_right (by rw [hx]; decide)
    unfold SD_Init_S7
    dsimp only
    split_ifs
    · exact ⟨by simp, Or.inr hbusy⟩
    · exact ⟨by simp, Or.inr hbusy⟩
  · rename_i hx
    cases h
    have hbusy := hb.resolve_right (by rw [hx]; decide)
    unfold SD_Init_S8
    dsimp only
    split_ifs
    · exact ⟨by simp, Or.inr hbusy⟩
    · exact ⟨by simp, Or.inr hbusy⟩
    · exact ⟨by simp, Or.inr hbusy⟩
  · rename_i hx
    cases h
    have hbusy := hb.resolve_right (by rw [hx]; decide)
    unfold SD_Init_S9
    dsimp only
    split_ifs
    · exact ⟨by simp, Or.inr hbusy⟩
    · exact ⟨by simp, Or.inr hbusy⟩
    · exact ⟨by simp, Or.inr hbusy⟩
  · rename_i hx
    cases h
    have hbusy := hb.resolve_right (by rw [hx]; decide)
    exact ⟨by simp [SD_Init_S10], Or.inr hbusy⟩
  · rename_i hx
    have hbusy := hb.resolve_right (by rw [hx]; decide)
    unfold SD_Init_S11 at h
    split_ifs at h
    · dsimp only at h
      split at h
      · cases h
      · cases h
        exact ⟨by simp, Or.inr hbusy⟩
    · cases h
      exact ⟨by simp, Or.inr hbusy⟩
  · cases h
    exact ⟨by simp [SD_Init_S12], Or.inl ⟨⟨rfl, rfl⟩, rfl⟩⟩
  · rename_i hx
    exact absurd hx h13

/-- The shape of the machines is kept by every server tick. -/
theorem MachinesInv_tick (cfg : Config) (w w1 : World) (hinv : MachinesInv w)
    (h : Task_SD_Server cfg w = some w1) : MachinesInv w1 := by
  obtain ⟨i1, i2, i3, i4, i5, i6, i7⟩ := hinv
  have hne := Task_not_trap cfg w w1 h
  cases hs : w.srv_state with
  | S_ERROR => exact absurd hs i1
  | S_IDLE =>
    have j2 := i2 (by rw [hs]; decide)
    have j3 := i3 (by rw [hs]; decide)
    have j4 := i4 (by rw [hs]; decide)
    rw [Task_S_IDLE cfg w hs] at h
    have e := (Option.some.inj h).symm
    by_cases c1 : w.g_trans.Request = REQ_NONE
    · rw [if_pos c1] at e
      subst e
      exact ⟨i1, i2, i3, i4, i5, i6, i7⟩
    · rw [if_neg c1] at e
      by_cases c2 : w.g_trans.Request ≤ REQ_WRITE
      · rw [if_pos c2] at e
        subst e
        exact ⟨hne, fun _ => j2, fun _ => j3, fun _ => j4, i5, i6, i7⟩
      · rw [if_neg c2] at e
        subst e
        exact ⟨hne, fun _ => j2, fun _ => j3, fun _ => j4, i5, i6, i7⟩
  | S_INIT =>
    have j3 := i3 (by rw [hs]; decide)
    have j4 := i4 (by rw [hs]; decide)
    rw [Task_S_INIT cfg w hs] at h
    cases hv : SD_Init cfg (if w.Init.set_fsm = 0 then
        { w with Init := { w.Init with set_fsm := 1 } } else w) with
    | none => rw [hv] at h; cases h
    | some v =>
      rw [hv] at h
      obtain ⟨a1, a2, a3, a4, _, _, a7, _⟩ := SD_Init_outside cfg _ v hv
      obtain ⟨p1, p2⟩ := SD_Init_progress cfg _ v hv (by split_ifs <;> exact i5.1)
        (by split_ifs <;> exact i5.2)
      have hr : v.Read.Status_fsm = FsmStatus.STAT_IDLE ∧ v.rv.next_state = IoState.S1 := by
        rw [a1, a3]; split_ifs <;> exact j3
      have hw : v.Write.Status_fsm = FsmStatus.STAT_IDLE ∧ v.wv.next_state = IoState.S1 := by
        rw [a2, a4]; split_ifs <;> exact j4
      have hsv : v.srv_state = SDS_STATE_T.S_INIT := by
        rw [a7]; split_ifs <;> exact hs
      have e := (Option.some.inj h).symm
      dsimp only at e
      subst e
      by_cases hp : Published v.Init
      · rcases p2 with ⟨_, q⟩ | q
        · rw [(Server_publish_eq v _).1 hp]
          exact ⟨by simp, fun _ => ⟨hp.1, q⟩, fun _ => hr, fun _ => hw, ⟨p1, Or.inr q⟩,
            Or.inr hr.2, Or.inr hw.2⟩
        · rw [hp.1] at q
          cases q
      · rw [(Server_publish_eq v _).2 hp]
        have q := p2.resolve_left (fun c => hp c.1)
        exact ⟨by rw [hsv]; decide, fun c => absurd hsv c, fun _ => hr, fun _ => hw,
          ⟨p1, Or.inl q⟩, Or.inr hr.2, Or.inr hw.2⟩
  | S_READ =>
    have j2 := i2 (by rw [hs]; decide)
    have j4 := i4 (by rw [hs]; decide)
    rw [Task_S_READ cfg w hs] at h
    obtain ⟨a1, a2, a3, a4, _, _, a7⟩ := SD_Read_FSM_outside cfg w.cur_trans.Sector 0 512 w
    have p2 := SD_Read_FSM_progress cfg w.cur_trans.Sector 0 512 w i6
    generalize SD_Read_FSM cfg w.cur_trans.Sector 0 512 w = v at h a1 a2 a3 a4 a7 p2
    have hi : v.Init.Status_fsm = FsmStatus.STAT_IDLE ∧ v.iv.next_state = InitState.S1 := by
      rw [a1, a3]; exact j2
    have hw : v.Write.Status_fsm = FsmStatus.STAT_IDLE ∧ v.wv.next_state = IoState.S1 := by
      rw [a2, a4]; exact j4
    have h13 : v.iv.next_state ≠ InitState.S13 := by rw [hi.2]; decide
    have e := (Option.some.inj h).symm
    subst e
    by_cases hp : Published v.Read
    · rcases p2 with ⟨_, q⟩ | q
      · rw [(Server_publish_eq v _).1 hp]
        exact ⟨by simp, fun _ => hi, fun _ => ⟨hp.1, q⟩, fun _ => hw, ⟨h13, Or.inr hi.2⟩,
          Or.inr q, Or.inr hw.2⟩
      · rw [hp.1] at q
        cases q
    · rw [(Server_publish_eq v _).2 hp]
      have q := p2.resolve_left (fun c => hp c.1)
      exact ⟨by rw [a7, hs]; decide, fun _ => hi, fun c => absurd (a7.trans hs) c, fun _ => hw,
        ⟨h13, Or.inr hi.2⟩, Or.inl q, Or.inr hw.2⟩
  | S_WRITE =>
    have j2 := i2 (by rw [hs]; decide)
    have j3 := i3 (by rw [hs]; decide)
    rw [Task_S_WRITE cfg w hs] at h
    obtain ⟨a1, a2, _, _, a7⟩ := SD_Write_FSM_outside cfg w.cur_trans.Sector w
    obtain ⟨a3, a4, _, _⟩ := SD_Write_FSM_frame cfg w.cur_trans.Sector w
    have p2 := SD_Write_FSM_progress cfg w.cur_trans.Sector w i7
    generalize SD_Write_FSM cfg w.cur_trans.Sector w = v at h a1 a2 a3 a4 a7 p2
    have hi : v.Init.Status_fsm = FsmStatus.STAT_IDLE ∧ v.iv.next_state = InitState.S1 := by
      rw [a1, a2]; exact j2
    have hr : v.Read.Status_fsm = FsmStatus.STAT_IDLE ∧ v.rv.next_state = IoState.S1 := by
      rw [a4, a3]; exact j3
    have h13 : v.iv.next_state ≠ InitState.S13 := by rw [hi.2]; decide
    have e := (Option.some.inj h).symm
    subst e
    by_cases hp : Published v.Write
    · rcases p2 with ⟨_, q⟩ | q
      · rw [(Server_publish_eq v _).1 hp]
        exact ⟨by simp, fun _ => hi, fun _ => hr, fun _ => ⟨hp.1, q⟩, ⟨h13, Or.inr hi.2⟩,
          Or.inr hr.2, Or.inr q⟩
      · rw [hp.1] at q
        cases q
    · rw [(Server_publish_eq v _).2 hp]
      have q := p2.resolve_left (fun c => hp c.1)
      exact ⟨by rw [a7, hs]; decide, fun _ => hi, fun _ => hr, fun c => absurd (a7.trans hs) c,
        ⟨h13, Or.inr hi.2⟩, Or.inr hr.2, Or.inl q⟩

/-- The shape of the machines holds in every reachable state. -/
theorem MachinesInv_reachable (cfg : Config) (w0 w : World) (h0 : Started w0)
    (hr : Reachable cfg w0 w) : MachinesInv w := by
  induction hr with
  | start =>
    obtain ⟨s1, s2, s3, s4, s5, s6, s7⟩ := h0
    exact ⟨by rw [s1]; decide, fun _ => ⟨s2, s5⟩, fun _ => ⟨s3, s6⟩, fun _ => ⟨s4, s7⟩,
      ⟨by rw [s5]; decide, Or.inr s5⟩, Or.inr s6, Or.inr s7⟩
  | tick _ ht ih => exact MachinesInv_tick cfg _ _ ih ht
  | client req sector data device buf _ _ ih => exact ih

/-- C16. Mutual exclusion of operations. In every state reachable from an
initial state (server in `S_IDLE`, the three records idle, the three machines
at `S1`) by server ticks interleaved with client submissions made while the
slot is idle, no two of the Init, Read and Write records are busy, and a
busy record belongs to the machine of the server's state. -/
theorem mutual_exclusion (cfg : Config) (w0 w : World) (h0 : Started w0)
    (hr : Reachable cfg w0 w) :
    ¬ (w.Init.Status_fsm = FsmStatus.STAT_BUSY ∧ w.Read.Status_fsm = FsmStatus.STAT_BUSY) ∧
    ¬ (w.Init.Status_fsm = FsmStatus.STAT_BUSY ∧ w.Write.Status_fsm = FsmStatus.STAT_BUSY) ∧
    ¬ (w.Read.Status_fsm = FsmStatus.STAT_BUSY ∧ w.Write.Status_fsm = FsmStatus.STAT_BUSY) ∧
    (w.Init.Status_fsm = FsmStatus.STAT_BUSY → w.srv_state = SDS_STATE_T.S_INIT) ∧
    (w.Read.Status_fsm = FsmStatus.STAT_BUSY → w.srv_state = SDS_STATE_T.S_READ) ∧
    (w.Write.Status_fsm = FsmStatus.STAT_BUSY → w.srv_state = SDS_STATE_T.S_WRITE) := by
  obtain ⟨_, i2, i3, i4, _⟩ := MachinesInv_reachable cfg w0 w h0 hr
  have hI : w.Init.Status_fsm = FsmStatus.STAT_BUSY → w.srv_state = SDS_STATE_T.S_INIT := by
    intro hb
    by_contra hn
    rw [(i2 hn).1] at hb
    cases hb
  have hR : w.Read.Status_fsm = FsmStatus.STAT_BUSY → w.srv_state = SDS_STATE_T.S_READ := by
    intro hb
    by_contra hn
    rw [(i3 hn).1] at hb
    cases hb
  have hW : w.Write.Status_fsm = FsmStatus.STAT_BUSY → w.srv_state = SDS_STATE_T.S_WRITE := by
    intro hb
    by_contra hn
    rw [(i4 hn).1] at hb
    cases hb
  refine ⟨?_, ?_, ?_, hI, hR, hW⟩
  · rintro ⟨a, b⟩
    have := (hI a).symm.trans (hR b)
    cases this
  · rintro ⟨a, b⟩
    have := (hI a).symm.trans (hW b)
    cases this
  · rintro ⟨a, b⟩
    have := (hR a).symm.trans (hW b)
    cases this

theorem mutual_exclusion_witness :
    Started writeDemoWorld ∧ Reachable demoCfg writeDemoWorld writeStarted ∧
    writeStarted.Write.Status_fsm = FsmStatus.STAT_BUSY ∧
    writeStarted.srv_state = SDS_STATE_T.S_WRITE ∧
    ¬ (writeStarted.Read.Status_fsm = FsmStatus.STAT_BUSY ∧
       writeStarted.Write.Status_fsm = FsmStatus.STAT_BUSY) := by
  have h0 : Started writeDemoWorld := ⟨rfl, rfl, rfl, rfl, rfl, rfl, rfl⟩
  have hr : Reachable demoCfg writeDemoWorld writeStarted :=
    Reachable.tick
      (Reachable.tick (Reachable.client REQ_WRITE 7 0 0 demoBuffer Reachable.start rfl)
        (show Task_SD_Server demoCfg (submit REQ_WRITE 7 0 0 demoBuffer writeDemoWorld) =
          some writeDispatched from rfl))
      (show Task_SD_Server demoCfg writeDispatched = some writeStarted from rfl)
  have hb : writeStarted.Write.Status_fsm = FsmStatus.STAT_BUSY := rfl
  obtain ⟨_, _, m3, _, _, m6⟩ := mutual_exclusion demoCfg writeDemoWorld writeStarted h0 hr
  exact ⟨h0, hr, hb, m6 hb, m3⟩

/-! ## The status of the transaction slot -/

/-- The slot's status follows the server across every tick. -/
theorem SlotInv_tick (cfg : Config) (w w1 : World) (hinv : SlotInv w)
    (h : Task_SD_Server cfg w = some w1) : SlotInv w1 := by
  unfold SlotInv at hinv ⊢
  cases hs : w.srv_state with
  | S_ERROR => rw [Task_S_ERROR cfg w hs] at h; cases h
  | S_IDLE =>
    rw [Task_S_IDLE cfg w hs] at h
    have e := (Option.some.inj h).symm
    by_cases c1 : w.g_trans.Request = REQ_NONE
    · rw [if_pos c1] at e
      subst e
      exact hinv
    · rw [if_neg c1] at e
      by_cases c2 : w.g_trans.Request ≤ REQ_WRITE
      · rw [if_pos c2] at e
        subst e
        have : w.g_trans.Request = 1 ∨ w.g_trans.Request = 2 ∨ w.g_trans.Request = 3 := by
          have : w.g_trans.Request ≠ 0 := c1
          have : w.g_trans.Request ≤ 3 := c2
          omega
        rcases this with r | r | r <;> simp [r, Req_to_State]
      · rw [if_neg c2] at e
        subst e
        simp
  | S_INIT =>
    obtain ⟨v, e, hg, hv, _⟩ := Task_drive cfg w w1 h (Or.inl hs)
    subst e
    by_cases hp : Published (drivenFSM w.srv_state v)
    · rw [(Server_publish_eq v _).1 hp]
      simp [Update_Trans]
    · rw [(Server_publish_eq v _).2 hp, hg, hv]
      exact hinv
  | S_READ =>
    obtain ⟨v, e, hg, hv, _⟩ := Task_drive cfg w w1 h (Or.inr (Or.inl hs))
    subst e
    by_cases hp : Published (drivenFSM w.srv_state v)
    · rw [(Server_publish_eq v _).1 hp]
      simp [Update_Trans]
    · rw [(Server_publish_eq v _).2 hp, hg, hv]
      exact hinv
  | S_WRITE =>
    obtain ⟨v, e, hg, hv, _⟩ := Task_drive cfg w w1 h (Or.inr (Or.inr hs))
    subst e
    by_cases hp : Published (drivenFSM w.srv_state v)
    · rw [(Server_publish_eq v _).1 hp]
      simp [Update_Trans]
    · rw [(Server_publish_eq v _).2 hp, hg, hv]
      exact hinv

/-- The slot's status follows the server in every reachable state. -/
theorem SlotInv_reachable (cfg : Config) (w0 w : World)
    (hs : w0.srv_state = SDS_STATE_T.S_IDLE) (hi : w0.g_trans.Status = FsmStatus.STAT_IDLE)
    (hr : Reachable cfg w0 w) : SlotInv w := by
  induction hr with
  | start =>
    unfold SlotInv
    rw [hs, hi]
    simp
  | tick _ ht ih => exact SlotInv_tick cfg _ _ ih ht
  | client req sector data device buf _ _ ih => exact ih

/-- The counterexample of C17. One tick after a WRITE is submitted at start-up
the server has dispatched it: the status of the slot is BUSY while none of the
three records is busy (the Write machine is called for the first time in the
next tick). -/
theorem slot_busy_before_machine_starts :
    Started writeDemoWorld ∧ writeDemoWorld.g_trans.Status = FsmStatus.STAT_IDLE ∧
    Reachable demoCfg writeDemoWorld writeDispatched ∧
    writeDispatched.g_trans.Status = FsmStatus.STAT_BUSY ∧
    writeDispatched.Init.Status_fsm = FsmStatus.STAT_IDLE ∧
    writeDispatched.Read.Status_fsm = FsmStatus.STAT_IDLE ∧
    writeDispatched.Write.Status_fsm = FsmStatus.STAT_IDLE :=
  ⟨⟨rfl, rfl, rfl, rfl, rfl, rfl, rfl⟩, rfl,
    Reachable.tick (Reachable.client REQ_WRITE 7 0 0 demoBuffer Reachable.start rfl)
      (show Task_SD_Server demoCfg (submit REQ_WRITE 7 0 0 demoBuffer writeDemoWorld) =
        some writeDispatched from rfl),
    rfl, rfl, rfl, rfl⟩

/-- C17, amended. In every state reachable from the initial state (slot idle)
by server ticks interleaved with client submissions made while the slot is
idle: the status of the slot is BUSY exactly while the server is in `S_INIT`,
`S_READ` or `S_WRITE`; a busy record implies a busy slot; and the slot is busy
with all three records idle only while the machine of the server's state is
still at `S1`, not yet called since the dispatch. -/
theorem slot_status_follows_server (cfg : Config) (w0 w : World) (h0 : Started w0)
    (hi : w0.g_trans.Status = FsmStatus.STAT_IDLE) (hr : Reachable cfg w0 w) :
    (w.g_trans.Status = FsmStatus.STAT_BUSY ↔
      (w.srv_state = SDS_STATE_T.S_INIT ∨ w.srv_state = SDS_STATE_T.S_READ ∨
       w.srv_state = SDS_STATE_T.S_WRITE)) ∧
    ((w.Init.Status_fsm = FsmStatus.STAT_BUSY ∨ w.Read.Status_fsm = FsmStatus.STAT_BUSY ∨
        w.Write.Status_fsm = FsmStatus.STAT_BUSY) → w.g_trans.Status = FsmStatus.STAT_BUSY) ∧
    (w.g_trans.Status = FsmStatus.STAT_BUSY →
      w.Init.Status_fsm = FsmStatus.STAT_IDLE → w.Read.Status_fsm = FsmStatus.STAT_IDLE →
      w.Write.Status_fsm = FsmStatus.STAT_IDLE →
      (w.srv_state = SDS_STATE_T.S_INIT ∧ w.iv.next_state = InitState.S1) ∨
      (w.srv_state = SDS_STATE_T.S_READ ∧ w.rv.next_state = IoState.S1) ∨
      (w.srv_state = SDS_STATE_T.S_WRITE ∧ w.wv.next_state = IoState.S1)) := by
  obtain ⟨i1, i2, i3, i4, i5, i6, i7⟩ := MachinesInv_reachable cfg w0 w h0 hr
  have hslot : SlotInv w := SlotInv_reachable cfg w0 w h0.1 hi hr
  unfold SlotInv at hslot
  have hiff : w.g_trans.Status = FsmStatus.STAT_BUSY ↔
      (w.srv_state = SDS_STATE_T.S_INIT ∨ w.srv_state = SDS_STATE_T.S_READ ∨
       w.srv_state = SDS_STATE_T.S_WRITE) := by
    rw [hslot]
    cases hs : w.srv_state <;> simp
    exact absurd hs i1
  refine ⟨hiff, ?_, ?_⟩
  · intro hb
    rw [hiff]
    rcases hb with hb | hb | hb
    · left
      by_contra hn
      rw [(i2 hn).1] at hb
      cases hb
    · right; left
      by_contra hn
      rw [(i3 hn).1] at hb
      cases hb
    · right; right
      by_contra hn
      rw [(i4 hn).1] at hb
      cases hb
  · intro hb a b c
    rcases hiff.mp hb with hs | hs | hs
    · exact Or.inl ⟨hs, i5.2.resolve_left (by rw [a]; decide)⟩
    · exact Or.inr (Or.inl ⟨hs, i6.resolve_left (by rw [b]; decide)⟩)
    · exact Or.inr (Or.inr ⟨hs, i7.resolve_left (by rw [c]; decide)⟩)

theorem slot_status_follows_server_witness :
    Started writeDemoWorld ∧ writeDemoWorld.g_trans.Status = FsmStatus.STAT_IDLE ∧
    Reachable demoCfg writeDemoWorld writeStarted ∧
    writeStarted.Write.Status_fsm = FsmStatus.STAT_BUSY ∧
    writeStarted.g_trans.Status = FsmStatus.STAT_BUSY := by
  have h0 : Started writeDemoWorld := ⟨rfl, rfl, rfl, rfl, rfl, rfl, rfl⟩
  have hr : Reachable demoCfg writeDemoWorld writeStarted :=
    Reachable.tick
      (Reachable.tick (Reachable.client REQ_WRITE 7 0 0 demoBuffer Reachable.start rfl)
        (show Task_SD_Server demoCfg (submit REQ_WRITE 7 0 0 demoBuffer writeDemoWorld) =
          some writeDispatched from rfl))
      (show Task_SD_Server demoCfg writeDispatched = some writeStarted from rfl)
  have hb : writeStarted.Write.Status_fsm = FsmStatus.STAT_BUSY := rfl
  exact ⟨h0, rfl, hr, hb,
    (slot_status_follows_server demoCfg writeDemoWorld writeStarted h0 rfl hr).2.1
      (Or.inr (Or.inr hb))⟩

/-! ## The debug counters -/

/-- One call of `SD_Read_FSM` from any state: the write counter is untouched,
the read counter is untouched or incremented. -/
theorem SD_Read_FSM_dev (cfg : Config) (sector ofs cnt : Nat) (w : World) :
    (SD_Read_FSM cfg sector ofs cnt w).dev.debug_write = w.dev.debug_write ∧
    ((SD_Read_FSM cfg sector ofs cnt w).dev.debug_read = w.dev.debug_read ∨
     (SD_Read_FSM cfg sector ofs cnt w).dev.debug_read =
       (w.dev.debug_read + 1) % 2 ^ cfg.DBG_BITS) := by
  have hS2 : (SD_Read_FSM_S2 w).dev = w.dev := by
    unfold SD_Read_FSM_S2
    dsimp only
    split_ifs <;> rfl
  unfold SD_Read_FSM
  split
  · split_ifs
    · unfold SD_Read_FSM_S1
      dsimp only
      split_ifs <;> exact ⟨rfl, Or.inl rfl⟩
    · rw [hS2]
      exact ⟨rfl, Or.inl rfl⟩
  · rw [hS2]
    exact ⟨rfl, Or.inl rfl⟩
  · unfold SD_Read_FSM_S3
    dsimp only
    split_ifs <;> exact ⟨rfl, Or.inl rfl⟩
  · rw [SD_Read_FSM_S4_eq]
    exact ⟨rfl, Or.inl rfl⟩
  · exact ⟨rfl, Or.inr rfl⟩

/-- One call of `SD_Write_FSM` from any state: the read counter is untouched,
the write counter is untouched or incremented. -/
theorem SD_Write_FSM_dev (cfg : Config) (sector : Nat) (w : World) :
    (SD_Write_FSM cfg sector w).dev.debug_read = w.dev.debug_read ∧
    ((SD_Write_FSM cfg sector w).dev.debug_write = w.dev.debug_write ∨
     (SD_Write_FSM cfg sector w).dev.debug_write =
       (w.dev.debug_write + 1) % 2 ^ cfg.DBG_BITS) := by
  have hS2 : (SD_Write_FSM_S2 cfg w).dev = w.dev := by
    unfold SD_Write_FSM_S2
    dsimp only
    split_ifs <;> rfl
  unfold SD_Write_FSM
  split
  · split_ifs
    · unfold SD_Write_FSM_S1
      dsimp only
      split_ifs <;> exact ⟨rfl, Or.inl rfl⟩
    · rw [hS2]
      exact ⟨rfl, Or.inl rfl⟩
  · rw [hS2]
    exact ⟨rfl, Or.inl rfl⟩
  · unfold SD_Write_FSM_S3
    dsimp only
    split_ifs <;> exact ⟨rfl, Or.inl rfl⟩
  · unfold SD_Write_FSM_S4
    dsimp only
    split_ifs <;> exact ⟨rfl, Or.inl rfl⟩
  · rw [SD_Write_FSM_S5_eq]
    exact ⟨rfl, Or.inr rfl⟩

/-- One call of `SD_Init` that does not finalise a detected card in `S11`
leaves both counters as they were. -/
theorem SD_Init_dev (cfg : Config) (w w1 : World) (h : SD_Init cfg w = some w1)
    (hn : ¬ (w.iv.next_state = InitState.S11 ∧ w.iv.ct ≠ 0)) :
    w1.dev.debug_read = w.dev.debug_read ∧ w1.dev.debug_write = w.dev.debug_write := by
  have hst : (SD_Init_arm w).iv.next_state = w.iv.next_state := by
    unfold SD_Init_arm
    split_ifs <;> rfl
  have hdev : (SD_Init_arm w).dev = w.dev := by
    unfold SD_Init_arm
    split_ifs <;> rfl
  have hct : (SD_Init_arm w).iv.ct ≠ 0 → w.iv.ct ≠ 0 := by
    unfold SD_Init_arm
    split_ifs
    · intro c
      exact absurd rfl c
    · exact id
  rw [← hdev]
  unfold SD_Init at h
  dsimp only at h
  generalize SD_Init_arm w = v at h hst hct
  split at h
  · cases h
    unfold SD_Init_S1
    split_ifs <;> exact ⟨rfl, rfl⟩
  · cases h
    unfold SD_Init_S2
    dsimp only
    split_ifs <;> exact ⟨rfl, rfl⟩
  · cases h
    unfold SD_Init_S3
    dsimp only
    split_ifs <;> exact ⟨rfl, rfl⟩
  · cases h
    unfold SD_Init_S4
    dsimp only
    split_ifs <;> exact ⟨rfl, rfl⟩
  · cases h
    unfold SD_Init_S5
    dsimp only
    split_ifs <;> exact ⟨rfl, rfl⟩
  · cases h
    exact ⟨rfl, rfl⟩
  · cases h
    unfold SD_Init_S7
    dsimp only
    split_ifs <;> exact ⟨rfl, rfl⟩
  · cases h
    unfold SD_Init_S8
    dsimp only
    split_ifs <;> exact ⟨rfl, rfl⟩
  · cases h
    unfold SD_Init_S9
    dsimp only
    split_ifs <;> exact ⟨rfl, rfl⟩
  · cases h
    exact ⟨rfl, rfl⟩
  · rename_i hx
    unfold SD_Init_S11 at h
    split_ifs at h with hc
    · exact absurd ⟨hst ▸ hx, hct hc⟩ hn
    · cases h
      exact ⟨rfl, rfl⟩
  · cases h
    exact ⟨rfl, rfl⟩
  · cases h
    exact ⟨rfl, rfl⟩

/-- One call of `SD_Read_FSM` on a record that is idle at `S1`, or busy with a
pending result ERROR or OK: the call publishes PARERR without counting,
publishes OK or ERROR and counts, or leaves the record busy without counting. -/
theorem SD_Read_FSM_counts (cfg : Config) (sector ofs cnt : Nat) (w : World)
    (h : (w.Read.Status_fsm = FsmStatus.STAT_IDLE ∧ w.rv.next_state = IoState.S1) ∨
      (w.Read.Status_fsm = FsmStatus.STAT_BUSY ∧
        (w.rv.res = SDRESULTS.SD_ERROR ∨ w.rv.res = SDRESULTS.SD_OK))) :
    (Published (SD_Read_FSM cfg sector ofs cnt w).Read ∧
      (SD_Read_FSM cfg sector ofs cnt w).Read.ErrorCode_fsm = SDRESULTS.SD_PARERR ∧
      (SD_Read_FSM cfg sector ofs cnt w).dev.debug_read = w.dev.debug_read) ∨
    (Published (SD_Read_FSM cfg sector ofs cnt w).Read ∧
      ((SD_Read_FSM cfg sector ofs cnt w).Read.ErrorCode_fsm = SDRESULTS.SD_ERROR ∨
        (SD_Read_FSM cfg sector ofs cnt w).Read.ErrorCode_fsm = SDRESULTS.SD_OK) ∧
      (SD_Read_FSM cfg sector ofs cnt w).dev.debug_read =
        (w.dev.debug_read + 1) % 2 ^ cfg.DBG_BITS) ∨
    ((SD_Read_FSM cfg sector ofs cnt w).Read.Status_fsm = FsmStatus.STAT_BUSY ∧
      ((SD_Read_FSM cfg sector ofs cnt w).rv.res = SDRESULTS.SD_ERROR ∨
        (SD_Read_FSM cfg sector ofs cnt w).rv.res = SDRESULTS.SD_OK) ∧
      (SD_Read_FSM cfg sector ofs cnt w).dev.debug_read = w.dev.debug_read) := by
  have hbusy : w.Read.Status_fsm ≠ FsmStatus.STAT_IDLE →
      w.Read.Status_fsm = FsmStatus.STAT_BUSY ∧
        (w.rv.res = SDRESULTS.SD_ERROR ∨ w.rv.res = SDRESULTS.SD_OK) :=
    fun hi => h.resolve_left (fun c => hi c.1)
  have hnot1 : w.rv.next_state ≠ IoState.S1 →
      w.Read.Status_fsm = FsmStatus.STAT_BUSY ∧
        (w.rv.res = SDRESULTS.SD_ERROR ∨ w.rv.res = SDRESULTS.SD_OK) :=
    fun hi => h.resolve_left (fun c => hi c.2)
  have hS2 : w.Read.Status_fsm = FsmStatus.STAT_BUSY ∧
        (w.rv.res = SDRESULTS.SD_ERROR ∨ w.rv.res = SDRESULTS.SD_OK) →
      (SD_Read_FSM_S2 w).Read.Status_fsm = FsmStatus.STAT_BUSY ∧
      ((SD_Read_FSM_S2 w).rv.res = SDRESULTS.SD_ERROR ∨
        (SD_Read_FSM_S2 w).rv.res = SDRESULTS.SD_OK) ∧
      (SD_Read_FSM_S2 w).dev.debug_read = w.dev.debug_read := by
    intro hb
    unfold SD_Read_FSM_S2
    dsimp only
    split_ifs <;> exact ⟨hb.1, hb.2, rfl⟩
  unfold SD_Read_FSM
  split
  · split_ifs with hi
    · unfold SD_Read_FSM_S1
      dsimp only
      split_ifs
      · exact Or.inl ⟨⟨hi, rfl⟩, rfl, rfl⟩
      · exact Or.inr (Or.inr ⟨rfl, Or.inl rfl, rfl⟩)
      · exact Or.inr (Or.inr ⟨rfl, Or.inl rfl, rfl⟩)
    · exact Or.inr (Or.inr (hS2 (hbusy hi)))
  · rename_i hx
    exact Or.inr (Or.inr (hS2 (hnot1 (by rw [hx]; decide))))
  · rename_i hx
    have hb := hnot1 (by rw [hx]; decide)
    unfold SD_Read_FSM_S3
    dsimp only
    split_ifs <;> exact Or.inr (Or.inr ⟨hb.1, hb.2, rfl⟩)
  · rename_i hx
    have hb := hnot1 (by rw [hx]; decide)
    unfold SD_Read_FSM_S4
    dsimp only
    by_cases hlt : (w.rv.byte_num + 1) % 2 ^ cfg.WORD_BITS < SD_BLK_SIZE + 2
    · rw [if_pos hlt]
      exact Or.inr (Or.inr ⟨hb.1, hb.2, rfl⟩)
    · rw [if_neg hlt]
      exact Or.inr (Or.inr ⟨hb.1, Or.inr rfl, rfl⟩)
  · rename_i hx
    have hb := hnot1 (by rw [hx]; decide)
    exact Or.inr (Or.inl ⟨⟨rfl, rfl⟩, hb.2, rfl⟩)

/-- One call of `SD_Write_FSM` on a record that is idle at `S1`, or busy: the
call publishes PARERR, ERROR or REJECT without counting, publishes BUSY or OK
and counts, or leaves the record busy without counting. -/
theorem SD_Write_FSM_counts (cfg : Config) (sector : Nat) (w : World)
    (h : (w.Write.Status_fsm = FsmStatus.STAT_IDLE ∧ w.wv.next_state = IoState.S1) ∨
      w.Write.Status_fsm = FsmStatus.STAT_BUSY) :
    (Published (SD_Write_FSM cfg sector w).Write ∧
      ((SD_Write_FSM cfg sector w).Write.ErrorCode_fsm = SDRESULTS.SD_PARERR ∨
        (SD_Write_FSM cfg sector w).Write.ErrorCode_fsm = SDRESULTS.SD_ERROR ∨
        (SD_Write_FSM cfg sector w).Write.ErrorCode_fsm = SDRESULTS.SD_REJECT) ∧
      (SD_Write_FSM cfg sector w).dev.debug_write = w.dev.debug_write) ∨
    (Published (SD_Write_FSM cfg sector w).Write ∧
      ((SD_Write_FSM cfg sector w).Write.ErrorCode_fsm = SDRESULTS.SD_BUSY ∨
        (SD_Write_FSM cfg sector w).Write.ErrorCode_fsm = SDRESULTS.SD_OK) ∧
      (SD_Write_FSM cfg sector w).dev.debug_write =
        (w.dev.debug_write + 1) % 2 ^ cfg.DBG_BITS) ∨
    ((SD_Write_FSM cfg sector w).Write.Status_fsm = FsmStatus.STAT_BUSY ∧
      (SD_Write_FSM cfg sector w).dev.debug_write = w.dev.debug_write) := by
  have hbusy : w.Write.Status_fsm ≠ FsmStatus.STAT_IDLE →
      w.Write.Status_fsm = FsmStatus.STAT_BUSY := fun hi => h.resolve_left (fun c => hi c.1)
  have hnot1 : w.wv.next_state ≠ IoState.S1 → w.Write.Status_fsm = FsmStatus.STAT_BUSY :=
    fun hi => h.resolve_left (fun c => hi c.2)
  have hS2 : w.Write.Status_fsm = FsmStatus.STAT_BUSY →
      (SD_Write_FSM_S2 cfg w).Write.Status_fsm = FsmStatus.STAT_BUSY ∧
      (SD_Write_FSM_S2 cfg w).dev.debug_write = w.dev.debug_write := by
    intro hb
    unfold SD_Write_FSM_S2
    dsimp only
    split_ifs <;> exact ⟨hb, rfl⟩
  unfold SD_Write_FSM
  split
  · split_ifs with hi
    · unfold SD_Write_FSM_S1
      dsimp only
      split_ifs
      · exact Or.inl ⟨⟨rfl, rfl⟩, Or.inl rfl, rfl⟩
      · exact Or.inr (Or.inr ⟨rfl, rfl⟩)
      · exact Or.inl ⟨⟨rfl, rfl⟩, Or.inr (Or.inl rfl), rfl⟩
    · exact Or.inr (Or.inr (hS2 (hbusy hi)))
  · rename_i hx
    exact Or.inr (Or.inr (hS2 (hnot1 (by rw [hx]; decide))))
  · rename_i hx
    have hb := hnot1 (by rw [hx]; decide)
    unfold SD_Write_FSM_S3
    dsimp only
    split_ifs
    · exact Or.inl ⟨⟨rfl, rfl⟩, Or.inr (Or.inr rfl), rfl⟩
    · exact Or.inr (Or.inr ⟨hb, rfl⟩)
  · rename_i hx
    have hb := hnot1 (by rw [hx]; decide)
    unfold SD_Write_FSM_S4
    dsimp only
    split_ifs <;> exact Or.inr (Or.inr ⟨hb, rfl⟩)
  · rw [SD_Write_FSM_S5_eq]
    dsimp only
    by_cases hl : w.wv.line = 0
    · exact Or.inr (Or.inl ⟨⟨rfl, rfl⟩, Or.inl (by rw [if_pos hl]), rfl⟩)
    · exact Or.inr (Or.inl ⟨⟨rfl, rfl⟩, Or.inr (by rw [if_neg hl]), rfl⟩)

/-- A READ driven by the server to its publication: the write counter is as it
was; the read counter is as it was when PARERR is published and one more
(modulo its width) when ERROR or OK is published. -/
theorem runServer_read_counts (cfg : Config) :
    ∀ (n : Nat) (v w1 : World), v.srv_state = SDS_STATE_T.S_READ →
      ((v.Read.Status_fsm = FsmStatus.STAT_IDLE ∧ v.rv.next_state = IoState.S1) ∨
        (v.Read.Status_fsm = FsmStatus.STAT_BUSY ∧
          (v.rv.res = SDRESULTS.SD_ERROR ∨ v.rv.res = SDRESULTS.SD_OK))) →
      runServer cfg n v = some w1 →
      w1.dev.debug_write = v.dev.debug_write ∧
      ((w1.g_trans.ErrorCode = SDRESULTS.SD_PARERR ∧ w1.dev.debug_read = v.dev.debug_read) ∨
       ((w1.g_trans.ErrorCode = SDRESULTS.SD_ERROR ∨ w1.g_trans.ErrorCode = SDRESULTS.SD_OK) ∧
         w1.dev.debug_read = (v.dev.debug_read + 1) % 2 ^ cfg.DBG_BITS)) := by
  intro n
  induction n with
  | zero => intro v w1 _ _ h; simp [runServer] at h
  | succ n ih =>
    intro v w1 hs hv h
    have ht := Task_S_READ cfg v hs
    obtain ⟨d1, _⟩ := SD_Read_FSM_dev cfg v.cur_trans.Sector 0 512 v
    obtain ⟨_, _, _, _, _, _, a7⟩ := SD_Read_FSM_outside cfg v.cur_trans.Sector 0 512 v
    have hc := SD_Read_FSM_counts cfg v.cur_trans.Sector 0 512 v hv
    generalize SD_Read_FSM cfg v.cur_trans.Sector 0 512 v = u at ht d1 a7 hc
    rcases hc with ⟨hp, he, hd⟩ | ⟨hp, he, hd⟩ | ⟨hb, hr, hd⟩
    · rw [(Server_publish_eq u _).1 hp] at ht
      rw [runServer_done cfg n v _ ht rfl] at h
      cases h
      exact ⟨d1, Or.inl ⟨he, hd⟩⟩
    · rw [(Server_publish_eq u _).1 hp] at ht
      rw [runServer_done cfg n v _ ht rfl] at h
      cases h
      exact ⟨d1, Or.inr ⟨he, hd⟩⟩
    · have hnp : ¬ (u.Read.Status_fsm = FsmStatus.STAT_IDLE ∧ u.Read.Start_fsm = 1) := by
        rintro ⟨c, _⟩
        rw [hb] at c
        cases c
      rw [(Server_publish_eq u _).2 hnp] at ht
      rw [runServer_step cfg n v u ht (by rw [a7, hs]; decide)] at h
      obtain ⟨e1, e2⟩ := ih u w1 (a7.trans hs) (Or.inr ⟨hb, hr⟩) h
      rw [d1] at e1
      rw [hd] at e2
      exact ⟨e1, e2⟩

/-- A WRITE driven by the server to its publication: the read counter is as it
was; the write counter is as it was when PARERR, ERROR or REJECT is published
and one more (modulo its width) when BUSY or OK is published. -/
theorem runServer_write_counts (cfg : Config) :
    ∀ (n : Nat) (v w1 : World), v.srv_state = SDS_STATE_T.S_WRITE →
      ((v.Write.Status_fsm = FsmStatus.STAT_IDLE ∧ v.wv.next_state = IoState.S1) ∨
        v.Write.Status_fsm = FsmStatus.STAT_BUSY) →
      runServer cfg n v = some w1 →
      w1.dev.debug_read = v.dev.debug_read ∧
      (((w1.g_trans.ErrorCode = SDRESULTS.SD_PARERR ∨ w1.g_trans.ErrorCode = SDRESULTS.SD_ERROR ∨
          w1.g_trans.ErrorCode = SDRESULTS.SD_REJECT) ∧
         w1.dev.debug_write = v.dev.debug_write) ∨
       ((w1.g_trans.ErrorCode = SDRESULTS.SD_BUSY ∨ w1.g_trans.ErrorCode = SDRESULTS.SD_OK) ∧
         w1.dev.debug_write = (v.dev.debug_write + 1) % 2 ^ cfg.DBG_BITS)) := by
  intro n
  induction n with
  | zero => intro v w1 _ _ h; simp [runServer] at h
  | succ n ih =>
    intro v w1 hs hv h
    have ht := Task_S_WRITE cfg v hs
    obtain ⟨d1, _⟩ := SD_Write_FSM_dev cfg v.cur_trans.Sector v
    obtain ⟨_, _, _, _, a7⟩ := SD_Write_FSM_outside cfg v.cur_trans.Sector v
    have hc := SD_Write_FSM_counts cfg v.cur_trans.Sector v hv
    generalize SD_Write_FSM cfg v.cur_trans.Sector v = u at ht d1 a7 hc
    rcases hc with ⟨hp, he, hd⟩ | ⟨hp, he, hd⟩ | ⟨hb, hd⟩
    · rw [(Server_publish_eq u _).1 hp] at ht
      rw [runServer_done cfg n v _ ht rfl] at h
      cases h
      exact ⟨d1, Or.inl ⟨he, hd⟩⟩
    · rw [(Server_publish_eq u _).1 hp] at ht
      rw [runServer_done cfg n v _ ht rfl] at h
      cases h
      exact ⟨d1, Or.inr ⟨he, hd⟩⟩
    · have hnp : ¬ (u.Write.Status_fsm = FsmStatus.STAT_IDLE ∧ u.Write.Start_fsm = 1) := by
        rintro ⟨c, _⟩
        rw [hb] at c
        cases c
      rw [(Server_publish_eq u _).2 hnp] at ht
      rw [runServer_step cfg n v u ht (by rw [a7, hs]; decide)] at h
      obtain ⟨e1, e2⟩ := ih u w1 (a7.trans hs) (Or.inr hb) h
      rw [d1] at e1
      rw [hd] at e2
      exact ⟨e1, e2⟩

/-- The counters across one server tick that does not finalise a detected card
in `S11` of Init: each is as it was or one more (modulo its width), and only
the counter of the driven machine can move. -/
theorem Task_dev (cfg : Config) (w w1 : World) (h : Task_SD_Server cfg w = some w1)
    (hn : ¬ (w.srv_state = SDS_STATE_T.S_INIT ∧ w.iv.next_state = InitState.S11 ∧
      w.iv.ct ≠ 0)) :
    (w1.dev.debug_read = w.dev.debug_read ∨
      (w.srv_state = SDS_STATE_T.S_READ ∧
        w1.dev.debug_read = (w.dev.debug_read + 1) % 2 ^ cfg.DBG_BITS)) ∧
    (w1.dev.debug_write = w.dev.debug_write ∨
      (w.srv_state = SDS_STATE_T.S_WRITE ∧
        w1.dev.debug_write = (w.dev.debug_write + 1) % 2 ^ cfg.DBG_BITS)) := by
  have hpub : ∀ (v : World) (f : FSM), (Server_publish v f).dev = v.dev := by
    intro v f
    unfold Server_publish
    split_ifs <;> rfl
  cases hs : w.srv_state with
  | S_ERROR => rw [Task_S_ERROR cfg w hs] at h; cases h
  | S_IDLE =>
    rw [Task_S_IDLE cfg w hs] at h
    cases h
    split_ifs <;> exact ⟨Or.inl rfl, Or.inl rfl⟩
  | S_INIT =>
    rw [Task_S_INIT cfg w hs] at h
    cases hv : SD_Init cfg (if w.Init.set_fsm = 0 then
        { w with Init := { w.Init with set_fsm := 1 } } else w) with
    | none => rw [hv] at h; cases h
    | some v =>
      rw [hv] at h
      have e := (Option.some.inj h).symm
      dsimp only at e
      subst e
      rw [hpub]
      obtain ⟨a, b⟩ := SD_Init_dev cfg _ v hv (by
        rintro ⟨c1, c2⟩
        apply hn
        refine ⟨hs, ?_, ?_⟩
        · revert c1; split_ifs <;> exact id
        · revert c2; split_ifs <;> exact id)
      constructor
      · left; rw [a]; split_ifs <;> rfl
      · left; rw [b]; split_ifs <;> rfl
  | S_READ =>
    rw [Task_S_READ cfg w hs] at h
    cases h
    rw [hpub]
    obtain ⟨a, b⟩ := SD_Read_FSM_dev cfg w.cur_trans.Sector 0 512 w
    exact ⟨b.imp id (fun c => ⟨rfl, c⟩), Or.inl a⟩
  | S_WRITE =>
    rw [Task_S_WRITE cfg w hs] at h
    cases h
    rw [hpub]
    obtain ⟨a, b⟩ := SD_Write_FSM_dev cfg w.cur_trans.Sector w
    exact ⟨Or.inl a, b.imp id (fun c => ⟨rfl, c⟩)⟩

/-- The counterexample of C18. A READ of sector 1000 of a 1000-sector card,
submitted at start-up, is published two ticks later with PARERR and the read
counter still at 0: no increment although a result was published. And with
16-bit counters a refused READ submitted when the read counter is 65535 is
published three ticks later with ERROR and the read counter at 0: it has
decreased. -/
theorem rejected_read_is_not_counted :
    rangeSubmitted.dev.debug_read = 0 ∧
    (runServer demoCfg 2 rangeSubmitted).map
        (fun w => (w.g_trans.ErrorCode, w.g_trans.Status, w.dev.debug_read)) =
      some (SDRESULTS.SD_PARERR, FsmStatus.STAT_IDLE, 0) ∧
    wrapSubmitted.dev.debug_read = 65535 ∧
    (runServer demoCfg 3 wrapSubmitted).map
        (fun w => (w.g_trans.ErrorCode, w.g_trans.Status, w.dev.debug_read)) =
      some (SDRESULTS.SD_ERROR, FsmStatus.STAT_IDLE, 0) := by
  decide

/-- C18, amended. The debug counters count the operations that reach their
final state. In every state reachable from the initial state by server ticks
and client submissions made while the slot is idle: across a tick that does
not finalise a detected card in `S11` of Init, each counter is as it was or one
more modulo its width, and only the counter of the driven machine moves;
from the submission of a READ to its publication the write counter is
unchanged and the read counter is unchanged when PARERR is published and one
more (modulo its width) when ERROR or OK is published; from the submission of
a WRITE to its publication the read counter is unchanged and the write counter
is unchanged when PARERR, ERROR or REJECT is published and one more (modulo
its width) when BUSY or OK is published. -/
theorem debug_counters_count_completions (cfg : Config) (w0 w : World) (h0 : Started w0)
    (hr : Reachable cfg w0 w) :
    (∀ w1, Task_SD_Server cfg w = some w1 →
      ¬ (w.srv_state = SDS_STATE_T.S_INIT ∧ w.iv.next_state = InitState.S11 ∧ w.iv.ct ≠ 0) →
      (w1.dev.debug_read = w.dev.debug_read ∨
        (w.srv_state = SDS_STATE_T.S_READ ∧
          w1.dev.debug_read = (w.dev.debug_read + 1) % 2 ^ cfg.DBG_BITS)) ∧
      (w1.dev.debug_write = w.dev.debug_write ∨
        (w.srv_state = SDS_STATE_T.S_WRITE ∧
          w1.dev.debug_write = (w.dev.debug_write + 1) % 2 ^ cfg.DBG_BITS))) ∧
    (w.srv_state = SDS_STATE_T.S_IDLE → w.g_trans.Request = REQ_READ →
      ∀ n w1, runServer cfg n w = some w1 →
        w1.dev.debug_write = w.dev.debug_write ∧
        ((w1.g_trans.ErrorCode = SDRESULTS.SD_PARERR ∧ w1.dev.debug_read = w.dev.debug_read) ∨
         ((w1.g_trans.ErrorCode = SDRESULTS.SD_ERROR ∨ w1.g_trans.ErrorCode = SDRESULTS.SD_OK) ∧
           w1.dev.debug_read = (w.dev.debug_read + 1) % 2 ^ cfg.DBG_BITS))) ∧
    (w.srv_state = SDS_STATE_T.S_IDLE → w.g_trans.Request = REQ_WRITE →
      ∀ n w1, runServer cfg n w = some w1 →
        w1.dev.debug_read = w.dev.debug_read ∧
        (((w1.g_trans.ErrorCode = SDRESULTS.SD_PARERR ∨
            w1.g_trans.ErrorCode = SDRESULTS.SD_ERROR ∨
            w1.g_trans.ErrorCode = SDRESULTS.SD_REJECT) ∧
           w1.dev.debug_write = w.dev.debug_write) ∨
         ((w1.g_trans.ErrorCode = SDRESULTS.SD_BUSY ∨ w1.g_trans.ErrorCode = SDRESULTS.SD_OK) ∧
           w1.dev.debug_write = (w.dev.debug_write + 1) % 2 ^ cfg.DBG_BITS))) := by
  obtain ⟨_, _, i3, i4, _⟩ := MachinesInv_reachable cfg w0 w h0 hr
  refine ⟨fun w1 h hn => Task_dev cfg w w1 h hn, ?_, ?_⟩
  · intro hs hq n w1 h
    cases n with
    | zero => simp [runServer] at h
    | succ n =>
      have ht := Task_S_IDLE cfg w hs
      rw [if_neg (by rw [hq]; decide), if_pos (by rw [hq]; decide)] at ht
      rw [runServer_step cfg n w _ ht (by simp [hq, Req_to_State])] at h
      have key := fun a b => runServer_read_counts cfg n _ w1 a b h
      exact key (by simp [hq, Req_to_State]) (Or.inl (i3 (by rw [hs]; decide)))
  · intro hs hq n w1 h
    cases n with
    | zero => simp [runServer] at h
    | succ n =>
      have ht := Task_S_IDLE cfg w hs
      rw [if_neg (by rw [hq]; decide), if_pos (le_of_eq hq)] at ht
      rw [runServer_step cfg n w _ ht (by simp [hq, Req_to_State])] at h
      have key := fun a b => runServer_write_counts cfg n _ w1 a b h
      exact key (by simp [hq, Req_to_State]) (Or.inl (i4 (by rw [hs]; decide)))

theorem debug_counters_count_completions_witness :
    Started (bootWorld refusingPort demoDev demoBuffer) ∧
    Reachable demoCfg (bootWorld refusingPort demoDev demoBuffer) refusedSubmitted ∧
    refusedSubmitted.dev.debug_read = 0 ∧
    ∃ w1, runServer demoCfg 3 refusedSubmitted = some w1 ∧
      w1.g_trans.ErrorCode = SDRESULTS.SD_ERROR ∧ w1.dev.debug_read = 1 ∧
      w1.dev.debug_write = 0 := by
  have h0 : Started (bootWorld refusingPort demoDev demoBuffer) :=
    ⟨rfl, rfl, rfl, rfl, rfl, rfl, rfl⟩
  have hr : Reachable demoCfg (bootWorld refusingPort demoDev demoBuffer) refusedSubmitted :=
    Reachable.client REQ_READ 7 0 0 demoBuffer Reachable.start rfl
  have hrun : runServer demoCfg 3 refusedSubmitted =
      some ((runServer demoCfg 3 refusedSubmitted).getD refusedSubmitted) := rfl
  have he : ((runServer demoCfg 3 refusedSubmitted).getD refusedSubmitted).g_trans.ErrorCode =
      SDRESULTS.SD_ERROR := rfl
  obtain ⟨hw, hor⟩ :=
    (debug_counters_count_completions demoCfg _ refusedSubmitted h0 hr).2.1 rfl rfl 3 _ hrun
  refine ⟨h0, hr, rfl, _, hrun, he, ?_, hw⟩
  rcases hor with ⟨c, _⟩ | ⟨_, c⟩
  · rw [he] at c
    cases c
  · exact c

/-! ## The status probe -/

/-- The byte returned by a command frame is 0xFF or a byte of the reply stream. -/
theorem SD_Send_Frame_mem (cmd arg : Nat) (p : Port) :
    (SD_Send_Frame cmd arg p).1 = 0xFF ∨
      ∃ x ∈ p.miso, (SD_Send_Frame cmd arg p).1 = x % 256 := by
  unfold SD_Send_Frame
  dsimp only
  generalize hq8 : SPI_Timer_On 5 (SPI_RW (SD_Send_Cmd_crc cmd) (SPI_RW (arg % 256)
    (SPI_RW (arg >>> 8 % 256) (SPI_RW (arg >>> 16 % 256) (SPI_RW (arg >>> 24 % 256)
    (SPI_RW cmd (SPI_RW 255 (SPI_CS_Low (SPI_RW 255 (SPI_CS_High p)).2)).2).2).2).2).2).2).2 = q8
  have hsuf : q8.miso <:+ p.miso := by
    rw [← hq8]
    simp only [SPI_Timer_On, SPI_RW_miso, SPI_CS_Low, SPI_CS_High]
    exact (List.tail_suffix _).trans ((List.tail_suffix _).trans ((List.tail_suffix _).trans
      ((List.tail_suffix _).trans ((List.tail_suffix _).trans ((List.tail_suffix _).trans
      ((List.tail_suffix _).trans (List.tail_suffix _)))))))
  rcases SD_Send_Cmd_wait_mem (q8.timer.getD 0 + 1) q8 with h1 | ⟨x, hx, h1⟩
  · exact Or.inl h1
  · exact Or.inr ⟨x, hsuf.subset hx, h1⟩

/-- `SD_Status` answers NORESPONSE exactly when the R1 byte of CMD0 is 0x00. -/
theorem SD_Status_eq (p : Port) :
    ((SD_Status p).1 = SDRESULTS.SD_NORESPONSE ↔ (SD_Send_Cmd CMD0 0 p).1 = 0) ∧
    ((SD_Status p).1 = SDRESULTS.SD_OK ↔ (SD_Send_Cmd CMD0 0 p).1 ≠ 0) ∧
    (SD_Status p).2 = (SD_Send_Cmd CMD0 0 p).2 := by
  unfold SD_Status
  dsimp only
  by_cases h : (SD_Send_Cmd CMD0 0 p).1 = 0
  · simp [h]
  · simp [h]

/-- With a card that never answers (every byte it presents has the high bit
set) `SD_Status` returns OK. -/
theorem SD_Status_silent (p : Port) (h : ∀ b ∈ p.miso, b % 256 &&& 0x80 ≠ 0) :
    (SD_Status p).1 = SDRESULTS.SD_OK := by
  rw [(SD_Status_eq p).2.1, SD_Send_Cmd_plain CMD0 0 p (by decide)]
  rcases SD_Send_Frame_mem CMD0 0 p with h1 | ⟨x, hx, h1⟩
  · rw [h1]
    decide
  · rw [h1]
    intro h0
    have := h x hx
    rw [h0] at this
    exact this rfl

/-- C19. The status probe does not report whether the card answered. Without
a card (0xFF at every poll until the 5 ms timer expires, so no R1 was
observed) `SD_Status` sends one CMD0(0) and returns OK; with a card that
answers R1 = 0x00 (high bit clear) it returns NORESPONSE; with a card that
answers R1 = 0x01 it returns OK. The test is `R1 ? SD_OK : SD_NORESPONSE`. -/
theorem status_probe_ok_without_card :
    (SD_Send_Cmd CMD0 0 absentCardPort).1 = 0xFF ∧
    mosiOf (SD_Status absentCardPort).2.log =
      [0xFF, 0xFF, 0x40, 0x00, 0x00, 0x00, 0x00, 0x95, 0xFF, 0xFF, 0xFF, 0xFF] ∧
    (SD_Status absentCardPort).1 = SDRESULTS.SD_OK ∧
    (SD_Send_Cmd CMD0 0 readyCardPort).1 = 0x00 ∧
    (SD_Status readyCardPort).1 = SDRESULTS.SD_NORESPONSE ∧
    (SD_Send_Cmd CMD0 0 idleCardPort).1 = 0x01 ∧
    (SD_Status idleCardPort).1 = SDRESULTS.SD_OK := by
  decide

/-! ## Command framing -/

theorem and_FF (x : Nat) : x &&& 0xFF = x % 256 := Nat.and_pow_two_sub_one_eq_mod x 8

/-- The port calls of the response wait. -/
theorem SD_Send_Cmd_wait_log : ∀ (fuel : Nat) (p : Port),
    ∃ polls, (SD_Send_Cmd_wait fuel p).2.log = p.log ++ polls ∧
      (∀ e ∈ polls, e = Ev.rw 0xFF ∨ e = Ev.timerStatus) ∧
      (0 < fuel → Ev.rw 0xFF ∈ polls) := by
  intro fuel
  induction fuel with
  | zero =>
    intro p
    exact ⟨[], by simp [SD_Send_Cmd_wait], by simp, fun h => absurd h (lt_irrefl 0)⟩
  | succ fuel ih =>
    intro p
    simp only [SD_Send_Cmd_wait]
    split_ifs
    · obtain ⟨polls, h1, h2, _⟩ := ih (SPI_Timer_Status (SPI_RW 0xFF p).2).2
      refine ⟨[Ev.rw 0xFF, Ev.timerStatus] ++ polls, ?_, ?_, fun _ => by simp⟩
      · rw [h1]
        simp
      · intro e he
        rcases List.mem_append.mp he with h | h
        · simpa using h
        · exact h2 e h
    · exact ⟨[Ev.rw 0xFF, Ev.timerStatus], by simp, by simp, fun _ => by simp⟩
    · exact ⟨[Ev.rw 0xFF], by simp, by simp, fun _ => by simp⟩

/-- The CRC byte of `__SD_Send_Cmd` depends on the command byte alone. -/
theorem SD_Send_Cmd_crc_eq (cmd : Nat) :
    SD_Send_Cmd_crc cmd = if cmd = CMD0 then 0x95 else if cmd = CMD8 then 0x87 else 0x01 := by
  unfold SD_Send_Cmd_crc
  dsimp only
  by_cases h0 : cmd = CMD0
  · rw [if_pos h0, if_pos h0, if_neg (by rw [h0]; decide)]
  · rw [if_neg h0, if_neg h0]

/-- The port calls of one command frame. -/
theorem SD_Send_Frame_log (cmd arg : Nat) (p : Port) (hc : cmd < 256) :
    ∃ polls, Polls polls ∧ (SD_Send_Frame cmd arg p).2.log = p.log ++ sentFrame cmd arg polls := by
  unfold SD_Send_Frame
  dsimp only
  generalize hq8 : SPI_Timer_On 5 (SPI_RW (SD_Send_Cmd_crc cmd) (SPI_RW (arg % 256)
    (SPI_RW (arg >>> 8 % 256) (SPI_RW (arg >>> 16 % 256) (SPI_RW (arg >>> 24 % 256)
    (SPI_RW cmd (SPI_RW 255 (SPI_CS_Low (SPI_RW 255 (SPI_CS_High p)).2)).2).2).2).2).2).2).2 = q8
  obtain ⟨polls, h1, h2, h3⟩ := SD_Send_Cmd_wait_log (q8.timer.getD 0 + 1) q8
  refine ⟨polls, ⟨h2, h3 (Nat.succ_pos _)⟩, ?_⟩
  have hcrc : SD_Send_Cmd_crc cmd % 256 =
      if cmd = CMD0 then 0x95 else if cmd = CMD8 then 0x87 else 0x01 := by
    rw [SD_Send_Cmd_crc_eq]
    split_ifs <;> rfl
  have hlog : q8.log = p.log ++ ([Ev.csHigh, Ev.rw 0xFF, Ev.csLow, Ev.rw 0xFF] ++
      (frameOf cmd arg).map Ev.rw ++ [Ev.timerOn 5]) := by
    rw [← hq8]
    simp only [SPI_Timer_On, SPI_RW_log, SPI_CS_Low, SPI_CS_High, frameOf, and_FF, hcrc,
      Nat.mod_mod, Nat.mod_eq_of_lt hc, List.append_assoc, List.map_cons, List.map_nil,
      List.cons_append, List.nil_append, List.singleton_append]
  show (SPI_Timer_Off _).log = _
  simp only [SPI_Timer_Off, h1, hlog, sentFrame, List.append_assoc]

/-- The argument bytes of a frame, most significant first, make up the
argument. -/
theorem frame_argument (arg : Nat) (ha : arg < 2 ^ 32) :
    ((arg >>> 24) &&& 0xFF) * 2 ^ 24 + ((arg >>> 16) &&& 0xFF) * 2 ^ 16 +
      ((arg >>> 8) &&& 0xFF) * 2 ^ 8 + (arg &&& 0xFF) = arg := by
  simp only [and_FF, Nat.shiftRight_eq_div_pow]
  norm_num at ha ⊢
  omega

/-- The counterexample of C20. CMD0 sent with the argument 1 is a command
other than CMD0(0) and CMD8(0x1AA), for which the tabulated CRC byte is 0x01;
the frame that `__SD_Send_Cmd` puts on the bus ends in 0x95. -/
theorem crc_ignores_argument :
    specCrc CMD0 1 = 0x01 ∧
    mosiOf (SD_Send_Cmd CMD0 1 absentCardPort).2.log =
      [0xFF, 0xFF, 0x40, 0x00, 0x00, 0x00, 0x01, 0x95, 0xFF, 0xFF, 0xFF, 0xFF] ∧
    specCrc CMD8 0 = 0x01 ∧
    mosiOf (SD_Send_Cmd CMD8 0 absentCardPort).2.log =
      [0xFF, 0xFF, 0x48, 0x00, 0x00, 0x00, 0x00, 0x87, 0xFF, 0xFF, 0xFF, 0xFF] := by
  decide

/-- C20, amended. Command framing. For every command byte `c` and 32-bit
argument `a`: when the high bit of `c` is clear, `__SD_Send_Cmd` deselects and
selects the card (a spacer byte 0xFF after each), sends exactly the six bytes
`c`, the argument most significant byte first (these four bytes make up `a`)
and a CRC byte that is 0x95 when `c` is CMD0, 0x87 when `c` is CMD8 and 0x01
otherwise, whatever the argument, and then polls under the 5 ms timer. When
the high bit of `c` is set it first sends such a frame for CMD55 with argument
0; if the R1 of CMD55 is greater than 1 it returns that R1 and sends nothing
more, otherwise it sends a second such frame whose command byte is `c` with
the high bit cleared. -/
theorem command_framing (c a : Nat) (p : Port) (hc : c < 256) (ha : a < 2 ^ 32) :
    (c &&& 0x80 = 0 →
      ∃ polls, Polls polls ∧ (SD_Send_Cmd c a p).2.log = p.log ++ sentFrame c a polls) ∧
    (frameOf c a = [c, (a >>> 24) &&& 0xFF, (a >>> 16) &&& 0xFF, (a >>> 8) &&& 0xFF, a &&& 0xFF,
        if c = CMD0 then 0x95 else if c = CMD8 then 0x87 else 0x01] ∧
      ((a >>> 24) &&& 0xFF) * 2 ^ 24 + ((a >>> 16) &&& 0xFF) * 2 ^ 16 +
        ((a >>> 8) &&& 0xFF) * 2 ^ 8 + (a &&& 0xFF) = a) ∧
    (c &&& 0x80 ≠ 0 →
      ∃ polls, Polls polls ∧
        (SD_Send_Cmd CMD55 0 p).2.log = p.log ++ sentFrame CMD55 0 polls ∧
        ((SD_Send_Cmd CMD55 0 p).1 > 1 →
          SD_Send_Cmd c a p = SD_Send_Cmd CMD55 0 p) ∧
        ((SD_Send_Cmd CMD55 0 p).1 ≤ 1 →
          ∃ polls2, Polls polls2 ∧
            (SD_Send_Cmd c a p).2.log =
              p.log ++ sentFrame CMD55 0 polls ++ sentFrame (c &&& 0x7F) a polls2)) := by
  refine ⟨?_, ⟨rfl, frame_argument a ha⟩, ?_⟩
  · intro h
    rw [SD_Send_Cmd_plain c a p h]
    exact SD_Send_Frame_log c a p hc
  · intro h
    rw [SD_Send_Cmd_plain CMD55 0 p (by decide)]
    obtain ⟨polls, h1, h2⟩ := SD_Send_Frame_log CMD55 0 p (by decide)
    refine ⟨polls, h1, h2, ?_, ?_⟩
    · intro hgt
      unfold SD_Send_Cmd
      rw [if_pos h]
      dsimp only
      rw [if_pos hgt]
    · intro hle
      have hmask : c &&& 0x7F < 256 := lt_of_le_of_lt Nat.and_le_left hc
      obtain ⟨polls2, g1, g2⟩ :=
        SD_Send_Frame_log (c &&& 0x7F) a (SD_Send_Frame CMD55 0 p).2 hmask
      refine ⟨polls2, g1, ?_⟩
      unfold SD_Send_Cmd
      rw [if_pos h]
      dsimp only
      rw [if_neg (not_lt.mpr hle), g2, h2]

theorem command_framing_witness :
    (CMD17 : Nat) < 256 ∧ (7 : Nat) < 2 ^ 32 ∧ CMD17 &&& 0x80 = 0 ∧
    frameOf CMD17 7 = [0x51, 0x00, 0x00, 0x00, 0x07, 0x01] ∧
    ∃ polls, Polls polls ∧
      (SD_Send_Cmd CMD17 7 readDemoPort).2.log = readDemoPort.log ++ sentFrame CMD17 7 polls :=
  ⟨by decide, by decide, by decide, by decide,
    (command_framing CMD17 7 readDemoPort (by decide) (by decide)).1 (by decide)⟩

/-! ## Bring-up of a version 1 card and of an MMC -/

/-- Case `S6` always ends without a card type: the timer is queried right
after `SPI_Timer_Off`, answers FALSE, and the type is cleared. The leave-idle
command is ACMD41 when the first ACMD41 returned R1 of at most 1, CMD1
otherwise. -/
theorem SD_Init_S6_clears (w : World) :
    (SD_Init_S6 w).iv.ct = 0 ∧ (SD_Init_S6 w).iv.next_state = InitState.S1 ∧
    (SD_Init_S6 w).iv.cmd = (if (SD_Send_Cmd ACMD41 0 w.port).1 ≤ 1 then ACMD41 else CMD1) := by
  unfold SD_Init_S6
  dsimp only
  refine ⟨?_, rfl, rfl⟩
  rw [SPI_Timer_Status_after_Off]
  split_ifs <;> first | rfl | (rename_i hf; exact absurd rfl hf)

set_option maxRecDepth 100000 in
/-- C21. Case `S6` does not bring up a version 1 card or an MMC. A version 1
card answers the first ACMD41 with R1 = 1, the first poll of ACMD41, made while
the 250 ms timer still answers TRUE, with R1 = 0, and CMD59 and CMD16(512)
with R1 = 0: the leave-idle command is ACMD41, but the timer queried after
`SPI_Timer_Off` answers FALSE and the card type after `S6` is 0, not SDv1. An
MMC answers the first ACMD41 with R1 = 5 and the first poll of CMD1, CMD59 and
CMD16(512) with R1 = 0: the leave-idle command is CMD1 and the card type after
`S6` is 0, not MMCv3. With the version 1 card answering every command of three
attempts, the run from arming goes through `S6` three times and publishes
NOINIT with the device unmounted. -/
theorem s6_clears_detected_card_type :
    (SD_Send_Cmd ACMD41 0 v1S6Port).1 = 1 ∧
    ((s6Poll ACMD41 v1S6Port).1, (s6Poll ACMD41 v1S6Port).2.1) = (true, 0) ∧
    ((s6Tail ACMD41 v1S6Port).1, (s6Tail ACMD41 v1S6Port).2.1, (s6Tail ACMD41 v1S6Port).2.2.1) =
      (false, 0, 0) ∧
    (SD_Init_S6 (attemptWorld InitState.S6 v1S6Port)).port = (s6Tail ACMD41 v1S6Port).2.2.2 ∧
    ((SD_Init_S6 (attemptWorld InitState.S6 v1S6Port)).iv.cmd,
      (SD_Init_S6 (attemptWorld InitState.S6 v1S6Port)).iv.ct) = (ACMD41, 0) ∧
    (SD_Send_Cmd ACMD41 0 mmcS6Port).1 = 5 ∧
    ((s6Poll CMD1 mmcS6Port).1, (s6Poll CMD1 mmcS6Port).2.1) = (true, 0) ∧
    ((s6Tail CMD1 mmcS6Port).1, (s6Tail CMD1 mmcS6Port).2.1, (s6Tail CMD1 mmcS6Port).2.2.1) =
      (false, 0, 0) ∧
    (SD_Init_S6 (attemptWorld InitState.S6 mmcS6Port)).port = (s6Tail CMD1 mmcS6Port).2.2.2 ∧
    ((SD_Init_S6 (attemptWorld InitState.S6 mmcS6Port)).iv.cmd,
      (SD_Init_S6 (attemptWorld InitState.S6 mmcS6Port)).iv.ct) = (CMD1, 0) ∧
    (initStates demoCfg 27 v1InitWorld).count InitState.S6 = 3 ∧
    (runInit demoCfg 27 v1InitWorld).map
        (fun w => (w.Init.ErrorCode_fsm, w.dev.mount, w.dev.cardtype, w.port.miso)) =
      some (SDRESULTS.SD_NOINIT, false, 0, []) := by
  decide

/-! ## The phase timers of Init -/

/-- Case `S3` never repeats: `__SD_Send_Cmd` arms the one timer of the port for
its own 5 ms wait and disarms it, so the query that follows answers FALSE
whatever was left of the 500 ms wait. -/
theorem SD_Init_S3_leaves (w : World) :
    (SD_Init_S3 w).iv.next_state = InitState.S4 ∧ (SD_Init_S3 w).port.timer = none := by
  have ht : (SPI_Timer_Status (SD_Send_Cmd CMD0 0 w.port).2).1 = false := by
    rw [SPI_Timer_Status_none _ (SD_Send_Cmd_timer CMD0 0 w.port)]
  unfold SD_Init_S3
  dsimp only
  split_ifs with h1 h2
  · rw [ht] at h2
    cases h2
  · exact ⟨rfl, rfl⟩
  · exact ⟨rfl, rfl⟩

/-- Case `S8` sends ACMD41 at most once: a step that stays in `S8` leaves the
timer disarmed by `__SD_Send_Cmd`, and the next step goes to `S9` after the
clock switch and the timer query alone. -/
theorem SD_Init_S8_once (w : World) (h : (SD_Init_S8 w).iv.next_state = InitState.S8) :
    (SD_Init_S8 w).port.timer = none ∧
    (SD_Init_S8 (SD_Init_S8 w)).iv.next_state = InitState.S9 ∧
    (SD_Init_S8 (SD_Init_S8 w)).port.log =
      (SD_Init_S8 w).port.log ++ [Ev.freqHigh, Ev.timerStatus] := by
  have h1 : (SD_Init_S8 w).port.timer = none := by
    unfold SD_Init_S8 at h ⊢
    dsimp only at h ⊢
    split_ifs at h ⊢ with a b
    exact SD_Send_Cmd_timer _ _ _
  refine ⟨h1, ?_⟩
  generalize SD_Init_S8 w = v at h1
  have ht : SPI_Timer_Status (SPI_Freq_High v.port) =
      (false, { SPI_Freq_High v.port with log := (SPI_Freq_High v.port).log ++ [Ev.timerStatus] }) :=
    SPI_Timer_Status_none _ h1
  unfold SD_Init_S8
  dsimp only
  rw [ht]
  dsimp only
  rw [if_neg Bool.false_ne_true]
  exact ⟨rfl, by simp [SPI_Freq_High]⟩

set_option maxRecDepth 100000 in
/-- C23. The phase timers do not govern the polling loops of Init. In `S3`
with five TRUE answers left on the 500 ms timer and a CMD0 that returns
R1 = 0xFF, the step goes to `S4`: the timer was re-armed for 5 ms and disarmed
inside `__SD_Send_Cmd`. In `S8` with five TRUE answers left on the 1000 ms
timer and an ACMD41 with HCS that returns R1 = 1, the step stays in `S8` with
the timer disarmed, and the next step goes to `S9` without sending a command
(its port calls are the clock switch and one timer query), although R1 was not
0 and the card would have answered the next ACMD41 with R1 = 0. -/
theorem init_polls_lose_their_deadline :
    (attemptWorld InitState.S3 readyWaitPort).port.timer = some 5 ∧
    (SD_Send_Cmd CMD0 0 readyWaitPort).1 = 0xFF ∧
    (SD_Init demoCfg (attemptWorld InitState.S3 readyWaitPort)).map
        (fun w => (w.iv.next_state, w.port.timer)) = some (InitState.S4, none) ∧
    (attemptWorld InitState.S8 hcsPollPort).port.timer = some 5 ∧
    (SD_Send_Cmd ACMD41 (2 ^ 30) (SPI_Timer_Status (SPI_Freq_High hcsPollPort)).2).1 = 1 ∧
    (SD_Init demoCfg (attemptWorld InitState.S8 hcsPollPort)).map
        (fun w => (w.iv.next_state, w.port.timer)) = some (InitState.S8, none) ∧
    ((SD_Init demoCfg (attemptWorld InitState.S8 hcsPollPort)).bind (SD_Init demoCfg)).map
        (fun w => (w.iv.next_state, w.port.miso, w.port.log.drop 28)) =
      some (InitState.S9, cardAnswer 0x01 ++ cardAnswer 0x00, [Ev.freqHigh, Ev.timerStatus]) ∧
    ((SD_Init demoCfg (attemptWorld InitState.S8 hcsPollPort)).map
        (fun w => w.port.log.length)) = some 28 := by
  decide

/-! ## The retry budget of Init -/

theorem armCount_snoc (l : List Ev) (e : Ev) (h : e ≠ Ev.spiInit) :
    armCount (l ++ [e]) = armCount l := by
  unfold armCount
  rw [List.count_append, List.count_cons_of_ne h.symm]
  rfl

theorem PortAfter.same (p : Port) : PortAfter p p := ⟨le_refl _, rfl⟩

theorem PortAfter.chain {p q r : Port} (h1 : PortAfter p q) (h2 : PortAfter q r) :
    PortAfter p r := ⟨h2.1.trans h1.1, h2.2.trans h1.2⟩

theorem PortAfter_RW (b : Nat) (p : Port) : PortAfter p (SPI_RW b p).2 :=
  ⟨le_refl _, armCount_snoc _ _ (by simp)⟩

theorem PortAfter_CS_High (p : Port) : PortAfter p (SPI_CS_High p) :=
  ⟨le_refl _, armCount_snoc _ _ (by simp)⟩

theorem PortAfter_CS_Low (p : Port) : PortAfter p (SPI_CS_Low p) :=
  ⟨le_refl _, armCount_snoc _ _ (by simp)⟩

theorem PortAfter_Freq_High (p : Port) : PortAfter p (SPI_Freq_High p) :=
  ⟨le_refl _, armCount_snoc _ _ (by simp)⟩

theorem PortAfter_Freq_Low (p : Port) : PortAfter p (SPI_Freq_Low p) :=
  ⟨le_refl _, armCount_snoc _ _ (by simp)⟩

theorem PortAfter_Release (p : Port) : PortAfter p (SPI_Release p) :=
  ⟨le_refl _, armCount_snoc _ _ (by simp)⟩

theorem PortAfter_Timer_On (ms : Nat) (p : Port) : PortAfter p (SPI_Timer_On ms p) :=
  ⟨(PortLe_Timer_On ms p).2.2.2, armCount_snoc _ _ (by simp)⟩

theorem PortAfter_Timer_Off (p : Port) : PortAfter p (SPI_Timer_Off p) :=
  ⟨(PortLe_Timer_Off p).2.2.2, armCount_snoc _ _ (by simp)⟩

theorem PortAfter_Timer_Status (p : Port) : PortAfter p (SPI_Timer_Status p).2 := by
  refine ⟨(PortLe_Timer_Status p).2.2.2, ?_⟩
  rw [SPI_Timer_Status_log]
  exact armCount_snoc _ _ (by simp)

theorem PortAfter_wait : ∀ (fuel : Nat) (p : Port), PortAfter p (SD_Send_Cmd_wait fuel p).2 := by
  intro fuel
  induction fuel with
  | zero => intro p; exact PortAfter.same p
  | succ fuel ih =>
    intro p
    simp only [SD_Send_Cmd_wait]
    split_ifs
    · exact (PortAfter_RW _ p).chain ((PortAfter_Timer_Status _).chain (ih _))
    · exact (PortAfter_RW _ p).chain (PortAfter_Timer_Status _)
    · exact PortAfter_RW _ p

theorem PortAfter_Frame (cmd arg : Nat) (p : Port) : PortAfter p (SD_Send_Frame cmd arg p).2 := by
  unfold SD_Send_Frame
  dsimp only
  have h := PortAfter_CS_High p
  have h := h.chain (PortAfter_RW 0xFF _)
  have h := h.chain (PortAfter_CS_Low _)
  have h := h.chain (PortAfter_RW 0xFF _)
  have h := h.chain (PortAfter_RW cmd _)
  have h := h.chain (PortAfter_RW ((arg >>> 24) % 256) _)
  have h := h.chain (PortAfter_RW ((arg >>> 16) % 256) _)
  have h := h.chain (PortAfter_RW ((arg >>> 8) % 256) _)
  have h := h.chain (PortAfter_RW (arg % 256) _)
  have h := h.chain (PortAfter_RW (SD_Send_Cmd_crc cmd) _)
  have h := h.chain (PortAfter_Timer_On 5 _)
  exact h.chain ((PortAfter_wait _ _).chain (PortAfter_Timer_Off _))

theorem PortAfter_Send_Cmd (cmd arg : Nat) (p : Port) : PortAfter p (SD_Send_Cmd cmd arg p).2 := by
  unfold SD_Send_Cmd
  dsimp only
  split_ifs
  · exact PortAfter_Frame _ _ _
  · exact (PortAfter_Frame _ _ _).chain (PortAfter_Frame _ _ _)
  · exact PortAfter_Frame _ _ _

theorem PortAfter_S6_wait (cmd : Nat) : ∀ (fuel : Nat) (p : Port),
    PortAfter p (SD_Init_S6_wait fuel cmd p) := by
  intro fuel
  induction fuel with
  | zero => intro p; exact PortAfter.same p
  | succ fuel ih =>
    intro p
    simp only [SD_Init_S6_wait]
    split_ifs
    · exact (PortAfter_Timer_Status p).chain ((PortAfter_Send_Cmd _ _ _).chain (ih _))
    · exact (PortAfter_Timer_Status p).chain (PortAfter_Send_Cmd _ _ _)
    · exact PortAfter_Timer_Status p

theorem PortAfter_Read_Bytes : ∀ (n : Nat) (p : Port), PortAfter p (SPI_Read_Bytes n p).2 := by
  intro n
  induction n with
  | zero => intro p; exact PortAfter.same p
  | succ n ih =>
    intro p
    simp only [SPI_Read_Bytes]
    exact (PortAfter_RW _ p).chain (ih _)

theorem PortAfter_Sectors_wait : ∀ (fuel : Nat) (p q : Port),
    SD_Sectors_wait fuel p = some q → PortAfter p q := by
  intro fuel
  induction fuel with
  | zero => intro p q h; simp [SD_Sectors_wait] at h
  | succ fuel ih =>
    intro p q h
    simp only [SD_Sectors_wait] at h
    split_ifs at h
    · exact (PortAfter_RW _ p).chain (ih _ _ h)
    · cases h
      exact PortAfter_RW _ p

theorem PortAfter_Sectors (cfg : Config) (dev : SD_DEV) (p : Port) (r : Nat × Port)
    (h : SD_Sectors cfg dev p = some r) : PortAfter p r.2 := by
  unfold SD_Sectors at h
  dsimp only at h
  split_ifs at h
  · split at h
    · cases h
    · rename_i q hq
      cases h
      have h1 := (PortAfter_Send_Cmd CMD9 0 p).chain (PortAfter_Sectors_wait _ _ _ hq)
      have h2 := h1.chain (PortAfter_Read_Bytes 16 q)
      exact h2.chain ((PortAfter_RW _ _).chain ((PortAfter_RW _ _).chain (PortAfter_Release _)))
  · cases h
    exact PortAfter_Send_Cmd CMD9 0 p

theorem step_by_rank (N : Nat) (w w1 : World) (htN : w.iv.init_trys ≤ N)
    (hp : PortAfter w.port w1.port) (ht : w1.iv.init_trys = w.iv.init_trys)
    (hr : initRank w1.iv.next_state < initRank w.iv.next_state) :
    w1.iv.init_trys ≤ N ∧
    armCount w1.port.log + w.iv.init_trys = armCount w.port.log + w1.iv.init_trys ∧
    w.iv.init_trys ≤ w1.iv.init_trys ∧
    (Published w1.Init ∨ initBound N w1 < initBound N w) := by
  obtain ⟨h1, h2⟩ := hp
  refine ⟨by omega, by omega, by omega, Or.inr ?_⟩
  unfold initBound
  omega

theorem step_by_timer (N : Nat) (w w1 : World) (htN : w.iv.init_trys ≤ N)
    (hp : PortAfter w.port w1.port) (hlt : timerPotential w1.port < timerPotential w.port)
    (ht : w1.iv.init_trys = w.iv.init_trys) (hs : w1.iv.next_state = w.iv.next_state) :
    w1.iv.init_trys ≤ N ∧
    armCount w1.port.log + w.iv.init_trys = armCount w.port.log + w1.iv.init_trys ∧
    w.iv.init_trys ≤ w1.iv.init_trys ∧
    (Published w1.Init ∨ initBound N w1 < initBound N w) := by
  obtain ⟨_, h2⟩ := hp
  refine ⟨by omega, by omega, by omega, Or.inr ?_⟩
  unfold initBound
  rw [hs, ht]
  omega

/-- The arm branch of `S1`: its port calls, in order. -/
theorem SD_Init_S1_arm (cfg : Config) (w : World)
    (h : w.iv.init_trys ≠ cfg.SD_INIT_TRYS ∧ w.iv.ct = 0) :
    (SD_Init_S1 cfg w).iv.next_state = InitState.S2 ∧
    (SD_Init_S1 cfg w).iv.init_trys = (w.iv.init_trys + 1) % 256 ∧
    (SD_Init_S1 cfg w).port.log =
      w.port.log ++ ([Ev.spiInit, Ev.csHigh, Ev.freqLow] ++ List.replicate 10 (Ev.rw 0xFF) ++
        [Ev.timerOn 500]) ∧
    timerPotential (SD_Init_S1 cfg w).port ≤ timerPotential w.port ∧
    (SD_Init_S1 cfg w).Init.set_fsm = w.Init.set_fsm := by
  unfold SD_Init_S1
  rw [if_pos h]
  refine ⟨rfl, rfl, ?_, ?_, rfl⟩
  · simp [SPI_Read_Bytes, SPI_Timer_On, SPI_Freq_Low, SPI_CS_High, SPI_Init, List.replicate]
  · have h1 : timerPotential (SPI_Init w.port) = timerPotential w.port := rfl
    have h2 := ((PortAfter_CS_High (SPI_Init w.port)).chain
      ((PortAfter_Freq_Low _).chain ((PortAfter_Read_Bytes 10 _).chain
        (PortAfter_Timer_On 500 _)))).1
    exact h2.trans (le_of_eq h1)

/-- The other branch of `S1`, taken with the attempt counter at the budget or
with a card type: to `S11` without a port call. -/
theorem SD_Init_S1_done (cfg : Config) (w : World)
    (h : w.iv.init_trys = cfg.SD_INIT_TRYS ∨ w.iv.ct ≠ 0) :
    (SD_Init_S1 cfg w).iv.next_state = InitState.S11 ∧
    (SD_Init_S1 cfg w).iv.init_trys = w.iv.init_trys ∧
    (SD_Init_S1 cfg w).iv.ct = w.iv.ct ∧
    (SD_Init_S1 cfg w).port = w.port ∧ (SD_Init_S1 cfg w).dev = w.dev := by
  unfold SD_Init_S1
  rw [if_neg (by
    rintro ⟨a, b⟩
    rcases h with h | h
    · exact a h
    · exact h b)]
  exact ⟨rfl, rfl, rfl, rfl, rfl⟩

/-- One call of `SD_Init` in a run that respects a retry budget of at most
255: the attempt counter stays within the budget and moves only with a call of
`spi_init()`, and either the call publishes or the bound on the remaining
calls decreases. -/
theorem InitBudget_step (cfg : Config) (w w1 : World) (hN : cfg.SD_INIT_TRYS ≤ 255)
    (hset : w.Init.set_fsm ≠ 1) (htN : w.iv.init_trys ≤ cfg.SD_INIT_TRYS)
    (h13 : w.iv.next_state ≠ InitState.S13) (h : SD_Init cfg w = some w1) :
    w1.Init.set_fsm ≠ 1 ∧ w1.iv.next_state ≠ InitState.S13 ∧
    w1.iv.init_trys ≤ cfg.SD_INIT_TRYS ∧
    armCount w1.port.log + w.iv.init_trys = armCount w.port.log + w1.iv.init_trys ∧
    w.iv.init_trys ≤ w1.iv.init_trys ∧
    (Published w1.Init ∨ initBound cfg.SD_INIT_TRYS w1 < initBound cfg.SD_INIT_TRYS w) := by
  unfold SD_Init at h
  dsimp only at h
  rw [SD_Init_arm_id w hset] at h
  split at h
  · rename_i hx
    cases h
    by_cases hc : w.iv.init_trys ≠ cfg.SD_INIT_TRYS ∧ w.iv.ct = 0
    · obtain ⟨a1, a2, a3, a4, a5⟩ := SD_Init_S1_arm cfg w hc
      have hlt : w.iv.init_trys < cfg.SD_INIT_TRYS := lt_of_le_of_ne htN hc.1
      have a2' : (SD_Init_S1 cfg w).iv.init_trys = w.iv.init_trys + 1 := by
        rw [a2]
        exact Nat.mod_eq_of_lt (by omega)
      have hcount : armCount (SD_Init_S1 cfg w).port.log = armCount w.port.log + 1 := by
        rw [a3]
        unfold armCount
        rw [List.count_append]
        rfl
      refine ⟨by rw [a5]; exact hset, by rw [a1]; decide, by omega, by omega, by omega,
        Or.inr ?_⟩
      unfold initBound
      rw [a1, a2', hx]
      show _ + _ + 11 < _ + _ + 3
      omega
    · obtain ⟨a1, a2, _, a4, _⟩ := SD_Init_S1_done cfg w (by
        by_contra hh
        push_neg at hh
        exact hc ⟨hh.1, hh.2⟩)
      have hI : (SD_Init_S1 cfg w).Init.set_fsm = w.Init.set_fsm := by
        unfold SD_Init_S1
        split_ifs
        rfl
      refine ⟨by rw [hI]; exact hset, by rw [a1]; decide, ?_⟩
      exact step_by_rank _ w _ htN (by rw [a4]; exact PortAfter.same _) a2
        (by rw [a1, hx]; decide)
  · rename_i hx
    cases h
    unfold SD_Init_S2
    dsimp only
    split_ifs with c
    · exact ⟨hset, by simp, step_by_timer _ w _ htN (PortAfter_Timer_Status _)
        (timerPotential_Status_true _ c) rfl hx.symm⟩
    · exact ⟨hset, by simp, step_by_rank _ w _ htN
        ((PortAfter_Timer_Status _).chain ((PortAfter_Timer_Off _).chain
          (PortAfter_Timer_On 500 _))) rfl (by rw [hx]; simp [initRank])⟩
  · rename_i hx
    cases h
    unfold SD_Init_S3
    dsimp only
    split_ifs with c1 c2
    · exact ⟨hset, by simp, step_by_timer _ w _ htN
        ((PortAfter_Send_Cmd _ _ _).chain (PortAfter_Timer_Status _))
        (lt_of_lt_of_le (timerPotential_Status_true _ c2) (PortAfter_Send_Cmd _ _ _).1)
        rfl hx.symm⟩
    · exact ⟨hset, by simp, step_by_rank _ w _ htN
        ((PortAfter_Send_Cmd _ _ _).chain ((PortAfter_Timer_Status _).chain
          (PortAfter_Timer_Off _))) rfl (by rw [hx]; simp [initRank])⟩
    · exact ⟨hset, by simp, step_by_rank _ w _ htN
        ((PortAfter_Send_Cmd _ _ _).chain (PortAfter_Timer_Off _)) rfl (by rw [hx]; simp [initRank])⟩
  · rename_i hx
    cases h
    unfold SD_Init_S4
    dsimp only
    split_ifs
    · exact ⟨hset, by simp, step_by_rank _ w _ htN (PortAfter_Send_Cmd _ _ _) rfl
        (by rw [hx]; simp [initRank])⟩
    · exact ⟨hset, by simp, step_by_rank _ w _ htN (PortAfter_Send_Cmd _ _ _) rfl
        (by rw [hx]; simp [initRank])⟩
  · rename_i hx
    cases h
    unfold SD_Init_S5
    dsimp only
    split_ifs
    · exact ⟨hset, by simp, step_by_rank _ w _ htN (PortAfter_Send_Cmd _ _ _) rfl
        (by rw [hx]; simp [initRank])⟩
    · exact ⟨hset, by simp, step_by_rank _ w _ htN (PortAfter_Send_Cmd _ _ _) rfl
        (by rw [hx]; simp [initRank])⟩
  · rename_i hx
    cases h
    have hp : PortAfter w.port (SD_Init_S6 w).port := by
      unfold SD_Init_S6
      dsimp only
      exact (PortAfter_Send_Cmd _ _ _).chain ((PortAfter_Timer_On 250 _).chain
        ((PortAfter_S6_wait _ _ _).chain ((PortAfter_Timer_Off _).chain
          ((PortAfter_Timer_Status _).chain ((PortAfter_Send_Cmd _ _ _).chain
            (PortAfter_Send_Cmd _ _ _))))))
    exact ⟨hset, by simp [SD_Init_S6], step_by_rank _ w _ htN hp rfl
      (by rw [(SD_Init_S6_clears w).2.1, hx]; decide)⟩
  · rename_i hx
    cases h
    unfold SD_Init_S7
    dsimp only
    split_ifs
    · exact ⟨hset, by simp, step_by_rank _ w _ htN
        ((PortAfter_Read_Bytes 4 _).chain (PortAfter_Timer_On 1000 _)) rfl
        (by rw [hx]; simp [initRank])⟩
    · exact ⟨hset, by simp, step_by_rank _ w _ htN (PortAfter_Read_Bytes 4 _) rfl
        (by rw [hx]; simp [initRank])⟩
  · rename_i hx
    cases h
    unfold SD_Init_S8
    dsimp only
    split_ifs with c1 c2
    · exact ⟨hset, by simp, step_by_timer _ w _ htN
        ((PortAfter_Freq_High _).chain ((PortAfter_Timer_Status _).chain
          (PortAfter_Send_Cmd _ _ _)))
        (lt_of_le_of_lt (PortAfter_Send_Cmd _ _ _).1
          (lt_of_lt_of_le (timerPotential_Status_true _ c1) (PortAfter_Freq_High _).1))
        rfl hx.symm⟩
    · exact ⟨hset, by simp, step_by_rank _ w _ htN
        ((PortAfter_Freq_High _).chain ((PortAfter_Timer_Status _).chain
          (PortAfter_Send_Cmd _ _ _))) rfl (by rw [hx]; simp [initRank])⟩
    · exact ⟨hset, by simp, step_by_rank _ w _ htN
        ((PortAfter_Freq_High _).chain (PortAfter_Timer_Status _)) rfl (by rw [hx]; simp [initRank])⟩
  · rename_i hx
    cases h
    unfold SD_Init_S9
    dsimp only
    split_ifs
    · exact ⟨hset, by simp, step_by_rank _ w _ htN
        ((PortAfter_Timer_Off _).chain ((PortAfter_Timer_Status _).chain
          (PortAfter_Send_Cmd _ _ _))) rfl (by rw [hx]; simp [initRank])⟩
    · exact ⟨hset, by simp, step_by_rank _ w _ htN
        ((PortAfter_Timer_Off _).chain ((PortAfter_Timer_Status _).chain
          (PortAfter_Send_Cmd _ _ _))) rfl (by rw [hx]; simp [initRank])⟩
    · exact ⟨hset, by simp, step_by_rank _ w _ htN
        ((PortAfter_Timer_Off _).chain (PortAfter_Timer_Status _)) rfl (by rw [hx]; simp [initRank])⟩
  · rename_i hx
    cases h
    exact ⟨hset, by simp [SD_Init_S10], step_by_rank _ w _ htN (PortAfter_Read_Bytes 4 _) rfl
      (by rw [hx]; simp [initRank, SD_Init_S10])⟩
  · rename_i hx
    unfold SD_Init_S11 at h
    split_ifs at h
    · dsimp only at h
      split at h
      · cases h
      · rename_i r hr
        cases h
        exact ⟨hset, by simp, step_by_rank _ w _ htN (PortAfter_Sectors cfg _ _ r hr) rfl
          (by rw [hx]; simp [initRank])⟩
    · cases h
      exact ⟨hset, by simp, step_by_rank _ w _ htN (PortAfter.same _) rfl (by rw [hx]; simp [initRank])⟩
  · rename_i hx
    cases h
    have hp : PortAfter w.port (SD_Init_S12 w).port := PortAfter_Release _
    exact ⟨by simp [SD_Init_S12], by simp [SD_Init_S12], htN,
      by rw [hp.2]; rfl, le_refl _, Or.inl ⟨rfl, rfl⟩⟩
  · rename_i hx
    exact absurd hx h13

/-- The first call of an armed Init machine: the attempt counter and the card
type are reset, and `S1` starts the first attempt or, with a budget of 0, goes
to `S11`. -/
theorem InitBudget_first (cfg : Config) (w0 w : World) (ha : Armed w0)
    (h : SD_Init cfg w0 = some w) :
    w.Init.set_fsm ≠ 1 ∧ w.iv.next_state ≠ InitState.S13 ∧
    w.iv.init_trys ≤ cfg.SD_INIT_TRYS ∧
    armCount w.port.log = armCount w0.port.log + w.iv.init_trys ∧
    InitNoType w ∧
    initBound cfg.SD_INIT_TRYS w ≤ timerPotential w0.port + 12 * cfg.SD_INIT_TRYS + 11 := by
  obtain ⟨h1, h2⟩ := ha
  have harm : SD_Init_arm w0 =
      { w0 with iv := { w0.iv with ct := 0, init_trys := 0 },
                Init := { w0.Init with set_fsm := w0.Init.set_fsm + 1 } } := by
    simp [SD_Init_arm, h1]
  have hs : (SD_Init_arm w0).iv.next_state = InitState.S1 := by rw [harm]; exact h2
  have ht : (SD_Init_arm w0).iv.init_trys = 0 := by rw [harm]
  have hc : (SD_Init_arm w0).iv.ct = 0 := by rw [harm]
  have hp : (SD_Init_arm w0).port = w0.port := by rw [harm]
  have hf : (SD_Init_arm w0).Init.set_fsm = 2 := by rw [harm]; simp [h1]
  have e : SD_Init cfg w0 = some (SD_Init_S1 cfg (SD_Init_arm w0)) := by
    simp only [SD_Init, hs]
  rw [e] at h
  cases h
  generalize SD_Init_arm w0 = v at hs ht hc hp hf
  have hbusy : (SD_Init_S1 cfg v).Init.Status_fsm = FsmStatus.STAT_BUSY := by
    unfold SD_Init_S1
    split_ifs <;> rfl
  have hset : (SD_Init_S1 cfg v).Init.set_fsm = 2 := by
    rw [← hf]
    unfold SD_Init_S1
    split_ifs <;> rfl
  have hct : (SD_Init_S1 cfg v).iv.ct = 0 := by
    rw [← hc]
    unfold SD_Init_S1
    split_ifs <;> rfl
  by_cases hN : cfg.SD_INIT_TRYS = 0
  · obtain ⟨a1, a2, _, a4, _⟩ := SD_Init_S1_done cfg v (Or.inl (by rw [ht, hN]))
    refine ⟨by rw [hset]; decide, by rw [a1]; decide, by rw [a2, ht]; exact Nat.zero_le _,
      by rw [a4, a2, hp, ht]; rfl,
      ⟨hct, by rw [hset]; decide, hbusy, by rw [a1]; decide, by rw [a1]; decide⟩, ?_⟩
    unfold initBound
    rw [a1, a2, a4, hp, ht, hN]
    show _ + 12 * (0 - 0) + 2 ≤ _
    omega
  · obtain ⟨a1, a2, a3, a4, _⟩ := SD_Init_S1_arm cfg v ⟨by rw [ht]; exact Ne.symm hN, hc⟩
    have a2' : (SD_Init_S1 cfg v).iv.init_trys = 1 := by rw [a2, ht]
    have hcount : armCount (SD_Init_S1 cfg v).port.log = armCount w0.port.log + 1 := by
      rw [a3, hp]
      unfold armCount
      rw [List.count_append]
      rfl
    refine ⟨by rw [hset]; decide, by rw [a1]; decide, by rw [a2']; omega,
      by rw [hcount, a2'],
      ⟨hct, by rw [hset]; decide, hbusy, by rw [a1]; decide, by rw [a1]; decide⟩, ?_⟩
    unfold initBound
    rw [a1, a2']
    rw [hp] at a4
    show _ + _ + 11 ≤ _
    omega

/-- Every state of a run from arming: the attempt counter is within a budget of
at most 255 and equals the number of `spi_init()` calls made since arming. -/
theorem InitRun_budget (cfg : Config) (w0 w : World) (hN : cfg.SD_INIT_TRYS ≤ 255)
    (ha : Armed w0) (hr : InitRun cfg w0 w) :
    w.Init.set_fsm ≠ 1 ∧ w.iv.next_state ≠ InitState.S13 ∧
    w.iv.init_trys ≤ cfg.SD_INIT_TRYS ∧
    armCount w.port.log = armCount w0.port.log + w.iv.init_trys := by
  induction hr with
  | first h =>
    obtain ⟨a, b, c, d, _⟩ := InitBudget_first cfg w0 _ ha h
    exact ⟨a, b, c, d⟩
  | next _ _ h ih =>
    obtain ⟨i1, i2, i3, i4⟩ := ih
    obtain ⟨a, b, c, d, _⟩ := InitBudget_step cfg _ _ hN i1 i3 i2 h
    exact ⟨a, b, c, by omega⟩

/-- A run in which every call returns publishes within the bound. -/
theorem InitRun_publishes (cfg : Config) (w0 : World) (hN : cfg.SD_INIT_TRYS ≤ 255)
    (ha : Armed w0)
    (hret : ∀ v, InitRun cfg w0 v → ¬ Published v.Init → ∃ v1, SD_Init cfg v = some v1) :
    ∀ (m : Nat) (w : World), InitRun cfg w0 w → ¬ Published w.Init →
      initBound cfg.SD_INIT_TRYS w ≤ m →
      ∃ n w1, runInit cfg n w = some w1 ∧ n ≤ m := by
  intro m
  induction m with
  | zero =>
    intro w hr hp hb
    exfalso
    obtain ⟨_, i2, _, _⟩ := InitRun_budget cfg w0 w hN ha hr
    unfold initBound at hb
    have : 1 ≤ initRank w.iv.next_state := by
      cases hs : w.iv.next_state <;> simp [initRank]
      exact i2 hs
    omega
  | succ m ih =>
    intro w hr hp hb
    obtain ⟨i1, i2, i3, _⟩ := InitRun_budget cfg w0 w hN ha hr
    obtain ⟨v1, hv⟩ := hret w hr hp
    obtain ⟨_, _, _, _, _, hres⟩ := InitBudget_step cfg w v1 hN i1 i3 i2 hv
    by_cases hp1 : Published v1.Init
    · refine ⟨1, v1, ?_, by omega⟩
      simp only [runInit, hv]
      exact if_pos hp1
    · have hlt := hres.resolve_left hp1
      obtain ⟨n, w1, hrun, hn⟩ := ih v1 (InitRun.next hr hp hv) hp1 (by omega)
      refine ⟨n + 1, w1, ?_, by omega⟩
      simp only [runInit, hv]
      exact (if_neg hp1).trans hrun

/-- Under the timer contract of the port a run from arming never has a card
type, so every call of it returns: `S11` does not read the CSD. -/
theorem InitRun_returns (cfg : Config) (w0 w : World) (ha : Armed w0)
    (hr : InitRun cfg w0 w) : Published w.Init ∨ InitNoType w := by
  induction hr with
  | first h => exact Or.inr (InitBudget_first cfg w0 _ ha h).2.2.2.2.1
  | next _ hp h ih =>
    obtain ⟨w1, e, _, hres⟩ := InitNoType_step cfg _ (ih.resolve_left hp)
    rw [e] at h
    cases h
    rcases hres with ⟨a, b, _⟩ | hk
    · exact Or.inl ⟨a, b⟩
    · exact Or.inr hk

theorem SPI_Timer_Status_spent (p : Port) (h : timerPotential p = 0) :
    (SPI_Timer_Status p).1 = false := by
  unfold timerPotential at h
  unfold SPI_Timer_Status
  split
  · rename_i n hn
    rw [hn] at h
    simp at h
  · rfl

theorem SD_Init_S2_spent (w : World) (h : timerPotential w.port = 0) :
    (SD_Init_S2 w).iv.next_state = InitState.S3 ∧
    (SD_Init_S2 w).iv.init_trys = w.iv.init_trys ∧
    PortAfter w.port (SD_Init_S2 w).port := by
  have hts := SPI_Timer_Status_spent w.port h
  unfold SD_Init_S2
  dsimp only
  rw [if_neg (by rw [hts]; simp)]
  exact ⟨rfl, rfl, ((PortAfter_Timer_Status _).chain (PortAfter_Timer_Off _)).chain
    (PortAfter_Timer_On 500 _)⟩

theorem SD_Init_S3_keeps (w : World) :
    (SD_Init_S3 w).iv.init_trys = w.iv.init_trys ∧ PortAfter w.port (SD_Init_S3 w).port := by
  unfold SD_Init_S3
  dsimp only
  split_ifs
  · exact ⟨rfl, (PortAfter_Send_Cmd _ _ _).chain (PortAfter_Timer_Status _)⟩
  · exact ⟨rfl, ((PortAfter_Send_Cmd _ _ _).chain (PortAfter_Timer_Status _)).chain
      (PortAfter_Timer_Off _)⟩
  · exact ⟨rfl, (PortAfter_Send_Cmd _ _ _).chain (PortAfter_Timer_Off _)⟩

theorem SD_Init_S4_back (w : World) (h : (SD_Send_Cmd CMD0 0 w.port).1 ≠ 1) :
    (SD_Init_S4 w).iv.next_state = InitState.S1 ∧
    (SD_Init_S4 w).iv.init_trys = w.iv.init_trys ∧
    PortAfter w.port (SD_Init_S4 w).port := by
  unfold SD_Init_S4
  dsimp only
  rw [if_neg h]
  exact ⟨rfl, rfl, PortAfter_Send_Cmd _ _ _⟩

/-- A step of a run without a card under a budget of 256 or more: the BYTE
counter cannot equal the budget, so the step is not the publication. -/
theorem NoCard_wide_step (cfg : Config) (p0 : Port) (w0 u u1 : World)
    (hN : 256 ≤ cfg.SD_INIT_TRYS) (hno : NoIdle p0)
    (hr : InitRun cfg w0 u) (hnc : NoCard cfg.SD_INIT_TRYS p0 u)
    (h : SD_Init cfg u = some u1) :
    InitRun cfg w0 u1 ∧ NoCard cfg.SD_INIT_TRYS p0 u1 := by
  have hp : ¬ Published u.Init := by
    intro hp
    have hb := hnc.2.2.2.1
    rw [hp.1] at hb
    cases hb
  refine ⟨InitRun.next hr hp h, ?_⟩
  obtain ⟨w1, e, hres⟩ := NoCard_step cfg p0 u (by omega) hno hnc
  rw [h] at e
  cases e
  rcases hres with ⟨h12, _⟩ | ⟨_, hk, _⟩
  · exfalso
    obtain ⟨_, _, _, _, ht, hst, _⟩ := hnc
    rcases hst with hs | hs | hs | hs | ⟨hs, htN⟩ | ⟨hs, htN⟩
    all_goals first | omega | (rw [hs] at h12; cases h12)
  · exact hk

/-- One restart of a run without a card under a budget that the BYTE counter
cannot reach: from `S2` the machine goes through `S3`, `S4` and `S1` and is in
`S2` again, with one more `spi_init()` call and the counter stepped modulo 256. -/
theorem NoCard_restart (cfg : Config) (p0 : Port) (w0 w : World)
    (hN : 256 ≤ cfg.SD_INIT_TRYS) (hno : NoIdle p0) (hz : timerPotential p0 = 0)
    (hr : InitRun cfg w0 w) (hnc : NoCard cfg.SD_INIT_TRYS p0 w)
    (hs : w.iv.next_state = InitState.S2) :
    ∃ v, InitRun cfg w0 v ∧ NoCard cfg.SD_INIT_TRYS p0 v ∧
      v.iv.next_state = InitState.S2 ∧
      v.iv.init_trys = (w.iv.init_trys + 1) % 256 ∧
      armCount v.port.log = armCount w.port.log + 1 := by
  have hpot : timerPotential w.port = 0 := by
    have := hnc.1.2.2.2
    omega
  -- S2
  obtain ⟨a1, a2, a3⟩ := SD_Init_S2_spent w hpot
  have e1 : SD_Init cfg w = some (SD_Init_S2 w) := by
    simp only [SD_Init, SD_Init_arm_id w hnc.2.2.1, hs]
  obtain ⟨r1, n1⟩ := NoCard_wide_step cfg p0 w0 w _ hN hno hr hnc e1
  generalize SD_Init_S2 w = u1 at a1 a2 a3 r1 n1
  -- S3
  obtain ⟨b1, _⟩ := SD_Init_S3_leaves u1
  obtain ⟨b2, b3⟩ := SD_Init_S3_keeps u1
  have e2 : SD_Init cfg u1 = some (SD_Init_S3 u1) := by
    simp only [SD_Init, SD_Init_arm_id u1 n1.2.2.1, a1]
  obtain ⟨r2, n2⟩ := NoCard_wide_step cfg p0 w0 u1 _ hN hno r1 n1 e2
  generalize SD_Init_S3 u1 = u2 at b1 b2 b3 r2 n2
  -- S4
  obtain ⟨c1, c2, c3⟩ := SD_Init_S4_back u2 (hno u2.port n2.1.1 n2.1.2.1)
  have e3 : SD_Init cfg u2 = some (SD_Init_S4 u2) := by
    simp only [SD_Init, SD_Init_arm_id u2 n2.2.2.1, b1]
  obtain ⟨r3, n3⟩ := NoCard_wide_step cfg p0 w0 u2 _ hN hno r2 n2 e3
  generalize SD_Init_S4 u2 = u3 at c1 c2 c3 r3 n3
  -- S1
  have ht3 : u3.iv.init_trys < 256 := n3.2.2.2.2.1
  obtain ⟨d1, d2, d3, _, _⟩ := SD_Init_S1_arm cfg u3 ⟨by omega, n3.2.1⟩
  have e4 : SD_Init cfg u3 = some (SD_Init_S1 cfg u3) := by
    simp only [SD_Init, SD_Init_arm_id u3 n3.2.2.1, c1]
  obtain ⟨r4, n4⟩ := NoCard_wide_step cfg p0 w0 u3 _ hN hno r3 n3 e4
  refine ⟨SD_Init_S1 cfg u3, r4, n4, d1, by rw [d2, c2, b2, a2], ?_⟩
  rw [d3]
  unfold armCount
  rw [List.count_append]
  have h1 := a3.2
  have h2 := b3.2
  have h3 := c3.2
  unfold armCount at h1 h2 h3
  rw [h3, h2, h1]
  rfl

/-- Any number of restarts follows: the counter wraps and the budget is never
met. -/
theorem NoCard_restarts (cfg : Config) (p0 : Port) (w0 w : World)
    (hN : 256 ≤ cfg.SD_INIT_TRYS) (hno : NoIdle p0) (hz : timerPotential p0 = 0)
    (hr : InitRun cfg w0 w) (hnc : NoCard cfg.SD_INIT_TRYS p0 w)
    (hs : w.iv.next_state = InitState.S2) (k : Nat) :
    ∃ v, InitRun cfg w0 v ∧ NoCard cfg.SD_INIT_TRYS p0 v ∧
      v.iv.next_state = InitState.S2 ∧
      v.iv.init_trys = (w.iv.init_trys + k) % 256 ∧
      armCount v.port.log = armCount w.port.log + k := by
  induction k with
  | zero =>
    exact ⟨w, hr, hnc, hs, (Nat.mod_eq_of_lt hnc.2.2.2.2.1).symm, rfl⟩
  | succ k ih =>
    obtain ⟨v, i1, i2, i3, i4, i5⟩ := ih
    obtain ⟨v1, j1, j2, j3, j4, j5⟩ := NoCard_restart cfg p0 w0 v hN hno hz i1 i2 i3
    exact ⟨v1, j1, j2, j3, by omega, by omega⟩

/-- The first call of an armed Init machine returns. -/
theorem SD_Init_armed_returns (cfg : Config) (w0 : World) (ha : Armed w0) :
    SD_Init cfg w0 = some (SD_Init_S1 cfg (SD_Init_arm w0)) := by
  obtain ⟨h1, h2⟩ := ha
  have hs : (SD_Init_arm w0).iv.next_state = InitState.S1 := by
    simp [SD_Init_arm, h1, h2]
  simp only [SD_Init, hs]

theorem runInit_published (cfg : Config) :
    ∀ (n : Nat) (w a : World), runInit cfg n w = some a → Published a.Init := by
  intro n
  induction n with
  | zero =>
    intro w a h
    simp [runInit] at h
  | succ n ih =>
    intro w a h
    unfold runInit at h
    split at h
    · cases h
    · rename_i w1 _
      split_ifs at h with hp
      · cases h
        exact hp
      · exact ih w1 a h

theorem SD_Init_arm_frame (w : World) :
    (SD_Init_arm w).iv.next_state = w.iv.next_state ∧ (SD_Init_arm w).port = w.port := by
  unfold SD_Init_arm
  split_ifs <;> exact ⟨rfl, rfl⟩

/-- C22 (counterexample). With `SD_INIT_TRYS = 256` and no card, the run from
arming takes the arm branch of `S1` again and again: for every `k` it has a
state with `k + 1` calls of `spi_init()` in the trace, the BYTE counter reading
`(k + 1) % 256`; so the arm branch is executed more than `SD_INIT_TRYS` times,
and the run never publishes. -/
theorem init_wide_budget_restarts_unbounded :
    (∀ k : Nat, ∃ w, InitRun wideTrysCfg noCardWorld w ∧ ¬ Published w.Init ∧
        armCount w.port.log = k + 1 ∧ w.iv.init_trys = (k + 1) % 256) ∧
    (∃ w, InitRun wideTrysCfg noCardWorld w ∧
        wideTrysCfg.SD_INIT_TRYS < armCount w.port.log) ∧
    ¬ ∃ (fuel : Nat) (w1 : World), runInit wideTrysCfg fuel noCardWorld = some w1 := by
  have ha : Armed noCardWorld := ⟨rfl, rfl⟩
  have e := SD_Init_armed_returns wideTrysCfg noCardWorld ha
  have hno : NoIdle noCardWorld.port :=
    NoIdle_of_no_one _ (fun b hb => absurd hb (List.not_mem_nil b))
  obtain ⟨wa, hstep, hnc, ht1⟩ := NoCard_first wideTrysCfg noCardWorld (by decide) rfl rfl
  obtain ⟨_, _, _, hc, _⟩ := InitBudget_first wideTrysCfg noCardWorld wa ha hstep
  have hs2 : wa.iv.next_state = InitState.S2 := by
    rw [e] at hstep
    cases hstep
    decide
  have hc1 : armCount wa.port.log = 1 := by
    rw [hc, ht1]
    rfl
  have key := NoCard_restarts wideTrysCfg noCardWorld.port noCardWorld wa (by decide) hno rfl
    (InitRun.first hstep) hnc hs2
  have hbusy : ∀ v, NoCard wideTrysCfg.SD_INIT_TRYS noCardWorld.port v → ¬ Published v.Init := by
    intro v hv hp
    have hb := hv.2.2.2.1
    rw [hp.1] at hb
    cases hb
  refine ⟨?_, ?_, ?_⟩
  · intro k
    obtain ⟨v, r, n, _, t, c⟩ := key k
    exact ⟨v, r, hbusy v n, by rw [c, hc1]; omega, by rw [t, ht1]; omega⟩
  · obtain ⟨v, r, _, _, _, c⟩ := key 256
    refine ⟨v, r, ?_⟩
    rw [c, hc1]
    decide
  · rintro ⟨fuel, w1, h⟩
    cases fuel with
    | zero => simp [runInit] at h
    | succ f =>
      have hb : ¬ (wa.Init.Status_fsm = FsmStatus.STAT_IDLE ∧ wa.Init.Start_fsm = 1) :=
        hbusy wa hnc
      simp only [runInit, hstep, if_neg hb] at h
      rw [NoCard_diverges wideTrysCfg noCardWorld.port (by decide) hno f wa hnc] at h
      cases h

/-- C22, amended. The retry budget is respected when it fits the 8-bit attempt
counter. For a run of the Init machine from arming: with `SD_INIT_TRYS ≤ 255`,
in every state of the run the attempt counter is at most `SD_INIT_TRYS` and
equals the number of `spi_init()` calls made since arming, so the arm branch of
`S1` was taken at most `SD_INIT_TRYS` times; and if every call of the run
returns, the run publishes within
`timerPotential + 12 * SD_INIT_TRYS + 12` calls. For every budget, a call in
`S1` with the counter equal to the budget or a card type set goes to `S11` and
leaves the port untouched, and a call in `S1` otherwise goes to `S2`, steps the
counter modulo 256 and adds to the trace exactly `spi_init()`, chip-select
high, the low clock, ten `0xFF` bytes and the 500 ms timer. -/
theorem init_retry_budget (cfg : Config) (w0 : World) (ha : Armed w0) :
    (cfg.SD_INIT_TRYS ≤ 255 →
      (∀ w, InitRun cfg w0 w →
        w.iv.init_trys ≤ cfg.SD_INIT_TRYS ∧
        armCount w.port.log = armCount w0.port.log + w.iv.init_trys) ∧
      ((∀ v, InitRun cfg w0 v → ¬ Published v.Init → ∃ v1, SD_Init cfg v = some v1) →
        ∃ n w1, runInit cfg n w0 = some w1 ∧ Published w1.Init ∧
          n ≤ timerPotential w0.port + 12 * cfg.SD_INIT_TRYS + 12)) ∧
    (∀ w : World, w.iv.next_state = InitState.S1 →
      ((SD_Init_arm w).iv.init_trys = cfg.SD_INIT_TRYS ∨ (SD_Init_arm w).iv.ct ≠ 0) →
      ∃ w1, SD_Init cfg w = some w1 ∧ w1.iv.next_state = InitState.S11 ∧
        w1.port = w.port) ∧
    (∀ w : World, w.iv.next_state = InitState.S1 →
      (SD_Init_arm w).iv.init_trys ≠ cfg.SD_INIT_TRYS → (SD_Init_arm w).iv.ct = 0 →
      ∃ w1, SD_Init cfg w = some w1 ∧ w1.iv.next_state = InitState.S2 ∧
        w1.iv.init_trys = ((SD_Init_arm w).iv.init_trys + 1) % 256 ∧
        w1.port.log = w.port.log ++ ([Ev.spiInit, Ev.csHigh, Ev.freqLow] ++
          List.replicate 10 (Ev.rw 0xFF) ++ [Ev.timerOn 500])) := by
  refine ⟨fun hN => ⟨fun w hr => ?_, fun hret => ?_⟩, fun w hs h => ?_, fun w hs h1 h2 => ?_⟩
  · obtain ⟨_, _, c, d⟩ := InitRun_budget cfg w0 w hN ha hr
    exact ⟨c, d⟩
  · have e := SD_Init_armed_returns cfg w0 ha
    obtain ⟨_, _, _, _, hnt, hb⟩ := InitBudget_first cfg w0 _ ha e
    have hp : ¬ Published (SD_Init_S1 cfg (SD_Init_arm w0)).Init := by
      intro hp
      have hbusy := hnt.2.2.1
      rw [hp.1] at hbusy
      cases hbusy
    obtain ⟨n, w1, hrun, hn⟩ := InitRun_publishes cfg w0 hN ha hret _ _ (InitRun.first e) hp hb
    refine ⟨n + 1, w1, ?_, runInit_published cfg n _ w1 hrun, by omega⟩
    simp only [runInit, e]
    exact (if_neg hp).trans hrun
  · obtain ⟨f1, f2⟩ := SD_Init_arm_frame w
    obtain ⟨a1, _, _, a4, _⟩ := SD_Init_S1_done cfg (SD_Init_arm w) h
    refine ⟨SD_Init_S1 cfg (SD_Init_arm w), ?_, a1, by rw [a4, f2]⟩
    simp only [SD_Init, f1, hs]
  · obtain ⟨f1, f2⟩ := SD_Init_arm_frame w
    obtain ⟨a1, a2, a3, _, _⟩ := SD_Init_S1_arm cfg (SD_Init_arm w) ⟨h1, h2⟩
    refine ⟨SD_Init_S1 cfg (SD_Init_arm w), ?_, a1, a2, by rw [a3, f2]⟩
    simp only [SD_Init, f1, hs]

/-- C22, amended (witness). The start-up world without a card under a budget of
3: the run is armed, every call of it returns, and it publishes within 48
calls with at most 3 restarts. -/
theorem init_retry_budget_witness :
    Armed noCardWorld ∧ demoCfg.SD_INIT_TRYS ≤ 255 ∧
    (∀ v, InitRun demoCfg noCardWorld v → ¬ Published v.Init →
      ∃ v1, SD_Init demoCfg v = some v1) ∧
    (∀ w, InitRun demoCfg noCardWorld w →
      w.iv.init_trys ≤ demoCfg.SD_INIT_TRYS ∧
      armCount w.port.log = armCount noCardWorld.port.log + w.iv.init_trys) ∧
    (∃ n w1, runInit demoCfg n noCardWorld = some w1 ∧ Published w1.Init ∧
      n ≤ timerPotential noCardWorld.port + 12 * demoCfg.SD_INIT_TRYS + 12) :=
  have ha : Armed noCardWorld := ⟨rfl, rfl⟩
  have hret : ∀ v, InitRun demoCfg noCardWorld v → ¬ Published v.Init →
      ∃ v1, SD_Init demoCfg v = some v1 := fun v hr hp =>
    let ⟨v1, e, _⟩ := InitNoType_step demoCfg v ((InitRun_returns demoCfg noCardWorld v ha hr).resolve_left hp)
    ⟨v1, e⟩
  have hN : demoCfg.SD_INIT_TRYS ≤ 255 := by decide
  ⟨ha, hN, hret, ((init_retry_budget demoCfg noCardWorld ha).1 hN).1,
    ((init_retry_budget demoCfg noCardWorld ha).1 hN).2 hret⟩

/-! ## The descriptor is mounted by Init alone, and only with a card type -/

end SDCard
